import Mathlib

/-!
The TTM buffer-object manager (`drivers/staging/psb/ttm/ttm_bo.c`).

A shallow embedding of the reservation protocol, the LRU bookkeeping, the
synchronisation wait, the placement / eviction engine and the destruction
paths of `ttm_bo.c`, followed by the properties established for it.

Conventions of the embedding.

* A buffer object is named by a natural number (its address); the device
  holds the map from names to objects, the table of memory-type managers,
  the swap list and the state `W` of everything that lives outside
  `ttm_bo.c` (driver, allocator internals, page tables, pending signals).
* An intrusive list is the list of the names linked into it, head first.
  `list_empty(&bo->lru)` holds when the name is on no manager's LRU.
* C `int` results are integers; `uint32_t` arithmetic is reduced modulo `2^32`.
* Every call is run in isolation: no other thread changes the state while
  the call runs.  A wait whose condition is false on entry therefore either
  ends with a signal or never ends; the latter is the result `sleeps`.
* `BUG()` / a failed `BUG_ON` is the result `bug`.
* Loops that the source does not bound are run with fuel; running out of it
  is the result `fuel`.
-/

namespace TTM

/-! ## Constants -/

/-- Modelled from the spec: the kernel error numbers used by `ttm_bo.c`
(`linux/errno.h` is not among the sources); the spec names them Busy,
Retry (EAGAIN-equivalent), OutOfMemory and InvalidArgument and requires the
restart error of an interrupted wait to be distinct from the others. -/
def EAGAIN : Int := 11

/-- Modelled from the spec: OutOfMemory. -/
def ENOMEM : Int := 12

/-- Modelled from the spec: Busy. -/
def EBUSY : Int := 16

/-- Modelled from the spec: InvalidArgument. -/
def EINVAL : Int := 22

/-- Modelled from the spec: the restart error handed to callers of an
interrupted wait. -/
def ERESTART : Int := 85

/-- Modelled from the spec: what `wait_event_interruptible` itself returns
when a signal ends the sleep. -/
def ERESTARTSYS : Int := 512

/-- The C implementation's sizes that `ttm_bo.c` depends on: the width of
`unsigned long` and `size_t`, and `sizeof(void *)`. -/
structure platform where
  BITS_PER_LONG : Nat
  sizeof_pointer : Nat

/-- Reduction of a natural number to an `unsigned long`. -/
def ulong (P : platform) (n : Nat) : Nat := n % 2 ^ P.BITS_PER_LONG

/-- The placement constants of `ttm_placement_common.h` and
`ttm_bo_driver.h`, the kernel's `PAGE_SHIFT`, and the platform the kernel is
built for.  The headers are not among the sources, so the constants are
parameters of the embedding. -/
structure ttm_consts where
  TTM_PL_SYSTEM : Nat
  TTM_PL_FLAG_SYSTEM : Nat
  TTM_PL_FLAG_CACHED : Nat
  TTM_PL_FLAG_UNCACHED : Nat
  TTM_PL_FLAG_WC : Nat
  TTM_PL_FLAG_NO_EVICT : Nat
  TTM_PL_MASK_MEM : Nat
  TTM_PL_MASK_CACHING : Nat
  TTM_PL_MASK_MEMTYPE : Nat
  TTM_MEMTYPE_FLAG_FIXED : Nat
  TTM_MEMTYPE_FLAG_CMA : Nat
  TTM_BO_PRIV_FLAG_EVICTED : Nat
  TTM_BO_PRIV_FLAG_MOVING : Nat
  PAGE_SHIFT : Nat
  machine : platform

/-- Reduction of a natural number to a `uint32_t`. -/
def u32 (n : Nat) : Nat := n % 4294967296

/-- Subtraction of two `uint32_t` values, `a - b` in C. -/
def u32_sub (a b : Nat) : Nat := (u32 a + 4294967296 - u32 b) % 4294967296

/-- Bitwise complement of a `uint32_t`, `~a` in C. -/
def u32_not (a : Nat) : Nat := 4294967295 ^^^ u32 a

/-- Modelled from the spec: `ttm_flag_masked` of `ttm_bo_driver.h` (not among
the sources), which updates flags in place: the bits of `old` selected by
`mask` are replaced by those of `new`. -/
def ttm_flag_masked (old new mask : Nat) : Nat := old ^^^ ((old ^^^ new) &&& mask)

/-- `ttm_bo_type_flags`: the placement bit of a memory type. -/
def ttm_bo_type_flags (type : Nat) : Nat := u32 (1 <<< type)

/-! ## Data model -/

/-- How a call ends. -/
inductive outcome where
  | ret (code : Int)
  | sleeps
  | bug
  | fuel
  deriving DecidableEq, Repr

/-- The buffer kinds of `enum ttm_bo_type`; `illegal` stands for any value
outside the enumeration (the `default:` arm of `ttm_bo_add_ttm`). -/
inductive ttm_bo_type where
  | ttm_bo_type_device
  | ttm_bo_type_user
  | ttm_bo_type_kernel
  | illegal
  deriving DecidableEq, Repr

/-- An extent handed out by a range allocator (`struct drm_mm_node`): its
first page, its length in pages and the memory type whose allocator owns it. -/
structure drm_mm_node where
  start : Nat
  size : Nat
  mm : Nat
  deriving DecidableEq, Repr

/-- Modelled from the spec: the free-space allocator (`struct drm_mm`;
`drm_mm.c` is not among the sources), seen as the extents it has handed out
and not yet got back.  The search policy is a collaborator. -/
structure drm_mm where
  nodes : List drm_mm_node := []
  deriving DecidableEq, Repr

/-- The placement record `struct ttm_mem_reg`. -/
structure ttm_mem_reg where
  mm_node : Option drm_mm_node := none
  size : Nat := 0
  num_pages : Nat := 0
  page_alignment : Nat := 0
  mem_type : Nat := 0
  flags : Nat := 0
  proposed_flags : Nat := 0
  deriving DecidableEq, Repr

/-- The fields of `struct ttm_buffer_object` that `ttm_bo.c` reads or writes.
`ttm` and `sync_obj` are opaque handles; `freed` records that
`ttm_bo_release_list` has run. -/
structure ttm_buffer_object where
  type : ttm_bo_type := ttm_bo_type.ttm_bo_type_kernel
  num_pages : Nat := 0
  mem : ttm_mem_reg := {}
  proposed_flags : Nat := 0
  ttm : Option Nat := none
  sync_obj : Option Nat := none
  sync_obj_arg : Nat := 0
  priv_flags : Nat := 0
  offset : Nat := 0
  reserved : Nat := 0
  seq_valid : Bool := false
  val_seq : Nat := 0
  kref : Int := 0
  list_kref : Int := 0
  cpu_writers : Int := 0
  vm_node : Option drm_mm_node := none
  freed : Bool := false
  deriving DecidableEq, Repr

/-- The manager of one memory type, `struct ttm_mem_type_manager`. -/
structure ttm_mem_type_manager where
  has_type : Bool := false
  use_type : Bool := false
  flags : Nat := 0
  gpu_offset : Nat := 0
  available_caching : Nat := 0
  default_caching : Nat := 0
  manager : drm_mm := {}
  lru : List Nat := []
  size : Nat := 0
  deriving DecidableEq, Repr

instance : Inhabited ttm_mem_type_manager := ⟨{}⟩

/-- The device, `struct ttm_bo_device`, together with the buffer objects
that belong to it and the state `ext` of the collaborators.  `addr_space_rb`
lists the buffers indexed in the address-space tree and `addr_space_mm` is the
allocator of that space; `wq_scheduled` records that the delayed work
`bdev->wq` has been scheduled. -/
structure ttm_bo_device (W : Type) where
  ext : W
  bo : Nat → ttm_buffer_object
  man : List ttm_mem_type_manager
  swap_lru : List Nat := []
  ddestroy : List Nat := []
  has_dev_mapping : Bool := false
  addr_space_rb : List Nat := []
  addr_space_mm : drm_mm := {}
  nice_mode : Bool := true
  wq_scheduled : Bool := false

/-- The collaborators of `ttm_bo.c`: the driver (`struct ttm_bo_driver`), the
range allocator, the page-table layer `ttm_tt` and the signal state of the
calling thread.  Each one reads the collaborators' state and, where it acts,
returns the new one.  `timed_out` is the test `time_after_eq(jiffies, _end)`
of `ttm_bo_expire_sync_obj`: whether the three seconds it allows are over. -/
structure collaborators (W : Type) where
  mem_type_prio : List Nat
  mem_busy_prio : List Nat
  has_move : Bool
  move : W → Int × W
  evict_flags : ttm_buffer_object → Nat
  invalidate_caches : W → Nat → Int × W
  sync_obj_signaled : W → Nat → Nat → Bool
  sync_obj_flush : W → Nat → Nat → W
  sync_obj_wait : W → Nat → Nat → Bool → Bool → outcome × W
  drm_mm_pre_get : W → Int × W
  drm_mm_search_free : W → drm_mm → Nat → Nat → Option Nat
  drm_mm_get_block_atomic : W → Bool × W
  ttm_tt_create : W → Nat → Bool → Option Nat × W
  ttm_tt_set_placement_caching : W → Nat → Nat → Int × W
  ttm_tt_bind : W → Nat → Int × W
  ttm_tt_unbind : W → Nat → W
  ttm_tt_destroy : W → Nat → W
  ttm_tt_swapout : W → Option Nat → Int × W
  ttm_bo_move_ttm : W → Int × W
  ttm_bo_move_memcpy : W → Int × W
  unmap_mapping_range : W → W
  signal_pending : W → Bool
  timed_out : W → Bool

section model

variable {W : Type}

/-! ## State access -/

/-- The manager `bdev->man[t]`. -/
def man_at (s : ttm_bo_device W) (t : Nat) : ttm_mem_type_manager :=
  s.man.getD t default

/-- Assignment to the buffer object named `b`. -/
def set_bo (s : ttm_bo_device W) (b : Nat) (o : ttm_buffer_object) : ttm_bo_device W :=
  { s with bo := Function.update s.bo b o }

/-- Assignment to the collaborators' state. -/
def set_ext (s : ttm_bo_device W) (w : W) : ttm_bo_device W :=
  { s with ext := w }

/-- The test `!list_empty(&bo->lru)`: the buffer is linked into some
manager's LRU. -/
def on_lru (s : ttm_bo_device W) (b : Nat) : Bool :=
  s.man.any (fun m => decide (b ∈ m.lru))

/-- The test `!list_empty(&bo->swap)`. -/
def on_swap (s : ttm_bo_device W) (b : Nat) : Bool :=
  decide (b ∈ s.swap_lru)

/-- Unlinking a name from a list, `list_del_init`. -/
def list_del (l : List Nat) (b : Nat) : List Nat :=
  l.filter (fun a => decide (a ≠ b))

/-- `list_del_init(&bo->lru)`: unlink from whichever LRU holds the buffer. -/
def lru_del (s : ttm_bo_device W) (b : Nat) : ttm_bo_device W :=
  { s with man := s.man.map (fun m => { m with lru := list_del m.lru b }) }

/-- `list_add_tail(&bo->lru, &bdev->man[t].lru)`. -/
def lru_add_tail (s : ttm_bo_device W) (t b : Nat) : ttm_bo_device W :=
  { s with man := s.man.modify (fun m => { m with lru := m.lru ++ [b] }) t }

/-- `kref_get(&bo->list_kref)`. -/
def list_kref_get (s : ttm_bo_device W) (b : Nat) : ttm_bo_device W :=
  set_bo s b { s.bo b with list_kref := (s.bo b).list_kref + 1 }

/-- `while (put_count--) kref_put(&bo->list_kref, ttm_bo_ref_bug)`: every
put decrements the count, and the release function `ttm_bo_ref_bug` is
`BUG()`, run when the count reaches zero. -/
def list_kref_put_bug : Nat → ttm_bo_device W → Nat → outcome × ttm_bo_device W
  | 0, s, _ => (outcome.ret 0, s)
  | n + 1, s, b =>
    let s1 := set_bo s b { s.bo b with list_kref := (s.bo b).list_kref - 1 }
    if (s1.bo b).list_kref = 0 then (outcome.bug, s1)
    else list_kref_put_bug n s1 b

/-! ## Waiting -/

/-- The kernel's `wait_event_interruptible(queue, cond)` for a thread run in
isolation: 0 when the condition holds, `-ERESTARTSYS` when a signal ends the
sleep, and otherwise the sleep does not end. -/
def wait_event_interruptible (cond signal : Bool) : outcome :=
  if cond then outcome.ret 0
  else if signal then outcome.ret (-ERESTARTSYS)
  else outcome.sleeps

/-- The kernel's `wait_event(queue, cond)` for a thread run in isolation. -/
def wait_event (cond : Bool) : outcome :=
  if cond then outcome.ret 0 else outcome.sleeps

/-- `ttm_bo_wait_unreserved`. -/
def ttm_bo_wait_unreserved (x : collaborators W) (s : ttm_bo_device W) (b : Nat)
    (interruptible : Bool) : outcome :=
  if interruptible then
    match wait_event_interruptible (decide ((s.bo b).reserved = 0)) (x.signal_pending s.ext) with
    | outcome.ret 0 => outcome.ret 0
    | outcome.ret _ => outcome.ret (-ERESTART)
    | o => o
  else
    match wait_event (decide ((s.bo b).reserved = 0)) with
    | outcome.ret _ => outcome.ret 0
    | o => o

/-! ## Reservation and LRU bookkeeping -/

/-- `ttm_bo_add_to_lru`; `none` when one of its `BUG_ON`s fires. -/
def ttm_bo_add_to_lru (K : ttm_consts) (s : ttm_bo_device W) (b : Nat) :
    Option (ttm_bo_device W) :=
  if (s.bo b).reserved = 0 then none
  else if (s.bo b).mem.flags &&& K.TTM_PL_FLAG_NO_EVICT = 0 then
    if on_lru s b then none
    else
      let s1 := list_kref_get (lru_add_tail s (s.bo b).mem.mem_type b) b
      if (s1.bo b).ttm ≠ none then
        some (list_kref_get { s1 with swap_lru := s1.swap_lru ++ [b] } b)
      else some s1
  else some s

/-- `ttm_bo_del_from_lru`: the number of lists left, and the new state. -/
def ttm_bo_del_from_lru (s : ttm_bo_device W) (b : Nat) : Nat × ttm_bo_device W :=
  let r1 : Nat × ttm_bo_device W :=
    if on_swap s b then (1, { s with swap_lru := list_del s.swap_lru b }) else (0, s)
  if on_lru r1.2 b then (r1.1 + 1, lru_del r1.2 b) else r1

/-- `ttm_bo_reserve_locked`.  The `while` loop is entered when the
compare-and-swap of `reserved` from 0 to 1 fails.  In isolation the bit does
not clear while the caller waits, so `ttm_bo_wait_unreserved` cannot return 0
there and the loop body is run at most once; were the wait to return 0 the
loop would repeat the same failed compare-and-swap for ever. -/
def ttm_bo_reserve_locked (x : collaborators W) (s : ttm_bo_device W) (b : Nat)
    (interruptible no_wait use_sequence : Bool) (sequence : Nat) :
    outcome × ttm_bo_device W :=
  if (s.bo b).reserved ≠ 0 then
    if use_sequence && (s.bo b).seq_valid &&
        decide (u32_sub sequence (s.bo b).val_seq < u32 (1 <<< 31)) then
      (outcome.ret (-EAGAIN), s)
    else if no_wait then (outcome.ret (-EBUSY), s)
    else
      match ttm_bo_wait_unreserved x s b interruptible with
      | outcome.ret 0 => (outcome.sleeps, s)
      | o => (o, s)
  else
    let o := { s.bo b with reserved := 1 }
    if use_sequence then
      (outcome.ret 0, set_bo s b { o with val_seq := u32 sequence, seq_valid := true })
    else
      (outcome.ret 0, set_bo s b { o with seq_valid := false })

/-- `ttm_bo_reserve`. -/
def ttm_bo_reserve (x : collaborators W) (s : ttm_bo_device W) (b : Nat)
    (interruptible no_wait use_sequence : Bool) (sequence : Nat) :
    outcome × ttm_bo_device W :=
  let r := ttm_bo_reserve_locked x s b interruptible no_wait use_sequence sequence
  if r.1 = outcome.ret 0 then
    let d := ttm_bo_del_from_lru r.2 b
    match list_kref_put_bug d.1 d.2 b with
    | (outcome.ret _, s2) => (r.1, s2)
    | (o, s2) => (o, s2)
  else r

/-- `ttm_bo_unreserve`; `none` when a `BUG_ON` of `ttm_bo_add_to_lru` fires. -/
def ttm_bo_unreserve (K : ttm_consts) (s : ttm_bo_device W) (b : Nat) :
    Option (ttm_bo_device W) :=
  match ttm_bo_add_to_lru K s b with
  | none => none
  | some s1 => some (set_bo s1 b { s1.bo b with reserved := 0 })

/-- `ttm_bo_unblock_reservation`. -/
def ttm_bo_unblock_reservation (s : ttm_bo_device W) (b : Nat) : ttm_bo_device W :=
  set_bo s b { s.bo b with reserved := 0 }

/-- `ttm_bo_block_reservation`.  As in `ttm_bo_reserve_locked`, the loop body
runs at most once in isolation. -/
def ttm_bo_block_reservation (x : collaborators W) (s : ttm_bo_device W) (b : Nat)
    (interruptible no_wait : Bool) : outcome × ttm_bo_device W :=
  if (s.bo b).reserved ≠ 0 then
    if no_wait then (outcome.ret (-EBUSY), s)
    else if interruptible then
      match wait_event_interruptible (decide ((s.bo b).reserved = 0)) (x.signal_pending s.ext) with
      | outcome.ret 0 => (outcome.sleeps, s)
      | outcome.ret _ => (outcome.ret (-ERESTART), s)
      | o => (o, s)
    else
      match wait_event (decide ((s.bo b).reserved = 0)) with
      | outcome.ret _ => (outcome.sleeps, s)
      | o => (o, s)
  else (outcome.ret 0, set_bo s b { s.bo b with reserved := 1 })

/-! ## Synchronisation -/

/-- What the source does after the driver reports a sync object done:
`driver->sync_obj_unref(&bo->sync_obj)`, which clears the pointer, and
`bo->priv_flags &= ~TTM_BO_PRIV_FLAG_MOVING`. -/
def drop_sync_obj (K : ttm_consts) (o : ttm_buffer_object) : ttm_buffer_object :=
  { o with sync_obj := none, priv_flags := o.priv_flags &&& u32_not K.TTM_BO_PRIV_FLAG_MOVING }

/-- `ttm_bo_busy`: 1 if the buffer is still rendered to or from, else 0. -/
def ttm_bo_busy (K : ttm_consts) (x : collaborators W) (s : ttm_bo_device W) (b : Nat) :
    Int × ttm_bo_device W :=
  match (s.bo b).sync_obj with
  | some so =>
    if x.sync_obj_signaled s.ext so (s.bo b).sync_obj_arg then
      (0, set_bo s b (drop_sync_obj K (s.bo b)))
    else
      let s1 := set_ext s (x.sync_obj_flush s.ext so (s.bo b).sync_obj_arg)
      if x.sync_obj_signaled s1.ext so (s1.bo b).sync_obj_arg then
        (0, set_bo s1 b (drop_sync_obj K (s1.bo b)))
      else (1, s1)
  | none => (0, s)

/-- `ttm_bo_wait`.  After a successful `sync_obj_wait` the buffer, run in
isolation, still holds the sync object waited for, so the body of the
`while (bo->sync_obj)` loop drops it and the loop ends.  With `no_wait` set
and the sync object not signaled the source assigns `ret = -EBUSY` and jumps
to the label `out`, whose statement is `return 0`: the value assigned is not
the value returned. -/
def ttm_bo_wait (K : ttm_consts) (x : collaborators W) (s : ttm_bo_device W) (b : Nat)
    (lazy interruptible no_wait : Bool) : outcome × ttm_bo_device W :=
  match (s.bo b).sync_obj with
  | none => (outcome.ret 0, s)
  | some so =>
    if x.sync_obj_signaled s.ext so (s.bo b).sync_obj_arg then
      (outcome.ret 0, set_bo s b (drop_sync_obj K (s.bo b)))
    else if no_wait then (outcome.ret 0, s)
    else
      let r := x.sync_obj_wait s.ext so (s.bo b).sync_obj_arg lazy interruptible
      let s1 := set_ext s r.2
      match r.1 with
      | outcome.ret 0 => (outcome.ret 0, set_bo s1 b (drop_sync_obj K (s1.bo b)))
      | o => (o, s1)

/-! ## Moving a buffer -/

/-- `ttm_bo_add_ttm`.  The size handed to `ttm_tt_create`,
`bo->num_pages << PAGE_SHIFT`, is an `unsigned long`. -/
def ttm_bo_add_ttm (K : ttm_consts) (x : collaborators W) (s : ttm_bo_device W) (b : Nat) :
    Int × ttm_bo_device W :=
  let s0 := set_bo s b { s.bo b with ttm := none }
  match (s0.bo b).type with
  | ttm_bo_type.ttm_bo_type_device | ttm_bo_type.ttm_bo_type_kernel =>
    let r := x.ttm_tt_create s0.ext (ulong K.machine ((s0.bo b).num_pages <<< K.PAGE_SHIFT)) false
    let s1 := set_bo (set_ext s0 r.2) b { s0.bo b with ttm := r.1 }
    if r.1 = none then (-ENOMEM, s1) else (0, s1)
  | ttm_bo_type.ttm_bo_type_user =>
    let r := x.ttm_tt_create s0.ext (ulong K.machine ((s0.bo b).num_pages <<< K.PAGE_SHIFT)) true
    let s1 := set_bo (set_ext s0 r.2) b { s0.bo b with ttm := r.1 }
    if r.1 = none then (-ENOMEM, s1) else (0, s1)
  | ttm_bo_type.illegal => (-EINVAL, s0)

/-- `ttm_mem_reg_is_pci`. -/
def ttm_mem_reg_is_pci (K : ttm_consts) (s : ttm_bo_device W) (mem : ttm_mem_reg) : Bool :=
  if (man_at s mem.mem_type).flags &&& K.TTM_MEMTYPE_FLAG_FIXED = 0 then
    if mem.mem_type = K.TTM_PL_SYSTEM then false
    else if (man_at s mem.mem_type).flags &&& K.TTM_MEMTYPE_FLAG_CMA ≠ 0 then false
    else if mem.flags &&& K.TTM_PL_FLAG_CACHED ≠ 0 then false
    else true
  else true

/-- `ttm_bo_unmap_virtual`. -/
def ttm_bo_unmap_virtual (x : collaborators W) (s : ttm_bo_device W) : ttm_bo_device W :=
  if s.has_dev_mapping then set_ext s (x.unmap_mapping_range s.ext) else s

/-- Modelled from the spec: `drm_mm_put_block` (`drm_mm.c` is not among the
sources) returns an extent to the allocator that handed it out. -/
def drm_mm_put_block (s : ttm_bo_device W) (n : drm_mm_node) : ttm_bo_device W :=
  let put := fun (m : ttm_mem_type_manager) =>
    { m with manager := { m.manager with nodes := m.manager.nodes.erase n } }
  { s with man := s.man.modify put n.mm }

/-- Modelled from the spec: what the data movers `ttm_bo_move_ttm`,
`driver->move` and `ttm_bo_move_memcpy` (`ttm_bo_util.c` and the driver are
not among the sources) do to the buffer once the collaborator has reported
the result `ret` of the physical move.  A mover is all-or-nothing: on failure
nothing changes; on success the old extent is released, the placement record
becomes the target placement (the proposed flags are kept) and the target
gives up its extent. -/
def mover_commit (ret : Int) (s : ttm_bo_device W) (b : Nat) (mem : ttm_mem_reg) :
    Int × ttm_mem_reg × ttm_bo_device W :=
  if ret ≠ 0 then (ret, mem, s)
  else
    let s1 := match (s.bo b).mem.mm_node with
      | some n => drm_mm_put_block s n
      | none => s
    (0, { mem with mm_node := none },
      set_bo s1 b { s1.bo b with
        mem := { mem with proposed_flags := (s1.bo b).mem.proposed_flags } })

/-- The tail of `ttm_bo_handle_move_mem` from the label `moved:`.  The new
offset `(bo->mem.mm_node->start << PAGE_SHIFT) + bdev->man[...].gpu_offset`
is computed in `unsigned long`: the shift and the sum both wrap. -/
def handle_move_mem_moved (K : ttm_consts) (x : collaborators W) (s : ttm_bo_device W)
    (b : Nat) (evict : Bool) : ttm_bo_device W :=
  let s1 :=
    if (s.bo b).priv_flags &&& K.TTM_BO_PRIV_FLAG_EVICTED ≠ 0 then
      set_ext s (x.invalidate_caches s.ext (s.bo b).mem.flags).2
    else s
  let s2 := set_bo s1 b { s1.bo b with
    priv_flags := ttm_flag_masked (s1.bo b).priv_flags
      (if evict then K.TTM_BO_PRIV_FLAG_EVICTED else 0) K.TTM_BO_PRIV_FLAG_EVICTED }
  match (s2.bo b).mem.mm_node with
  | some n =>
    set_bo s2 b { s2.bo b with
      offset := ulong K.machine (ulong K.machine (n.start <<< K.PAGE_SHIFT) +
        (man_at s2 (s2.bo b).mem.mem_type).gpu_offset) }
  | none => s2

/-- The tail of `ttm_bo_handle_move_mem` from the label `out_err:`. -/
def handle_move_mem_out_err (K : ttm_consts) (x : collaborators W) (s : ttm_bo_device W)
    (b : Nat) : ttm_bo_device W :=
  if (man_at s (s.bo b).mem.mem_type).flags &&& K.TTM_MEMTYPE_FLAG_FIXED ≠ 0 then
    match (s.bo b).ttm with
    | some t =>
      set_bo (set_ext s (x.ttm_tt_destroy (x.ttm_tt_unbind s.ext t) t)) b
        { s.bo b with ttm := none }
    | none => s
  else s

/-- The part of `ttm_bo_handle_move_mem` that calls a data mover. -/
def handle_move_mem_move (K : ttm_consts) (x : collaborators W) (s : ttm_bo_device W)
    (b : Nat) (mem : ttm_mem_reg) (evict : Bool) (old_fixed new_fixed : Bool) :
    Int × ttm_mem_reg × ttm_bo_device W :=
  let r :=
    if !old_fixed && !new_fixed then x.ttm_bo_move_ttm s.ext
    else if x.has_move then x.move s.ext
    else x.ttm_bo_move_memcpy s.ext
  let m := mover_commit r.1 (set_ext s r.2) b mem
  if m.1 ≠ 0 then (m.1, m.2.1, handle_move_mem_out_err K x m.2.2 b)
  else (0, m.2.1, handle_move_mem_moved K x m.2.2 b evict)

/-- `ttm_bo_handle_move_mem`: the result, the target record `*mem` as the
call leaves it, and the new state. -/
def ttm_bo_handle_move_mem (K : ttm_consts) (x : collaborators W) (s : ttm_bo_device W)
    (b : Nat) (mem : ttm_mem_reg) (evict _interruptible _no_wait : Bool) :
    Int × ttm_mem_reg × ttm_bo_device W :=
  let old_is_pci := ttm_mem_reg_is_pci K s (s.bo b).mem
  let new_is_pci := ttm_mem_reg_is_pci K s mem
  let old_fixed := decide ((man_at s (s.bo b).mem.mem_type).flags &&& K.TTM_MEMTYPE_FLAG_FIXED ≠ 0)
  let new_fixed := decide ((man_at s mem.mem_type).flags &&& K.TTM_MEMTYPE_FLAG_FIXED ≠ 0)
  let s1 :=
    if old_is_pci || new_is_pci ||
        decide (mem.flags &&& (s.bo b).mem.flags &&& K.TTM_PL_MASK_CACHING = 0) then
      ttm_bo_unmap_virtual x s
    else s
  if !new_fixed && decide ((s1.bo b).ttm = none) then
    let a := ttm_bo_add_ttm K x s1 b
    if a.1 ≠ 0 then (a.1, mem, handle_move_mem_out_err K x a.2 b)
    else
      let c := x.ttm_tt_set_placement_caching a.2.ext ((a.2.bo b).ttm.getD 0) mem.flags
      let s2 := set_ext a.2 c.2
      if c.1 ≠ 0 then (c.1, mem, s2)
      else
        let bd : Int × ttm_bo_device W :=
          if mem.mem_type ≠ K.TTM_PL_SYSTEM then
            let r := x.ttm_tt_bind s2.ext ((s2.bo b).ttm.getD 0)
            (r.1, set_ext s2 r.2)
          else (0, s2)
        if bd.1 ≠ 0 then (bd.1, mem, handle_move_mem_out_err K x bd.2 b)
        else if (bd.2.bo b).mem.mem_type = K.TTM_PL_SYSTEM then
          let s3 := set_bo bd.2 b { bd.2.bo b with
            mem := { mem with proposed_flags := (bd.2.bo b).mem.proposed_flags } }
          (0, { mem with mm_node := none }, handle_move_mem_moved K x s3 b evict)
        else handle_move_mem_move K x bd.2 b mem evict old_fixed new_fixed
  else handle_move_mem_move K x s1 b mem evict old_fixed new_fixed

/-! ## Releasing list references -/

/-- `ttm_bo_release_list`; `none` when one of its `BUG_ON`s fires.  Freeing
the object (through `bo->destroy` or `kfree`) is recorded in `freed`. -/
def ttm_bo_release_list (x : collaborators W) (s : ttm_bo_device W) (b : Nat) :
    Option (ttm_bo_device W) :=
  if (s.bo b).list_kref ≠ 0 ∨ (s.bo b).kref ≠ 0 ∨ (s.bo b).cpu_writers ≠ 0 ∨
      (s.bo b).sync_obj ≠ none ∨ (s.bo b).mem.mm_node ≠ none ∨
      on_lru s b = true ∨ b ∈ s.ddestroy then none
  else
    let s1 := match (s.bo b).ttm with
      | some t => set_ext s (x.ttm_tt_destroy s.ext t)
      | none => s
    some (set_bo s1 b { s1.bo b with freed := true })

/-- `kref_put(&bo->list_kref, ttm_bo_release_list)`; `none` when the count
reaches zero and an assertion of `ttm_bo_release_list` fails. -/
def list_kref_put_release (x : collaborators W) (s : ttm_bo_device W) (b : Nat) :
    Option (ttm_bo_device W) :=
  let s1 := set_bo s b { s.bo b with list_kref := (s.bo b).list_kref - 1 }
  if (s1.bo b).list_kref = 0 then ttm_bo_release_list x s1 b else some s1

/-- The state in which `kref_put(&bo->list_kref, ttm_bo_release_list)` stops
when an assertion of `ttm_bo_release_list` fails: `kref_put` has decremented
the count before it calls the release function. -/
def list_kref_dec (s : ttm_bo_device W) (b : Nat) : ttm_bo_device W :=
  set_bo s b { s.bo b with list_kref := (s.bo b).list_kref - 1 }

/-! ## Finding space -/

/-- `ttm_bo_mt_compatible`: `some res_mask` when the source returns true and
writes `*res_mask`, `none` when it returns false and leaves it alone. -/
def ttm_bo_mt_compatible (K : ttm_consts) (man : ttm_mem_type_manager)
    (disallow_fixed : Bool) (mem_type mask : Nat) : Option Nat :=
  let cur_flags := ttm_bo_type_flags mem_type
  if man.flags &&& K.TTM_MEMTYPE_FLAG_FIXED ≠ 0 ∧ disallow_fixed = true then none
  else if cur_flags &&& mask &&& K.TTM_PL_MASK_MEM = 0 then none
  else if mask &&& man.available_caching = 0 then none
  else if mask &&& man.default_caching ≠ 0 then some (cur_flags ||| man.default_caching)
  else if mask &&& K.TTM_PL_FLAG_CACHED ≠ 0 then some (cur_flags ||| K.TTM_PL_FLAG_CACHED)
  else if mask &&& K.TTM_PL_FLAG_WC ≠ 0 then some (cur_flags ||| K.TTM_PL_FLAG_WC)
  else some (cur_flags ||| K.TTM_PL_FLAG_UNCACHED)

/-- Modelled from the spec: a successful `drm_mm_get_block_atomic` (`drm_mm.c`
is not among the sources) hands out the extent found by the search: the
allocator of memory type `n.mm` now holds it as occupied. -/
def drm_mm_take (s : ttm_bo_device W) (n : drm_mm_node) : ttm_bo_device W :=
  let take := fun (m : ttm_mem_type_manager) =>
    { m with manager := { m.manager with nodes := n :: m.manager.nodes } }
  { s with man := s.man.modify take n.mm }

/-- The inner `do ... while (!node)` loop of the first pass of
`ttm_bo_mem_space`: `ret 0` with the node found (or none) when the loop is
left, another result when the function returns from inside the loop. -/
def mem_space_get_block (x : collaborators W) (t num_pages page_alignment : Nat) :
    Nat → ttm_bo_device W → outcome × Option drm_mm_node × ttm_bo_device W
  | 0, s => (outcome.fuel, none, s)
  | n + 1, s =>
    let p := x.drm_mm_pre_get s.ext
    let s1 := set_ext s p.2
    if p.1 ≠ 0 then (outcome.ret p.1, none, s1)
    else
      match x.drm_mm_search_free s1.ext (man_at s1 t).manager num_pages page_alignment with
      | none => (outcome.ret 0, none, s1)
      | some start =>
        let g := x.drm_mm_get_block_atomic s1.ext
        let s2 := set_ext s1 g.2
        if g.1 then
          (outcome.ret 0, some ⟨start, num_pages, t⟩, drm_mm_take s2 ⟨start, num_pages, t⟩)
        else mem_space_get_block x t num_pages page_alignment n s2

/-- The local variables of `ttm_bo_mem_space` that live across its loops. -/
structure space_vars where
  mem_type : Nat
  cur_flags : Nat := 0
  type_found : Bool := false
  type_ok : Bool := false
  node : Option drm_mm_node := none
  deriving DecidableEq, Repr

/-- The first `for` loop of `ttm_bo_mem_space` over the remaining entries of
`mem_type_prio`: `ret 0` when the loop is left (by `break` or at its end),
another result when the function returns from inside the loop. -/
def mem_space_first_pass (K : ttm_consts) (x : collaborators W) (fuel : Nat)
    (type_user : Bool) (mem : ttm_mem_reg) :
    List Nat → space_vars → ttm_bo_device W → outcome × space_vars × ttm_bo_device W
  | [], v, s => (outcome.ret 0, v, s)
  | p :: ps, v, s =>
    match ttm_bo_mt_compatible K (man_at s p) type_user p mem.proposed_flags with
    | none =>
      mem_space_first_pass K x fuel type_user mem ps { v with mem_type := p, type_ok := false } s
    | some f =>
      let v1 : space_vars := { v with mem_type := p, type_ok := true, cur_flags := f }
      if p = K.TTM_PL_SYSTEM then (outcome.ret 0, v1, s)
      else if (man_at s p).has_type && (man_at s p).use_type then
        let g := mem_space_get_block x p mem.num_pages mem.page_alignment fuel s
        let v2 : space_vars := { v1 with type_found := true, node := g.2.1 }
        if g.1 ≠ outcome.ret 0 then (g.1, v2, g.2.2)
        else if g.2.1 ≠ none then (outcome.ret 0, v2, g.2.2)
        else mem_space_first_pass K x fuel type_user mem ps v2 g.2.2
      else if v1.node ≠ none then (outcome.ret 0, v1, s)
      else mem_space_first_pass K x fuel type_user mem ps v1 s

/-- The type of `ttm_bo_evict` once its fuel is fixed: state, buffer, memory
type, `interruptible`, `no_wait`. -/
abbrev evict_fn (W : Type) :=
  ttm_bo_device W → Nat → Nat → Bool → Bool → outcome × ttm_bo_device W

/-- The type of `ttm_bo_mem_space` once its fuel is fixed: state, buffer,
`*mem`, `interruptible`, `no_wait`; the result carries `*mem` as left. -/
abbrev mem_space_fn (W : Type) :=
  ttm_bo_device W → Nat → ttm_mem_reg → Bool → Bool → outcome × ttm_mem_reg × ttm_bo_device W

/-- The `do ... while (1)` loop of `ttm_bo_mem_force_space`: `ret 0` with the
start of the free extent found (or none, when the LRU ran empty) when the
loop is left, another result when the function returns from inside it. -/
def force_space_evict_loop (K : ttm_consts) (x : collaborators W) (evict : evict_fn W)
    (num_pages page_alignment mem_type : Nat) (interruptible no_wait : Bool) :
    Nat → ttm_bo_device W → outcome × Option Nat × ttm_bo_device W
  | 0, s => (outcome.fuel, none, s)
  | n + 1, s =>
    match x.drm_mm_search_free s.ext (man_at s mem_type).manager num_pages page_alignment with
    | some start => (outcome.ret 0, some start, s)
    | none =>
      match (man_at s mem_type).lru with
      | [] => (outcome.ret 0, none, s)
      | entry :: _ =>
        let r := ttm_bo_reserve_locked x (list_kref_get s entry) entry interruptible no_wait false 0
        if r.1 ≠ outcome.ret 0 then (r.1, none, r.2)
        else
          let d := ttm_bo_del_from_lru r.2 entry
          match list_kref_put_bug d.1 d.2 entry with
          | (outcome.ret _, s3) =>
            let e := evict s3 entry mem_type interruptible no_wait
            match e.1 with
            | outcome.ret code =>
              match ttm_bo_unreserve K e.2 entry with
              | none => (outcome.bug, none, e.2)
              | some s4 =>
                match list_kref_put_release x s4 entry with
                | none => (outcome.bug, none, list_kref_dec s4 entry)
                | some s5 =>
                  if code ≠ 0 then (outcome.ret code, none, s5)
                  else force_space_evict_loop K x evict num_pages page_alignment mem_type
                    interruptible no_wait n s5
            | o => (o, none, e.2)
          | (o, s3) => (o, none, s3)

/-- `ttm_bo_mem_force_space`, given the eviction routine; each pass from the
label `retry_pre_get` uses one unit of fuel. -/
def ttm_bo_mem_force_space_with (K : ttm_consts) (x : collaborators W) (evict : evict_fn W)
    (mem_type : Nat) (interruptible no_wait : Bool) :
    Nat → ttm_bo_device W → ttm_mem_reg → outcome × ttm_mem_reg × ttm_bo_device W
  | 0, s, mem => (outcome.fuel, mem, s)
  | n + 1, s, mem =>
    let p := x.drm_mm_pre_get s.ext
    let s1 := set_ext s p.2
    if p.1 ≠ 0 then (outcome.ret p.1, mem, s1)
    else
      let l := force_space_evict_loop K x evict mem.num_pages mem.page_alignment mem_type
        interruptible no_wait (n + 1) s1
      if l.1 ≠ outcome.ret 0 then (l.1, mem, l.2.2)
      else
        match l.2.1 with
        | none => (outcome.ret (-ENOMEM), mem, l.2.2)
        | some start =>
          let g := x.drm_mm_get_block_atomic l.2.2.ext
          let s3 := set_ext l.2.2 g.2
          if g.1 then
            (outcome.ret 0,
              { mem with mm_node := some ⟨start, mem.num_pages, mem_type⟩, mem_type := mem_type },
              drm_mm_take s3 ⟨start, mem.num_pages, mem_type⟩)
          else ttm_bo_mem_force_space_with K x evict mem_type interruptible no_wait n s3 mem

/-- The second `for` loop of `ttm_bo_mem_space` over the remaining entries of
`mem_busy_prio`, with its final `return`. -/
def mem_space_busy_pass (K : ttm_consts) (x : collaborators W) (evict : evict_fn W)
    (fuel : Nat) (type_user interruptible no_wait : Bool) :
    List Nat → Nat → Bool → ttm_mem_reg → ttm_bo_device W →
      outcome × ttm_mem_reg × ttm_bo_device W
  | [], _, has_eagain, mem, s =>
    (outcome.ret (if has_eagain then -ERESTART else -ENOMEM), mem, s)
  | p :: ps, cur_flags, has_eagain, mem, s =>
    if !(man_at s p).has_type then
      mem_space_busy_pass K x evict fuel type_user interruptible no_wait ps cur_flags
        has_eagain mem s
    else
      match ttm_bo_mt_compatible K (man_at s p) type_user p mem.proposed_flags with
      | none =>
        mem_space_busy_pass K x evict fuel type_user interruptible no_wait ps cur_flags
          has_eagain mem s
      | some f =>
        let r := ttm_bo_mem_force_space_with K x evict p interruptible no_wait fuel s mem
        match r.1 with
        | outcome.ret code =>
          if code = 0 ∧ r.2.1.mm_node ≠ none then
            (outcome.ret 0, { r.2.1 with flags := f }, r.2.2)
          else
            mem_space_busy_pass K x evict fuel type_user interruptible no_wait ps f
              (has_eagain || decide (code = -ERESTART)) r.2.1 r.2.2
        | o => (o, r.2.1, r.2.2)

/-- `ttm_bo_mem_space`, given the eviction routine. -/
def ttm_bo_mem_space_with (K : ttm_consts) (x : collaborators W) (evict : evict_fn W)
    (fuel : Nat) : mem_space_fn W :=
  fun s b mem interruptible no_wait =>
    let type_user := decide ((s.bo b).type = ttm_bo_type.ttm_bo_type_user)
    let mem0 : ttm_mem_reg := { mem with mm_node := none }
    let f := mem_space_first_pass K x fuel type_user mem0 x.mem_type_prio
      { mem_type := K.TTM_PL_SYSTEM } s
    if f.1 ≠ outcome.ret 0 then (f.1, mem0, f.2.2)
    else if (f.2.1.type_ok && decide (f.2.1.mem_type = K.TTM_PL_SYSTEM)) ||
        decide (f.2.1.node ≠ none) then
      (outcome.ret 0,
        { mem0 with mm_node := f.2.1.node, mem_type := f.2.1.mem_type, flags := f.2.1.cur_flags },
        f.2.2)
    else if !f.2.1.type_found then (outcome.ret (-EINVAL), mem0, f.2.2)
    else
      mem_space_busy_pass K x evict fuel type_user interruptible no_wait x.mem_busy_prio
        f.2.1.cur_flags false mem0 f.2.2

/-! ## Eviction -/

/-- The body of `ttm_bo_evict`, given the space search it calls. -/
def ttm_bo_evict_with (K : ttm_consts) (x : collaborators W) (mem_space : mem_space_fn W) :
    evict_fn W :=
  fun s b mem_type interruptible no_wait =>
    if (s.bo b).mem.mem_type ≠ mem_type then (outcome.ret 0, s)
    else
      let w := ttm_bo_wait K x s b false interruptible no_wait
      match w.1 with
      | outcome.ret code =>
        if code ≠ 0 ∧ code ≠ -ERESTART then (outcome.ret code, w.2)
        else if (w.2.bo b).reserved = 0 then (outcome.bug, w.2)
        else
          let evict_mem : ttm_mem_reg :=
            { (w.2.bo b).mem with mm_node := none, proposed_flags := x.evict_flags (w.2.bo b) }
          if ttm_bo_type_flags mem_type &&& evict_mem.proposed_flags ≠ 0 then (outcome.bug, w.2)
          else
            let m1 := mem_space w.2 b evict_mem interruptible no_wait
            let m2 : outcome × ttm_mem_reg × ttm_bo_device W :=
              match m1.1 with
              | outcome.ret c1 =>
                if c1 ≠ 0 ∧ c1 ≠ -ERESTART then
                  if ttm_bo_type_flags mem_type &&& K.TTM_PL_FLAG_SYSTEM ≠ 0 then
                    (outcome.bug, m1.2.1, m1.2.2)
                  else
                    mem_space m1.2.2 b { m1.2.1 with proposed_flags := K.TTM_PL_FLAG_SYSTEM }
                      interruptible no_wait
                else m1
              | _ => m1
            match m2.1 with
            | outcome.ret 0 =>
              let h := ttm_bo_handle_move_mem K x m2.2.2 b m2.2.1 true interruptible no_wait
              if h.1 ≠ 0 then (outcome.ret h.1, h.2.2)
              else
                let s5 := match h.2.1.mm_node with
                  | some n => drm_mm_put_block h.2.2 n
                  | none => h.2.2
                (outcome.ret 0, set_bo s5 b { s5.bo b with
                  priv_flags := ttm_flag_masked (s5.bo b).priv_flags
                    K.TTM_BO_PRIV_FLAG_EVICTED K.TTM_BO_PRIV_FLAG_EVICTED })
            | o => (o, m2.2.2)
      | o => (o, w.2)

/-- `ttm_bo_evict`.  The fuel bounds the nesting of evictions (an eviction
searches space for the victim, which may evict again) and every loop below. -/
def ttm_bo_evict (K : ttm_consts) (x : collaborators W) : Nat → evict_fn W
  | 0 => fun s _ _ _ _ => (outcome.fuel, s)
  | n + 1 => ttm_bo_evict_with K x (ttm_bo_mem_space_with K x (ttm_bo_evict K x n) (n + 1))

/-- `ttm_bo_mem_space`. -/
def ttm_bo_mem_space (K : ttm_consts) (x : collaborators W) (fuel : Nat) : mem_space_fn W :=
  ttm_bo_mem_space_with K x (ttm_bo_evict K x fuel) fuel

/-- `ttm_bo_mem_force_space`. -/
def ttm_bo_mem_force_space (K : ttm_consts) (x : collaborators W) (fuel : Nat)
    (s : ttm_bo_device W) (mem : ttm_mem_reg) (mem_type : Nat)
    (interruptible no_wait : Bool) : outcome × ttm_mem_reg × ttm_bo_device W :=
  ttm_bo_mem_force_space_with K x (ttm_bo_evict K x fuel) mem_type interruptible no_wait
    fuel s mem

/-! ## Validation -/

/-- The first half of `ttm_bo_move_buffer`, up to and including the call of
`ttm_bo_mem_space`: the result so far, the target record `mem` and the state.
`mem.size = mem.num_pages << PAGE_SHIFT` is an `unsigned long`. -/
def move_buffer_space (K : ttm_consts) (x : collaborators W) (fuel : Nat)
    (s : ttm_bo_device W) (b : Nat) (new_mem_flags : Nat) (interruptible no_wait : Bool) :
    outcome × ttm_mem_reg × ttm_bo_device W :=
  let mem : ttm_mem_reg :=
    { num_pages := (s.bo b).num_pages,
      size := ulong K.machine ((s.bo b).num_pages <<< K.PAGE_SHIFT),
      proposed_flags := new_mem_flags,
      page_alignment := (s.bo b).mem.page_alignment }
  if (s.bo b).reserved = 0 then (outcome.bug, mem, s)
  else
    let w := ttm_bo_wait K x (ttm_bo_busy K x s b).2 b false interruptible no_wait
    if w.1 ≠ outcome.ret 0 then (w.1, mem, w.2)
    else ttm_bo_mem_space K x fuel w.2 b mem interruptible no_wait

/-- The second half of `ttm_bo_move_buffer`: `ttm_bo_handle_move_mem` when
space was found, and the clean-up at the label `out_unlock`. -/
def move_buffer_finish (K : ttm_consts) (x : collaborators W) (b : Nat)
    (interruptible no_wait : Bool) (sp : outcome × ttm_mem_reg × ttm_bo_device W) :
    outcome × ttm_bo_device W :=
  match sp.1 with
  | outcome.ret 0 =>
    let h := ttm_bo_handle_move_mem K x sp.2.2 b sp.2.1 false interruptible no_wait
    if h.1 ≠ 0 then
      match h.2.1.mm_node with
      | some n => (outcome.ret h.1, drm_mm_put_block h.2.2 n)
      | none => (outcome.ret h.1, h.2.2)
    else (outcome.ret 0, h.2.2)
  | outcome.ret code =>
    match sp.2.1.mm_node with
    | some n => (outcome.ret code, drm_mm_put_block sp.2.2 n)
    | none => (outcome.ret code, sp.2.2)
  | o => (o, sp.2.2)

/-- `ttm_bo_move_buffer`. -/
def ttm_bo_move_buffer (K : ttm_consts) (x : collaborators W) (fuel : Nat)
    (s : ttm_bo_device W) (b : Nat) (new_mem_flags : Nat) (interruptible no_wait : Bool) :
    outcome × ttm_bo_device W :=
  move_buffer_finish K x b interruptible no_wait
    (move_buffer_space K x fuel s b new_mem_flags interruptible no_wait)

/-- `ttm_bo_mem_compat`. -/
def ttm_bo_mem_compat (K : ttm_consts) (mem : ttm_mem_reg) : Int :=
  if mem.proposed_flags &&& mem.flags &&& K.TTM_PL_MASK_MEM = 0 then 0
  else if mem.proposed_flags &&& mem.flags &&& K.TTM_PL_MASK_CACHING = 0 then 0
  else 1

/-- The part of `ttm_buffer_object_validate` after the move: a ttm is added
to a system-memory buffer that has none, and the non-mapping bits of the
proposed flags are copied into the active flags. -/
def validate_finish (K : ttm_consts) (x : collaborators W) (s : ttm_bo_device W) (b : Nat) :
    outcome × ttm_bo_device W :=
  let a : Int × ttm_bo_device W :=
    if (s.bo b).mem.mem_type = K.TTM_PL_SYSTEM ∧ (s.bo b).ttm = none then ttm_bo_add_ttm K x s b
    else (0, s)
  if a.1 ≠ 0 then (outcome.ret a.1, a.2)
  else
    (outcome.ret 0, set_bo a.2 b { a.2.bo b with
      mem := { (a.2.bo b).mem with
        flags := ttm_flag_masked (a.2.bo b).mem.flags (a.2.bo b).proposed_flags
          (u32_not K.TTM_PL_MASK_MEMTYPE) } })

/-- `ttm_buffer_object_validate`. -/
def ttm_buffer_object_validate (K : ttm_consts) (x : collaborators W) (fuel : Nat)
    (s : ttm_bo_device W) (b : Nat) (interruptible no_wait : Bool) :
    outcome × ttm_bo_device W :=
  if (s.bo b).reserved = 0 then (outcome.bug, s)
  else
    let s1 := set_bo s b { s.bo b with
      mem := { (s.bo b).mem with proposed_flags := (s.bo b).proposed_flags } }
    if ttm_bo_mem_compat K (s1.bo b).mem = 0 then
      let r := ttm_bo_move_buffer K x fuel s1 b (s1.bo b).mem.proposed_flags interruptible no_wait
      if r.1 ≠ outcome.ret 0 then r
      else validate_finish K x r.2 b
    else validate_finish K x s1 b

/-! ## Swap-out -/

/-- The move to system cached memory in `ttm_bo_swapout`, made when the
buffer is not there already. -/
def swapout_move (K : ttm_consts) (x : collaborators W) (s : ttm_bo_device W) (b : Nat) :
    Int × ttm_bo_device W :=
  let swap_placement := K.TTM_PL_FLAG_CACHED ||| K.TTM_PL_FLAG_SYSTEM
  if (s.bo b).mem.flags &&& swap_placement ≠ swap_placement then
    let evict_mem : ttm_mem_reg :=
      { (s.bo b).mem with
        mm_node := none,
        proposed_flags := K.TTM_PL_FLAG_SYSTEM ||| K.TTM_PL_FLAG_CACHED,
        flags := K.TTM_PL_FLAG_SYSTEM ||| K.TTM_PL_FLAG_CACHED,
        mem_type := K.TTM_PL_SYSTEM }
    let h := ttm_bo_handle_move_mem K x s b evict_mem true false false
    (h.1, h.2.2)
  else (0, s)

/-- The swap-out proper in `ttm_bo_swapout`: the virtual mappings are killed
and the pages handed to `ttm_tt_swapout`; skipped (`goto out`) when an
earlier step has failed with `m.1`. -/
def swapout_pages (x : collaborators W) (m : Int × ttm_bo_device W) (b : Nat) :
    Int × ttm_bo_device W :=
  if m.1 ≠ 0 then m
  else
    let s3 := ttm_bo_unmap_virtual x m.2
    let r := x.ttm_tt_swapout s3.ext (s3.bo b).ttm
    (r.1, set_ext s3 r.2)

/-- The end of `ttm_bo_swapout` from the label `out`: the buffer is
unreserved without being put on a list, and the borrowed list reference is
given back. -/
def swapout_out (x : collaborators W) (o : Int × ttm_bo_device W) (b : Nat) :
    outcome × ttm_bo_device W :=
  match list_kref_put_release x (set_bo o.2 b { o.2.bo b with reserved := 0 }) b with
  | none => (outcome.bug, list_kref_dec (set_bo o.2 b { o.2.bo b with reserved := 0 }) b)
  | some s5 => (outcome.ret o.1, s5)

/-- The part of `ttm_bo_swapout` that runs once the buffer `b` at the head of
the swap list has been reserved. -/
def swapout_reserved (K : ttm_consts) (x : collaborators W) (s : ttm_bo_device W) (b : Nat) :
    outcome × ttm_bo_device W :=
  let d := ttm_bo_del_from_lru s b
  match list_kref_put_bug d.1 d.2 b with
  | (outcome.ret _, s1) =>
    let w := ttm_bo_wait K x s1 b false false false
    match w.1 with
    | outcome.ret code =>
      swapout_out x (swapout_pages x (if code ≠ 0 then (code, w.2) else swapout_move K x w.2 b) b) b
    | r => (r, w.2)
  | (r, s1) => (r, s1)

/-- `ttm_bo_swapout`.  When the buffer at the head of the swap list is
reserved, the caller waits uninterruptibly for the bit to clear, which in
isolation does not happen. -/
def ttm_bo_swapout (K : ttm_consts) (x : collaborators W) (s : ttm_bo_device W) :
    outcome × ttm_bo_device W :=
  match s.swap_lru with
  | [] => (outcome.ret (-EBUSY), s)
  | b :: _ =>
    let r := ttm_bo_reserve_locked x (list_kref_get s b) b false true false 0
    if r.1 = outcome.ret (-EBUSY) then
      match ttm_bo_wait_unreserved x r.2 b false with
      | outcome.ret _ => (outcome.sleeps, r.2)
      | o => (o, r.2)
    else if r.1 ≠ outcome.ret 0 then (outcome.bug, r.2)
    else swapout_reserved K x r.2 b

/-! ## Destruction -/

/-- The loop of `ttm_bo_expire_sync_obj` in nice mode: `ttm_bo_wait` is
repeated while it fails and the three seconds are not over.  A result
`ret code` with `code ≠ 0` is the early `return ret`; `ret 0` means the loop
has ended. -/
def expire_wait_loop (K : ttm_consts) (x : collaborators W) (b : Nat) (allow_errors : Bool) :
    Nat → ttm_bo_device W → outcome × ttm_bo_device W
  | 0, s => (outcome.fuel, s)
  | n + 1, s =>
    let r := ttm_bo_wait K x s b false false false
    match r.1 with
    | outcome.ret code =>
      if code ≠ 0 ∧ allow_errors = true then (outcome.ret code, r.2)
      else if code ≠ 0 ∧ x.timed_out r.2.ext = false then
        expire_wait_loop K x b allow_errors n r.2
      else (outcome.ret 0, r.2)
    | o => (o, r.2)

/-- `ttm_bo_expire_sync_obj`. -/
def ttm_bo_expire_sync_obj (K : ttm_consts) (x : collaborators W) (fuel : Nat)
    (s : ttm_bo_device W) (b : Nat) (allow_errors : Bool) : outcome × ttm_bo_device W :=
  if (s.bo b).sync_obj ≠ none then
    let r : outcome × ttm_bo_device W :=
      if s.nice_mode then
        let l := expire_wait_loop K x b allow_errors fuel s
        if l.1 ≠ outcome.ret 0 then l
        else if (l.2.bo b).sync_obj ≠ none then (outcome.ret 0, { l.2 with nice_mode := false })
        else l
      else (outcome.ret 0, s)
    if r.1 ≠ outcome.ret 0 then r
    else if (r.2.bo b).sync_obj ≠ none then
      (outcome.ret 0, set_bo r.2 b (drop_sync_obj K (r.2.bo b)))
    else r
  else (outcome.ret 0, s)

/-- `while (put_count--) kref_put(&bo->list_kref, ttm_bo_release_list)`;
`none` when an assertion of `ttm_bo_release_list` fails. -/
def list_kref_put_release_n (x : collaborators W) :
    Nat → ttm_bo_device W → Nat → Option (ttm_bo_device W)
  | 0, s, _ => some s
  | n + 1, s, b =>
    match list_kref_put_release x s b with
    | none => none
    | some s1 => list_kref_put_release_n x n s1 b

/-- The state in which the loop
`while (put_count--) kref_put(&bo->list_kref, ttm_bo_release_list)` stops when
an assertion of `ttm_bo_release_list` fails: the puts before the failing one
have been made and the count has been decremented once more. -/
def list_kref_put_release_n_stop (x : collaborators W) :
    Nat → ttm_bo_device W → Nat → ttm_bo_device W
  | 0, s, _ => s
  | n + 1, s, b =>
    match list_kref_put_release x s b with
    | none => list_kref_dec s b
    | some s1 => list_kref_put_release_n_stop x n s1 b

/-- The start of the idle branch of `ttm_bo_cleanup_refs`:
`if (bo->ttm) ttm_tt_unbind(bo->ttm)`. -/
def cleanup_unbind (x : collaborators W) (s : ttm_bo_device W) (b : Nat) : ttm_bo_device W :=
  match (s.bo b).ttm with
  | some t => set_ext s (x.ttm_tt_unbind s.ext t)
  | none => s

/-- The idle branch of `ttm_bo_cleanup_refs` takes the buffer off the
delayed-destroy list, if it is there, and drops that list's reference with
`kref_put(&bo->list_kref, ttm_bo_ref_bug)`. -/
def cleanup_leave_ddestroy (s : ttm_bo_device W) (b : Nat) : outcome × ttm_bo_device W :=
  if b ∈ s.ddestroy then
    list_kref_put_bug 1 { s with ddestroy := list_del s.ddestroy b } b
  else (outcome.ret 0, s)

/-- The idle branch of `ttm_bo_cleanup_refs` returns the extent:
`if (bo->mem.mm_node) { drm_mm_put_block(bo->mem.mm_node); bo->mem.mm_node = NULL; }`. -/
def cleanup_put_extent (s : ttm_bo_device W) (b : Nat) : ttm_bo_device W :=
  match (s.bo b).mem.mm_node with
  | some n =>
    set_bo (drm_mm_put_block s n) b
      { s.bo b with mem := { (s.bo b).mem with mm_node := none } }
  | none => s

/-- The branch of `ttm_bo_cleanup_refs` taken when the buffer has no sync
object left: it is unbound, taken off the delayed-destroy list and the LRU
lists, and its extent is returned. -/
def cleanup_refs_idle (x : collaborators W) (s : ttm_bo_device W) (b : Nat) :
    outcome × ttm_bo_device W :=
  match cleanup_leave_ddestroy (cleanup_unbind x s b) b with
  | (outcome.ret _, s2) =>
    let p := ttm_bo_del_from_lru (cleanup_put_extent s2 b) b
    match list_kref_put_release_n x p.1 p.2 b with
    | none => (outcome.bug, list_kref_put_release_n_stop x p.1 p.2 b)
    | some s4 => (outcome.ret 0, s4)
  | (o, s2) => (o, s2)

/-- The branch of `ttm_bo_cleanup_refs` taken when the buffer still has a
sync object: unless it is on the delayed-destroy list already, the sync
object is flushed, the buffer is put on that list with a list reference of
its own, and the delayed work is scheduled. -/
def cleanup_refs_busy (x : collaborators W) (s : ttm_bo_device W) (b : Nat) :
    ttm_bo_device W :=
  if b ∈ s.ddestroy then s
  else
    let s1 := set_ext s (x.sync_obj_flush s.ext ((s.bo b).sync_obj.getD 0) (s.bo b).sync_obj_arg)
    let s2 :=
      if b ∈ s1.ddestroy then s1
      else { list_kref_get s1 b with ddestroy := s1.ddestroy ++ [b] }
    { s2 with wq_scheduled := true }

/-- The first statement of `ttm_bo_cleanup_refs`: a sync object that the
driver reports signaled is dropped. -/
def cleanup_signaled (K : ttm_consts) (x : collaborators W) (s : ttm_bo_device W) (b : Nat) :
    ttm_bo_device W :=
  match (s.bo b).sync_obj with
  | some so =>
    if x.sync_obj_signaled s.ext so (s.bo b).sync_obj_arg then
      set_bo s b (drop_sync_obj K (s.bo b))
    else s
  | none => s

/-- `ttm_bo_cleanup_refs`. -/
def ttm_bo_cleanup_refs (K : ttm_consts) (x : collaborators W) (fuel : Nat)
    (s : ttm_bo_device W) (b : Nat) (remove_all : Bool) : outcome × ttm_bo_device W :=
  let s1 := cleanup_signaled K x s b
  let e : outcome × ttm_bo_device W :=
    if (s1.bo b).sync_obj ≠ none ∧ remove_all = true then
      ttm_bo_expire_sync_obj K x fuel s1 b false
    else (outcome.ret 0, s1)
  match e.1 with
  | outcome.ret _ =>
    if (e.2.bo b).sync_obj = none then cleanup_refs_idle x e.2 b
    else (outcome.ret 0, cleanup_refs_busy x e.2 b)
  | o => (o, e.2)

/-- The start of `ttm_bo_release`: the buffer leaves the address-space index
and gives back its range of it. -/
def release_vm_node (s : ttm_bo_device W) (b : Nat) : ttm_bo_device W :=
  match (s.bo b).vm_node with
  | some n =>
    { s with addr_space_rb := list_del s.addr_space_rb b,
             addr_space_mm := { nodes := s.addr_space_mm.nodes.erase n } }
  | none => s

/-- `ttm_bo_release`, the release function of the strong count `bo->kref`. -/
def ttm_bo_release (K : ttm_consts) (x : collaborators W) (fuel : Nat)
    (s : ttm_bo_device W) (b : Nat) : outcome × ttm_bo_device W :=
  let c := ttm_bo_cleanup_refs K x fuel (release_vm_node s b) b false
  match c.1 with
  | outcome.ret _ =>
    match list_kref_put_release x c.2 b with
    | none => (outcome.bug, list_kref_dec c.2 b)
    | some s2 => (outcome.ret 0, s2)
  | o => (o, c.2)

/-- `ttm_bo_unref`: `kref_put(&bo->kref, ttm_bo_release)`. -/
def ttm_bo_unref (K : ttm_consts) (x : collaborators W) (fuel : Nat)
    (s : ttm_bo_device W) (b : Nat) : outcome × ttm_bo_device W :=
  let s1 := set_bo s b { s.bo b with kref := (s.bo b).kref - 1 }
  if (s1.bo b).kref = 0 then ttm_bo_release K x fuel s1 b else (outcome.ret 0, s1)

/-- The traversal of `ttm_bo_delayed_delete` over the entries that remain:
the entry and its successor are protected by a list reference each while
`ttm_bo_cleanup_refs` runs on the entry. -/
def delayed_delete_walk (K : ttm_consts) (x : collaborators W) (fuel : Nat) (remove_all : Bool) :
    List Nat → ttm_bo_device W → outcome × ttm_bo_device W
  | [], s => (outcome.ret 0, s)
  | entry :: rest, s =>
    let s1 := match rest with
      | nentry :: _ => list_kref_get s nentry
      | [] => s
    let c := ttm_bo_cleanup_refs K x fuel (list_kref_get s1 entry) entry remove_all
    match c.1 with
    | outcome.ret _ =>
      match list_kref_put_release x c.2 entry with
      | none => (outcome.bug, list_kref_dec c.2 entry)
      | some s3 =>
        match rest with
        | [] => (outcome.ret 0, s3)
        | nentry :: _ =>
          match list_kref_put_release x s3 nentry with
          | none => (outcome.bug, list_kref_dec s3 nentry)
          | some s4 =>
            if nentry ∈ s3.ddestroy then delayed_delete_walk K x fuel remove_all rest s4
            else (outcome.ret 0, s4)
    | o => (o, c.2)

/-- `ttm_bo_delayed_delete`: 1 when buffers remain on the delayed-destroy
list, else 0. -/
def ttm_bo_delayed_delete (K : ttm_consts) (x : collaborators W) (fuel : Nat)
    (s : ttm_bo_device W) (remove_all : Bool) : outcome × ttm_bo_device W :=
  let r := delayed_delete_walk K x fuel remove_all s.ddestroy s
  match r.1 with
  | outcome.ret _ => (outcome.ret (if r.2.ddestroy = [] then 0 else 1), r.2)
  | o => (o, r.2)

/-! ## Runs of reservation calls on one buffer -/

/-- A call of the reservation protocol on one buffer. -/
inductive reservation_call where
  | reserve (interruptible no_wait use_sequence : Bool) (sequence : Nat)
  | reserve_locked (interruptible no_wait use_sequence : Bool) (sequence : Nat)
  | unreserve
  deriving DecidableEq, Repr

/-- One step of the protocol: the call is run on buffer `b`. -/
def reservation_step (K : ttm_consts) (x : collaborators W) (s : ttm_bo_device W) (b : Nat) :
    reservation_call → outcome × ttm_bo_device W
  | reservation_call.reserve i nw us q => ttm_bo_reserve x s b i nw us q
  | reservation_call.reserve_locked i nw us q => ttm_bo_reserve_locked x s b i nw us q
  | reservation_call.unreserve =>
    match ttm_bo_unreserve K s b with
    | some s1 => (outcome.ret 0, s1)
    | none => (outcome.bug, s)

/-- The change a finished call makes to the number of successful
reservations that have not been given back: a reservation attempt that
returns 0 adds one, an unreserve that returns takes one away. -/
def outstanding_change : reservation_call → outcome → Int
  | reservation_call.unreserve, outcome.ret _ => -1
  | reservation_call.unreserve, _ => 0
  | _, outcome.ret 0 => 1
  | _, _ => 0

/-- A run of calls on buffer `b`, from state `s` with `n` reservations
outstanding; `none` when a call hits `BUG()`, which stops the kernel. -/
def run_calls (K : ttm_consts) (x : collaborators W) (b : Nat) :
    List reservation_call → ttm_bo_device W → Int → Option (ttm_bo_device W × Int)
  | [], s, n => some (s, n)
  | c :: cs, s, n =>
    if (reservation_step K x s b c).1 = outcome.bug then none
    else
      run_calls K x b cs (reservation_step K x s b c).2
        (n + outstanding_change c (reservation_step K x s b c).1)

/-! ## Observing the second pass -/

/-- The results of the `ttm_bo_mem_force_space` attempts that the second
loop of `ttm_bo_mem_space` makes over the remaining entries of
`mem_busy_prio`, in the order made. -/
def busy_pass_attempts (K : ttm_consts) (x : collaborators W) (evict : evict_fn W)
    (fuel : Nat) (type_user interruptible no_wait : Bool) :
    List Nat → ttm_mem_reg → ttm_bo_device W → List outcome
  | [], _, _ => []
  | p :: ps, mem, s =>
    if !(man_at s p).has_type then
      busy_pass_attempts K x evict fuel type_user interruptible no_wait ps mem s
    else
      match ttm_bo_mt_compatible K (man_at s p) type_user p mem.proposed_flags with
      | none => busy_pass_attempts K x evict fuel type_user interruptible no_wait ps mem s
      | some _ =>
        let r := ttm_bo_mem_force_space_with K x evict p interruptible no_wait fuel s mem
        r.1 :: (match r.1 with
          | outcome.ret code =>
            if code = 0 ∧ r.2.1.mm_node ≠ none then []
            else busy_pass_attempts K x evict fuel type_user interruptible no_wait ps r.2.1 r.2.2
          | _ => [])

/-- The first loop of `ttm_bo_mem_space` as the function runs it for buffer
`b` and the request `mem`. -/
def first_pass_of (K : ttm_consts) (x : collaborators W) (fuel : Nat) (s : ttm_bo_device W)
    (b : Nat) (mem : ttm_mem_reg) : outcome × space_vars × ttm_bo_device W :=
  mem_space_first_pass K x fuel (decide ((s.bo b).type = ttm_bo_type.ttm_bo_type_user))
    { mem with mm_node := none } x.mem_type_prio { mem_type := K.TTM_PL_SYSTEM } s

/-! ## CPU access -/

/-- `ttm_bo_synccpu_write_grab`: the buffer is reserved, waited for and
unreserved again; when the wait succeeds `cpu_writers` is incremented. -/
def ttm_bo_synccpu_write_grab (K : ttm_consts) (x : collaborators W) (s : ttm_bo_device W)
    (b : Nat) (no_wait : Bool) : outcome × ttm_bo_device W :=
  let r := ttm_bo_reserve x s b true no_wait false 0
  if r.1 ≠ outcome.ret 0 then r
  else
    let w := ttm_bo_wait K x r.2 b false true no_wait
    match w.1 with
    | outcome.ret code =>
      let s2 :=
        if code = 0 then set_bo w.2 b { w.2.bo b with cpu_writers := (w.2.bo b).cpu_writers + 1 }
        else w.2
      match ttm_bo_unreserve K s2 b with
      | none => (outcome.bug, s2)
      | some s3 => (outcome.ret code, s3)
    | o => (o, w.2)

/-! ## Memory types -/

/-- The collaborators of `ttm_bo_init_mm`.  `init_mem_type` is the driver's
callback, which fills in the manager and may fail; `drm_mm_init` is the
set-up of the range allocator, which may fail too. -/
structure mm_collaborators (W : Type) where
  init_mem_type : W → Nat → ttm_mem_type_manager → Int × W × ttm_mem_type_manager
  drm_mm_init : W → Nat → Nat → Int × W

/-- Assignment to the manager `bdev->man[t]`. -/
def set_man (s : ttm_bo_device W) (t : Nat) (m : ttm_mem_type_manager) : ttm_bo_device W :=
  { s with man := s.man.modify (fun _ => m) t }

/-- The end of `ttm_bo_init_mm`: the manager is marked initialised and
enabled, its size is recorded and its LRU is emptied. -/
def init_mm_finish (s : ttm_bo_device W) (type p_size : Nat) : Int × ttm_bo_device W :=
  (0, set_man s type
    { man_at s type with has_type := true, use_type := true, size := p_size, lru := [] })

/-- Modelled from the spec: a successful `drm_mm_init` (`drm_mm.c` is not
among the sources) leaves an allocator that has handed out nothing. -/
def drm_mm_init_done (m : ttm_mem_type_manager) : ttm_mem_type_manager :=
  { m with manager := {} }

/-- `ttm_bo_init_mm`.  `TTM_NUM_MEM_TYPES`, the length of the array
`bdev->man`, is defined in `ttm_bo_driver.h`, which is not among the sources,
and is a parameter. -/
def ttm_bo_init_mm (K : ttm_consts) (y : mm_collaborators W) (TTM_NUM_MEM_TYPES : Nat)
    (s : ttm_bo_device W) (type p_offset p_size : Nat) : Int × ttm_bo_device W :=
  if type ≥ TTM_NUM_MEM_TYPES then (-EINVAL, s)
  else if (man_at s type).has_type then (-EINVAL, s)
  else
    let r := y.init_mem_type s.ext type (man_at s type)
    let s1 := set_man (set_ext s r.2.1) type r.2.2
    if r.1 ≠ 0 then (r.1, s1)
    else if type ≠ K.TTM_PL_SYSTEM then
      if p_size = 0 then (0, s1)
      else
        let d := y.drm_mm_init s1.ext p_offset p_size
        let s2 := set_ext s1 d.2
        if d.1 ≠ 0 then (d.1, s2)
        else init_mm_finish (set_man s2 type (drm_mm_init_done (man_at s2 type))) type p_size
    else init_mm_finish s1 type p_size

/-! ## Creating a buffer object -/

/-- The kernel's `PAGE_SIZE`, `1UL << PAGE_SHIFT`. -/
def PAGE_SIZE (K : ttm_consts) : Nat := 1 <<< K.PAGE_SHIFT

/-- The kernel's `PAGE_MASK`, `~(PAGE_SIZE - 1)` as an `unsigned long`. -/
def PAGE_MASK (K : ttm_consts) : Nat := 2 ^ K.machine.BITS_PER_LONG - PAGE_SIZE K

/-- The collaborators of buffer creation outside the driver: the capability
test `capable(CAP_SYS_ADMIN)`, the global memory accounting, the kernel's
allocator of objects (which returns the name of a zeroed object, or NULL),
and the search in the allocator of the device address space
(`drm_mm_search_free` without best match). -/
structure create_collaborators (W : Type) where
  capable : W → Bool
  ttm_mem_global_alloc : W → Nat → Int × W
  kzalloc : W → Option Nat × W
  vm_search_free : W → drm_mm → Nat → Option Nat

/-- `ttm_bo_check_placement`. -/
def ttm_bo_check_placement (K : ttm_consts) (capable : Bool) (o : ttm_buffer_object)
    (set_flags clr_flags : Nat) : Int :=
  let new_mask := set_flags ||| clr_flags
  if o.type = ttm_bo_type.ttm_bo_type_user ∧ clr_flags &&& K.TTM_PL_FLAG_CACHED ≠ 0 then -EINVAL
  else if !capable then
    if new_mask &&& K.TTM_PL_FLAG_NO_EVICT ≠ 0 then -EINVAL
    else if clr_flags &&& o.mem.flags &&& K.TTM_PL_MASK_MEMTYPE ≠ 0 ∧
        o.mem.flags &&& K.TTM_PL_FLAG_NO_EVICT ≠ 0 then -EINVAL
    else 0
  else 0

/-- `ttm_bo_vm_insert_rb`; `none` when its `BUG()` fires because the tree
holds a buffer at the same offset. -/
def ttm_bo_vm_insert_rb (s : ttm_bo_device W) (b : Nat) (start : Nat) :
    Option (ttm_bo_device W) :=
  if s.addr_space_rb.any (fun c => decide (((s.bo c).vm_node.map (fun n => n.start)) = some start))
  then none
  else some { s with addr_space_rb := b :: s.addr_space_rb }

/-- `ttm_bo_setup_vm`; each pass from the label `retry_pre_get` uses one unit
of fuel.  The field `mm` of an extent of the device address space is 0. -/
def ttm_bo_setup_vm (x : collaborators W) (c : create_collaborators W) (b : Nat) :
    Nat → ttm_bo_device W → outcome × ttm_bo_device W
  | 0, s => (outcome.fuel, s)
  | n + 1, s =>
    let p := x.drm_mm_pre_get s.ext
    let s1 := set_ext s p.2
    if p.1 ≠ 0 then (outcome.ret p.1, s1)
    else
      match c.vm_search_free s1.ext s1.addr_space_mm (s1.bo b).mem.num_pages with
      | none => (outcome.ret (-ENOMEM), set_bo s1 b { s1.bo b with vm_node := none })
      | some start =>
        let g := x.drm_mm_get_block_atomic s1.ext
        let s2 := set_ext s1 g.2
        if g.1 then
          let node : drm_mm_node := ⟨start, (s2.bo b).mem.num_pages, 0⟩
          let s3 : ttm_bo_device W :=
            { set_bo s2 b { s2.bo b with vm_node := some node } with
              addr_space_mm := { nodes := node :: s2.addr_space_mm.nodes } }
          match ttm_bo_vm_insert_rb s3 b start with
          | none => (outcome.bug, s3)
          | some s4 => (outcome.ret 0, s4)
        else ttm_bo_setup_vm x c b n (set_bo s2 b { s2.bo b with vm_node := none })

/-- The end of `ttm_buffer_object_init` from the label `out_err`: the buffer
is unreserved and the reference of its creator is dropped. -/
def init_out_err (K : ttm_consts) (x : collaborators W) (fuel : Nat) (s : ttm_bo_device W)
    (b : Nat) (ret : Int) : outcome × ttm_bo_device W :=
  match ttm_bo_unreserve K s b with
  | none => (outcome.bug, s)
  | some s1 =>
    match (ttm_bo_unref K x fuel s1 b).1 with
    | outcome.ret _ => (outcome.ret ret, (ttm_bo_unref K x fuel s1 b).2)
    | o => (o, (ttm_bo_unref K x fuel s1 b).2)

/-- The part of `ttm_buffer_object_init` after the placement check: the
proposed flags are set, a buffer of the device type gets its range of the
address space, and the buffer is validated and unreserved. -/
def init_place (K : ttm_consts) (x : collaborators W) (c : create_collaborators W)
    (fuel : Nat) (s : ttm_bo_device W) (b : Nat) (flags : Nat) (interruptible : Bool) :
    outcome × ttm_bo_device W :=
  let flags1 := if flags &&& K.TTM_PL_MASK_CACHING = 0 then flags ||| K.TTM_PL_MASK_CACHING
    else flags
  let s1 := set_bo s b { s.bo b with
    proposed_flags := flags1, mem := { (s.bo b).mem with proposed_flags := flags1 } }
  let v : outcome × ttm_bo_device W :=
    if (s1.bo b).type = ttm_bo_type.ttm_bo_type_device then ttm_bo_setup_vm x c b fuel s1
    else (outcome.ret 0, s1)
  match v.1 with
  | outcome.ret 0 =>
    let r := ttm_buffer_object_validate K x fuel v.2 b interruptible false
    match r.1 with
    | outcome.ret 0 =>
      match ttm_bo_unreserve K r.2 b with
      | none => (outcome.bug, r.2)
      | some s3 => (outcome.ret 0, s3)
    | outcome.ret code => init_out_err K x fuel r.2 b code
    | o => (o, r.2)
  | outcome.ret code => init_out_err K x fuel v.2 b code
  | o => (o, v.2)

/-- `ttm_buffer_object_init` on the object named `b`.  The fields
`buffer_start`, `persistant_swap_storage`, `acc_size` and `destroy`, which
the function only stores, are not part of the object record; the lists of a
new object are empty, so `b` is on no list of the device. -/
def ttm_buffer_object_init (K : ttm_consts) (x : collaborators W)
    (c : create_collaborators W) (fuel : Nat) (s : ttm_bo_device W) (b : Nat)
    (size : Nat) (type : ttm_bo_type) (flags page_alignment buffer_start : Nat)
    (interruptible : Bool) : outcome × ttm_bo_device W :=
  let size1 := ulong K.machine (size + (buffer_start &&& (PAGE_SIZE K - 1)))
  let num_pages := ulong K.machine (size1 + PAGE_SIZE K - 1) >>> K.PAGE_SHIFT
  if num_pages = 0 then (outcome.ret (-EINVAL), s)
  else
    let s1 := set_bo s b { s.bo b with
      kref := 1, list_kref := 1, cpu_writers := 0, reserved := 1,
      type := type, num_pages := num_pages,
      mem := { (s.bo b).mem with
        mem_type := K.TTM_PL_SYSTEM, num_pages := num_pages, mm_node := none,
        page_alignment := page_alignment,
        flags := K.TTM_PL_FLAG_SYSTEM ||| K.TTM_PL_FLAG_CACHED },
      priv_flags := 0, seq_valid := false }
    let ret := ttm_bo_check_placement K (c.capable s1.ext) (s1.bo b) flags 0
    if ret ≠ 0 then init_out_err K x fuel s1 b ret
    else init_place K x c fuel s1 b flags interruptible

/-- `ttm_bo_size`: the amount charged to the accounting for a buffer of
`num_pages` pages; `bdev_ttm_bo_size` is the field `bdev->ttm_bo_size`. -/
def ttm_bo_size (K : ttm_consts) (bdev_ttm_bo_size num_pages : Nat) : Nat :=
  let page_array_size :=
    ulong K.machine (num_pages * K.machine.sizeof_pointer + PAGE_SIZE K - 1) &&& PAGE_MASK K
  ulong K.machine (bdev_ttm_bo_size + 2 * page_array_size)

/-- The object a successful `kzalloc` returns: every field is zero, so the
kind is the first of the enumeration. -/
def kzalloc_object : ttm_buffer_object :=
  { type := ttm_bo_type.ttm_bo_type_device }

/-- Modelled from the spec: the global memory accounting of `ttm_memory.c`
(not among the sources), seen as the number of bytes charged.  A successful
`ttm_mem_global_alloc` charges the amount. -/
def ttm_mem_global_charge (used amount : Nat) : Nat := used + amount

/-- Modelled from the spec: `ttm_mem_global_free` (`ttm_memory.c` is not
among the sources) gives an amount charged back. -/
def ttm_mem_global_free (used amount : Nat) : Nat := used - amount

/-- `ttm_buffer_object_create`: the result, the pointer written to `*p_bo`
(none when it is not written), the accounting (`used` bytes are charged when
the call starts) and the state.  The object is created without a `destroy`
function, so `ttm_bo_release_list`, when it frees the object, gives back
`bo->acc_size` with `ttm_mem_global_free`; the embedding of
`ttm_bo_release_list` records the freeing in `freed`, from which the
accounting after the call is read off. -/
def ttm_buffer_object_create (K : ttm_consts) (x : collaborators W)
    (c : create_collaborators W) (bdev_ttm_bo_size : Nat) (fuel : Nat) (s : ttm_bo_device W)
    (used : Nat) (size : Nat) (type : ttm_bo_type) (flags page_alignment buffer_start : Nat)
    (interruptible : Bool) : outcome × Option Nat × Nat × ttm_bo_device W :=
  let acc_size :=
    ttm_bo_size K bdev_ttm_bo_size
      (ulong K.machine (size + PAGE_SIZE K - 1) >>> K.PAGE_SHIFT)
  let a := c.ttm_mem_global_alloc s.ext acc_size
  let s1 := set_ext s a.2
  if a.1 ≠ 0 then (outcome.ret a.1, none, used, s1)
  else
    let charged := ttm_mem_global_charge used acc_size
    let k := c.kzalloc s1.ext
    let s2 := set_ext s1 k.2
    match k.1 with
    | none => (outcome.ret (-ENOMEM), none, ttm_mem_global_free charged acc_size, s2)
    | some b =>
      let r := ttm_buffer_object_init K x c fuel (set_bo s2 b kzalloc_object) b size type
        flags page_alignment buffer_start interruptible
      (r.1, if r.1 = outcome.ret 0 then some b else none,
        if (r.2.bo b).freed then ttm_mem_global_free charged acc_size else charged, r.2)

/-! ## Cleaning a memory type -/

/-- `ttm_bo_leave_list`. -/
def ttm_bo_leave_list (K : ttm_consts) (x : collaborators W) (fuel : Nat)
    (s : ttm_bo_device W) (b : Nat) (mem_type : Nat) (allow_errors : Bool) :
    outcome × ttm_bo_device W :=
  let e := ttm_bo_expire_sync_obj K x fuel s b allow_errors
  match e.1 with
  | outcome.ret 0 =>
    let r : outcome × ttm_bo_device W :=
      if (e.2.bo b).mem.mem_type = mem_type then ttm_bo_evict K x fuel e.2 b mem_type false false
      else (outcome.ret 0, e.2)
    match r.1 with
    | outcome.ret code =>
      if code ≠ 0 ∧ allow_errors = false then (outcome.ret 0, r.2) else (outcome.ret code, r.2)
    | o => (o, r.2)
  | o => (o, e.2)

/-- The `while (!list_empty(head))` loop of `ttm_bo_force_list_clean`, where
`head` is the LRU of the memory type `head`.  The first buffer of the list is
reserved with a wait that cannot be interrupted, which in isolation does not
end when the buffer is reserved already; `BUG_ON(ret)` follows the puts of the
list references. -/
def force_list_clean_loop (K : ttm_consts) (x : collaborators W) (fuel : Nat)
    (head mem_type : Nat) (allow_errors : Bool) :
    Nat → ttm_bo_device W → outcome × ttm_bo_device W
  | 0, s => (outcome.fuel, s)
  | n + 1, s =>
    match (man_at s head).lru with
    | [] => (outcome.ret 0, s)
    | entry :: _ =>
      let r := ttm_bo_reserve_locked x (list_kref_get s entry) entry false false false 0
      match r.1 with
      | outcome.ret code =>
        let d := ttm_bo_del_from_lru r.2 entry
        match list_kref_put_bug d.1 d.2 entry with
        | (outcome.ret _, s3) =>
          if code ≠ 0 then (outcome.bug, s3)
          else
            let l := ttm_bo_leave_list K x fuel s3 entry mem_type allow_errors
            match l.1 with
            | outcome.ret _ =>
              match ttm_bo_unreserve K l.2 entry with
              | none => (outcome.bug, l.2)
              | some s4 =>
                match list_kref_put_release x s4 entry with
                | none => (outcome.bug, list_kref_dec s4 entry)
                | some s5 => force_list_clean_loop K x fuel head mem_type allow_errors n s5
            | o => (o, l.2)
        | (o, s3) => (o, s3)
      | o => (o, r.2)

/-- `ttm_bo_force_list_clean`; each turn of its loop uses one unit of fuel. -/
def ttm_bo_force_list_clean (K : ttm_consts) (x : collaborators W) (fuel : Nat)
    (s : ttm_bo_device W) (head mem_type : Nat) (allow_errors : Bool) :
    outcome × ttm_bo_device W :=
  force_list_clean_loop K x fuel head mem_type allow_errors fuel s

end model

/-! ## Invariants and frames -/

section invariants

variable {W : Type}

/-- The buffer is linked into a memory-type LRU or into the swap list. -/
def listed (s : ttm_bo_device W) (b : Nat) : Prop :=
  on_lru s b = true ∨ on_swap s b = true

/-- The invariant of the data model: no buffer that is reserved or carries
`TTM_PL_FLAG_NO_EVICT` is on a memory-type LRU or on the swap list. -/
def lru_invariant (K : ttm_consts) (s : ttm_bo_device W) : Prop :=
  ∀ b, listed s b → (s.bo b).reserved = 0 ∧ (s.bo b).mem.flags &&& K.TTM_PL_FLAG_NO_EVICT = 0

/-- The two states have the same LRU lists and the same swap list. -/
def same_lists (s s1 : ttm_bo_device W) : Prop :=
  s1.man.map (fun m => m.lru) = s.man.map (fun m => m.lru) ∧ s1.swap_lru = s.swap_lru

/-- From `s` to `s1` only buffer `b`, the allocators and the collaborators
have changed, and `b` has kept its reserved bit. -/
def touches (b : Nat) (s s1 : ttm_bo_device W) : Prop :=
  same_lists s s1 ∧ (∀ c, c ≠ b → s1.bo c = s.bo c) ∧ (s1.bo b).reserved = (s.bo b).reserved

/-- Buffer `b` has in `s1` the reserved bit, the placement record and the
offset it had in `s`. -/
def keeps (b : Nat) (s s1 : ttm_bo_device W) : Prop :=
  (s1.bo b).reserved = (s.bo b).reserved ∧ (s1.bo b).mem = (s.bo b).mem ∧
    (s1.bo b).offset = (s.bo b).offset

/-- Every buffer that is reserved in `s`, other than those in `e`, is kept. -/
def frame_except (e : Nat → Prop) (s s1 : ttm_bo_device W) : Prop :=
  ∀ b, ¬ e b → (s.bo b).reserved ≠ 0 → keeps b s s1

/-- What the eviction engine guarantees from `s` to `s1`: the invariant is
preserved and every buffer reserved in `s`, other than those in `e`, is
kept. -/
def safe_step (K : ttm_consts) (e : Nat → Prop) (s s1 : ttm_bo_device W) : Prop :=
  (lru_invariant K s → lru_invariant K s1) ∧ frame_except e s s1

/-- What a call of `ttm_bo_handle_move_mem` on buffer `b` with target `mem`
may do: `r` is its result, the target as left, and the new state.  Only `b`,
the allocators and the collaborators change; on failure the placement
record and offset of `b`, the target and the managers are as before; on
success the placement record is the target (with the old proposed flags),
the target has given up its extent, and the offset follows the new extent,
in `unsigned long` arithmetic. -/
def move_contract (K : ttm_consts) (s : ttm_bo_device W) (b : Nat) (mem : ttm_mem_reg)
    (r : Int × ttm_mem_reg × ttm_bo_device W) : Prop :=
  touches b s r.2.2 ∧
  (r.1 ≠ 0 → keeps b s r.2.2 ∧ r.2.1 = mem ∧ r.2.2.man = s.man) ∧
  (r.1 = 0 →
    (r.2.2.bo b).mem = { mem with proposed_flags := (s.bo b).mem.proposed_flags } ∧
    r.2.1 = { mem with mm_node := none } ∧
    (∀ n, mem.mm_node = some n →
      (r.2.2.bo b).offset =
        ulong K.machine (ulong K.machine (n.start <<< K.PAGE_SHIFT) +
          (man_at r.2.2 mem.mem_type).gpu_offset)) ∧
    (mem.mm_node = none → (r.2.2.bo b).offset = (s.bo b).offset))

/-- An eviction routine is safe when every call of it on buffer `b` is a safe
step that may change `b` itself. -/
def evict_safe (K : ttm_consts) (evict : evict_fn W) : Prop :=
  ∀ s b t i nw, safe_step K (fun c => c = b) s (evict s b t i nw).2

/-- A space search is safe when every call of it is a safe step. -/
def mem_space_safe (K : ttm_consts) (mem_space : mem_space_fn W) : Prop :=
  ∀ s b mem i nw, safe_step K (fun _ => False) s (mem_space s b mem i nw).2.2

/-- The first pass of `ttm_bo_mem_space` gets nothing from memory type `u`
for a request with the proposed flags `flags`, `np` pages and alignment `pa`:
the type is not compatible, or it is not the system type and its manager is
not initialised and enabled or has no free extent of that size. -/
def passes_over (K : ttm_consts) (x : collaborators W) (s : ttm_bo_device W) (type_user : Bool)
    (flags np pa u : Nat) : Prop :=
  ttm_bo_mt_compatible K (man_at s u) type_user u flags = none ∨
  (u ≠ K.TTM_PL_SYSTEM ∧
    (((man_at s u).has_type && (man_at s u).use_type) = false ∨
      ∀ w, x.drm_mm_search_free w (man_at s u).manager np pa = none))

/-- Memory type `t` has something for the request: it is compatible, with
the mask `f`, and either it is the system type (`st` is none) or its manager
is initialised and enabled and has a free extent, which starts at the page
`st`. -/
def offers (K : ttm_consts) (x : collaborators W) (s : ttm_bo_device W) (type_user : Bool)
    (flags np pa t f : Nat) (st : Option Nat) : Prop :=
  ttm_bo_mt_compatible K (man_at s t) type_user t flags = some f ∧
  ((t = K.TTM_PL_SYSTEM ∧ st = none) ∨
    (t ≠ K.TTM_PL_SYSTEM ∧ ((man_at s t).has_type && (man_at s t).use_type) = true ∧
      ∃ a, st = some a ∧ ∀ w, x.drm_mm_search_free w (man_at s t).manager np pa = some a))

/-- The state after the allocator of type `t` has handed out the extent of
`np` pages starting at `st`, if any. -/
def with_extent (s : ttm_bo_device W) (t np : Nat) (st : Option Nat) : ttm_bo_device W :=
  match st with
  | some a => drm_mm_take s ⟨a, np, t⟩
  | none => s

/-- The number of lists (memory-type LRU, swap list, delayed-destroy list)
that buffer `b` is on. -/
def lists_on (s : ttm_bo_device W) (b : Nat) : Int :=
  (if on_lru s b = true then 1 else 0) + (if on_swap s b = true then 1 else 0) +
    (if b ∈ s.ddestroy then 1 else 0)

/-- The configuration of a memory-type manager: what `ttm_bo_init_mm` sets
and no later call changes, i.e. the manager without its LRU and without the
state of its allocator. -/
def config_of (m : ttm_mem_type_manager) : ttm_mem_type_manager :=
  { m with lru := [], manager := {} }

/-- The two states have the same managers apart from the LRU lists and the
allocators. -/
def same_config (s s1 : ttm_bo_device W) : Prop :=
  s1.man.map config_of = s.man.map config_of

/-- The two states have the same allocators. -/
def same_alloc (s s1 : ttm_bo_device W) : Prop :=
  s1.man.map (fun m => m.manager) = s.man.map (fun m => m.manager)

/-- Every call of a collaborator that can fail succeeds: the allocator's
`drm_mm_pre_get` and `drm_mm_get_block_atomic`, the three data movers, and
the ttm calls `ttm_tt_create`, `ttm_tt_set_placement_caching` and
`ttm_tt_bind`. -/
def obliging (x : collaborators W) : Prop :=
  (∀ w, (x.drm_mm_pre_get w).1 = 0) ∧
  (∀ w, (x.drm_mm_get_block_atomic w).1 = true) ∧
  (∀ w, (x.move w).1 = 0) ∧
  (∀ w, (x.ttm_bo_move_ttm w).1 = 0) ∧
  (∀ w, (x.ttm_bo_move_memcpy w).1 = 0) ∧
  (∀ w n u, (x.ttm_tt_create w n u).1 ≠ none) ∧
  (∀ w a f, (x.ttm_tt_set_placement_caching w a f).1 = 0) ∧
  (∀ w a, (x.ttm_tt_bind w a).1 = 0)

/-- The object `o1` has the counts, the sync object, the kind and the freed
mark of `o`. -/
def same_refs (o o1 : ttm_buffer_object) : Prop :=
  o1.list_kref = o.list_kref ∧ o1.kref = o.kref ∧ o1.cpu_writers = o.cpu_writers ∧
  o1.freed = o.freed ∧ o1.sync_obj = o.sync_obj ∧ o1.type = o.type

/-- The state after the extent of buffer `b`, if it holds one, has gone back
to its allocator. -/
def without_extent (s : ttm_bo_device W) (b : Nat) : ttm_bo_device W :=
  match (s.bo b).mem.mm_node with
  | some n => drm_mm_put_block s n
  | none => s

/-- Buffer `v` can be evicted from memory type `t` without further ado: it
is not reserved, lives in `t`, has no sync object, has a ttm or can get one,
holds more list references than the lists it is on, and its extent, if any,
comes from the allocator of `t`. -/
def evictable (s : ttm_bo_device W) (t v : Nat) : Prop :=
  (s.bo v).reserved = 0 ∧ (s.bo v).mem.mem_type = t ∧ (s.bo v).sync_obj = none ∧
  ((s.bo v).ttm ≠ none ∨ (s.bo v).type ≠ ttm_bo_type.illegal) ∧
  ((ttm_bo_del_from_lru s v).1 : Int) < (s.bo v).list_kref ∧
  (∀ n, (s.bo v).mem.mm_node = some n → n.mm = t)

/-- Evictions from memory type `t` go to system memory: for every buffer in
`t`, the eviction flags the driver proposes do not name `t`, are compatible
with system memory, and the types `pre` that precede system memory in the
driver's order are incompatible with them or are not initialised and
enabled. -/
def evicts_to_system (K : ttm_consts) (x : collaborators W) (s : ttm_bo_device W) (t : Nat)
    (pre : List Nat) : Prop :=
  ∀ o : ttm_buffer_object, o.mem.mem_type = t →
    ttm_bo_type_flags t &&& x.evict_flags o = 0 ∧
    (∀ u ∈ pre,
      ttm_bo_mt_compatible K (man_at s u) (decide (o.type = ttm_bo_type.ttm_bo_type_user)) u
        (x.evict_flags o) = none ∨
      (u ≠ K.TTM_PL_SYSTEM ∧ ((man_at s u).has_type && (man_at s u).use_type) = false)) ∧
    ttm_bo_mt_compatible K (man_at s K.TTM_PL_SYSTEM)
      (decide (o.type = ttm_bo_type.ttm_bo_type_user)) K.TTM_PL_SYSTEM (x.evict_flags o) ≠ none

/-- The extents the allocator of a memory type still holds once the buffers
`l` have given theirs back. -/
def nodes_after (s : ttm_bo_device W) (l : List Nat) (nodes : List drm_mm_node) :
    List drm_mm_node :=
  l.foldl (fun ns v =>
    match (s.bo v).mem.mm_node with
    | some n => ns.erase n
    | none => ns) nodes

/-- The list references of buffer `b` are accounted for, with `k` more of
them held in passing.  A buffer on the delayed-destroy list has no strong
reference.  While the object is not freed it holds a list reference for
every list it is on, one more while its strong count is non-zero, and the
`k` on top; once the strong count is zero no CPU writer is registered.  A
freed object has both counts zero, no CPU writer, no sync object, no extent
and is on no list. -/
def counted (s : ttm_bo_device W) (b : Nat) (k : Int) : Prop :=
  (b ∈ s.ddestroy → (s.bo b).kref = 0) ∧
  ((s.bo b).freed = false →
    lists_on s b + (if (s.bo b).kref = 0 then 0 else 1) + k ≤ (s.bo b).list_kref ∧
    ((s.bo b).kref = 0 → (s.bo b).cpu_writers = 0)) ∧
  ((s.bo b).freed = true →
    (s.bo b).list_kref = 0 ∧ (s.bo b).kref = 0 ∧ (s.bo b).cpu_writers = 0 ∧
    (s.bo b).sync_obj = none ∧ (s.bo b).mem.mm_node = none ∧ lists_on s b = 0)

/-- The reference counts of the device are sound while `held c` list
references of each buffer `c` are held in passing: the delayed-destroy list
has no duplicates and the list references of every buffer are accounted
for. -/
def held_sound (s : ttm_bo_device W) (held : Nat → Int) : Prop :=
  s.ddestroy.Nodup ∧ ∀ c, counted s c (held c)

/-- The reference counts of the device are sound, with no list reference
held in passing. -/
def refs_sound (s : ttm_bo_device W) : Prop :=
  held_sound s (fun _ => 0)

/-- From `s` to `s1` nothing has changed that bears on the reference counts:
the lists are the same, the buffers other than `b` are the same, and `b` has
kept its counts, its freed mark and its placement record, and has not gained
a sync object. -/
def same_counts (b : Nat) (s s1 : ttm_bo_device W) : Prop :=
  s1.man = s.man ∧ s1.swap_lru = s.swap_lru ∧ s1.ddestroy = s.ddestroy ∧
  (∀ c, c ≠ b → s1.bo c = s.bo c) ∧
  (s1.bo b).list_kref = (s.bo b).list_kref ∧ (s1.bo b).kref = (s.bo b).kref ∧
  (s1.bo b).cpu_writers = (s.bo b).cpu_writers ∧ (s1.bo b).freed = (s.bo b).freed ∧
  (s1.bo b).mem = (s.bo b).mem ∧ ((s.bo b).sync_obj = none → (s1.bo b).sync_obj = none)

/-- The object without its list reference count. -/
def apart_from_list_kref (o : ttm_buffer_object) : ttm_buffer_object :=
  { o with list_kref := 0 }

/-- Every buffer that is reserved in `s`, other than those in `e`, is in `s1`
as it was in `s`, apart from its list reference count. -/
def held_fixed (e : Nat → Prop) (s s1 : ttm_bo_device W) : Prop :=
  ∀ c, ¬ e c → (s.bo c).reserved ≠ 0 →
    apart_from_list_kref (s1.bo c) = apart_from_list_kref (s.bo c)

/-- An eviction routine leaves the reserved buffers alone when every call of
it on buffer `b` leaves every other reserved buffer as it was. -/
def evict_fixed (evict : evict_fn W) : Prop :=
  ∀ s b t i nw, held_fixed (fun c => c = b) s (evict s b t i nw).2

/-- A space search leaves the reserved buffers alone. -/
def mem_space_fixed (mem_space : mem_space_fn W) : Prop :=
  ∀ s b mem i nw, held_fixed (fun _ => False) s (mem_space s b mem i nw).2.2

/-- The number of lists among the memory-type LRUs and the swap list that
buffer `b` is on. -/
def memberships (s : ttm_bo_device W) (b : Nat) : Int :=
  (if on_lru s b = true then 1 else 0) + (if on_swap s b = true then 1 else 0)

/-- The list references of buffer `b` beyond those that its LRU and the swap
list hold. -/
def spare (s : ttm_bo_device W) (b : Nat) : Int :=
  (s.bo b).list_kref - memberships s b

/-- Every buffer on an LRU or on the swap list holds a list reference besides
those of these lists. -/
def backed (s : ttm_bo_device W) : Prop :=
  ∀ c, listed s c → 1 ≤ spare s c

/-- Every buffer on an LRU or on the swap list that has no strong reference
is on the delayed-destroy list, where `ttm_bo_cleanup_refs` puts a buffer
that has lost its last strong reference while it is busy. -/
def orphans_queued (s : ttm_bo_device W) : Prop :=
  ∀ c, listed s c → (s.bo c).kref = 0 → c ∈ s.ddestroy

/-- What a list walker does from `s` to `s1`: the delayed-destroy list is
the same, no buffer has joined an LRU or the swap list that was on none of
them, a buffer that was on none of them (other than those in `e`) is as it
was, no buffer has changed its strong count, its CPU writers or its freed
mark, and no buffer has lost a list reference that is not the reference of
an LRU or of the swap list. -/
def walked (e : Nat → Prop) (s s1 : ttm_bo_device W) : Prop :=
  s1.ddestroy = s.ddestroy ∧
  (∀ c, listed s1 c → listed s c) ∧
  (∀ c, ¬ e c → ¬ listed s c → s1.bo c = s.bo c) ∧
  (∀ c, (s1.bo c).kref = (s.bo c).kref ∧ (s1.bo c).cpu_writers = (s.bo c).cpu_writers ∧
    (s1.bo c).freed = (s.bo c).freed) ∧
  (∀ c, spare s c ≤ spare s1 c)

/-- An eviction routine walks the lists soundly. -/
def evict_walks (evict : evict_fn W) : Prop :=
  ∀ s b t i nw, backed s → walked (fun c => c = b) s (evict s b t i nw).2

/-- A space search walks the lists soundly. -/
def mem_space_walks (mem_space : mem_space_fn W) : Prop :=
  ∀ s b mem i nw, backed s → walked (fun _ => False) s (mem_space s b mem i nw).2.2

/-- From `s` to `s1` no object has been freed and no list reference count
that was positive has been brought to zero, so `ttm_bo_release_list`, which
`kref_put` calls when the count reaches zero, has not been entered. -/
def none_released (s s1 : ttm_bo_device W) : Prop :=
  (∀ c, (s1.bo c).freed = (s.bo c).freed) ∧
  (∀ c, 0 < (s.bo c).list_kref → 0 < (s1.bo c).list_kref)

end invariants

/-! ## Example configurations -/

/-- A 64-bit platform. -/
def lp64 : platform :=
  { BITS_PER_LONG := 64, sizeof_pointer := 8 }

/-- The values the TTM headers give the constants, on a 64-bit platform. -/
def consts0 : ttm_consts :=
  { TTM_PL_SYSTEM := 0,
    TTM_PL_FLAG_SYSTEM := 1,
    TTM_PL_FLAG_CACHED := 65536,
    TTM_PL_FLAG_UNCACHED := 131072,
    TTM_PL_FLAG_WC := 262144,
    TTM_PL_FLAG_NO_EVICT := 2097152,
    TTM_PL_MASK_MEM := 255,
    TTM_PL_MASK_CACHING := 458752,
    TTM_PL_MASK_MEMTYPE := 459007,
    TTM_MEMTYPE_FLAG_FIXED := 1,
    TTM_MEMTYPE_FLAG_CMA := 8,
    TTM_BO_PRIV_FLAG_EVICTED := 1,
    TTM_BO_PRIV_FLAG_MOVING := 2,
    PAGE_SHIFT := 12,
    machine := lp64 }

/-- Collaborators with no state of their own: every call succeeds, no sync
object is signaled, no signal is pending, the allocator finds nothing. -/
def quiet : collaborators Unit :=
  { mem_type_prio := [1, 0],
    mem_busy_prio := [1, 0],
    has_move := false,
    move := fun w => (0, w),
    evict_flags := fun _ => 65537,
    invalidate_caches := fun w _ => (0, w),
    sync_obj_signaled := fun _ _ _ => false,
    sync_obj_flush := fun w _ _ => w,
    sync_obj_wait := fun w _ _ _ _ => (outcome.ret 0, w),
    drm_mm_pre_get := fun w => (0, w),
    drm_mm_search_free := fun _ _ _ _ => none,
    drm_mm_get_block_atomic := fun w => (true, w),
    ttm_tt_create := fun w _ _ => (some 1, w),
    ttm_tt_set_placement_caching := fun w _ _ => (0, w),
    ttm_tt_bind := fun w _ => (0, w),
    ttm_tt_unbind := fun w _ => w,
    ttm_tt_destroy := fun w _ => w,
    ttm_tt_swapout := fun w _ => (0, w),
    ttm_bo_move_ttm := fun w => (0, w),
    ttm_bo_move_memcpy := fun w => (0, w),
    unmap_mapping_range := fun w => w,
    signal_pending := fun _ => false,
    timed_out := fun _ => true }

/-- A device with a system memory type (0) and one aperture type (1), whose
buffers are all in the state given. -/
def device_of (o : ttm_buffer_object) : ttm_bo_device Unit :=
  { ext := (),
    bo := fun _ => o,
    man := [{ has_type := true, use_type := true, available_caching := 458752,
              default_caching := 65536 },
            { has_type := true, use_type := true, available_caching := 458752,
              default_caching := 262144 }] }

/-- A buffer in system memory, cached, held by the transaction with
sequence number 10. -/
def held_by_10 : ttm_buffer_object :=
  { mem := { mem_type := 0, flags := 65537 }, proposed_flags := 65537,
    reserved := 1, seq_valid := true, val_seq := 10, kref := 1, list_kref := 1 }

/-- A device whose buffers are free, in system memory, with a ttm; buffer 0
is on the LRU of its type and on the swap list and has the two list
references that keeps, next to the one of its creator. -/
def free_listed : ttm_bo_device Unit :=
  { ext := (),
    bo := fun _ => { mem := { mem_type := 0, flags := 65537 }, proposed_flags := 65537,
                     ttm := some 7, kref := 1, list_kref := 3 },
    man := [{ has_type := true, use_type := true, available_caching := 458752,
              default_caching := 65536, lru := [0] },
            { has_type := true, use_type := true, available_caching := 458752,
              default_caching := 262144 }],
    swap_lru := [0] }

/-- Collaborators under which the aperture has free space at page 0 but the
data mover `ttm_bo_move_ttm` fails for lack of memory. -/
def mover_fails : collaborators Unit :=
  { quiet with
    drm_mm_search_free := fun _ _ _ _ => some 0,
    ttm_bo_move_ttm := fun w => (-ENOMEM, w) }

/-- A reserved four-page buffer in system memory, cached, with a ttm. -/
def in_system : ttm_buffer_object :=
  { num_pages := 4, mem := { num_pages := 4, mem_type := 0, flags := 65537 },
    proposed_flags := 65537, ttm := some 7, reserved := 1, kref := 1, list_kref := 1 }

/-- Collaborators under which no ttm can be created (`ttm_tt_create` returns
NULL). -/
def no_memory : collaborators Unit :=
  { quiet with ttm_tt_create := fun w _ _ => (none, w) }

/-- A reserved buffer as `ttm_buffer_object_init` leaves it before validation
when created with the flags `TTM_PL_FLAG_SYSTEM | TTM_PL_FLAG_CACHED`: in
system memory, cached, without a ttm, proposed flags equal to the placement
flags. -/
def fresh_system : ttm_buffer_object :=
  { num_pages := 4, mem := { num_pages := 4, mem_type := 0, flags := 65537,
                             proposed_flags := 65537 },
    proposed_flags := 65537, ttm := none, reserved := 1, kref := 1, list_kref := 1 }

/-- A reserved buffer whose placement flags and proposed flags are both the
cached bit alone, without any memory-type bit. -/
def no_type_bit : ttm_buffer_object :=
  { num_pages := 4, mem := { num_pages := 4, mem_type := 0, flags := 65536 },
    proposed_flags := 65536, ttm := some 7, reserved := 1, kref := 1, list_kref := 1 }

/-- The buffer `b` after the first statement of `ttm_buffer_object_validate`,
`bo->mem.proposed_flags = bo->proposed_flags`. -/
def stamp_proposed {W : Type} (s : ttm_bo_device W) (b : Nat) : ttm_bo_device W :=
  set_bo s b { s.bo b with
    mem := { (s.bo b).mem with proposed_flags := (s.bo b).proposed_flags } }

/-- Collaborators whose allocator manages an aperture of eight pages in two
slots of four: a search finds the first slot at which no outstanding extent
starts.  Everything else is as in `quiet`. -/
def two_slots : collaborators Unit :=
  { quiet with
    drm_mm_search_free := fun _ d np _ =>
      if 4 < np then none
      else if d.nodes.all (fun n => decide (n.start ≠ 0)) then some 0
      else if d.nodes.all (fun n => decide (n.start ≠ 4)) then some 4
      else none }

/-- A free four-page buffer in the aperture (type 1) at page `4 * b`, write
combined, with a ttm, on the LRU of the aperture and on the swap list. -/
def in_aperture (b : Nat) : ttm_buffer_object :=
  { num_pages := 4,
    mem := { num_pages := 4, mem_type := 1, flags := 262146, mm_node := some ⟨4 * b, 4, 1⟩ },
    proposed_flags := 262146, ttm := some 7, kref := 1, list_kref := 3 }

/-- A device whose aperture is filled by the buffers 0 and 1, both free and
on the lists; the other buffers are reserved and in system memory. -/
def full_aperture : ttm_bo_device Unit :=
  { ext := (),
    bo := fun b => if b < 2 then in_aperture b else in_system,
    man := [{ has_type := true, use_type := true, available_caching := 458752,
              default_caching := 65536 },
            { has_type := true, use_type := true, available_caching := 458752,
              default_caching := 262144, lru := [0, 1],
              manager := { nodes := [⟨0, 4, 1⟩, ⟨4, 4, 1⟩] } }],
    swap_lru := [0, 1] }

/-- The full aperture after `ttm_bo_block_reservation` has set the reserved
bit of buffer 0, which stays on the lists. -/
def busy_head : ttm_bo_device Unit :=
  (ttm_bo_block_reservation two_slots full_aperture 0 false true).2

/-- The full aperture with only buffer 1 on the aperture LRU. -/
def full_aperture_tail : ttm_bo_device Unit :=
  { full_aperture with
    man := [{ has_type := true, use_type := true, available_caching := 458752,
              default_caching := 65536 },
            { has_type := true, use_type := true, available_caching := 458752,
              default_caching := 262144, lru := [1],
              manager := { nodes := [⟨0, 4, 1⟩, ⟨4, 4, 1⟩] } }] }

/-- The full aperture whose two buffers are still rendered from: each has an
unsignaled sync object. -/
def rendering : ttm_bo_device Unit :=
  { full_aperture with
    bo := fun b => if b < 2 then { in_aperture b with sync_obj := some 3 } else in_system }

/-- Collaborators as `two_slots`, for a caller that has a signal pending. -/
def two_slots_signal : collaborators Unit :=
  { two_slots with signal_pending := fun _ => true }

/-- Collaborators whose allocator has room at page 0 but cannot preallocate
its bookkeeping: `drm_mm_pre_get` fails. -/
def starved : collaborators Unit :=
  { quiet with
    drm_mm_search_free := fun _ _ _ _ => some 0,
    drm_mm_pre_get := fun w => (-ENOMEM, w) }

/-- Collaborators whose allocator has room at page 0 but never hands it out:
`drm_mm_get_block_atomic` returns NULL every time. -/
def never_handed : collaborators Unit :=
  { quiet with
    drm_mm_search_free := fun _ _ _ _ => some 0,
    drm_mm_get_block_atomic := fun w => (false, w) }

/-- Collaborators for a device with two apertures (types 1 and 2) next to
system memory: both orders are aperture 1, aperture 2, system.  The
allocator is that of `two_slots`. -/
def three_types : collaborators Unit :=
  { two_slots with mem_type_prio := [1, 2, 0], mem_busy_prio := [1, 2, 0] }

/-- A pinned four-page buffer in the second aperture (type 2) at page
`4 * (b - 2)`: write combined, `TTM_PL_FLAG_NO_EVICT` set, on no list. -/
def in_second (b : Nat) : ttm_buffer_object :=
  { num_pages := 4,
    mem := { num_pages := 4, mem_type := 2, flags := 2359300,
             mm_node := some ⟨4 * (b - 2), 4, 2⟩ },
    proposed_flags := 2359300, ttm := some 7, kref := 1, list_kref := 1 }

/-- A device with two full apertures.  Aperture 1 holds the buffers 0 and 1,
of which only buffer 1 is on its LRU; aperture 2 holds the pinned buffers 2
and 3 and has an empty LRU.  The other buffers are reserved and in system
memory. -/
def two_apertures : ttm_bo_device Unit :=
  { ext := (),
    bo := fun b => if b < 2 then in_aperture b else if b < 4 then in_second b else in_system,
    man := [{ has_type := true, use_type := true, available_caching := 458752,
              default_caching := 65536 },
            { has_type := true, use_type := true, available_caching := 458752,
              default_caching := 262144, lru := [1],
              manager := { nodes := [⟨0, 4, 1⟩, ⟨4, 4, 1⟩] } },
            { has_type := true, use_type := true, available_caching := 458752,
              default_caching := 262144,
              manager := { nodes := [⟨0, 4, 2⟩, ⟨4, 4, 2⟩] } }],
    swap_lru := [0, 1] }

/-- The device `two_apertures` with only buffer 2 in the second aperture,
whose second slot is free. -/
def spare_aperture : ttm_bo_device Unit :=
  { ext := (),
    bo := fun b => if b < 2 then in_aperture b else if b < 3 then in_second b else in_system,
    man := [{ has_type := true, use_type := true, available_caching := 458752,
              default_caching := 65536 },
            { has_type := true, use_type := true, available_caching := 458752,
              default_caching := 262144, lru := [1],
              manager := { nodes := [⟨0, 4, 1⟩, ⟨4, 4, 1⟩] } },
            { has_type := true, use_type := true, available_caching := 458752,
              default_caching := 262144,
              manager := { nodes := [⟨0, 4, 2⟩] } }],
    swap_lru := [0, 1] }

/-- A device whose aperture holds buffer 0 alone: the buffer is still
rendered from (it has an unsignaled sync object), is on the LRU of the
aperture and not on the swap list, and has one list reference for that list
next to the one of its creator.  The other buffers are reserved and in
system memory. -/
def drawn_from : ttm_bo_device Unit :=
  { ext := (),
    bo := fun b =>
      if b = 0 then { in_aperture 0 with sync_obj := some 3, list_kref := 2 } else in_system,
    man := [{ has_type := true, use_type := true, available_caching := 458752,
              default_caching := 65536 },
            { has_type := true, use_type := true, available_caching := 458752,
              default_caching := 262144, lru := [0],
              manager := { nodes := [⟨0, 4, 1⟩] } }] }

/-- Collaborators as `quiet`, under which every sync object is reported
signaled. -/
def all_signaled : collaborators Unit :=
  { quiet with sync_obj_signaled := fun _ _ _ => true }

/-- The manager of an aperture that offers the uncached and the
write-combined mode only and defaults to write combining. -/
def uncached_aperture : ttm_mem_type_manager :=
  { has_type := true, use_type := true, available_caching := 393216,
    default_caching := 262144 }

/-- Collaborators as `two_slots`, for a caller whose wait for a sync object
is interrupted: `sync_obj_wait` returns `-ERESTART`. -/
def wait_interrupted : collaborators Unit :=
  { two_slots with sync_obj_wait := fun w _ _ _ _ => (outcome.ret (-ERESTART), w) }

/-- The device `drawn_from` with buffer 0 reserved by the caller. -/
def drawn_from_held : ttm_bo_device Unit :=
  { drawn_from with
    bo := fun b =>
      if b = 0 then { in_aperture 0 with sync_obj := some 3, list_kref := 2, reserved := 1 }
      else in_system }

/-- Collaborators as `three_types`, whose driver sends every evicted buffer
to the second aperture (type 2), cached. -/
def to_second : collaborators Unit :=
  { three_types with evict_flags := fun _ => 65540 }

/-- The device `two_apertures` with buffer 0 reserved by the caller. -/
def two_apertures_held : ttm_bo_device Unit :=
  { two_apertures with
    bo := fun b => if b = 0 then { in_aperture 0 with reserved := 1 } else two_apertures.bo b }

/-- Collaborators as `to_second`, under which a ttm cannot be bound:
`ttm_tt_bind` fails for lack of memory. -/
def bind_fails : collaborators Unit :=
  { to_second with ttm_tt_bind := fun w _ => (-ENOMEM, w) }

/-- A device with a fixed aperture (type 1, `TTM_MEMTYPE_FLAG_FIXED`) that
holds the reserved buffer 0, which has no ttm, and an empty second aperture
(type 2).  The other buffers are reserved and in system memory. -/
def fixed_aperture : ttm_bo_device Unit :=
  { ext := (),
    bo := fun b =>
      if b = 0 then { in_aperture 0 with ttm := none, reserved := 1, list_kref := 1 }
      else in_system,
    man := [{ has_type := true, use_type := true, available_caching := 458752,
              default_caching := 65536 },
            { has_type := true, use_type := true, flags := 1, available_caching := 458752,
              default_caching := 262144, manager := { nodes := [⟨0, 4, 1⟩] } },
            { has_type := true, use_type := true, available_caching := 458752,
              default_caching := 262144 }] }

/-- Collaborators that count the calls of the driver's `invalidate_caches`
in their state.  Every call succeeds, no sync object is signaled, and the
allocator finds room at page 0. -/
def counting : collaborators Nat :=
  { mem_type_prio := [1, 0],
    mem_busy_prio := [1, 0],
    has_move := false,
    move := fun w => (0, w),
    evict_flags := fun _ => 65537,
    invalidate_caches := fun w _ => (0, w + 1),
    sync_obj_signaled := fun _ _ _ => false,
    sync_obj_flush := fun w _ _ => w,
    sync_obj_wait := fun w _ _ _ _ => (outcome.ret 0, w),
    drm_mm_pre_get := fun w => (0, w),
    drm_mm_search_free := fun _ _ _ _ => some 0,
    drm_mm_get_block_atomic := fun w => (true, w),
    ttm_tt_create := fun w _ _ => (some 1, w),
    ttm_tt_set_placement_caching := fun w _ _ => (0, w),
    ttm_tt_bind := fun w _ => (0, w),
    ttm_tt_unbind := fun w _ => w,
    ttm_tt_destroy := fun w _ => w,
    ttm_tt_swapout := fun w _ => (0, w),
    ttm_bo_move_ttm := fun w => (0, w),
    ttm_bo_move_memcpy := fun w => (0, w),
    unmap_mapping_range := fun w => w,
    signal_pending := fun _ => false,
    timed_out := fun _ => true }

/-- A device with a system memory type (0) and an empty aperture (1), whose
buffers are all reserved, in system memory, cached, with a ttm, and carry
`TTM_BO_PRIV_FLAG_EVICTED`; their proposed flags are `flags`.  No call of
`invalidate_caches` has been counted. -/
def evicted_device (flags : Nat) : ttm_bo_device Nat :=
  { ext := 0,
    bo := fun _ => { in_system with priv_flags := 1, proposed_flags := flags },
    man := [{ has_type := true, use_type := true, available_caching := 458752,
              default_caching := 65536 },
            { has_type := true, use_type := true, available_caching := 458752,
              default_caching := 262144 }] }

/-- A device whose only aperture buffer, buffer 0, has lost its last strong
reference while still rendered from: it has an unsignaled sync object, is on
the LRU of the aperture, on the swap list and on the delayed-destroy list,
and has the three list references those lists hold.  The other buffers are
reserved and in system memory. -/
def zombie : ttm_bo_device Unit :=
  { ext := (),
    bo := fun b =>
      if b = 0 then { in_aperture 0 with sync_obj := some 3, kref := 0, list_kref := 3 }
      else in_system,
    man := [{ has_type := true, use_type := true, available_caching := 458752,
              default_caching := 65536 },
            { has_type := true, use_type := true, available_caching := 458752,
              default_caching := 262144, lru := [0],
              manager := { nodes := [⟨0, 4, 1⟩] } }],
    swap_lru := [0],
    ddestroy := [0] }

/-- A device whose eight memory types are all uninitialised. -/
def no_types : ttm_bo_device Unit :=
  { ext := (),
    bo := fun _ => in_system,
    man := List.replicate 8 {} }

/-- A driver whose `init_mem_type` succeeds and gives the type the three
caching modes, write combining by default, and an allocator whose set-up
succeeds. -/
def plain_driver : mm_collaborators Unit :=
  { init_mem_type := fun w _ m =>
      (0, w, { m with available_caching := 458752, default_caching := 262144 }),
    drm_mm_init := fun w _ _ => (0, w) }

/-- Collaborators of buffer creation under which the caller lacks
`CAP_SYS_ADMIN`, the accounting grants every charge, the kernel hands out the
object named 5, and the device address space has room at page 0. -/
def granting : create_collaborators Unit :=
  { capable := fun _ => false,
    ttm_mem_global_alloc := fun w _ => (0, w),
    kzalloc := fun w => (some 5, w),
    vm_search_free := fun _ _ _ => some 0 }

/-! ## Properties -/

section properties

variable {W : Type}

/-! ### State access -/

@[simp]
theorem set_bo_bo_self (s : ttm_bo_device W) (b : Nat) (o : ttm_buffer_object) :
    (set_bo s b o).bo b = o := by
  simp [set_bo]

theorem set_bo_bo_other (s : ttm_bo_device W) (b c : Nat) (o : ttm_buffer_object)
    (h : c ≠ b) : (set_bo s b o).bo c = s.bo c := by
  simp [set_bo, Function.update_noteq h]

@[simp]
theorem set_bo_man (s : ttm_bo_device W) (b : Nat) (o : ttm_buffer_object) :
    (set_bo s b o).man = s.man := rfl

@[simp]
theorem set_bo_swap_lru (s : ttm_bo_device W) (b : Nat) (o : ttm_buffer_object) :
    (set_bo s b o).swap_lru = s.swap_lru := rfl

@[simp]
theorem set_bo_ext (s : ttm_bo_device W) (b : Nat) (o : ttm_buffer_object) :
    (set_bo s b o).ext = s.ext := rfl

@[simp]
theorem set_bo_ddestroy (s : ttm_bo_device W) (b : Nat) (o : ttm_buffer_object) :
    (set_bo s b o).ddestroy = s.ddestroy := rfl

@[simp]
theorem set_bo_has_dev_mapping (s : ttm_bo_device W) (b : Nat) (o : ttm_buffer_object) :
    (set_bo s b o).has_dev_mapping = s.has_dev_mapping := rfl

@[simp]
theorem set_bo_self (s : ttm_bo_device W) (b : Nat) : set_bo s b (s.bo b) = s := by
  simp [set_bo]

@[simp]
theorem set_bo_set_bo (s : ttm_bo_device W) (b : Nat) (o p : ttm_buffer_object) :
    set_bo (set_bo s b o) b p = set_bo s b p := by
  simp [set_bo]

@[simp]
theorem on_lru_set_bo (s : ttm_bo_device W) (b c : Nat) (o : ttm_buffer_object) :
    on_lru (set_bo s b o) c = on_lru s c := rfl

@[simp]
theorem on_swap_set_bo (s : ttm_bo_device W) (b c : Nat) (o : ttm_buffer_object) :
    on_swap (set_bo s b o) c = on_swap s c := rfl

@[simp]
theorem man_at_set_bo (s : ttm_bo_device W) (b t : Nat) (o : ttm_buffer_object) :
    man_at (set_bo s b o) t = man_at s t := rfl

theorem mem_list_del (l : List Nat) (a b : Nat) : a ∈ list_del l b ↔ a ∈ l ∧ a ≠ b := by
  simp [list_del, List.mem_filter]

theorem on_lru_iff (s : ttm_bo_device W) (b : Nat) :
    on_lru s b = true ↔ ∃ m ∈ s.man, b ∈ m.lru := by
  simp [on_lru, List.any_eq_true]

theorem on_lru_lru_del_self (s : ttm_bo_device W) (b : Nat) : on_lru (lru_del s b) b = false := by
  rw [Bool.eq_false_iff]
  intro h
  rw [on_lru_iff] at h
  obtain ⟨m, hm, hb⟩ := h
  simp only [lru_del, List.mem_map] at hm
  obtain ⟨m0, _, rfl⟩ := hm
  exact ((mem_list_del _ _ _).1 hb).2 rfl

/-! ### List references -/

theorem list_kref_put_bug_ret (n : Nat) (s s1 : ttm_bo_device W) (b : Nat) (c : Int)
    (h : list_kref_put_bug n s b = (outcome.ret c, s1)) :
    c = 0 ∧ s1 = set_bo s b { s.bo b with list_kref := (s.bo b).list_kref - n } := by
  induction n generalizing s with
  | zero =>
    simp only [list_kref_put_bug, Prod.mk.injEq, outcome.ret.injEq] at h
    obtain ⟨h1, h2⟩ := h
    subst h2
    refine ⟨h1.symm, ?_⟩
    simp only [Nat.cast_zero, sub_zero]
    exact (set_bo_self s b).symm
  | succ n ih =>
    simp only [list_kref_put_bug] at h
    split at h
    · simp at h
    · obtain ⟨h1, h2⟩ := ih _ h
      refine ⟨h1, ?_⟩
      rw [h2]
      simp only [set_bo_bo_self, set_bo_set_bo]
      congr 2
      push_cast
      ring

/-! ### The reservation protocol -/

theorem wait_unreserved_held (x : collaborators W) (s : ttm_bo_device W) (b : Nat)
    (i : Bool) (hres : (s.bo b).reserved ≠ 0) :
    ttm_bo_wait_unreserved x s b i =
      if (i && x.signal_pending s.ext) = true then outcome.ret (-ERESTART)
      else outcome.sleeps := by
  cases i <;> cases hsig : x.signal_pending s.ext <;>
    simp [ttm_bo_wait_unreserved, wait_event, wait_event_interruptible, hres, hsig,
      ERESTARTSYS]

theorem reserve_locked_collision (x : collaborators W) (s : ttm_bo_device W) (b : Nat)
    (i nw us : Bool) (q : Nat) (hres : (s.bo b).reserved ≠ 0) :
    ttm_bo_reserve_locked x s b i nw us q =
      (if (us && (s.bo b).seq_valid && decide (u32_sub q (s.bo b).val_seq < 2147483648)) = true
        then outcome.ret (-EAGAIN)
        else if nw = true then outcome.ret (-EBUSY)
        else if (i && x.signal_pending s.ext) = true then outcome.ret (-ERESTART)
        else outcome.sleeps, s) := by
  have h31 : u32 (1 <<< 31) = 2147483648 := by decide
  unfold ttm_bo_reserve_locked
  rw [wait_unreserved_held x s b i hres, h31, if_pos hres]
  by_cases hq : (us && (s.bo b).seq_valid && decide (u32_sub q (s.bo b).val_seq < 2147483648)) = true
  · rw [if_pos hq, if_pos hq]
  · rw [if_neg hq, if_neg hq]
    cases nw
    · by_cases hs : (i && x.signal_pending s.ext) = true
      · simp [hs, ERESTART]
      · simp [hs]
    · simp

theorem reserve_locked_free (x : collaborators W) (s : ttm_bo_device W) (b : Nat)
    (i nw us : Bool) (q : Nat) (hres : (s.bo b).reserved = 0) :
    (ttm_bo_reserve_locked x s b i nw us q).1 = outcome.ret 0 ∧
    ((ttm_bo_reserve_locked x s b i nw us q).2.bo b).reserved = 1 ∧
    (ttm_bo_reserve_locked x s b i nw us q).2.man = s.man ∧
    (ttm_bo_reserve_locked x s b i nw us q).2.swap_lru = s.swap_lru ∧
    ((ttm_bo_reserve_locked x s b i nw us q).2.bo b).list_kref = (s.bo b).list_kref := by
  cases us <;> simp [ttm_bo_reserve_locked, hres]

/-- C1 (as the code has it).  A sequence-ordered reservation attempt on a
buffer that is reserved with a valid recorded sequence does not fail with
`-EAGAIN` when the caller's sequence is older than the recorded one (the
32-bit difference is at least `2^31`, i.e. negative when read as signed): it
returns `-EBUSY` under `no_wait`, returns `-ERESTART` when an interruptible
wait is ended by a signal, and otherwise sleeps until the buffer is
unreserved.  The immediate `-EAGAIN` is the answer in the opposite case, when
the caller is as young as or younger than the holder.  The state is left
unchanged either way. -/
theorem reserve_locked_older_waits (x : collaborators W) (s : ttm_bo_device W) (b : Nat)
    (i nw : Bool) (q : Nat) (hres : (s.bo b).reserved ≠ 0)
    (hvalid : (s.bo b).seq_valid = true) :
    (2147483648 ≤ u32_sub q (s.bo b).val_seq →
      ttm_bo_reserve_locked x s b i nw true q =
        (if nw = true then outcome.ret (-EBUSY)
          else if (i && x.signal_pending s.ext) = true then outcome.ret (-ERESTART)
          else outcome.sleeps, s)) ∧
    (u32_sub q (s.bo b).val_seq < 2147483648 →
      ttm_bo_reserve_locked x s b i nw true q = (outcome.ret (-EAGAIN), s)) := by
  rw [reserve_locked_collision x s b i nw true q hres]
  constructor
  · intro h
    have : ¬ u32_sub q (s.bo b).val_seq < 2147483648 := by omega
    simp [hvalid, this]
  · intro h
    simp [hvalid, h]

/-- C1, witness: sequence 12 against the holder 10 is refused at once. -/
theorem reserve_locked_older_waits_witness :
    ttm_bo_reserve_locked quiet (device_of held_by_10) 0 false false true 12 =
      (outcome.ret (-EAGAIN), device_of held_by_10) :=
  (reserve_locked_older_waits quiet (device_of held_by_10) 0 false false 12
    (by decide) (by decide)).2 (by decide)

/-- C1, counterexample: the buffer is held by sequence 10 and the caller has
the older sequence 5.  The claim promises `-EAGAIN` without blocking and
without `-EBUSY`; the code returns `-EBUSY` under `no_wait` and sleeps
otherwise. -/
theorem reserve_locked_older_not_eagain :
    (held_by_10.reserved ≠ 0 ∧ held_by_10.seq_valid = true ∧ held_by_10.val_seq = 10 ∧
      2147483648 ≤ u32_sub 5 10) ∧
    (ttm_bo_reserve_locked quiet (device_of held_by_10) 0 false true true 5).1
      = outcome.ret (-EBUSY) ∧
    (ttm_bo_reserve_locked quiet (device_of held_by_10) 0 false false true 5).1
      = outcome.sleeps ∧
    (ttm_bo_reserve_locked quiet (device_of held_by_10) 0 false true true 5).1
      ≠ outcome.ret (-EAGAIN) := by
  decide

/-- C2.  For a buffer reserved with a valid recorded sequence `h`, a
sequence-ordered attempt with sequence `q` returns `-EAGAIN` exactly when
`(q - h) mod 2^32 < 2^31`; whenever it does, the state (reserved bit,
`val_seq`, `seq_valid` included) is unchanged; and the verdict is the same
when a constant `c` is added modulo `2^32` to both `q` and `h`. -/
theorem reserve_locked_eagain_iff (x : collaborators W) (s : ttm_bo_device W) (b : Nat)
    (i nw : Bool) (q c : Nat) (hres : (s.bo b).reserved ≠ 0)
    (hvalid : (s.bo b).seq_valid = true) (hq : q < 4294967296)
    (hh : (s.bo b).val_seq < 4294967296) :
    ((ttm_bo_reserve_locked x s b i nw true q).1 = outcome.ret (-EAGAIN) ↔
      ((q : Int) - ((s.bo b).val_seq : Int)) % 4294967296 < 2147483648) ∧
    ((ttm_bo_reserve_locked x s b i nw true q).1 = outcome.ret (-EAGAIN) →
      (ttm_bo_reserve_locked x s b i nw true q).2 = s) ∧
    ((ttm_bo_reserve_locked x
        (set_bo s b { s.bo b with val_seq := u32 ((s.bo b).val_seq + c) }) b i nw true
        (u32 (q + c))).1 = outcome.ret (-EAGAIN) ↔
      (ttm_bo_reserve_locked x s b i nw true q).1 = outcome.ret (-EAGAIN)) := by
  have key : ∀ (s1 : ttm_bo_device W) (q1 : Nat), (s1.bo b).reserved ≠ 0 →
      (s1.bo b).seq_valid = true →
      ((ttm_bo_reserve_locked x s1 b i nw true q1).1 = outcome.ret (-EAGAIN) ↔
        u32_sub q1 (s1.bo b).val_seq < 2147483648) := by
    intro s1 q1 h1 h2
    rw [reserve_locked_collision x s1 b i nw true q1 h1]
    by_cases hlt : u32_sub q1 (s1.bo b).val_seq < 2147483648
    · simp [h2, hlt]
    · cases nw <;> cases i <;> cases x.signal_pending s1.ext <;>
        simp [h2, hlt, EAGAIN, EBUSY, ERESTART]
  refine ⟨?_, ?_, ?_⟩
  · rw [key s q hres hvalid]
    simp only [u32_sub, u32]
    omega
  · intro _
    rw [reserve_locked_collision x s b i nw true q hres]
  · rw [key s q hres hvalid, key _ _ (by simpa using hres) (by simpa using hvalid)]
    simp only [set_bo_bo_self, u32_sub, u32]
    omega

/-- C2, witness: holder `0xFFFFFFFE`, caller 3 (younger across the
wraparound), shift by 7. -/
theorem reserve_locked_eagain_iff_witness :
    (ttm_bo_reserve_locked quiet
        (device_of { held_by_10 with val_seq := 4294967294 }) 0 false true true 3).1
      = outcome.ret (-EAGAIN) :=
  (reserve_locked_eagain_iff quiet (device_of { held_by_10 with val_seq := 4294967294 }) 0
    false true 3 7 (by decide) (by decide) (by decide) (by decide)).1.2 (by decide)

/-- C3.  A non-blocking, unsequenced `ttm_bo_reserve` of a buffer that is
already reserved returns `-EBUSY` without waiting and changes nothing: the
reserved bit, the recorded sequence, every LRU, the swap list and the list
reference count are as before. -/
theorem reserve_busy (x : collaborators W) (s : ttm_bo_device W) (b : Nat)
    (i : Bool) (q : Nat) (hres : (s.bo b).reserved ≠ 0) :
    ttm_bo_reserve x s b i true false q = (outcome.ret (-EBUSY), s) := by
  simp [ttm_bo_reserve, reserve_locked_collision x s b i true false q hres, EBUSY]

/-- C3, witness: a second reservation attempt on a held buffer. -/
theorem reserve_busy_witness :
    ttm_bo_reserve quiet (device_of held_by_10) 0 true true false 0
      = (outcome.ret (-EBUSY), device_of held_by_10) :=
  reserve_busy quiet (device_of held_by_10) 0 true 0 (by decide)

/-! ### Leaving and joining the lists -/

theorem on_swap_list_del (s : ttm_bo_device W) (b : Nat) :
    on_swap { s with swap_lru := list_del s.swap_lru b } b = false := by
  simp [on_swap, mem_list_del]

theorem del_from_lru_spec (s : ttm_bo_device W) (b : Nat) :
    (ttm_bo_del_from_lru s b).1 =
      (if on_lru s b = true then 1 else 0) + (if on_swap s b = true then 1 else 0) ∧
    on_lru (ttm_bo_del_from_lru s b).2 b = false ∧
    on_swap (ttm_bo_del_from_lru s b).2 b = false ∧
    (ttm_bo_del_from_lru s b).2.bo = s.bo ∧
    (ttm_bo_del_from_lru s b).2.ext = s.ext := by
  have h1 : on_lru { s with swap_lru := list_del s.swap_lru b } b = on_lru s b := rfl
  have h2 : on_swap (lru_del s b) b = on_swap s b := rfl
  have h3 : on_swap (lru_del { s with swap_lru := list_del s.swap_lru b } b) b = false :=
    on_swap_list_del s b
  have h4 := on_swap_list_del s b
  cases hs : on_swap s b <;> cases hl : on_lru s b <;>
    simp [ttm_bo_del_from_lru, h1, hl, hs, h2, h3, h4, on_lru_lru_del_self] <;>
    first | rfl | exact ⟨rfl, rfl⟩

/-- C6.  When `ttm_bo_reserve` returns 0 the buffer is on no memory-type LRU
and not on the swap list, and its list reference count has dropped by the
number of those lists it was on; when it returns an error the state, and so
list membership and the list reference count, is unchanged. -/
theorem reserve_leaves_lists (x : collaborators W) (s : ttm_bo_device W) (b : Nat)
    (i nw us : Bool) (q : Nat) :
    ((ttm_bo_reserve x s b i nw us q).1 = outcome.ret 0 →
      on_lru (ttm_bo_reserve x s b i nw us q).2 b = false ∧
      on_swap (ttm_bo_reserve x s b i nw us q).2 b = false ∧
      ((ttm_bo_reserve x s b i nw us q).2.bo b).list_kref =
        (s.bo b).list_kref -
          ((if on_lru s b = true then 1 else 0) + (if on_swap s b = true then 1 else 0))) ∧
    (∀ e : Int, e ≠ 0 → (ttm_bo_reserve x s b i nw us q).1 = outcome.ret e →
      (ttm_bo_reserve x s b i nw us q).2 = s) := by
  by_cases hres : (s.bo b).reserved = 0
  · obtain ⟨h1, _, h3, h4, h5⟩ := reserve_locked_free x s b i nw us q hres
    obtain ⟨d1, d2, d3, d4, _⟩ :=
      del_from_lru_spec (ttm_bo_reserve_locked x s b i nw us q).2 b
    have hl : on_lru (ttm_bo_reserve_locked x s b i nw us q).2 b = on_lru s b := by
      simp [on_lru, h3]
    have hw : on_swap (ttm_bo_reserve_locked x s b i nw us q).2 b = on_swap s b := by
      simp [on_swap, h4]
    unfold ttm_bo_reserve
    simp only [h1, if_true]
    rcases hp : list_kref_put_bug
        (ttm_bo_del_from_lru (ttm_bo_reserve_locked x s b i nw us q).2 b).1
        (ttm_bo_del_from_lru (ttm_bo_reserve_locked x s b i nw us q).2 b).2 b with ⟨o, s2⟩
    cases o with
    | ret c =>
      obtain ⟨_, hs2⟩ := list_kref_put_bug_ret _ _ _ _ _ hp
      refine ⟨fun _ => ?_, fun e he h => ?_⟩
      · subst hs2
        refine ⟨by simpa using d2, by simpa using d3, ?_⟩
        simp only [set_bo_bo_self, d4, h5, d1, hl, hw]
        push_cast
        rfl
      · simp only [outcome.ret.injEq] at h
        exact absurd h.symm he
    | sleeps => exact ⟨fun h => by simp at h, fun e _ h => by simp at h⟩
    | bug => exact ⟨fun h => by simp at h, fun e _ h => by simp at h⟩
    | fuel => exact ⟨fun h => by simp at h, fun e _ h => by simp at h⟩
  · have hc := reserve_locked_collision x s b i nw us q hres
    have hne : (ttm_bo_reserve_locked x s b i nw us q).1 ≠ outcome.ret 0 := by
      rw [hc]
      simp only
      split_ifs <;> simp [EAGAIN, EBUSY, ERESTART]
    have hE : ttm_bo_reserve x s b i nw us q = ttm_bo_reserve_locked x s b i nw us q := by
      simp only [ttm_bo_reserve, if_neg hne]
    rw [hE]
    refine ⟨fun h => absurd h hne, fun e _ _ => ?_⟩
    rw [hc]

theorem getD_modify (l : List ttm_mem_type_manager) (f : ttm_mem_type_manager → ttm_mem_type_manager)
    (t u : Nat) :
    (l.modify f t).getD u default =
      if t = u ∧ u < l.length then f (l.getD u default) else l.getD u default := by
  rw [List.getD_eq_getElem?_getD, List.getD_eq_getElem?_getD, List.getElem?_modify]
  by_cases hu : u < l.length
  · rw [List.getElem?_eq_getElem hu]
    by_cases ht : t = u <;> simp [ht, hu]
  · rw [List.getElem?_eq_none (by omega)]
    simp [hu]

theorem man_at_lru_add_tail (s : ttm_bo_device W) (t b u : Nat) :
    man_at (lru_add_tail s t b) u =
      if t = u ∧ u < s.man.length then { man_at s u with lru := (man_at s u).lru ++ [b] }
      else man_at s u := by
  simp only [man_at, lru_add_tail]
  exact getD_modify s.man _ t u

@[simp]
theorem man_at_list_kref_get (s : ttm_bo_device W) (b t : Nat) :
    man_at (list_kref_get s b) t = man_at s t := rfl

@[simp]
theorem lru_add_tail_bo (s : ttm_bo_device W) (t b : Nat) : (lru_add_tail s t b).bo = s.bo := rfl

@[simp]
theorem lru_add_tail_swap_lru (s : ttm_bo_device W) (t b : Nat) :
    (lru_add_tail s t b).swap_lru = s.swap_lru := rfl

@[simp]
theorem lru_add_tail_ext (s : ttm_bo_device W) (t b : Nat) : (lru_add_tail s t b).ext = s.ext := rfl

@[simp]
theorem list_kref_get_man (s : ttm_bo_device W) (b : Nat) : (list_kref_get s b).man = s.man := rfl

@[simp]
theorem list_kref_get_swap_lru (s : ttm_bo_device W) (b : Nat) :
    (list_kref_get s b).swap_lru = s.swap_lru := rfl

@[simp]
theorem list_kref_get_ext (s : ttm_bo_device W) (b : Nat) : (list_kref_get s b).ext = s.ext := rfl

@[simp]
theorem list_kref_get_bo_self (s : ttm_bo_device W) (b : Nat) :
    (list_kref_get s b).bo b = { s.bo b with list_kref := (s.bo b).list_kref + 1 } := by
  simp [list_kref_get]

theorem list_kref_get_bo_other (s : ttm_bo_device W) (b c : Nat) (h : c ≠ b) :
    (list_kref_get s b).bo c = s.bo c := by
  simp [list_kref_get, set_bo_bo_other _ _ _ _ h]

/-- The state `ttm_bo_add_to_lru` leaves when it links the buffer. -/
theorem add_to_lru_links (K : ttm_consts) (s : ttm_bo_device W) (b : Nat)
    (hres : (s.bo b).reserved ≠ 0) (hlru : on_lru s b = false)
    (hne : (s.bo b).mem.flags &&& K.TTM_PL_FLAG_NO_EVICT = 0) :
    ttm_bo_add_to_lru K s b =
      some (if (s.bo b).ttm ≠ none then
          list_kref_get { list_kref_get (lru_add_tail s (s.bo b).mem.mem_type b) b with
            swap_lru := s.swap_lru ++ [b] } b
        else list_kref_get (lru_add_tail s (s.bo b).mem.mem_type b) b) := by
  unfold ttm_bo_add_to_lru
  rw [if_neg hres, if_pos hne, hlru]
  by_cases httm : (s.bo b).ttm = none <;> simp [httm]

theorem add_to_lru_pinned (K : ttm_consts) (s : ttm_bo_device W) (b : Nat)
    (hres : (s.bo b).reserved ≠ 0)
    (hne : (s.bo b).mem.flags &&& K.TTM_PL_FLAG_NO_EVICT ≠ 0) :
    ttm_bo_add_to_lru K s b = some s := by
  unfold ttm_bo_add_to_lru
  rw [if_neg hres, if_neg hne]

/-- C7.  `ttm_bo_unreserve` of a reserved buffer that is on no LRU returns
and clears the reserved bit.  When `TTM_PL_FLAG_NO_EVICT` is clear the buffer
is appended to the tail of the LRU of the memory type `bo->mem.mem_type`, no
other LRU changes, and it is appended to the tail of the swap list exactly
when it has a ttm; the list reference count rises by one per list joined.
When the flag is set no list and no count changes. -/
theorem unreserve_relinks (K : ttm_consts) (s : ttm_bo_device W) (b : Nat)
    (hres : (s.bo b).reserved ≠ 0) (hlru : on_lru s b = false)
    (ht : (s.bo b).mem.mem_type < s.man.length) :
    ∃ s1, ttm_bo_unreserve K s b = some s1 ∧ (s1.bo b).reserved = 0 ∧
      ((s.bo b).mem.flags &&& K.TTM_PL_FLAG_NO_EVICT = 0 →
        (man_at s1 (s.bo b).mem.mem_type).lru = (man_at s (s.bo b).mem.mem_type).lru ++ [b] ∧
        (∀ u, u ≠ (s.bo b).mem.mem_type → (man_at s1 u).lru = (man_at s u).lru) ∧
        ((s.bo b).ttm ≠ none →
          s1.swap_lru = s.swap_lru ++ [b] ∧ (s1.bo b).list_kref = (s.bo b).list_kref + 2) ∧
        ((s.bo b).ttm = none →
          s1.swap_lru = s.swap_lru ∧ (s1.bo b).list_kref = (s.bo b).list_kref + 1)) ∧
      ((s.bo b).mem.flags &&& K.TTM_PL_FLAG_NO_EVICT ≠ 0 →
        s1.man = s.man ∧ s1.swap_lru = s.swap_lru ∧
        (s1.bo b).list_kref = (s.bo b).list_kref) := by
  by_cases hne : (s.bo b).mem.flags &&& K.TTM_PL_FLAG_NO_EVICT = 0
  · have hadd := add_to_lru_links K s b hres hlru hne
    have hm := man_at_lru_add_tail s (s.bo b).mem.mem_type b
    by_cases httm : (s.bo b).ttm = none
    · simp only [httm, ne_eq, not_true_eq_false, if_false] at hadd
      refine ⟨set_bo (list_kref_get (lru_add_tail s (s.bo b).mem.mem_type b) b) b
          { (list_kref_get (lru_add_tail s (s.bo b).mem.mem_type b) b).bo b with reserved := 0 },
        by simp only [ttm_bo_unreserve, hadd], by simp,
        fun _ => ⟨?_, ?_, fun h => absurd httm h, fun _ => ⟨rfl, ?_⟩⟩, fun h => absurd hne h⟩
      · simp [hm, ht]
      · intro u hu
        simp [hm, Ne.symm hu]
      · simp
    · simp only [httm, ne_eq, not_false_eq_true, if_true] at hadd
      refine ⟨set_bo (list_kref_get { list_kref_get (lru_add_tail s (s.bo b).mem.mem_type b) b with
            swap_lru := s.swap_lru ++ [b] } b) b
          { (list_kref_get { list_kref_get (lru_add_tail s (s.bo b).mem.mem_type b) b with
            swap_lru := s.swap_lru ++ [b] } b).bo b with reserved := 0 },
        by simp only [ttm_bo_unreserve, hadd], by simp,
        fun _ => ⟨?_, ?_, fun _ => ⟨rfl, ?_⟩, fun h => absurd h httm⟩, fun h => absurd hne h⟩
      · have h1 := hm (s.bo b).mem.mem_type
        simp only [ht, and_self, if_true] at h1
        simpa [man_at] using congrArg ttm_mem_type_manager.lru h1
      · intro u hu
        have h1 := hm u
        simp only [Ne.symm hu, false_and, if_false] at h1
        simpa [man_at] using congrArg ttm_mem_type_manager.lru h1
      · simp
        ring
  · have hadd := add_to_lru_pinned K s b hres hne
    exact ⟨set_bo s b { s.bo b with reserved := 0 }, by simp only [ttm_bo_unreserve, hadd],
      by simp, fun h => absurd h hne, fun _ => ⟨rfl, rfl, by simp⟩⟩

/-- C7, witness: a reserved buffer in the aperture type 1, on no list, with a
ttm. -/
theorem unreserve_relinks_witness :
    ∃ s1, ttm_bo_unreserve consts0
        (device_of { held_by_10 with mem := { mem_type := 1, flags := 262146 }, ttm := some 7 }) 0
        = some s1 ∧ (s1.bo 0).reserved = 0 :=
  (unreserve_relinks consts0
    (device_of { held_by_10 with mem := { mem_type := 1, flags := 262146 }, ttm := some 7 }) 0
    (by decide) (by decide) (by decide)).imp fun _ h => ⟨h.1, h.2.1⟩

/-- C6, witness: the listed free buffer is reserved; it leaves both lists and
two list references are put. -/
theorem reserve_leaves_lists_witness :
    on_lru (ttm_bo_reserve quiet free_listed 0 false true false 0).2 0 = false ∧
    on_swap (ttm_bo_reserve quiet free_listed 0 false true false 0).2 0 = false ∧
    ((ttm_bo_reserve quiet free_listed 0 false true false 0).2.bo 0).list_kref =
      (free_listed.bo 0).list_kref -
        ((if on_lru free_listed 0 = true then 1 else 0) +
          (if on_swap free_listed 0 = true then 1 else 0)) :=
  (reserve_leaves_lists quiet free_listed 0 false true false 0).1 (by decide)

/-! ### Reservation exclusivity -/

theorem list_kref_put_bug_cases (n : Nat) (s : ttm_bo_device W) (b : Nat) :
    (list_kref_put_bug n s b).1 = outcome.ret 0 ∨ (list_kref_put_bug n s b).1 = outcome.bug := by
  induction n generalizing s with
  | zero => exact Or.inl rfl
  | succ n ih =>
    simp only [list_kref_put_bug]
    split
    · exact Or.inr rfl
    · exact ih _

theorem reserve_step_facts (x : collaborators W) (s : ttm_bo_device W) (b : Nat)
    (i nw us : Bool) (q : Nat) :
    ((ttm_bo_reserve x s b i nw us q).1 = outcome.ret 0 →
      (s.bo b).reserved = 0 ∧ ((ttm_bo_reserve x s b i nw us q).2.bo b).reserved = 1) ∧
    ((ttm_bo_reserve x s b i nw us q).1 ≠ outcome.ret 0 →
      (ttm_bo_reserve x s b i nw us q).1 ≠ outcome.bug →
      ((ttm_bo_reserve x s b i nw us q).2.bo b).reserved = (s.bo b).reserved) := by
  by_cases hres : (s.bo b).reserved = 0
  · obtain ⟨h1, h2, _, _, _⟩ := reserve_locked_free x s b i nw us q hres
    obtain ⟨_, _, _, d4, _⟩ := del_from_lru_spec (ttm_bo_reserve_locked x s b i nw us q).2 b
    unfold ttm_bo_reserve
    simp only [h1, if_true]
    rcases hp : list_kref_put_bug
        (ttm_bo_del_from_lru (ttm_bo_reserve_locked x s b i nw us q).2 b).1
        (ttm_bo_del_from_lru (ttm_bo_reserve_locked x s b i nw us q).2 b).2 b with ⟨o, s2⟩
    cases o with
    | ret c =>
      obtain ⟨_, hs2⟩ := list_kref_put_bug_ret _ _ _ _ _ hp
      subst hs2
      exact ⟨fun _ => ⟨hres, by simp [d4, h2]⟩, fun h => absurd rfl h⟩
    | sleeps =>
      rcases list_kref_put_bug_cases _ _ b with h | h <;> rw [hp] at h <;> simp at h
    | bug => exact ⟨fun h => by simp at h, fun _ h => absurd rfl h⟩
    | fuel =>
      rcases list_kref_put_bug_cases _ _ b with h | h <;> rw [hp] at h <;> simp at h
  · have hc := reserve_locked_collision x s b i nw us q hres
    have hne : (ttm_bo_reserve_locked x s b i nw us q).1 ≠ outcome.ret 0 := by
      rw [hc]
      simp only
      split_ifs <;> simp [EAGAIN, EBUSY, ERESTART]
    have hE : ttm_bo_reserve x s b i nw us q = ttm_bo_reserve_locked x s b i nw us q := by
      simp only [ttm_bo_reserve, if_neg hne]
    rw [hE]
    refine ⟨fun h => absurd h hne, fun _ _ => ?_⟩
    rw [hc]

theorem reserve_locked_step_facts (x : collaborators W) (s : ttm_bo_device W) (b : Nat)
    (i nw us : Bool) (q : Nat) :
    ((ttm_bo_reserve_locked x s b i nw us q).1 = outcome.ret 0 →
      (s.bo b).reserved = 0 ∧ ((ttm_bo_reserve_locked x s b i nw us q).2.bo b).reserved = 1) ∧
    ((ttm_bo_reserve_locked x s b i nw us q).1 ≠ outcome.ret 0 →
      ((ttm_bo_reserve_locked x s b i nw us q).2.bo b).reserved = (s.bo b).reserved) := by
  by_cases hres : (s.bo b).reserved = 0
  · obtain ⟨h1, h2, _⟩ := reserve_locked_free x s b i nw us q hres
    exact ⟨fun _ => ⟨hres, h2⟩, fun h => absurd h1 h⟩
  · have hc := reserve_locked_collision x s b i nw us q hres
    have hne : (ttm_bo_reserve_locked x s b i nw us q).1 ≠ outcome.ret 0 := by
      rw [hc]
      simp only
      split_ifs <;> simp [EAGAIN, EBUSY, ERESTART]
    refine ⟨fun h => absurd h hne, fun _ => ?_⟩
    rw [hc]

theorem unreserve_step_facts (K : ttm_consts) (s s1 : ttm_bo_device W) (b : Nat)
    (h : ttm_bo_unreserve K s b = some s1) :
    (s.bo b).reserved ≠ 0 ∧ (s1.bo b).reserved = 0 := by
  unfold ttm_bo_unreserve at h
  cases ha : ttm_bo_add_to_lru K s b with
  | none => simp [ha] at h
  | some s2 =>
    simp only [ha, Option.some.injEq] at h
    subst h
    refine ⟨?_, by simp⟩
    intro h0
    simp [ttm_bo_add_to_lru, h0] at ha

theorem outstanding_change_failed (c : reservation_call) (o : outcome)
    (hc : c ≠ reservation_call.unreserve) (ho : o ≠ outcome.ret 0) :
    outstanding_change c o = 0 := by
  cases c <;> cases o <;> simp_all [outstanding_change]

theorem reservation_step_count (K : ttm_consts) (x : collaborators W) (s : ttm_bo_device W)
    (b : Nat) (c : reservation_call) (hle : (s.bo b).reserved ≤ 1)
    (hnb : (reservation_step K x s b c).1 ≠ outcome.bug) :
    (((reservation_step K x s b c).2.bo b).reserved : Int) =
      ((s.bo b).reserved : Int) + outstanding_change c (reservation_step K x s b c).1 ∧
    ((reservation_step K x s b c).2.bo b).reserved ≤ 1 := by
  cases c with
  | reserve i nw us q =>
    obtain ⟨h1, h2⟩ := reserve_step_facts x s b i nw us q
    simp only [reservation_step] at hnb ⊢
    by_cases h0 : (ttm_bo_reserve x s b i nw us q).1 = outcome.ret 0
    · obtain ⟨ha, hb⟩ := h1 h0
      rw [h0, hb, ha]
      simp [outstanding_change]
    · rw [h2 h0 hnb, outstanding_change_failed _ _ (by simp) h0]
      exact ⟨by simp, hle⟩
  | reserve_locked i nw us q =>
    obtain ⟨h1, h2⟩ := reserve_locked_step_facts x s b i nw us q
    simp only [reservation_step] at hnb ⊢
    by_cases h0 : (ttm_bo_reserve_locked x s b i nw us q).1 = outcome.ret 0
    · obtain ⟨ha, hb⟩ := h1 h0
      rw [h0, hb, ha]
      simp [outstanding_change]
    · rw [h2 h0, outstanding_change_failed _ _ (by simp) h0]
      exact ⟨by simp, hle⟩
  | unreserve =>
    simp only [reservation_step] at hnb ⊢
    cases hu : ttm_bo_unreserve K s b with
    | none => simp [hu] at hnb
    | some s1 =>
      obtain ⟨ha, hb⟩ := unreserve_step_facts K s s1 b hu
      simp only [hb, outstanding_change]
      have : (s.bo b).reserved = 1 := by omega
      rw [this]
      simp

theorem run_calls_count (K : ttm_consts) (x : collaborators W) (b : Nat)
    (cs : List reservation_call) (s s1 : ttm_bo_device W) (n n1 : Int)
    (hle : (s.bo b).reserved ≤ 1) (hn : ((s.bo b).reserved : Int) = n)
    (h : run_calls K x b cs s n = some (s1, n1)) :
    (s1.bo b).reserved ≤ 1 ∧ ((s1.bo b).reserved : Int) = n1 := by
  induction cs generalizing s n with
  | nil =>
    simp only [run_calls, Option.some.injEq, Prod.mk.injEq] at h
    obtain ⟨h1, h2⟩ := h
    subst h1 h2
    exact ⟨hle, hn⟩
  | cons c cs ih =>
    simp only [run_calls] at h
    split at h
    · simp at h
    · rename_i hnb
      obtain ⟨e1, e2⟩ := reservation_step_count K x s b c hle hnb
      exact ih _ _ e2 (by rw [e1, hn]) h

/-- C4.  In the step relation whose steps are calls of `ttm_bo_reserve`,
`ttm_bo_reserve_locked` and `ttm_bo_unreserve` on one buffer: a reservation
attempt returns 0 only from a state in which the buffer is unreserved and
leaves it reserved; an attempt that fails leaves the reserved bit as it was;
an unreserve that returns leaves the buffer unreserved.  Hence after every
run that starts from an unreserved buffer the number of successful
reservations not yet given back is 0 or 1 and equals the reserved bit, so
when every successful reserve has been matched by an unreserve the buffer is
unreserved. -/
theorem reservation_exclusive (K : ttm_consts) (x : collaborators W) (b : Nat) :
    (∀ (s : ttm_bo_device W) (c : reservation_call), c ≠ reservation_call.unreserve →
      (reservation_step K x s b c).1 = outcome.ret 0 →
      (s.bo b).reserved = 0 ∧ ((reservation_step K x s b c).2.bo b).reserved = 1) ∧
    (∀ (s : ttm_bo_device W) (c : reservation_call), c ≠ reservation_call.unreserve →
      (reservation_step K x s b c).1 ≠ outcome.ret 0 →
      (reservation_step K x s b c).1 ≠ outcome.bug →
      ((reservation_step K x s b c).2.bo b).reserved = (s.bo b).reserved) ∧
    (∀ s : ttm_bo_device W,
      (reservation_step K x s b reservation_call.unreserve).1 ≠ outcome.bug →
      ((reservation_step K x s b reservation_call.unreserve).2.bo b).reserved = 0) ∧
    (∀ (cs : List reservation_call) (s s1 : ttm_bo_device W) (n : Int),
      (s.bo b).reserved = 0 → run_calls K x b cs s 0 = some (s1, n) →
      (n = 0 ∨ n = 1) ∧ ((s1.bo b).reserved : Int) = n ∧ (n = 0 → (s1.bo b).reserved = 0)) := by
  refine ⟨?_, ?_, ?_, ?_⟩
  · intro s c hc h0
    cases c with
    | reserve i nw us q => exact (reserve_step_facts x s b i nw us q).1 h0
    | reserve_locked i nw us q => exact (reserve_locked_step_facts x s b i nw us q).1 h0
    | unreserve => exact absurd rfl hc
  · intro s c hc h0 hb
    cases c with
    | reserve i nw us q => exact (reserve_step_facts x s b i nw us q).2 h0 hb
    | reserve_locked i nw us q => exact (reserve_locked_step_facts x s b i nw us q).2 h0
    | unreserve => exact absurd rfl hc
  · intro s hb
    simp only [reservation_step] at hb ⊢
    cases hu : ttm_bo_unreserve K s b with
    | none => simp [hu] at hb
    | some s1 => exact (unreserve_step_facts K s s1 b hu).2
  · intro cs s s1 n h0 hrun
    obtain ⟨h1, h2⟩ := run_calls_count K x b cs s s1 0 n (by omega) (by simp [h0]) hrun
    refine ⟨by omega, h2, fun hn => ?_⟩
    omega

/-- C4, witness: reserve, a second (refused) reserve, unreserve, reserve,
unreserve on a listed free buffer ends with nothing outstanding. -/
theorem reservation_exclusive_witness :
    ∃ s1 n, run_calls consts0 quiet 0
        [reservation_call.reserve false true false 0, reservation_call.reserve false true false 0,
          reservation_call.unreserve, reservation_call.reserve false false true 4,
          reservation_call.unreserve] free_listed 0 = some (s1, n) ∧
      (n = 0 ∨ n = 1) ∧ ((s1.bo 0).reserved : Int) = n := by
  have hsome : (run_calls consts0 quiet 0
        [reservation_call.reserve false true false 0, reservation_call.reserve false true false 0,
          reservation_call.unreserve, reservation_call.reserve false false true 4,
          reservation_call.unreserve] free_listed 0).isSome = true := by decide
  obtain ⟨r, hr⟩ := Option.isSome_iff_exists.1 hsome
  exact ⟨r.1, r.2, hr, ((reservation_exclusive consts0 quiet 0).2.2.2 _ free_listed r.1 r.2
    (by decide) hr).1, ((reservation_exclusive consts0 quiet 0).2.2.2 _ free_listed r.1 r.2
    (by decide) hr).2.1⟩

/-! ### Waiting for the sync object -/

/-- C9 (code bug).  With `no_wait` set, `ttm_bo_wait` returns 0 whatever the
state of the buffer: for a sync object that is present and not signaled the
loop assigns `ret = -EBUSY` and jumps to the label `out`, which returns the
constant 0.  At the failing input, a buffer whose sync object 3 the driver
reports unsignaled, the call returns 0 and changes nothing: the sync object
is still in place, and `ttm_bo_busy` reports the same buffer busy. -/
theorem wait_no_wait_loses_busy :
    (∀ (K : ttm_consts) (x : collaborators W) (s : ttm_bo_device W) (b : Nat) (lazy i : Bool),
      (ttm_bo_wait K x s b lazy i true).1 = outcome.ret 0) ∧
    ((device_of { held_by_10 with sync_obj := some 3 }).bo 0).sync_obj = some 3 ∧
    quiet.sync_obj_signaled (device_of { held_by_10 with sync_obj := some 3 }).ext 3
      ((device_of { held_by_10 with sync_obj := some 3 }).bo 0).sync_obj_arg = false ∧
    ttm_bo_wait consts0 quiet (device_of { held_by_10 with sync_obj := some 3 }) 0 false true true
      = (outcome.ret 0, device_of { held_by_10 with sync_obj := some 3 }) ∧
    (ttm_bo_busy consts0 quiet (device_of { held_by_10 with sync_obj := some 3 }) 0).1 = 1 := by
  refine ⟨fun K x s b lazy i => ?_, rfl, rfl, rfl, rfl⟩
  unfold ttm_bo_wait
  cases (s.bo b).sync_obj with
  | none => rfl
  | some so =>
    simp only [if_true]
    split <;> rfl

/-! ### Frames -/

theorem modify_map_lru (l : List ttm_mem_type_manager)
    (f : ttm_mem_type_manager → ttm_mem_type_manager) (t : Nat)
    (hf : ∀ m, (f m).lru = m.lru) :
    (l.modify f t).map (fun m => m.lru) = l.map (fun m => m.lru) := by
  induction l generalizing t with
  | nil => cases t <;> simp [List.modify]
  | cons a l ih =>
    cases t with
    | zero => simp [List.modify, hf]
    | succ t => simp [List.modify_succ_cons, ih]

theorem on_lru_eq_map (s : ttm_bo_device W) (b : Nat) :
    on_lru s b = (s.man.map (fun m => m.lru)).any (fun l => decide (b ∈ l)) := by
  unfold on_lru
  induction s.man with
  | nil => rfl
  | cons a l ih => simp [List.any_cons, ih]

theorem same_lists_refl (s : ttm_bo_device W) : same_lists s s := ⟨rfl, rfl⟩

theorem same_lists_trans {s s1 s2 : ttm_bo_device W} (h1 : same_lists s s1)
    (h2 : same_lists s1 s2) : same_lists s s2 :=
  ⟨h2.1.trans h1.1, h2.2.trans h1.2⟩

theorem same_lists_listed {s s1 : ttm_bo_device W} (h : same_lists s s1) (b : Nat) :
    listed s1 b ↔ listed s b := by
  simp only [listed, on_lru_eq_map, on_swap, h.1, h.2]

theorem same_lists_on_lru {s s1 : ttm_bo_device W} (h : same_lists s s1) (b : Nat) :
    on_lru s1 b = on_lru s b := by
  simp only [on_lru_eq_map, h.1]

theorem same_lists_lru_at {s s1 : ttm_bo_device W} (h : same_lists s s1) (t : Nat) :
    (man_at s1 t).lru = (man_at s t).lru := by
  have h1 := congrArg (fun l => l[t]?) h.1
  simp only [List.getElem?_map] at h1
  simp only [man_at, List.getD_eq_getElem?_getD]
  cases h2 : s1.man[t]? <;> cases h3 : s.man[t]? <;> simp_all

theorem same_lists_set_bo (s : ttm_bo_device W) (b : Nat) (o : ttm_buffer_object) :
    same_lists s (set_bo s b o) := ⟨rfl, rfl⟩

theorem same_lists_set_ext (s : ttm_bo_device W) (w : W) : same_lists s (set_ext s w) :=
  ⟨rfl, rfl⟩

theorem same_lists_put_block (s : ttm_bo_device W) (n : drm_mm_node) :
    same_lists s (drm_mm_put_block s n) :=
  ⟨modify_map_lru _ _ _ (fun _ => rfl), rfl⟩

theorem same_lists_take (s : ttm_bo_device W) (n : drm_mm_node) :
    same_lists s (drm_mm_take s n) :=
  ⟨modify_map_lru _ _ _ (fun _ => rfl), rfl⟩

theorem touches_refl (b : Nat) (s : ttm_bo_device W) : touches b s s :=
  ⟨same_lists_refl s, fun _ _ => rfl, rfl⟩

theorem touches_trans {b : Nat} {s s1 s2 : ttm_bo_device W} (h1 : touches b s s1)
    (h2 : touches b s1 s2) : touches b s s2 :=
  ⟨same_lists_trans h1.1 h2.1, fun c hc => (h2.2.1 c hc).trans (h1.2.1 c hc),
    h2.2.2.trans h1.2.2⟩

theorem touches_set_ext (b : Nat) (s : ttm_bo_device W) (w : W) : touches b s (set_ext s w) :=
  ⟨same_lists_set_ext s w, fun _ _ => rfl, rfl⟩

theorem touches_set_bo (b : Nat) (s : ttm_bo_device W) (o : ttm_buffer_object)
    (h : o.reserved = (s.bo b).reserved) : touches b s (set_bo s b o) :=
  ⟨same_lists_set_bo s b o, fun c hc => set_bo_bo_other s b c o hc, by simpa using h⟩

theorem touches_put_block (b : Nat) (s : ttm_bo_device W) (n : drm_mm_node) :
    touches b s (drm_mm_put_block s n) :=
  ⟨same_lists_put_block s n, fun _ _ => rfl, rfl⟩

theorem touches_take (b : Nat) (s : ttm_bo_device W) (n : drm_mm_node) :
    touches b s (drm_mm_take s n) :=
  ⟨same_lists_take s n, fun _ _ => rfl, rfl⟩

theorem keeps_refl (b : Nat) (s : ttm_bo_device W) : keeps b s s := ⟨rfl, rfl, rfl⟩

theorem keeps_trans {b : Nat} {s s1 s2 : ttm_bo_device W} (h1 : keeps b s s1)
    (h2 : keeps b s1 s2) : keeps b s s2 :=
  ⟨h2.1.trans h1.1, h2.2.1.trans h1.2.1, h2.2.2.trans h1.2.2⟩

theorem keeps_of_bo_eq {b : Nat} {s s1 : ttm_bo_device W} (h : s1.bo b = s.bo b) :
    keeps b s s1 := by
  simp [keeps, h]

theorem touches_keeps_other {b c : Nat} {s s1 : ttm_bo_device W} (h : touches b s s1)
    (hc : c ≠ b) : keeps c s s1 :=
  keeps_of_bo_eq (h.2.1 c hc)

theorem frame_except_refl (e : Nat → Prop) (s : ttm_bo_device W) : frame_except e s s :=
  fun b _ _ => keeps_refl b s

theorem frame_except_trans {e : Nat → Prop} {s s1 s2 : ttm_bo_device W}
    (h1 : frame_except e s s1) (h2 : frame_except e s1 s2) : frame_except e s s2 := by
  intro b he hb
  have k1 := h1 b he hb
  exact keeps_trans k1 (h2 b he (by rw [k1.1]; exact hb))

theorem frame_except_mono {e f : Nat → Prop} {s s1 : ttm_bo_device W}
    (h : frame_except e s s1) (hef : ∀ b, e b → f b) : frame_except f s s1 :=
  fun b hf hb => h b (fun he => hf (hef b he)) hb

theorem touches_frame_except {b : Nat} {s s1 : ttm_bo_device W} (h : touches b s s1) :
    frame_except (fun c => c = b) s s1 :=
  fun _ hc _ => touches_keeps_other h hc

theorem touches_invariant {K : ttm_consts} {b : Nat} {s s1 : ttm_bo_device W}
    (h : touches b s s1) (hres : (s.bo b).reserved ≠ 0) (hinv : lru_invariant K s) :
    lru_invariant K s1 := by
  intro c hc
  have hl := (same_lists_listed h.1 c).1 hc
  have hcb : c ≠ b := by
    rintro rfl
    exact hres (hinv c hl).1
  rw [h.2.1 c hcb]
  exact hinv c hl

theorem touches_keeps_invariant {K : ttm_consts} {b : Nat} {s s1 : ttm_bo_device W}
    (h : touches b s s1) (hk : keeps b s s1) (hinv : lru_invariant K s) :
    lru_invariant K s1 := by
  intro c hc
  have hl := (same_lists_listed h.1 c).1 hc
  by_cases hcb : c = b
  · subst hcb
    rw [hk.1, hk.2.1]
    exact hinv c hl
  · rw [h.2.1 c hcb]
    exact hinv c hl

theorem safe_step_refl (K : ttm_consts) (e : Nat → Prop) (s : ttm_bo_device W) :
    safe_step K e s s :=
  ⟨id, frame_except_refl e s⟩

theorem safe_step_trans {K : ttm_consts} {e : Nat → Prop} {s s1 s2 : ttm_bo_device W}
    (h1 : safe_step K e s s1) (h2 : safe_step K e s1 s2) : safe_step K e s s2 :=
  ⟨fun h => h2.1 (h1.1 h), frame_except_trans h1.2 h2.2⟩

theorem safe_step_mono {K : ttm_consts} {e f : Nat → Prop} {s s1 : ttm_bo_device W}
    (h : safe_step K e s s1) (hef : ∀ b, e b → f b) : safe_step K f s s1 :=
  ⟨h.1, frame_except_mono h.2 hef⟩

/-! ### What the collaborating steps touch -/

theorem keeps_set_ext (b : Nat) (s : ttm_bo_device W) (w : W) : keeps b s (set_ext s w) :=
  ⟨rfl, rfl, rfl⟩

theorem keeps_set_bo (b c : Nat) (s : ttm_bo_device W) (o : ttm_buffer_object)
    (h1 : o.reserved = (s.bo c).reserved) (h2 : o.mem = (s.bo c).mem)
    (h3 : o.offset = (s.bo c).offset) : keeps b s (set_bo s c o) := by
  by_cases hb : b = c
  · subst hb
    simp [keeps, h1, h2, h3]
  · exact keeps_of_bo_eq (set_bo_bo_other s c b o hb)

theorem drop_sync_obj_touches (K : ttm_consts) (s : ttm_bo_device W) (b : Nat) :
    touches b s (set_bo s b (drop_sync_obj K (s.bo b))) ∧
    keeps b s (set_bo s b (drop_sync_obj K (s.bo b))) :=
  ⟨touches_set_bo b s _ rfl, keeps_set_bo b b s _ rfl rfl rfl⟩

theorem busy_touches (K : ttm_consts) (x : collaborators W) (s : ttm_bo_device W) (b : Nat) :
    touches b s (ttm_bo_busy K x s b).2 ∧ keeps b s (ttm_bo_busy K x s b).2 := by
  unfold ttm_bo_busy
  split
  · rename_i so hso
    split
    · exact drop_sync_obj_touches K s b
    · simp only
      split
      · exact ⟨touches_trans (touches_set_ext b s _) (drop_sync_obj_touches K _ b).1,
          keeps_trans (keeps_set_ext b s _) (drop_sync_obj_touches K _ b).2⟩
      · exact ⟨touches_set_ext b s _, keeps_set_ext b s _⟩
  · exact ⟨touches_refl b s, keeps_refl b s⟩

theorem wait_touches (K : ttm_consts) (x : collaborators W) (s : ttm_bo_device W) (b : Nat)
    (lazy i nw : Bool) :
    touches b s (ttm_bo_wait K x s b lazy i nw).2 ∧ keeps b s (ttm_bo_wait K x s b lazy i nw).2 := by
  unfold ttm_bo_wait
  split
  · exact ⟨touches_refl b s, keeps_refl b s⟩
  · split
    · exact drop_sync_obj_touches K s b
    · split
      · exact ⟨touches_refl b s, keeps_refl b s⟩
      · simp only
        split
        · exact ⟨touches_trans (touches_set_ext b s _) (drop_sync_obj_touches K _ b).1,
            keeps_trans (keeps_set_ext b s _) (drop_sync_obj_touches K _ b).2⟩
        · exact ⟨touches_set_ext b s _, keeps_set_ext b s _⟩

theorem add_ttm_touches (K : ttm_consts) (x : collaborators W) (s : ttm_bo_device W) (b : Nat) :
    touches b s (ttm_bo_add_ttm K x s b).2 ∧ keeps b s (ttm_bo_add_ttm K x s b).2 ∧
    (ttm_bo_add_ttm K x s b).2.man = s.man := by
  have h0 : touches b s (set_bo s b { s.bo b with ttm := none }) ∧
      keeps b s (set_bo s b { s.bo b with ttm := none }) :=
    ⟨touches_set_bo b s _ rfl, keeps_set_bo b b s _ rfl rfl rfl⟩
  have h1 : ∀ (w : W) (t : Option Nat),
      touches b s (set_bo (set_ext (set_bo s b { s.bo b with ttm := none }) w) b
        { (set_bo s b { s.bo b with ttm := none }).bo b with ttm := t }) ∧
      keeps b s (set_bo (set_ext (set_bo s b { s.bo b with ttm := none }) w) b
        { (set_bo s b { s.bo b with ttm := none }).bo b with ttm := t }) := by
    intro w t
    refine ⟨touches_trans h0.1 (touches_trans (touches_set_ext b _ w)
      (touches_set_bo b _ _ (by simp [set_ext]))), ?_⟩
    exact keeps_trans h0.2 (keeps_trans (keeps_set_ext b _ w)
      (keeps_set_bo b b _ _ (by simp [set_ext]) (by simp [set_ext]) (by simp [set_ext])))
  unfold ttm_bo_add_ttm
  simp only
  split <;> (try split) <;>
    first
    | exact ⟨(h1 _ _).1, (h1 _ _).2, rfl⟩
    | exact ⟨h0.1, h0.2, rfl⟩

@[simp]
theorem set_ext_bo (s : ttm_bo_device W) (w : W) : (set_ext s w).bo = s.bo := rfl

@[simp]
theorem set_ext_man (s : ttm_bo_device W) (w : W) : (set_ext s w).man = s.man := rfl

@[simp]
theorem set_ext_swap_lru (s : ttm_bo_device W) (w : W) : (set_ext s w).swap_lru = s.swap_lru := rfl

@[simp]
theorem man_at_set_ext (s : ttm_bo_device W) (w : W) (t : Nat) :
    man_at (set_ext s w) t = man_at s t := rfl

theorem moved_spec (K : ttm_consts) (x : collaborators W) (s : ttm_bo_device W) (b : Nat)
    (evict : Bool) :
    touches b s (handle_move_mem_moved K x s b evict) ∧
    ((handle_move_mem_moved K x s b evict).bo b).mem = (s.bo b).mem ∧
    (handle_move_mem_moved K x s b evict).man = s.man ∧
    (∀ n, (s.bo b).mem.mm_node = some n →
      ((handle_move_mem_moved K x s b evict).bo b).offset =
        ulong K.machine (ulong K.machine (n.start <<< K.PAGE_SHIFT) +
          (man_at (handle_move_mem_moved K x s b evict) (s.bo b).mem.mem_type).gpu_offset)) ∧
    ((s.bo b).mem.mm_node = none →
      ((handle_move_mem_moved K x s b evict).bo b).offset = (s.bo b).offset) := by
  unfold handle_move_mem_moved
  by_cases hev : (s.bo b).priv_flags &&& K.TTM_BO_PRIV_FLAG_EVICTED ≠ 0
  · simp only [if_pos hev]
    cases hn : (s.bo b).mem.mm_node with
    | none =>
      simp only [set_bo_bo_self, set_ext_bo, hn]
      refine ⟨touches_trans (touches_set_ext b s _) (touches_set_bo b _ _ rfl), ?_, ?_, ?_, ?_⟩ <;>
        simp
    | some n =>
      simp only [set_bo_bo_self, set_ext_bo, hn, set_bo_set_bo]
      refine ⟨touches_trans (touches_set_ext b s _) (touches_set_bo b _ _ rfl), ?_, ?_, ?_, ?_⟩ <;>
        simp
  · simp only [if_neg hev]
    cases hn : (s.bo b).mem.mm_node with
    | none =>
      simp only [set_bo_bo_self, hn]
      refine ⟨touches_set_bo b _ _ rfl, ?_, ?_, ?_, ?_⟩ <;> simp
    | some n =>
      simp only [set_bo_bo_self, hn, set_bo_set_bo]
      refine ⟨touches_set_bo b _ _ rfl, ?_, ?_, ?_, ?_⟩ <;> simp

theorem out_err_spec (K : ttm_consts) (x : collaborators W) (s : ttm_bo_device W) (b : Nat) :
    touches b s (handle_move_mem_out_err K x s b) ∧
    keeps b s (handle_move_mem_out_err K x s b) ∧
    (handle_move_mem_out_err K x s b).man = s.man := by
  unfold handle_move_mem_out_err
  split
  · split
    · exact ⟨touches_trans (touches_set_ext b s _) (touches_set_bo b _ _ rfl),
        keeps_trans (keeps_set_ext b s _) (keeps_set_bo b b _ _ rfl rfl rfl), rfl⟩
    · exact ⟨touches_refl b s, keeps_refl b s, rfl⟩
  · exact ⟨touches_refl b s, keeps_refl b s, rfl⟩

theorem mover_commit_failed (ret : Int) (s : ttm_bo_device W) (b : Nat) (mem : ttm_mem_reg)
    (h : ret ≠ 0) : mover_commit ret s b mem = (ret, mem, s) := by
  simp [mover_commit, h]

theorem mover_commit_done (s : ttm_bo_device W) (b : Nat) (mem : ttm_mem_reg) :
    (mover_commit 0 s b mem).1 = 0 ∧
    (mover_commit 0 s b mem).2.1 = { mem with mm_node := none } ∧
    touches b s (mover_commit 0 s b mem).2.2 ∧
    ((mover_commit 0 s b mem).2.2.bo b).mem =
      { mem with proposed_flags := (s.bo b).mem.proposed_flags } ∧
    ((mover_commit 0 s b mem).2.2.bo b).offset = (s.bo b).offset := by
  unfold mover_commit
  simp only [ne_eq, not_true_eq_false, if_false]
  cases (s.bo b).mem.mm_node with
  | none => exact ⟨trivial, trivial, touches_set_bo b _ _ rfl, by simp, by simp⟩
  | some n =>
    exact ⟨trivial, trivial, touches_trans (touches_put_block b s n) (touches_set_bo b _ _ rfl),
      by simp [drm_mm_put_block], by simp [drm_mm_put_block]⟩

theorem move_contract_pre {K : ttm_consts} {s s0 : ttm_bo_device W} {b : Nat}
    {mem : ttm_mem_reg} {r : Int × ttm_mem_reg × ttm_bo_device W}
    (h0 : touches b s0 s) (hk : keeps b s0 s) (hman : s.man = s0.man)
    (h : move_contract K s b mem r) : move_contract K s0 b mem r := by
  obtain ⟨h1, h2, h3⟩ := h
  refine ⟨touches_trans h0 h1, fun hr => ?_, fun hr => ?_⟩
  · obtain ⟨a1, a2, a3⟩ := h2 hr
    exact ⟨keeps_trans hk a1, a2, a3.trans hman⟩
  · obtain ⟨a1, a2, a3, a4⟩ := h3 hr
    refine ⟨by rw [a1, hk.2.1], a2, a3, fun hn => ?_⟩
    rw [a4 hn, hk.2.2]

theorem move_contract_failed (K : ttm_consts) {s s1 : ttm_bo_device W} {b : Nat}
    (mem : ttm_mem_reg) (ret : Int) (hret : ret ≠ 0) (h0 : touches b s s1)
    (hk : keeps b s s1) (hman : s1.man = s.man) : move_contract K s b mem (ret, mem, s1) :=
  ⟨h0, fun _ => ⟨hk, rfl, hman⟩, fun h => absurd h hret⟩

theorem handle_move_mem_move_contract (K : ttm_consts) (x : collaborators W)
    (s : ttm_bo_device W) (b : Nat) (mem : ttm_mem_reg) (evict old_fixed new_fixed : Bool) :
    move_contract K s b mem (handle_move_mem_move K x s b mem evict old_fixed new_fixed) := by
  unfold handle_move_mem_move
  simp only
  generalize (if (!old_fixed && !new_fixed) = true then x.ttm_bo_move_ttm s.ext
    else if x.has_move = true then x.move s.ext else x.ttm_bo_move_memcpy s.ext) = r
  by_cases hr : r.1 = 0
  · rw [hr]
    obtain ⟨c1, c2, c3, c4, c5⟩ := mover_commit_done (set_ext s r.2) b mem
    obtain ⟨m1, m2, m3, m4, m5⟩ := moved_spec K x (mover_commit 0 (set_ext s r.2) b mem).2.2 b evict
    simp only [c1, ne_eq, not_true_eq_false, if_false]
    refine ⟨touches_trans (touches_set_ext b s _) (touches_trans c3 m1),
      fun h => absurd rfl h, fun _ => ⟨?_, c2, ?_, ?_⟩⟩
    · rw [m2, c4]
      rfl
    · intro n hn
      have := m4 n (by rw [c4]; exact hn)
      rw [this, c4]
    · intro hn
      rw [m5 (by rw [c4]; exact hn), c5]
      rfl
  · rw [mover_commit_failed r.1 _ b mem hr]
    simp only [hr, ne_eq, not_false_eq_true, if_true]
    obtain ⟨e1, e2, e3⟩ := out_err_spec K x (set_ext s r.2) b
    exact move_contract_failed K mem r.1 hr (touches_trans (touches_set_ext b s _) e1)
      (keeps_trans (keeps_set_ext b s _) e2) e3

theorem unmap_virtual_touches (x : collaborators W) (s : ttm_bo_device W) (b : Nat) :
    touches b s (ttm_bo_unmap_virtual x s) ∧ keeps b s (ttm_bo_unmap_virtual x s) ∧
    (ttm_bo_unmap_virtual x s).man = s.man ∧ (ttm_bo_unmap_virtual x s).bo = s.bo := by
  unfold ttm_bo_unmap_virtual
  split
  · exact ⟨touches_set_ext b s _, keeps_set_ext b s _, rfl, rfl⟩
  · exact ⟨touches_refl b s, keeps_refl b s, rfl, rfl⟩

theorem handle_move_mem_contract (K : ttm_consts) (x : collaborators W)
    (s : ttm_bo_device W) (b : Nat) (mem : ttm_mem_reg) (evict i nw : Bool) :
    move_contract K s b mem (ttm_bo_handle_move_mem K x s b mem evict i nw) := by
  unfold ttm_bo_handle_move_mem
  simp only
  generalize hs1 : (if (ttm_mem_reg_is_pci K s (s.bo b).mem || ttm_mem_reg_is_pci K s mem ||
    decide (mem.flags &&& (s.bo b).mem.flags &&& K.TTM_PL_MASK_CACHING = 0)) = true
    then ttm_bo_unmap_virtual x s else s) = s1
  have p1 : touches b s s1 ∧ keeps b s s1 ∧ s1.man = s.man := by
    subst hs1
    split
    · exact ⟨(unmap_virtual_touches x s b).1, (unmap_virtual_touches x s b).2.1,
        (unmap_virtual_touches x s b).2.2.1⟩
    · exact ⟨touches_refl b s, keeps_refl b s, rfl⟩
  refine move_contract_pre p1.1 p1.2.1 p1.2.2 ?_
  split
  · obtain ⟨a1, a2, a3⟩ := add_ttm_touches K x s1 b
    by_cases ha : (ttm_bo_add_ttm K x s1 b).1 = 0
    · simp only [ha, ne_eq, not_true_eq_false, if_false]
      refine move_contract_pre a1 a2 a3 ?_
      generalize (ttm_bo_add_ttm K x s1 b).2 = s2
      by_cases hc : (x.ttm_tt_set_placement_caching s2.ext ((s2.bo b).ttm.getD 0) mem.flags).1 = 0
      · simp only [hc, ne_eq, not_true_eq_false, if_false]
        refine move_contract_pre
          (touches_set_ext b s2
            (x.ttm_tt_set_placement_caching s2.ext ((s2.bo b).ttm.getD 0) mem.flags).2)
          (keeps_set_ext b s2 _) rfl ?_
        generalize set_ext s2
          (x.ttm_tt_set_placement_caching s2.ext ((s2.bo b).ttm.getD 0) mem.flags).2 = s3
        generalize hbd : (if mem.mem_type ≠ K.TTM_PL_SYSTEM then
            ((x.ttm_tt_bind s3.ext ((s3.bo b).ttm.getD 0)).1,
              set_ext s3 (x.ttm_tt_bind s3.ext ((s3.bo b).ttm.getD 0)).2)
          else ((0 : Int), s3)) = bd
        have p2 : touches b s3 bd.2 ∧ keeps b s3 bd.2 ∧ bd.2.man = s3.man := by
          subst hbd
          split
          · exact ⟨touches_set_ext b s3 _, keeps_set_ext b s3 _, rfl⟩
          · exact ⟨touches_refl b s3, keeps_refl b s3, rfl⟩
        refine move_contract_pre p2.1 p2.2.1 p2.2.2 ?_
        by_cases hb : bd.1 = 0
        · simp only [hb, ne_eq, not_true_eq_false, if_false]
          split
          · have hset : touches b bd.2 (set_bo bd.2 b { bd.2.bo b with
                mem := { mem with proposed_flags := (bd.2.bo b).mem.proposed_flags } }) :=
              touches_set_bo b bd.2 _ rfl
            obtain ⟨m1, m2, m3, m4, m5⟩ := moved_spec K x (set_bo bd.2 b { bd.2.bo b with
              mem := { mem with proposed_flags := (bd.2.bo b).mem.proposed_flags } }) b evict
            refine ⟨touches_trans hset m1, fun h => absurd rfl h, fun _ => ⟨?_, rfl, ?_, ?_⟩⟩
            · show (_ : ttm_buffer_object).mem = _
              rw [m2]
              simp
            · intro n hn
              show (_ : ttm_buffer_object).offset = _
              rw [m4 n (by simpa using hn)]
              simp
            · intro hn
              show (_ : ttm_buffer_object).offset = _
              rw [m5 (by simpa using hn)]
              simp
          · exact handle_move_mem_move_contract K x bd.2 b mem evict _ _
        · simp only [hb, ne_eq, not_false_eq_true, if_true]
          obtain ⟨e1, e2, e3⟩ := out_err_spec K x bd.2 b
          exact move_contract_failed K mem bd.1 hb e1 e2 e3
      · simp only [hc, ne_eq, not_false_eq_true, if_true]
        exact move_contract_failed K mem _ hc (touches_set_ext b s2 _) (keeps_set_ext b s2 _) rfl
    · simp only [ha, ne_eq, not_false_eq_true, if_true]
      obtain ⟨e1, e2, e3⟩ := out_err_spec K x (ttm_bo_add_ttm K x s1 b).2 b
      exact move_contract_failed K mem _ ha (touches_trans a1 e1) (keeps_trans a2 e2)
        (e3.trans a3)
  · exact handle_move_mem_move_contract K x s1 b mem evict _ _

/-! ### The lists under reserve and unreserve -/

theorem mem_modify_lru (l : List ttm_mem_type_manager) (t b c : Nat)
    (m : ttm_mem_type_manager)
    (hm : m ∈ l.modify (fun m => { m with lru := m.lru ++ [b] }) t) (hc : c ∈ m.lru) :
    (∃ m0 ∈ l, c ∈ m0.lru) ∨ c = b := by
  induction l generalizing t with
  | nil => cases t <;> simp [List.modify] at hm
  | cons a l ih =>
    cases t with
    | zero =>
      have hm1 : m = { a with lru := a.lru ++ [b] } ∨ m ∈ l := List.mem_cons.1 hm
      rcases hm1 with hm | hm
      · rw [hm] at hc
        simp only [List.mem_append, List.mem_singleton] at hc
        rcases hc with hc | hc
        · exact Or.inl ⟨a, by simp, hc⟩
        · exact Or.inr hc
      · exact Or.inl ⟨m, by simp [hm], hc⟩
    | succ t =>
      have hm1 : m = a ∨ m ∈ l.modify (fun m => { m with lru := m.lru ++ [b] }) t := by
        rw [List.modify_succ_cons] at hm
        exact List.mem_cons.1 hm
      rcases hm1 with hm | hm
      · exact Or.inl ⟨m, by simp [hm], hc⟩
      · rcases ih t hm with ⟨m0, h0, h1⟩ | h
        · exact Or.inl ⟨m0, by simp [h0], h1⟩
        · exact Or.inr h

theorem on_lru_lru_add_tail (s : ttm_bo_device W) (t b c : Nat)
    (h : on_lru (lru_add_tail s t b) c = true) : on_lru s c = true ∨ c = b := by
  rw [on_lru_iff] at h
  obtain ⟨m, hm, hc⟩ := h
  rcases mem_modify_lru s.man t b c m hm hc with h1 | h1
  · exact Or.inl ((on_lru_iff s c).2 h1)
  · exact Or.inr h1

theorem on_lru_lru_del (s : ttm_bo_device W) (b c : Nat) :
    on_lru (lru_del s b) c = true ↔ on_lru s c = true ∧ c ≠ b := by
  rw [on_lru_iff, on_lru_iff]
  constructor
  · rintro ⟨m, hm, hc⟩
    simp only [lru_del, List.mem_map] at hm
    obtain ⟨m0, h0, rfl⟩ := hm
    have := (mem_list_del _ _ _).1 hc
    exact ⟨⟨m0, h0, this.1⟩, this.2⟩
  · rintro ⟨⟨m, hm, hc⟩, hne⟩
    refine ⟨{ m with lru := list_del m.lru b }, ?_, (mem_list_del _ _ _).2 ⟨hc, hne⟩⟩
    simp only [lru_del, List.mem_map]
    exact ⟨m, hm, rfl⟩

theorem del_from_lru_listed (s : ttm_bo_device W) (b c : Nat)
    (h : listed (ttm_bo_del_from_lru s b).2 c) : listed s c ∧ c ≠ b := by
  have h1 : on_lru { s with swap_lru := list_del s.swap_lru b } c = on_lru s c := rfl
  have h2 : on_swap (lru_del s b) c = on_swap s c := rfl
  have h3 : on_swap (lru_del { s with swap_lru := list_del s.swap_lru b } b) c =
      on_swap { s with swap_lru := list_del s.swap_lru b } c := rfl
  have h4 : on_swap { s with swap_lru := list_del s.swap_lru b } c = true ↔
      on_swap s c = true ∧ c ≠ b := by
    simp [on_swap, mem_list_del]
  have h5 : on_lru { s with swap_lru := list_del s.swap_lru b } b = on_lru s b := rfl
  unfold listed ttm_bo_del_from_lru at h
  unfold listed
  cases hs : on_swap s b <;> cases hl : on_lru s b <;>
    simp only [hs, hl, h5, if_true, if_false, Bool.false_eq_true, on_lru_lru_del, h1, h2, h3,
      h4] at h
  · refine ⟨h, ?_⟩
    rintro rfl
    rcases h with h | h
    · rw [hl] at h
      exact absurd h (by simp)
    · rw [hs] at h
      exact absurd h (by simp)
  · rcases h with h | h
    · exact ⟨Or.inl h.1, h.2⟩
    · refine ⟨Or.inr h, ?_⟩
      rintro rfl
      rw [hs] at h
      exact absurd h (by simp)
  · rcases h with h | h
    · refine ⟨Or.inl h, ?_⟩
      rintro rfl
      rw [hl] at h
      exact absurd h (by simp)
    · exact ⟨Or.inr h.1, h.2⟩
  · tauto

theorem unreserve_spec (K : ttm_consts) (s s1 : ttm_bo_device W) (b : Nat)
    (h : ttm_bo_unreserve K s b = some s1) :
    (s.bo b).reserved ≠ 0 ∧ (s1.bo b).reserved = 0 ∧ (s1.bo b).mem = (s.bo b).mem ∧
    (s1.bo b).offset = (s.bo b).offset ∧
    (∀ c, c ≠ b → s1.bo c = s.bo c) ∧
    (∀ c, listed s1 c →
      listed s c ∨ (c = b ∧ (s.bo b).mem.flags &&& K.TTM_PL_FLAG_NO_EVICT = 0)) := by
  have hres := (unreserve_step_facts K s s1 b h).1
  unfold ttm_bo_unreserve at h
  by_cases hne : (s.bo b).mem.flags &&& K.TTM_PL_FLAG_NO_EVICT = 0
  · by_cases hlru : on_lru s b = true
    · simp [ttm_bo_add_to_lru, hres, hne, hlru] at h
    · rw [add_to_lru_links K s b hres (by simpa using hlru) hne] at h
      simp only [Option.some.injEq] at h
      subst h
      refine ⟨hres, by simp, ?_, ?_, ?_, ?_⟩
      · split <;> simp
      · split <;> simp
      · intro c hc
        rw [set_bo_bo_other _ _ _ _ hc]
        split
        · rw [list_kref_get_bo_other _ _ _ hc]
          show (list_kref_get (lru_add_tail s (s.bo b).mem.mem_type b) b).bo c = s.bo c
          rw [list_kref_get_bo_other _ _ _ hc]
          rfl
        · rw [list_kref_get_bo_other _ _ _ hc]
          rfl
      · intro c hc
        by_cases hcb : c = b
        · exact Or.inr ⟨hcb, hne⟩
        · left
          unfold listed at hc ⊢
          split at hc
          · rcases hc with hc | hc
            · rcases on_lru_lru_add_tail s _ b c hc with h1 | h1
              · exact Or.inl h1
              · exact absurd h1 hcb
            · right
              simp only [on_swap_set_bo] at hc
              simp only [on_swap, list_kref_get, set_bo, List.mem_append, List.mem_singleton,
                decide_eq_true_eq] at hc ⊢
              rcases hc with hc | hc
              · exact hc
              · exact absurd hc hcb
          · rcases hc with hc | hc
            · rcases on_lru_lru_add_tail s _ b c hc with h1 | h1
              · exact Or.inl h1
              · exact absurd h1 hcb
            · exact Or.inr hc
  · rw [add_to_lru_pinned K s b hres hne] at h
    simp only [Option.some.injEq] at h
    subst h
    exact ⟨hres, by simp, by simp, by simp, fun c hc => set_bo_bo_other _ _ _ _ hc,
      fun c hc => Or.inl hc⟩

/-! ### Safe steps -/

theorem safe_step_of_touches_keeps {K : ttm_consts} {b : Nat} {s s1 : ttm_bo_device W}
    (e : Nat → Prop) (h : touches b s s1) (hk : keeps b s s1) : safe_step K e s s1 := by
  refine ⟨touches_keeps_invariant h hk, fun c _ _ => ?_⟩
  by_cases hc : c = b
  · subst hc
    exact hk
  · exact touches_keeps_other h hc

theorem safe_step_of_touches_reserved {K : ttm_consts} {b : Nat} {s s1 : ttm_bo_device W}
    (h : touches b s s1) (hres : (s.bo b).reserved ≠ 0) :
    safe_step K (fun c => c = b) s s1 :=
  ⟨touches_invariant h hres, touches_frame_except h⟩

theorem safe_step_set_ext (K : ttm_consts) (e : Nat → Prop) (s : ttm_bo_device W) (w : W) :
    safe_step K e s (set_ext s w) :=
  safe_step_of_touches_keeps e (touches_set_ext 0 s w) (keeps_set_ext 0 s w)

theorem safe_step_take (K : ttm_consts) (e : Nat → Prop) (s : ttm_bo_device W)
    (n : drm_mm_node) : safe_step K e s (drm_mm_take s n) :=
  safe_step_of_touches_keeps e (touches_take 0 s n) (keeps_of_bo_eq rfl)

theorem safe_step_put_block (K : ttm_consts) (e : Nat → Prop) (s : ttm_bo_device W)
    (n : drm_mm_node) : safe_step K e s (drm_mm_put_block s n) :=
  safe_step_of_touches_keeps e (touches_put_block 0 s n) (keeps_of_bo_eq rfl)

theorem list_kref_get_touches (s : ttm_bo_device W) (b : Nat) :
    touches b s (list_kref_get s b) ∧ keeps b s (list_kref_get s b) :=
  ⟨touches_set_bo b s _ rfl, keeps_set_bo b b s _ rfl rfl rfl⟩

theorem list_kref_dec_touches (s : ttm_bo_device W) (b : Nat) :
    touches b s (list_kref_dec s b) ∧ keeps b s (list_kref_dec s b) :=
  ⟨touches_set_bo b s _ rfl, keeps_set_bo b b s _ rfl rfl rfl⟩

theorem list_kref_put_bug_touches (n : Nat) (s : ttm_bo_device W) (b : Nat) :
    touches b s (list_kref_put_bug n s b).2 ∧ keeps b s (list_kref_put_bug n s b).2 := by
  induction n generalizing s with
  | zero => exact ⟨touches_refl b s, keeps_refl b s⟩
  | succ n ih =>
    have h1 : touches b s (set_bo s b { s.bo b with list_kref := (s.bo b).list_kref - 1 }) ∧
        keeps b s (set_bo s b { s.bo b with list_kref := (s.bo b).list_kref - 1 }) :=
      ⟨touches_set_bo b s _ rfl, keeps_set_bo b b s _ rfl rfl rfl⟩
    simp only [list_kref_put_bug]
    split
    · exact h1
    · exact ⟨touches_trans h1.1 (ih _).1, keeps_trans h1.2 (ih _).2⟩

theorem release_list_touches (x : collaborators W) (s s1 : ttm_bo_device W) (b : Nat)
    (h : ttm_bo_release_list x s b = some s1) : touches b s s1 ∧ keeps b s s1 := by
  unfold ttm_bo_release_list at h
  split at h
  · simp at h
  · simp only [Option.some.injEq] at h
    subst h
    split
    · exact ⟨touches_trans (touches_set_ext b s _) (touches_set_bo b _ _ rfl),
        keeps_trans (keeps_set_ext b s _) (keeps_set_bo b b _ _ rfl rfl rfl)⟩
    · exact ⟨touches_set_bo b _ _ rfl, keeps_set_bo b b _ _ rfl rfl rfl⟩

theorem list_kref_put_release_touches (x : collaborators W) (s s1 : ttm_bo_device W) (b : Nat)
    (h : list_kref_put_release x s b = some s1) : touches b s s1 ∧ keeps b s s1 := by
  have h1 : touches b s (set_bo s b { s.bo b with list_kref := (s.bo b).list_kref - 1 }) ∧
      keeps b s (set_bo s b { s.bo b with list_kref := (s.bo b).list_kref - 1 }) :=
    ⟨touches_set_bo b s _ rfl, keeps_set_bo b b s _ rfl rfl rfl⟩
  unfold list_kref_put_release at h
  simp only at h
  split at h
  · obtain ⟨a1, a2⟩ := release_list_touches x _ s1 b h
    exact ⟨touches_trans h1.1 a1, keeps_trans h1.2 a2⟩
  · simp only [Option.some.injEq] at h
    subst h
    exact h1

/-- Reserving a free buffer and taking it off the lists, as the list walkers
do: `ttm_bo_reserve_locked`, `ttm_bo_del_from_lru` and the puts of the list
references. -/
theorem acquire_safe (K : ttm_consts) (x : collaborators W) (s0 s : ttm_bo_device W) (b : Nat)
    (i nw us : Bool) (q : Nat) (h0 : touches b s0 s) (hk : keeps b s0 s) (hres : (s.bo b).reserved = 0) :
    (ttm_bo_reserve_locked x s b i nw us q).1 = outcome.ret 0 ∧
    safe_step K (fun _ => False) s0
      (list_kref_put_bug (ttm_bo_del_from_lru (ttm_bo_reserve_locked x s b i nw us q).2 b).1
        (ttm_bo_del_from_lru (ttm_bo_reserve_locked x s b i nw us q).2 b).2 b).2 ∧
    ((list_kref_put_bug (ttm_bo_del_from_lru (ttm_bo_reserve_locked x s b i nw us q).2 b).1
        (ttm_bo_del_from_lru (ttm_bo_reserve_locked x s b i nw us q).2 b).2 b).2.bo
          b).reserved ≠ 0 ∧
    ¬ listed (list_kref_put_bug (ttm_bo_del_from_lru (ttm_bo_reserve_locked x s b i nw us q).2 b).1
        (ttm_bo_del_from_lru (ttm_bo_reserve_locked x s b i nw us q).2 b).2 b).2 b := by
  obtain ⟨r1, r2, r3, r4, _⟩ := reserve_locked_free x s b i nw us q hres
  have rbo : ∀ c, c ≠ b → (ttm_bo_reserve_locked x s b i nw us q).2.bo c = s.bo c := by
    intro c hc
    cases us <;> simp [ttm_bo_reserve_locked, hres, set_bo_bo_other _ _ _ _ hc]
  generalize ttm_bo_reserve_locked x s b i nw us q = r at *
  obtain ⟨_, d2, d3, d4, _⟩ := del_from_lru_spec r.2 b
  have dl := del_from_lru_listed r.2 b
  generalize ttm_bo_del_from_lru r.2 b = d at *
  obtain ⟨p1, p2⟩ := list_kref_put_bug_touches d.1 d.2 b
  generalize list_kref_put_bug d.1 d.2 b = p at *
  have hres0 : (s0.bo b).reserved = 0 := by rw [← hk.1]; exact hres
  have hlist : ∀ c, listed p.2 c → listed s0 c ∧ c ≠ b := by
    intro c hc
    have h1 := dl c ((same_lists_listed p1.1 c).1 hc)
    refine ⟨?_, h1.2⟩
    have h2 : listed s c := by
      unfold listed on_lru on_swap at h1 ⊢
      rw [r3, r4] at h1
      exact h1.1
    exact (same_lists_listed h0.1 c).1 h2
  have hbo : ∀ c, c ≠ b → p.2.bo c = s0.bo c := by
    intro c hc
    rw [p1.2.1 c hc, d4, rbo c hc, h0.2.1 c hc]
  refine ⟨r1, ⟨fun hinv c hc => ?_, fun c _ hc => ?_⟩, ?_, fun hl => (hlist b hl).2 rfl⟩
  · obtain ⟨h1, h2⟩ := hlist c hc
    rw [hbo c h2]
    exact hinv c h1
  · have hcb : c ≠ b := by
      rintro rfl
      exact hc hres0
    exact keeps_of_bo_eq (hbo c hcb)
  · rw [p2.1, d4, r2]
    exact one_ne_zero

theorem unreserve_safe (K : ttm_consts) (s s1 : ttm_bo_device W) (b : Nat)
    (h : ttm_bo_unreserve K s b = some s1) : safe_step K (fun c => c = b) s s1 := by
  obtain ⟨u1, u2, u3, _, u5, u6⟩ := unreserve_spec K s s1 b h
  refine ⟨fun hinv c hc => ?_, fun c hc _ => keeps_of_bo_eq (u5 c hc)⟩
  rcases u6 c hc with h1 | ⟨rfl, h2⟩
  · have hcb : c ≠ b := by
      rintro rfl
      exact u1 (hinv c h1).1
    rw [u5 c hcb]
    exact hinv c h1
  · exact ⟨u2, by rw [u3]; exact h2⟩

theorem safe_step_close {K : ttm_consts} {b : Nat} {s s1 s2 : ttm_bo_device W}
    (h1 : safe_step K (fun _ => False) s s1) (h2 : safe_step K (fun c => c = b) s1 s2)
    (hres : (s.bo b).reserved = 0) : safe_step K (fun _ => False) s s2 := by
  refine ⟨fun h => h2.1 (h1.1 h), fun c _ hc => ?_⟩
  have hcb : c ≠ b := by
    rintro rfl
    exact hc hres
  have k1 := h1.2 c (fun h => h) hc
  exact keeps_trans k1 (h2.2 c hcb (by rw [k1.1]; exact hc))

theorem force_space_evict_loop_safe (K : ttm_consts) (x : collaborators W) (ev : evict_fn W)
    (hev : evict_safe K ev) (np pa t : Nat) (i nw : Bool) (n : Nat) (s : ttm_bo_device W) :
    safe_step K (fun _ => False) s (force_space_evict_loop K x ev np pa t i nw n s).2.2 := by
  induction n generalizing s with
  | zero => exact safe_step_refl K _ s
  | succ n ih =>
    unfold force_space_evict_loop
    split
    · exact safe_step_refl K _ s
    · split
      · exact safe_step_refl K _ s
      · rename_i entry rest hlru
        obtain ⟨g1, g2⟩ := list_kref_get_touches s entry
        by_cases hres : (s.bo entry).reserved = 0
        · obtain ⟨a1, a2, a3, a4⟩ := acquire_safe K x s (list_kref_get s entry) entry i nw false 0 g1 g2
            (by rw [g2.1]; exact hres)
          simp only [a1, ne_eq, not_true_eq_false, if_false]
          generalize (list_kref_put_bug
            (ttm_bo_del_from_lru
              (ttm_bo_reserve_locked x (list_kref_get s entry) entry i nw false 0).2 entry).1
            (ttm_bo_del_from_lru
              (ttm_bo_reserve_locked x (list_kref_get s entry) entry i nw false 0).2 entry).2
            entry) = p at a2 a3 a4 ⊢
          split
          · rename_i c0 s3
            simp only at a2 a3 a4
            have e1 := hev s3 entry t i nw
            have se := safe_step_close a2 e1 hres
            split
            · rename_i code hcode
              split
              · exact se
              · rename_i s4 hu
                have u1 := unreserve_safe K _ s4 entry hu
                have su := safe_step_close a2 (safe_step_trans e1 u1) hres
                split
                · exact safe_step_trans su
                    (safe_step_of_touches_keeps (K := K) (fun _ => False)
                      (list_kref_dec_touches s4 entry).1 (list_kref_dec_touches s4 entry).2)
                · rename_i s5 hr
                  obtain ⟨q1, q2⟩ := list_kref_put_release_touches x s4 s5 entry hr
                  have sq := safe_step_trans su
                    (safe_step_of_touches_keeps (K := K) (fun _ => False) q1 q2)
                  split
                  · exact sq
                  · exact safe_step_trans sq (ih s5)
            · exact se
          · exact a2
        · have hc := reserve_locked_collision x (list_kref_get s entry) entry i nw false 0
            (by rw [g2.1]; exact hres)
          have hne : (ttm_bo_reserve_locked x (list_kref_get s entry) entry i nw false 0).1
              ≠ outcome.ret 0 := by
            rw [hc]
            simp only
            split_ifs <;> simp [EAGAIN, EBUSY, ERESTART]
          simp only [hne, ne_eq, not_false_eq_true, if_true]
          rw [hc]
          exact safe_step_of_touches_keeps _ g1 g2

theorem force_space_with_safe (K : ttm_consts) (x : collaborators W) (ev : evict_fn W)
    (hev : evict_safe K ev) (t : Nat) (i nw : Bool) (n : Nat) (s : ttm_bo_device W)
    (mem : ttm_mem_reg) :
    safe_step K (fun _ => False) s (ttm_bo_mem_force_space_with K x ev t i nw n s mem).2.2 := by
  induction n generalizing s with
  | zero => exact safe_step_refl K _ s
  | succ n ih =>
    unfold ttm_bo_mem_force_space_with
    simp only
    have h1 := safe_step_set_ext K (fun _ => False) s (x.drm_mm_pre_get s.ext).2
    split
    · exact h1
    · have h2 := safe_step_trans h1 (force_space_evict_loop_safe K x ev hev mem.num_pages
        mem.page_alignment t i nw (n + 1) (set_ext s (x.drm_mm_pre_get s.ext).2))
      generalize force_space_evict_loop K x ev mem.num_pages mem.page_alignment t i nw (n + 1)
        (set_ext s (x.drm_mm_pre_get s.ext).2) = l at h2 ⊢
      split
      · exact h2
      · split
        · exact h2
        · have h3 := safe_step_trans h2
            (safe_step_set_ext K (fun _ => False) l.2.2 (x.drm_mm_get_block_atomic l.2.2.ext).2)
          split
          · exact safe_step_trans h3 (safe_step_take K _ _ _)
          · exact safe_step_trans h3 (ih _)

theorem get_block_safe (K : ttm_consts) (x : collaborators W) (t np pa n : Nat)
    (s : ttm_bo_device W) :
    safe_step K (fun _ => False) s (mem_space_get_block x t np pa n s).2.2 := by
  induction n generalizing s with
  | zero => exact safe_step_refl K _ s
  | succ n ih =>
    unfold mem_space_get_block
    simp only
    have h1 := safe_step_set_ext K (fun _ => False) s (x.drm_mm_pre_get s.ext).2
    split
    · exact h1
    · split
      · exact h1
      · have h3 := safe_step_trans h1 (safe_step_set_ext K (fun _ => False)
          (set_ext s (x.drm_mm_pre_get s.ext).2)
          (x.drm_mm_get_block_atomic (set_ext s (x.drm_mm_pre_get s.ext).2).ext).2)
        split
        · exact safe_step_trans h3 (safe_step_take K _ _ _)
        · exact safe_step_trans h3 (ih _)

theorem first_pass_safe (K : ttm_consts) (x : collaborators W) (fuel : Nat) (tu : Bool)
    (mem : ttm_mem_reg) (ps : List Nat) (v : space_vars) (s : ttm_bo_device W) :
    safe_step K (fun _ => False) s (mem_space_first_pass K x fuel tu mem ps v s).2.2 := by
  induction ps generalizing v s with
  | nil => exact safe_step_refl K _ s
  | cons p ps ih =>
    unfold mem_space_first_pass
    split
    · exact ih _ _
    · simp only
      split
      · exact safe_step_refl K _ s
      · split
        · have h1 := get_block_safe K x p mem.num_pages mem.page_alignment fuel s
          split
          · exact h1
          · split
            · exact h1
            · exact safe_step_trans h1 (ih _ _)
        · split
          · exact safe_step_refl K _ s
          · exact ih _ _

theorem busy_pass_safe (K : ttm_consts) (x : collaborators W) (ev : evict_fn W)
    (hev : evict_safe K ev) (fuel : Nat) (tu i nw : Bool) (ps : List Nat) (cf : Nat)
    (he : Bool) (mem : ttm_mem_reg) (s : ttm_bo_device W) :
    safe_step K (fun _ => False) s
      (mem_space_busy_pass K x ev fuel tu i nw ps cf he mem s).2.2 := by
  induction ps generalizing cf he mem s with
  | nil => exact safe_step_refl K _ s
  | cons p ps ih =>
    unfold mem_space_busy_pass
    split
    · exact ih _ _ _ _
    · split
      · exact ih _ _ _ _
      · have h1 := force_space_with_safe K x ev hev p i nw fuel s mem
        simp only
        split
        · split
          · exact h1
          · exact safe_step_trans h1 (ih _ _ _ _)
        · exact h1

theorem mem_space_with_safe (K : ttm_consts) (x : collaborators W) (ev : evict_fn W)
    (hev : evict_safe K ev) (fuel : Nat) : mem_space_safe K (ttm_bo_mem_space_with K x ev fuel) := by
  intro s b mem i nw
  unfold ttm_bo_mem_space_with
  simp only
  have h1 := first_pass_safe K x fuel (decide ((s.bo b).type = ttm_bo_type.ttm_bo_type_user))
    { mem with mm_node := none } x.mem_type_prio { mem_type := K.TTM_PL_SYSTEM } s
  split
  · exact h1
  · split
    · exact h1
    · split
      · exact h1
      · exact safe_step_trans h1 (busy_pass_safe K x ev hev fuel _ i nw _ _ _ _ _)

theorem evict_with_safe (K : ttm_consts) (x : collaborators W) (ms : mem_space_fn W)
    (hms : mem_space_safe K ms) : evict_safe K (ttm_bo_evict_with K x ms) := by
  intro s b t i nw
  unfold ttm_bo_evict_with
  simp only
  split
  · exact safe_step_refl K _ s
  · obtain ⟨w1, w2⟩ := wait_touches K x s b false i nw
    have hw : safe_step K (fun c => c = b) s (ttm_bo_wait K x s b false i nw).2 :=
      safe_step_of_touches_keeps _ w1 w2
    generalize ttm_bo_wait K x s b false i nw = w at w1 w2 hw ⊢
    split
    · split
      · exact hw
      · split
        · exact hw
        · rename_i hres
          split
          · exact hw
          · have m1 := hms w.2 b { (w.2.bo b).mem with
              mm_node := none, proposed_flags := x.evict_flags (w.2.bo b) } i nw
            generalize ms w.2 b { (w.2.bo b).mem with
              mm_node := none, proposed_flags := x.evict_flags (w.2.bo b) } i nw = r1 at m1 ⊢
            have hres1 : (r1.2.2.bo b).reserved ≠ 0 := by
              rw [(m1.2 b (fun h => h) hres).1]
              exact hres
            have hm1 : safe_step K (fun c => c = b) s r1.2.2 :=
              safe_step_trans hw (safe_step_mono m1 (fun _ h => absurd h id))
            generalize hr2 : (match r1.1 with
              | outcome.ret c1 =>
                if c1 ≠ 0 ∧ c1 ≠ -ERESTART then
                  if ttm_bo_type_flags t &&& K.TTM_PL_FLAG_SYSTEM ≠ 0 then
                    (outcome.bug, r1.2.1, r1.2.2)
                  else ms r1.2.2 b { r1.2.1 with proposed_flags := K.TTM_PL_FLAG_SYSTEM } i nw
                else r1
              | _ => r1) = r2
            have hm2 : safe_step K (fun c => c = b) s r2.2.2 ∧ (r2.2.2.bo b).reserved ≠ 0 := by
              subst hr2
              split
              · split
                · split
                  · exact ⟨hm1, hres1⟩
                  · have m2 := hms r1.2.2 b
                      { r1.2.1 with proposed_flags := K.TTM_PL_FLAG_SYSTEM } i nw
                    refine ⟨safe_step_trans hm1 (safe_step_mono m2 (fun _ h => absurd h id)), ?_⟩
                    rw [(m2.2 b (fun h => h) hres1).1]
                    exact hres1
                · exact ⟨hm1, hres1⟩
              · exact ⟨hm1, hres1⟩
            split
            · have hc := (handle_move_mem_contract K x r2.2.2 b r2.2.1 true i nw).1
              have hh : safe_step K (fun c => c = b) s
                  (ttm_bo_handle_move_mem K x r2.2.2 b r2.2.1 true i nw).2.2 :=
                safe_step_trans hm2.1 (safe_step_of_touches_reserved hc hm2.2)
              have hres3 : ((ttm_bo_handle_move_mem K x r2.2.2 b r2.2.1 true i nw).2.2.bo
                  b).reserved ≠ 0 := by
                rw [hc.2.2]
                exact hm2.2
              generalize ttm_bo_handle_move_mem K x r2.2.2 b r2.2.1 true i nw = h at hh hres3 ⊢
              split
              · exact hh
              · have hp : ∀ s5 : ttm_bo_device W, touches b h.2.2 s5 →
                    safe_step K (fun c => c = b) s (set_bo s5 b { s5.bo b with
                      priv_flags := ttm_flag_masked (s5.bo b).priv_flags
                        K.TTM_BO_PRIV_FLAG_EVICTED K.TTM_BO_PRIV_FLAG_EVICTED }) := by
                  intro s5 h5
                  exact safe_step_trans hh (safe_step_of_touches_reserved
                    (touches_trans h5 (touches_set_bo b s5 _ rfl)) hres3)
                split
                · exact hp _ (touches_put_block b _ _)
                · exact hp _ (touches_refl b _)
            · exact hm2.1
    · exact hw

theorem evict_is_safe (K : ttm_consts) (x : collaborators W) (n : Nat) :
    evict_safe K (ttm_bo_evict K x n) := by
  induction n with
  | zero =>
    intro s b t i nw
    exact safe_step_refl K _ s
  | succ n ih =>
    unfold ttm_bo_evict
    exact evict_with_safe K x _ (mem_space_with_safe K x _ ih (n + 1))

theorem mem_space_is_safe (K : ttm_consts) (x : collaborators W) (fuel : Nat) :
    mem_space_safe K (ttm_bo_mem_space K x fuel) :=
  mem_space_with_safe K x _ (evict_is_safe K x fuel) fuel

theorem mem_force_space_is_safe (K : ttm_consts) (x : collaborators W) (fuel : Nat)
    (s : ttm_bo_device W) (mem : ttm_mem_reg) (t : Nat) (i nw : Bool) :
    safe_step K (fun _ => False) s (ttm_bo_mem_force_space K x fuel s mem t i nw).2.2 :=
  force_space_with_safe K x _ (evict_is_safe K x fuel) t i nw fuel s mem

/-! ### Moving a buffer is all-or-nothing -/

theorem move_buffer_space_frame (K : ttm_consts) (x : collaborators W) (fuel : Nat)
    (s : ttm_bo_device W) (b : Nat) (flags : Nat) (i nw : Bool)
    (hres : (s.bo b).reserved ≠ 0) :
    keeps b s (move_buffer_space K x fuel s b flags i nw).2.2 := by
  unfold move_buffer_space
  simp only [if_neg hres]
  obtain ⟨_, b2⟩ := busy_touches K x s b
  obtain ⟨_, w2⟩ := wait_touches K x (ttm_bo_busy K x s b).2 b false i nw
  have k1 := keeps_trans b2 w2
  split
  · exact k1
  · have hr : ((ttm_bo_wait K x (ttm_bo_busy K x s b).2 b false i nw).2.bo b).reserved ≠ 0 := by
      rw [k1.1]
      exact hres
    exact keeps_trans k1 ((mem_space_is_safe K x fuel _ b _ i nw).2 b (fun h => h) hr)

theorem force_space_with_mem (K : ttm_consts) (x : collaborators W) (ev : evict_fn W)
    (t : Nat) (i nw : Bool) (n : Nat) (s : ttm_bo_device W) (mem : ttm_mem_reg) :
    ((ttm_bo_mem_force_space_with K x ev t i nw n s mem).1 = outcome.ret 0 →
      (ttm_bo_mem_force_space_with K x ev t i nw n s mem).2.1.mm_node ≠ none) ∧
    ((ttm_bo_mem_force_space_with K x ev t i nw n s mem).1 ≠ outcome.ret 0 →
      (ttm_bo_mem_force_space_with K x ev t i nw n s mem).2.1 = mem) := by
  induction n generalizing s with
  | zero => exact ⟨fun h => by simp [ttm_bo_mem_force_space_with] at h, fun _ => rfl⟩
  | succ n ih =>
    unfold ttm_bo_mem_force_space_with
    simp only
    split
    · rename_i hp
      exact ⟨fun h => by simp at h; exact absurd h hp, fun _ => rfl⟩
    · split
      · rename_i hl
        exact ⟨fun h => absurd h hl, fun _ => rfl⟩
      · split
        · exact ⟨fun h => by simp [ENOMEM] at h, fun _ => rfl⟩
        · split
          · exact ⟨fun _ => by simp, fun h => absurd rfl h⟩
          · exact ih _

theorem busy_pass_mem (K : ttm_consts) (x : collaborators W) (ev : evict_fn W)
    (fuel : Nat) (tu i nw : Bool) (ps : List Nat) (cf : Nat) (he : Bool) (mem : ttm_mem_reg)
    (s : ttm_bo_device W) (hmem : mem.mm_node = none)
    (h : (mem_space_busy_pass K x ev fuel tu i nw ps cf he mem s).1 ≠ outcome.ret 0) :
    (mem_space_busy_pass K x ev fuel tu i nw ps cf he mem s).2.1.mm_node = none := by
  induction ps generalizing cf he mem s with
  | nil => exact hmem
  | cons p ps ih =>
    unfold mem_space_busy_pass at h ⊢
    split
    · rename_i h1
      simp only [h1, if_true] at h
      exact ih _ _ _ _ hmem h
    · rename_i h1
      simp only [h1] at h
      split
      · rename_i h2
        simp only [h2] at h
        exact ih _ _ _ _ hmem h
      · rename_i f h2
        simp only [h2] at h
        obtain ⟨f1, f2⟩ := force_space_with_mem K x ev p i nw fuel s mem
        generalize ttm_bo_mem_force_space_with K x ev p i nw fuel s mem = r at f1 f2 h ⊢
        simp only at h ⊢
        split
        · rename_i code hcode
          rw [hcode] at h
          simp only at h
          split
          · rename_i hc
            rw [if_pos hc] at h
            exact absurd rfl h
          · rename_i hc
            rw [if_neg hc] at h
            have hr : r.2.1.mm_node = none := by
              by_cases h0 : code = 0
              · subst h0
                exact absurd ⟨rfl, f1 hcode⟩ hc
              · rw [f2 (by rw [hcode]; simpa using h0)]
                exact hmem
            exact ih _ _ _ _ hr h
        · rename_i hne
          rw [f2 (fun h0 => hne 0 h0)]
          exact hmem

theorem mem_space_with_mem (K : ttm_consts) (x : collaborators W) (ev : evict_fn W)
    (fuel : Nat) (s : ttm_bo_device W) (b : Nat) (mem : ttm_mem_reg) (i nw : Bool)
    (h : (ttm_bo_mem_space_with K x ev fuel s b mem i nw).1 ≠ outcome.ret 0) :
    (ttm_bo_mem_space_with K x ev fuel s b mem i nw).2.1.mm_node = none := by
  unfold ttm_bo_mem_space_with at h ⊢
  simp only at h ⊢
  split
  · rfl
  · rename_i h1
    rw [if_neg h1] at h
    split
    · rename_i h2
      rw [if_pos h2] at h
      exact absurd rfl h
    · rename_i h2
      rw [if_neg h2] at h
      split
      · rfl
      · rename_i h3
        rw [if_neg h3] at h
        exact busy_pass_mem K x ev fuel _ i nw _ _ _ _ _ rfl h

theorem move_buffer_space_failed (K : ttm_consts) (x : collaborators W) (fuel : Nat)
    (s : ttm_bo_device W) (b : Nat) (flags : Nat) (i nw : Bool)
    (h : (move_buffer_space K x fuel s b flags i nw).1 ≠ outcome.ret 0) :
    (move_buffer_space K x fuel s b flags i nw).2.1.mm_node = none := by
  unfold move_buffer_space at h ⊢
  simp only at h ⊢
  split
  · rfl
  · rename_i h1
    rw [if_neg h1] at h
    split
    · rfl
    · rename_i h2
      rw [if_neg h2] at h
      exact mem_space_with_mem K x _ fuel _ b _ i nw h

theorem put_block_man_congr (s s1 : ttm_bo_device W) (n : drm_mm_node) (h : s1.man = s.man) :
    (drm_mm_put_block s1 n).man = (drm_mm_put_block s n).man := by
  simp only [drm_mm_put_block, h]

/-- C10.  Let `sp` be what the first half of `ttm_bo_move_buffer` leaves: the
target record filled in by `ttm_bo_mem_space` and the state at that point.
Whenever `ttm_bo_move_buffer` returns an error, the placement record
`bo->mem` and `bo->offset` are what they were before the call, and an extent
held by the target has been returned: the managers are those the space
search left, with that extent put back.  A space search that fails leaves no
extent in the target.  Whenever `ttm_bo_move_buffer` returns 0, the space
search had succeeded, the placement record is the target (memory type,
extent, flags and sizes; the proposed flags of the record are kept), and the
offset is that of the new extent when there is one, computed in
`unsigned long` as the source does.  The data movers are taken to be
all-or-nothing. -/
theorem move_buffer_all_or_nothing (K : ttm_consts) (x : collaborators W) (fuel : Nat)
    (s : ttm_bo_device W) (b : Nat) (flags : Nat) (i nw : Bool) :
    (∀ e : Int, e ≠ 0 → (ttm_bo_move_buffer K x fuel s b flags i nw).1 = outcome.ret e →
      ((ttm_bo_move_buffer K x fuel s b flags i nw).2.bo b).mem = (s.bo b).mem ∧
      ((ttm_bo_move_buffer K x fuel s b flags i nw).2.bo b).offset = (s.bo b).offset ∧
      (∀ n, (move_buffer_space K x fuel s b flags i nw).2.1.mm_node = some n →
        (ttm_bo_move_buffer K x fuel s b flags i nw).2.man =
          (drm_mm_put_block (move_buffer_space K x fuel s b flags i nw).2.2 n).man) ∧
      ((move_buffer_space K x fuel s b flags i nw).2.1.mm_node = none →
        (ttm_bo_move_buffer K x fuel s b flags i nw).2.man =
          (move_buffer_space K x fuel s b flags i nw).2.2.man)) ∧
    ((ttm_bo_move_buffer K x fuel s b flags i nw).1 = outcome.ret 0 →
      (move_buffer_space K x fuel s b flags i nw).1 = outcome.ret 0 ∧
      ((ttm_bo_move_buffer K x fuel s b flags i nw).2.bo b).mem =
        { (move_buffer_space K x fuel s b flags i nw).2.1 with
          proposed_flags := (s.bo b).mem.proposed_flags } ∧
      (∀ n, (move_buffer_space K x fuel s b flags i nw).2.1.mm_node = some n →
        ((ttm_bo_move_buffer K x fuel s b flags i nw).2.bo b).offset =
          ulong K.machine (ulong K.machine (n.start <<< K.PAGE_SHIFT) +
            (man_at (ttm_bo_move_buffer K x fuel s b flags i nw).2
              (move_buffer_space K x fuel s b flags i nw).2.1.mem_type).gpu_offset))) ∧
    ((move_buffer_space K x fuel s b flags i nw).1 ≠ outcome.ret 0 →
      (move_buffer_space K x fuel s b flags i nw).2.1.mm_node = none) := by
  refine and_assoc.1 ⟨?_, move_buffer_space_failed K x fuel s b flags i nw⟩
  by_cases hres : (s.bo b).reserved = 0
  · have hb : (ttm_bo_move_buffer K x fuel s b flags i nw).1 = outcome.bug := by
      simp [ttm_bo_move_buffer, move_buffer_space, hres, move_buffer_finish]
    rw [hb]
    exact ⟨fun e _ h => by simp at h, fun h => by simp at h⟩
  · have hk := move_buffer_space_frame K x fuel s b flags i nw hres
    unfold ttm_bo_move_buffer
    generalize move_buffer_space K x fuel s b flags i nw = sp at hk ⊢
    unfold move_buffer_finish
    split
    · rename_i hsp
      obtain ⟨c1, c2, c3⟩ := handle_move_mem_contract K x sp.2.2 b sp.2.1 false i nw
      generalize ttm_bo_handle_move_mem K x sp.2.2 b sp.2.1 false i nw = h at c1 c2 c3 ⊢
      by_cases hh : h.1 = 0
      · simp only [hh, ne_eq, not_true_eq_false, if_false]
        obtain ⟨d1, _, d3, _⟩ := c3 hh
        refine ⟨fun e he h0 => ?_, fun _ => ⟨hsp, ?_, d3⟩⟩
        · simp only [outcome.ret.injEq] at h0
          exact absurd h0.symm he
        · rw [d1, hk.2.1]
      · obtain ⟨d1, d2, d3⟩ := c2 hh
        have k2 := keeps_trans hk d1
        simp only [hh, ne_eq, not_false_eq_true, if_true]
        rw [d2]
        cases hn : sp.2.1.mm_node with
        | none =>
          refine ⟨fun e _ _ => ⟨k2.2.1, k2.2.2, fun n h0 => by simp at h0, fun _ => d3⟩,
            fun h0 => ?_⟩
          simp only [outcome.ret.injEq] at h0
          exact absurd h0 hh
        | some n =>
          refine ⟨fun e _ _ => ⟨k2.2.1, k2.2.2, fun m h0 => ?_, fun h0 => by simp at h0⟩,
            fun h0 => ?_⟩
          · simp only [Option.some.injEq] at h0
            subst h0
            exact put_block_man_congr _ _ _ d3
          · simp only [outcome.ret.injEq] at h0
            exact absurd h0 hh
    · rename_i code hc _
      cases hn : sp.2.1.mm_node with
      | none =>
        refine ⟨fun e _ _ => ⟨hk.2.1, hk.2.2, fun n h0 => by simp at h0, fun _ => rfl⟩,
          fun h0 => ?_⟩
        simp only [outcome.ret.injEq] at h0
        exact absurd h0 hc
      | some n =>
        refine ⟨fun e _ _ => ⟨hk.2.1, hk.2.2, fun m h0 => ?_, fun h0 => by simp at h0⟩,
          fun h0 => ?_⟩
        · simp only [Option.some.injEq] at h0
          subst h0
          rfl
        · simp only [outcome.ret.injEq] at h0
          exact absurd h0 hc
    · rename_i hne1 hne2
      refine ⟨fun e _ h0 => ?_, fun h0 => ?_⟩
      · exact absurd h0 (hne2 e)
      · exact absurd h0 (hne2 0)

/-- C10, witness: space is found in the aperture and the mover fails; the
buffer stays in system memory and the extent is given back. -/
theorem move_buffer_all_or_nothing_witness :
    ((ttm_bo_move_buffer consts0 mover_fails 2 (device_of in_system) 0 262146 false false).2.bo
        0).mem = in_system.mem ∧
    (ttm_bo_move_buffer consts0 mover_fails 2 (device_of in_system) 0 262146 false false).2.man =
      (drm_mm_put_block
        (move_buffer_space consts0 mover_fails 2 (device_of in_system) 0 262146 false false).2.2
        ⟨0, 4, 1⟩).man :=
  ⟨((move_buffer_all_or_nothing consts0 mover_fails 2 (device_of in_system) 0 262146 false
      false).1 (-ENOMEM) (by decide) (by decide)).1,
    ((move_buffer_all_or_nothing consts0 mover_fails 2 (device_of in_system) 0 262146 false
      false).1 (-ENOMEM) (by decide) (by decide)).2.2.1 ⟨0, 4, 1⟩ (by decide)⟩

/-! ### Validating with unchanged flags -/

theorem ttm_flag_masked_self (f m : Nat) : ttm_flag_masked f f m = f := by
  simp [ttm_flag_masked]

theorem add_ttm_shape (K : ttm_consts) (x : collaborators W) (s : ttm_bo_device W) (b : Nat) :
    ∃ (w : W) (t : Option Nat),
      (ttm_bo_add_ttm K x s b).2 = set_bo (set_ext s w) b { s.bo b with ttm := t } ∧
      ((ttm_bo_add_ttm K x s b).1 = 0 → t ≠ none) := by
  unfold ttm_bo_add_ttm
  simp only
  split
  · rename_i ht
    refine ⟨(x.ttm_tt_create s.ext (ulong K.machine ((s.bo b).num_pages <<< K.PAGE_SHIFT)) false).2,
      (x.ttm_tt_create s.ext (ulong K.machine ((s.bo b).num_pages <<< K.PAGE_SHIFT)) false).1, ?_, ?_⟩
    · split <;> simp [set_ext, set_bo]
    · split
      · simp [ENOMEM]
      · rename_i hsome
        intro _
        simpa using hsome
  · rename_i ht
    refine ⟨(x.ttm_tt_create s.ext (ulong K.machine ((s.bo b).num_pages <<< K.PAGE_SHIFT)) false).2,
      (x.ttm_tt_create s.ext (ulong K.machine ((s.bo b).num_pages <<< K.PAGE_SHIFT)) false).1, ?_, ?_⟩
    · split <;> simp [set_ext, set_bo]
    · split
      · simp [ENOMEM]
      · rename_i hsome
        intro _
        simpa using hsome
  · rename_i ht
    refine ⟨(x.ttm_tt_create s.ext (ulong K.machine ((s.bo b).num_pages <<< K.PAGE_SHIFT)) true).2,
      (x.ttm_tt_create s.ext (ulong K.machine ((s.bo b).num_pages <<< K.PAGE_SHIFT)) true).1, ?_, ?_⟩
    · split <;> simp [set_ext, set_bo]
    · split
      · simp [ENOMEM]
      · rename_i hsome
        intro _
        simpa using hsome
  · exact ⟨s.ext, none, by simp [set_ext, set_bo], by simp [EINVAL]⟩

theorem mem_compat_same (K : ttm_consts) (mem : ttm_mem_reg)
    (hsame : mem.proposed_flags = mem.flags)
    (hmem : mem.flags &&& K.TTM_PL_MASK_MEM ≠ 0)
    (hcache : mem.flags &&& K.TTM_PL_MASK_CACHING ≠ 0) : ttm_bo_mem_compat K mem = 1 := by
  simp [ttm_bo_mem_compat, hsame, hmem, hcache]

theorem validate_finish_idle (K : ttm_consts) (x : collaborators W) (s : ttm_bo_device W)
    (b : Nat) (hsame : (s.bo b).proposed_flags = (s.bo b).mem.flags)
    (h : ¬ ((s.bo b).mem.mem_type = K.TTM_PL_SYSTEM ∧ (s.bo b).ttm = none)) :
    validate_finish K x s b = (outcome.ret 0, s) := by
  have hf : ttm_flag_masked (s.bo b).mem.flags (s.bo b).proposed_flags
      (u32_not K.TTM_PL_MASK_MEMTYPE) = (s.bo b).mem.flags := by
    rw [hsame]
    exact ttm_flag_masked_self _ _
  unfold validate_finish
  simp only [if_neg h, ne_eq, not_true_eq_false, if_false, hf]
  exact congrArg _ (set_bo_self s b)

theorem validate_finish_add (K : ttm_consts) (x : collaborators W) (s : ttm_bo_device W)
    (b : Nat) (hsame : (s.bo b).proposed_flags = (s.bo b).mem.flags)
    (h : (s.bo b).mem.mem_type = K.TTM_PL_SYSTEM ∧ (s.bo b).ttm = none) :
    validate_finish K x s b = (outcome.ret (ttm_bo_add_ttm K x s b).1, (ttm_bo_add_ttm K x s b).2) := by
  obtain ⟨w, t, h1, _⟩ := add_ttm_shape K x s b
  unfold validate_finish
  simp only [if_pos h]
  split
  · rfl
  · rename_i h0
    have h0 : (ttm_bo_add_ttm K x s b).1 = 0 := by simpa using h0
    have hf : ttm_flag_masked (s.bo b).mem.flags (s.bo b).proposed_flags
        (u32_not K.TTM_PL_MASK_MEMTYPE) = (s.bo b).mem.flags := by
      rw [hsame]
      exact ttm_flag_masked_self _ _
    rw [h0, h1]
    simp only [set_bo_bo_self, hf, set_bo_set_bo]

/-- C8 (as the code has it).  For a reserved buffer whose proposed flags
are identical to its placement flags, and whose flags hold at least one
memory-type bit and one caching bit, `ttm_buffer_object_validate` does not
call `ttm_bo_move_buffer`: its result is that of the part of the function
after the move, run on the unmoved buffer.  No manager, list or other buffer
changes, and the placement record (memory type, extent, flags) and offset of
the buffer are unchanged.  It returns 0, with nothing at all changed, unless
the buffer is in system memory without a ttm; then it returns what
`ttm_bo_add_ttm` returns.  Whenever it returns 0, validating again returns 0
and leaves the state as it is. -/
theorem validate_same_flags (K : ttm_consts) (x : collaborators W) (fuel : Nat)
    (s : ttm_bo_device W) (b : Nat) (i nw : Bool) (hres : (s.bo b).reserved ≠ 0)
    (hsame : (s.bo b).proposed_flags = (s.bo b).mem.flags)
    (hmem : (s.bo b).mem.flags &&& K.TTM_PL_MASK_MEM ≠ 0)
    (hcache : (s.bo b).mem.flags &&& K.TTM_PL_MASK_CACHING ≠ 0) :
    ttm_buffer_object_validate K x fuel s b i nw = validate_finish K x (stamp_proposed s b) b ∧
    ((ttm_buffer_object_validate K x fuel s b i nw).2.man = s.man ∧
      (ttm_buffer_object_validate K x fuel s b i nw).2.swap_lru = s.swap_lru ∧
      ∀ c, c ≠ b → (ttm_buffer_object_validate K x fuel s b i nw).2.bo c = s.bo c) ∧
    (((ttm_buffer_object_validate K x fuel s b i nw).2.bo b).mem.mem_type = (s.bo b).mem.mem_type ∧
      ((ttm_buffer_object_validate K x fuel s b i nw).2.bo b).mem.mm_node = (s.bo b).mem.mm_node ∧
      ((ttm_buffer_object_validate K x fuel s b i nw).2.bo b).mem.flags = (s.bo b).mem.flags ∧
      ((ttm_buffer_object_validate K x fuel s b i nw).2.bo b).offset = (s.bo b).offset) ∧
    (¬ ((s.bo b).mem.mem_type = K.TTM_PL_SYSTEM ∧ (s.bo b).ttm = none) →
      ttm_buffer_object_validate K x fuel s b i nw = (outcome.ret 0, stamp_proposed s b)) ∧
    ((s.bo b).mem.mem_type = K.TTM_PL_SYSTEM ∧ (s.bo b).ttm = none →
      (ttm_buffer_object_validate K x fuel s b i nw).1 =
        outcome.ret (ttm_bo_add_ttm K x (stamp_proposed s b) b).1) ∧
    ((ttm_buffer_object_validate K x fuel s b i nw).1 = outcome.ret 0 →
      ttm_buffer_object_validate K x fuel (ttm_buffer_object_validate K x fuel s b i nw).2 b i nw =
        (outcome.ret 0, (ttm_buffer_object_validate K x fuel s b i nw).2)) := by
  have hv : ∀ s0 : ttm_bo_device W, (s0.bo b).reserved ≠ 0 →
      (s0.bo b).proposed_flags = (s0.bo b).mem.flags →
      (s0.bo b).mem.flags &&& K.TTM_PL_MASK_MEM ≠ 0 →
      (s0.bo b).mem.flags &&& K.TTM_PL_MASK_CACHING ≠ 0 →
      ttm_buffer_object_validate K x fuel s0 b i nw =
        validate_finish K x (stamp_proposed s0 b) b := by
    intro s0 h1 h2 h3 h4
    have hc : ttm_bo_mem_compat K ((stamp_proposed s0 b).bo b).mem = 1 :=
      mem_compat_same K _ (by simpa [stamp_proposed] using h2)
        (by simpa [stamp_proposed] using h3) (by simpa [stamp_proposed] using h4)
    unfold ttm_buffer_object_validate
    rw [if_neg h1]
    simp only
    rw [show set_bo s0 b { s0.bo b with
        mem := { (s0.bo b).mem with proposed_flags := (s0.bo b).proposed_flags } }
      = stamp_proposed s0 b from rfl, hc]
    simp
  have hst : touches b s (stamp_proposed s b) ∧
      ((stamp_proposed s b).bo b).proposed_flags = ((stamp_proposed s b).bo b).mem.flags ∧
      ((stamp_proposed s b).bo b).mem.mem_type = (s.bo b).mem.mem_type ∧
      ((stamp_proposed s b).bo b).mem.mm_node = (s.bo b).mem.mm_node ∧
      ((stamp_proposed s b).bo b).mem.flags = (s.bo b).mem.flags ∧
      ((stamp_proposed s b).bo b).offset = (s.bo b).offset ∧
      ((stamp_proposed s b).bo b).ttm = (s.bo b).ttm ∧
      ((stamp_proposed s b).bo b).reserved = (s.bo b).reserved :=
    ⟨touches_set_bo b s _ rfl, by simp [stamp_proposed, hsame], by simp [stamp_proposed],
      by simp [stamp_proposed], by simp [stamp_proposed], by simp [stamp_proposed],
      by simp [stamp_proposed], by simp [stamp_proposed]⟩
  obtain ⟨t1, t2, t3, t4, t5, t6, t7, t8⟩ := hst
  have hidem : stamp_proposed (stamp_proposed s b) b = stamp_proposed s b := by
    simp [stamp_proposed]
  rw [hv s hres hsame hmem hcache]
  by_cases hadd : (s.bo b).mem.mem_type = K.TTM_PL_SYSTEM ∧ (s.bo b).ttm = none
  · have hadd1 : ((stamp_proposed s b).bo b).mem.mem_type = K.TTM_PL_SYSTEM ∧
        ((stamp_proposed s b).bo b).ttm = none := by rw [t3, t7]; exact hadd
    rw [validate_finish_add K x _ b t2 hadd1]
    obtain ⟨a1, a2, a3⟩ := add_ttm_touches K x (stamp_proposed s b) b
    obtain ⟨w, t, e1, e2⟩ := add_ttm_shape K x (stamp_proposed s b) b
    have tt := touches_trans t1 a1
    refine ⟨rfl, ⟨a3, tt.1.2, tt.2.1⟩, ⟨?_, ?_, ?_, ?_⟩, fun h => absurd hadd h, fun _ => rfl,
      fun h0 => ?_⟩
    · rw [a2.2.1, t3]
    · rw [a2.2.1, t4]
    · rw [a2.2.1, t5]
    · rw [a2.2.2, t6]
    · simp only [outcome.ret.injEq] at h0
      have hne := e2 h0
      rw [e1]
      have hs2 : stamp_proposed (set_bo (set_ext (stamp_proposed s b) w) b
            { (stamp_proposed s b).bo b with ttm := t }) b =
          set_bo (set_ext (stamp_proposed s b) w) b { (stamp_proposed s b).bo b with ttm := t } := by
        simp [stamp_proposed]
      rw [hv _ (by simpa [stamp_proposed] using hres) (by simpa [stamp_proposed] using hsame)
        (by simpa [stamp_proposed] using hmem) (by simpa [stamp_proposed] using hcache), hs2]
      exact validate_finish_idle K x _ b (by simpa [stamp_proposed] using hsame)
        (fun h => hne (by simpa using h.2))
  · have hadd1 : ¬ (((stamp_proposed s b).bo b).mem.mem_type = K.TTM_PL_SYSTEM ∧
        ((stamp_proposed s b).bo b).ttm = none) := by rw [t3, t7]; exact hadd
    rw [validate_finish_idle K x _ b t2 hadd1]
    refine ⟨rfl, ⟨rfl, t1.1.2, t1.2.1⟩, ⟨t3, t4, t5, t6⟩, fun _ => rfl,
      fun h => absurd h hadd, fun _ => ?_⟩
    simp only
    rw [hv _ (by rw [t8]; exact hres) t2 (by rw [t5]; exact hmem) (by rw [t5]; exact hcache),
      hidem]
    exact validate_finish_idle K x _ b t2 hadd1

/-! ### The list invariant -/

theorem invariant_of_unlisted {K : ttm_consts} {b : Nat} {s s1 : ttm_bo_device W}
    (hl : same_lists s s1) (hbo : ∀ c, c ≠ b → s1.bo c = s.bo c) (hb : ¬ listed s b)
    (hinv : lru_invariant K s) : lru_invariant K s1 := by
  intro c hc
  have h1 := (same_lists_listed hl c).1 hc
  have hcb : c ≠ b := by
    rintro rfl
    exact hb h1
  rw [hbo c hcb]
  exact hinv c h1

theorem reserve_invariant (K : ttm_consts) (x : collaborators W) (s : ttm_bo_device W)
    (b : Nat) (i nw us : Bool) (q : Nat) (hinv : lru_invariant K s) :
    lru_invariant K (ttm_bo_reserve x s b i nw us q).2 := by
  by_cases hres : (s.bo b).reserved = 0
  · obtain ⟨a1, a2, _, _⟩ :=
      acquire_safe K x s s b i nw us q (touches_refl b s) (keeps_refl b s) hres
    unfold ttm_bo_reserve
    simp only [a1, if_true]
    split
    · rename_i c s2 hp
      rw [hp] at a2
      exact a2.1 hinv
    · rename_i o s2 _ hp
      rw [hp] at a2
      exact a2.1 hinv
  · have hc := reserve_locked_collision x s b i nw us q hres
    have hne : (ttm_bo_reserve_locked x s b i nw us q).1 ≠ outcome.ret 0 := by
      rw [hc]
      simp only
      split_ifs <;> simp [EAGAIN, EBUSY, ERESTART]
    have hE : ttm_bo_reserve x s b i nw us q = ttm_bo_reserve_locked x s b i nw us q := by
      simp only [ttm_bo_reserve, if_neg hne]
    rw [hE, hc]
    exact hinv

theorem unblock_invariant (K : ttm_consts) (s : ttm_bo_device W) (b : Nat)
    (hinv : lru_invariant K s) : lru_invariant K (ttm_bo_unblock_reservation s b) := by
  intro c hc
  have h1 : listed s c := hc
  by_cases hcb : c = b
  · subst hcb
    have h2 := (hinv c h1).2
    simp only [ttm_bo_unblock_reservation, set_bo_bo_self]
    exact ⟨trivial, h2⟩
  · simp only [ttm_bo_unblock_reservation, set_bo_bo_other _ _ _ _ hcb]
    exact hinv c h1

theorem block_reservation_state (x : collaborators W) (s : ttm_bo_device W) (b : Nat)
    (i nw : Bool) :
    (ttm_bo_block_reservation x s b i nw).2 = s ∨
    (ttm_bo_block_reservation x s b i nw).2 = set_bo s b { s.bo b with reserved := 1 } := by
  unfold ttm_bo_block_reservation
  split
  · left
    split
    · rfl
    · split
      · split <;> rfl
      · split <;> rfl
  · exact Or.inr rfl

theorem block_reservation_invariant (K : ttm_consts) (x : collaborators W)
    (s : ttm_bo_device W) (b : Nat) (i nw : Bool) (hb : ¬ listed s b)
    (hinv : lru_invariant K s) : lru_invariant K (ttm_bo_block_reservation x s b i nw).2 := by
  rcases block_reservation_state x s b i nw with h | h
  · rw [h]
    exact hinv
  · rw [h]
    exact invariant_of_unlisted (same_lists_set_bo s b _)
      (fun c hc => set_bo_bo_other s b c _ hc) hb hinv

theorem swapout_move_touches (K : ttm_consts) (x : collaborators W) (s : ttm_bo_device W)
    (b : Nat) : touches b s (swapout_move K x s b).2 := by
  unfold swapout_move
  simp only
  split
  · exact (handle_move_mem_contract K x s b _ true false false).1
  · exact touches_refl b s

theorem swapout_pages_touches (x : collaborators W) (m : Int × ttm_bo_device W) (b : Nat) :
    touches b m.2 (swapout_pages x m b).2 := by
  unfold swapout_pages
  split
  · exact touches_refl b _
  · exact touches_trans (unmap_virtual_touches x m.2 b).1 (touches_set_ext b _ _)

theorem swapout_out_invariant (K : ttm_consts) (x : collaborators W)
    (o : Int × ttm_bo_device W) (b : Nat) (hinv : lru_invariant K o.2) (hunl : ¬ listed o.2 b) :
    lru_invariant K (swapout_out x o b).2 := by
  have i1 : lru_invariant K (set_bo o.2 b { o.2.bo b with reserved := 0 }) :=
    invariant_of_unlisted (same_lists_set_bo _ _ _)
      (fun c hc => set_bo_bo_other _ _ _ _ hc) hunl hinv
  unfold swapout_out
  split
  · exact touches_keeps_invariant (list_kref_dec_touches _ b).1 (list_kref_dec_touches _ b).2 i1
  · rename_i s5 h5
    obtain ⟨q1, q2⟩ := list_kref_put_release_touches x _ s5 b h5
    exact touches_keeps_invariant q1 q2 i1

theorem swapout_reserved_invariant (K : ttm_consts) (x : collaborators W)
    (s p : ttm_bo_device W) (b : Nat)
    (hp : p = (list_kref_put_bug (ttm_bo_del_from_lru s b).1 (ttm_bo_del_from_lru s b).2 b).2)
    (hinv : lru_invariant K p) (hunl : ¬ listed p b) (hres : (p.bo b).reserved ≠ 0) :
    lru_invariant K (swapout_reserved K x s b).2 := by
  unfold swapout_reserved
  simp only
  generalize list_kref_put_bug (ttm_bo_del_from_lru s b).1 (ttm_bo_del_from_lru s b).2 b = pp
    at hp ⊢
  subst hp
  split
  · rename_i c s1
    simp only at hinv hunl hres
    obtain ⟨w1, w2⟩ := wait_touches K x s1 b false false false
    generalize ttm_bo_wait K x s1 b false false false = w at w1 w2 ⊢
    have hresw : (w.2.bo b).reserved ≠ 0 := by rw [w2.1]; exact hres
    split
    · rename_i code hcode
      have hm : touches b w.2 (if code ≠ 0 then (code, w.2) else swapout_move K x w.2 b).2 := by
        split
        · exact touches_refl b _
        · exact swapout_move_touches K x w.2 b
      have ht := touches_trans w1 (touches_trans hm (swapout_pages_touches x _ b))
      exact swapout_out_invariant K x _ b (touches_invariant ht hres hinv)
        (fun h => hunl ((same_lists_listed ht.1 b).1 h))
    · exact touches_keeps_invariant w1 w2 hinv
  · simpa using hinv

theorem swapout_invariant (K : ttm_consts) (x : collaborators W) (s : ttm_bo_device W)
    (hinv : lru_invariant K s) : lru_invariant K (ttm_bo_swapout K x s).2 := by
  unfold ttm_bo_swapout
  split
  · exact hinv
  · rename_i b rest hsw
    have hl : listed s b := Or.inr (by simp [on_swap, hsw])
    have hres := (hinv b hl).1
    obtain ⟨g1, g2⟩ := list_kref_get_touches s b
    obtain ⟨a1, a2, a3, a4⟩ := acquire_safe K x s (list_kref_get s b) b false true false 0 g1 g2
      (by rw [g2.1]; exact hres)
    simp only [a1]
    rw [if_neg (by simp [EBUSY]), if_neg (by simp)]
    exact swapout_reserved_invariant K x _ _ b rfl (a2.1 hinv) a4 a3

theorem free_listed_invariant : lru_invariant consts0 free_listed := by
  intro b _
  have h : (65537 : Nat) &&& consts0.TTM_PL_FLAG_NO_EVICT = 0 := by decide
  exact ⟨rfl, h⟩

/-- C5 (as the code has it).  If no buffer that is reserved or carries
`TTM_PL_FLAG_NO_EVICT` is on a memory-type LRU or on the swap list, the same
holds after `ttm_bo_reserve`, `ttm_bo_unreserve`, `ttm_bo_unblock_reservation`,
`ttm_bo_mem_force_space` and `ttm_bo_swapout`.  `ttm_bo_block_reservation`
only ever writes the reserved bit of its buffer and leaves every list as it
is; it keeps the invariant when its buffer is on no list. -/
theorem lru_invariant_preserved (K : ttm_consts) (x : collaborators W) (s : ttm_bo_device W)
    (hinv : lru_invariant K s) :
    (∀ b i nw us q, lru_invariant K (ttm_bo_reserve x s b i nw us q).2) ∧
    (∀ b s1, ttm_bo_unreserve K s b = some s1 → lru_invariant K s1) ∧
    (∀ b, lru_invariant K (ttm_bo_unblock_reservation s b)) ∧
    (∀ fuel mem t i nw, lru_invariant K (ttm_bo_mem_force_space K x fuel s mem t i nw).2.2) ∧
    lru_invariant K (ttm_bo_swapout K x s).2 ∧
    (∀ b i nw, ¬ listed s b → lru_invariant K (ttm_bo_block_reservation x s b i nw).2) ∧
    (∀ b i nw, (ttm_bo_block_reservation x s b i nw).2 = s ∨
      (ttm_bo_block_reservation x s b i nw).2 = set_bo s b { s.bo b with reserved := 1 }) :=
  ⟨fun b i nw us q => reserve_invariant K x s b i nw us q hinv,
    fun b s1 h => (unreserve_safe K s s1 b h).1 hinv,
    fun b => unblock_invariant K s b hinv,
    fun fuel mem t i nw => (mem_force_space_is_safe K x fuel s mem t i nw).1 hinv,
    swapout_invariant K x s hinv,
    fun b i nw hb => block_reservation_invariant K x s b i nw hb hinv,
    fun b i nw => block_reservation_state x s b i nw⟩

/-- C5, witness: swapping out the listed free buffer keeps the invariant. -/
theorem lru_invariant_preserved_witness :
    lru_invariant consts0 (ttm_bo_swapout consts0 quiet free_listed).2 :=
  (lru_invariant_preserved consts0 quiet free_listed free_listed_invariant).2.2.2.2.1

/-- C5, counterexample: buffer 0 is free and on the LRU of its type, and the
invariant holds.  `ttm_bo_block_reservation` returns 0 and sets the reserved
bit without taking the buffer off the LRU, so afterwards a reserved buffer is
on an LRU. -/
theorem block_reservation_breaks_invariant :
    lru_invariant consts0 free_listed ∧
    (ttm_bo_block_reservation quiet free_listed 0 false true).1 = outcome.ret 0 ∧
    ¬ lru_invariant consts0 (ttm_bo_block_reservation quiet free_listed 0 false true).2 := by
  refine ⟨free_listed_invariant, by decide, fun h => ?_⟩
  have h1 := (h 0 (Or.inl (by decide))).1
  revert h1
  decide

/-- C8, witness: a reserved buffer in system memory that has a ttm. -/
theorem validate_same_flags_witness :
    ttm_buffer_object_validate consts0 quiet 2 (device_of in_system) 0 false false =
      (outcome.ret 0, stamp_proposed (device_of in_system) 0) :=
  (validate_same_flags consts0 quiet 2 (device_of in_system) 0 false false (by decide)
    (by decide) (by decide) (by decide)).2.2.2.1 (by decide)

/-- C8, counterexample.  Both buffers are reserved and have proposed flags
identical to their placement flags.  The first is in system memory without a
ttm and no ttm can be created: validation returns `-ENOMEM`, not 0.  The
second has no memory-type bit in its flags: `ttm_bo_mem_compat` answers 0, so
`ttm_bo_move_buffer` is called, and validation returns its `-EINVAL`. -/
theorem validate_same_flags_not_always_zero :
    (fresh_system.reserved ≠ 0 ∧ fresh_system.proposed_flags = fresh_system.mem.flags) ∧
    (ttm_buffer_object_validate consts0 no_memory 2 (device_of fresh_system) 0 false false).1 =
      outcome.ret (-ENOMEM) ∧
    (no_type_bit.reserved ≠ 0 ∧ no_type_bit.proposed_flags = no_type_bit.mem.flags) ∧
    ttm_bo_mem_compat consts0 ((stamp_proposed (device_of no_type_bit) 0).bo 0).mem = 0 ∧
    (ttm_bo_move_buffer consts0 quiet 2 (stamp_proposed (device_of no_type_bit) 0) 0 65536
      false false).1 = outcome.ret (-EINVAL) ∧
    (ttm_buffer_object_validate consts0 quiet 2 (device_of no_type_bit) 0 false false).1 =
      outcome.ret (-EINVAL) := by
  decide

/-! ### The first pass of the space search -/

theorem get_block_none (x : collaborators W) (t np pa n : Nat) (s s1 : ttm_bo_device W)
    (hman : s1.man = s.man)
    (hpre : ∀ w, (x.drm_mm_pre_get w).1 = 0)
    (hfree : ∀ w, x.drm_mm_search_free w (man_at s t).manager np pa = none) :
    mem_space_get_block x t np pa (n + 1) s1 =
      (outcome.ret 0, none, set_ext s1 (x.drm_mm_pre_get s1.ext).2) := by
  have hm : man_at (set_ext s1 (x.drm_mm_pre_get s1.ext).2) t = man_at s t := by
    simp only [man_at, set_ext_man, hman]
  unfold mem_space_get_block
  simp only [hpre, ne_eq, not_true_eq_false, if_false, hm, hfree]

theorem get_block_some (x : collaborators W) (t np pa n a : Nat) (s s1 : ttm_bo_device W)
    (hman : s1.man = s.man)
    (hpre : ∀ w, (x.drm_mm_pre_get w).1 = 0)
    (hget : ∀ w, (x.drm_mm_get_block_atomic w).1 = true)
    (hfree : ∀ w, x.drm_mm_search_free w (man_at s t).manager np pa = some a) :
    mem_space_get_block x t np pa (n + 1) s1 =
      (outcome.ret 0, some ⟨a, np, t⟩,
        drm_mm_take (set_ext s1 (x.drm_mm_get_block_atomic (x.drm_mm_pre_get s1.ext).2).2)
          ⟨a, np, t⟩) := by
  have hm : man_at (set_ext s1 (x.drm_mm_pre_get s1.ext).2) t = man_at s t := by
    simp only [man_at, set_ext_man, hman]
  unfold mem_space_get_block
  simp only [hpre, ne_eq, not_true_eq_false, if_false, hm, hfree, hget, if_true]
  rfl

/-- The first loop of `ttm_bo_mem_space` stops at the first memory type that
offers something, when the allocator calls succeed. -/
theorem first_pass_first_fit (K : ttm_consts) (x : collaborators W) (fuel : Nat) (tu : Bool)
    (mem : ttm_mem_reg) (s : ttm_bo_device W) (pre post : List Nat) (t f : Nat)
    (st : Option Nat)
    (hpre : ∀ w, (x.drm_mm_pre_get w).1 = 0)
    (hget : ∀ w, (x.drm_mm_get_block_atomic w).1 = true)
    (hover : ∀ u ∈ pre, passes_over K x s tu mem.proposed_flags mem.num_pages
      mem.page_alignment u)
    (hoff : offers K x s tu mem.proposed_flags mem.num_pages mem.page_alignment t f st)
    (v : space_vars) (s1 : ttm_bo_device W) (hv : v.node = none) (hman : s1.man = s.man) :
    (mem_space_first_pass K x (fuel + 1) tu mem (pre ++ t :: post) v s1).1 = outcome.ret 0 ∧
    (mem_space_first_pass K x (fuel + 1) tu mem (pre ++ t :: post) v s1).2.1.mem_type = t ∧
    (mem_space_first_pass K x (fuel + 1) tu mem (pre ++ t :: post) v s1).2.1.type_ok = true ∧
    (mem_space_first_pass K x (fuel + 1) tu mem (pre ++ t :: post) v s1).2.1.cur_flags = f ∧
    (mem_space_first_pass K x (fuel + 1) tu mem (pre ++ t :: post) v s1).2.1.node =
      st.map (fun a => ⟨a, mem.num_pages, t⟩) ∧
    (mem_space_first_pass K x (fuel + 1) tu mem (pre ++ t :: post) v s1).2.2.bo = s1.bo ∧
    (mem_space_first_pass K x (fuel + 1) tu mem (pre ++ t :: post) v s1).2.2.swap_lru =
      s1.swap_lru ∧
    (mem_space_first_pass K x (fuel + 1) tu mem (pre ++ t :: post) v s1).2.2.man =
      (with_extent s t mem.num_pages st).man := by
  induction pre generalizing v s1 with
  | nil =>
    obtain ⟨hc, hcase⟩ := hoff
    have hm : man_at s1 t = man_at s t := by simp only [man_at, hman]
    simp only [List.nil_append]
    unfold mem_space_first_pass
    simp only [hm, hc]
    rcases hcase with ⟨hsys, hst⟩ | ⟨hsys, hen, a, hst, hfree⟩
    · subst hst
      simp [hsys, with_extent, hv, hman]
    · subst hst
      rw [if_neg hsys, if_pos hen,
        get_block_some x t mem.num_pages mem.page_alignment fuel a s s1 hman hpre hget hfree]
      simp [with_extent, drm_mm_take, hman]
  | cons u pre ih =>
    have hu := hover u (List.mem_cons_self u pre)
    have hrest : ∀ u' ∈ pre, passes_over K x s tu mem.proposed_flags mem.num_pages
        mem.page_alignment u' := fun u' h => hover u' (List.mem_cons_of_mem u h)
    have hm : man_at s1 u = man_at s u := by simp only [man_at, hman]
    simp only [List.cons_append]
    unfold mem_space_first_pass
    simp only [hm]
    cases hc : ttm_bo_mt_compatible K (man_at s u) tu u mem.proposed_flags with
    | none =>
      simp only
      exact ih hrest _ s1 hv hman
    | some f1 =>
      simp only
      rcases hu with hu | ⟨hsys, hu⟩
      · rw [hc] at hu
        exact absurd hu (by simp)
      · rw [if_neg hsys]
        rcases hu with hen | hfree
        · rw [hen]
          simp only [Bool.false_eq_true, if_false, hv, ne_eq, not_true_eq_false]
          exact ih hrest _ s1 rfl hman
        · cases hen : ((man_at s u).has_type && (man_at s u).use_type)
          · simp only [Bool.false_eq_true, if_false, hv, ne_eq, not_true_eq_false]
            exact ih hrest _ s1 rfl hman
          · rw [if_pos rfl,
              get_block_none x u mem.num_pages mem.page_alignment fuel s s1 hman hpre hfree]
            simp only [ne_eq, not_true_eq_false, if_false]
            exact ih hrest _ (set_ext s1 (x.drm_mm_pre_get s1.ext).2) rfl hman

/-- C11 (as the code has it).  Let the driver's `mem_type_prio` order be
`pre ++ t :: post`, where the first pass gets nothing from any type of `pre`
(each is incompatible with the proposed flags, or is not the system type and
is not initialised and enabled or has no free extent) and `t` is compatible
with mask `f` and is the system type or is initialised and enabled with a
free extent at page `st`.  Provided every `drm_mm_pre_get` succeeds and
`drm_mm_get_block_atomic` hands out the extent found, `ttm_bo_mem_space`
returns 0 with `mem->mem_type = t`, `mem->flags = f` and `mem->mm_node` the
extent taken from `t` (none for system memory).  No buffer is touched, so
nothing is evicted: the buffers and the lists are as before and the only
allocator that changes is that of `t`. -/
theorem mem_space_first_fit (K : ttm_consts) (x : collaborators W) (fuel : Nat)
    (s : ttm_bo_device W) (b : Nat) (mem : ttm_mem_reg) (i nw : Bool)
    (pre post : List Nat) (t f : Nat) (st : Option Nat)
    (hpre : ∀ w, (x.drm_mm_pre_get w).1 = 0)
    (hget : ∀ w, (x.drm_mm_get_block_atomic w).1 = true)
    (hprio : x.mem_type_prio = pre ++ t :: post)
    (hover : ∀ u ∈ pre, passes_over K x s (decide ((s.bo b).type = ttm_bo_type.ttm_bo_type_user))
      mem.proposed_flags mem.num_pages mem.page_alignment u)
    (hoff : offers K x s (decide ((s.bo b).type = ttm_bo_type.ttm_bo_type_user))
      mem.proposed_flags mem.num_pages mem.page_alignment t f st) :
    (ttm_bo_mem_space K x (fuel + 1) s b mem i nw).1 = outcome.ret 0 ∧
    (ttm_bo_mem_space K x (fuel + 1) s b mem i nw).2.1 =
      { mem with mm_node := st.map (fun a => ⟨a, mem.num_pages, t⟩), mem_type := t,
                 flags := f } ∧
    (ttm_bo_mem_space K x (fuel + 1) s b mem i nw).2.2.bo = s.bo ∧
    (ttm_bo_mem_space K x (fuel + 1) s b mem i nw).2.2.swap_lru = s.swap_lru ∧
    (ttm_bo_mem_space K x (fuel + 1) s b mem i nw).2.2.man =
      (with_extent s t mem.num_pages st).man := by
  obtain ⟨h1, h2, h3, h4, h5, h6, h7, h8⟩ := first_pass_first_fit K x fuel
    (decide ((s.bo b).type = ttm_bo_type.ttm_bo_type_user)) { mem with mm_node := none } s
    pre post t f st hpre hget hover hoff { mem_type := K.TTM_PL_SYSTEM } s rfl rfl
  have hcond : ((mem_space_first_pass K x (fuel + 1)
      (decide ((s.bo b).type = ttm_bo_type.ttm_bo_type_user)) { mem with mm_node := none }
      (pre ++ t :: post) { mem_type := K.TTM_PL_SYSTEM } s).2.1.type_ok &&
      decide ((mem_space_first_pass K x (fuel + 1)
      (decide ((s.bo b).type = ttm_bo_type.ttm_bo_type_user)) { mem with mm_node := none }
      (pre ++ t :: post) { mem_type := K.TTM_PL_SYSTEM } s).2.1.mem_type = K.TTM_PL_SYSTEM) ||
      decide ((mem_space_first_pass K x (fuel + 1)
      (decide ((s.bo b).type = ttm_bo_type.ttm_bo_type_user)) { mem with mm_node := none }
      (pre ++ t :: post) { mem_type := K.TTM_PL_SYSTEM } s).2.1.node ≠ none)) = true := by
    rw [h2, h3, h5]
    rcases hoff.2 with ⟨hsys, _⟩ | ⟨_, _, a, hst, _⟩
    · simp [hsys]
    · simp [hst]
  unfold ttm_bo_mem_space ttm_bo_mem_space_with
  simp only [hprio]
  rw [if_neg (by rw [h1]; simp), if_pos hcond]
  simp only [h2, h4, h5, h6, h7, h8]
  exact ⟨trivial, trivial, trivial, trivial, trivial⟩

/-- C11, witness: the aperture comes first in the order and is full, the
request also allows system memory; the search ends in system memory and
nobody is evicted. -/
theorem mem_space_first_fit_witness :
    (ttm_bo_mem_space consts0 two_slots 1 full_aperture 2
      { num_pages := 4, proposed_flags := 327683 } false false).1 = outcome.ret 0 ∧
    (ttm_bo_mem_space consts0 two_slots 1 full_aperture 2
      { num_pages := 4, proposed_flags := 327683 } false false).2.1 =
      { num_pages := 4, proposed_flags := 327683, mm_node := none, mem_type := 0,
        flags := 65537 } ∧
    (ttm_bo_mem_space consts0 two_slots 1 full_aperture 2
      { num_pages := 4, proposed_flags := 327683 } false false).2.2.bo = full_aperture.bo ∧
    (ttm_bo_mem_space consts0 two_slots 1 full_aperture 2
      { num_pages := 4, proposed_flags := 327683 } false false).2.2.swap_lru = [0, 1] ∧
    (ttm_bo_mem_space consts0 two_slots 1 full_aperture 2
      { num_pages := 4, proposed_flags := 327683 } false false).2.2.man = full_aperture.man :=
  mem_space_first_fit consts0 two_slots 0 full_aperture 2
    { num_pages := 4, proposed_flags := 327683 } false false [1] [] 0 65537 none
    (fun _ => rfl) (fun _ => rfl) rfl
    (fun u hu => by
      have h1 : u = 1 := by simpa using hu
      subst h1
      exact Or.inr ⟨by decide, Or.inr (fun _ => rfl)⟩)
    ⟨by decide, Or.inl ⟨rfl, rfl⟩⟩

/-- C11, counterexample to the claim as stated.  The aperture (type 1) comes
first in the order, is compatible with the proposed flags, is initialised and
enabled and has a free extent at page 0.  When `drm_mm_pre_get` fails the
search returns its error `-ENOMEM`; when `drm_mm_get_block_atomic` keeps
returning NULL the loop is still retrying after eight rounds. -/
theorem mem_space_first_fit_not_always :
    offers consts0 starved (device_of in_system) false 262146 4 0 1 262146 (some 0) ∧
    (ttm_bo_mem_space consts0 starved 8 (device_of in_system) 0
      { num_pages := 4, proposed_flags := 262146 } false false).1 = outcome.ret (-ENOMEM) ∧
    offers consts0 never_handed (device_of in_system) false 262146 4 0 1 262146 (some 0) ∧
    (ttm_bo_mem_space consts0 never_handed 8 (device_of in_system) 0
      { num_pages := 4, proposed_flags := 262146 } false false).1 = outcome.fuel :=
  ⟨⟨by decide, Or.inr ⟨by decide, by decide, 0, rfl, fun _ => rfl⟩⟩, by decide,
    ⟨by decide, Or.inr ⟨by decide, by decide, 0, rfl, fun _ => rfl⟩⟩, by decide⟩

/-! ### The final error of the space search -/

theorem busy_pass_errors (K : ttm_consts) (x : collaborators W) (evict : evict_fn W)
    (fuel : Nat) (tu i nw : Bool) (ps : List Nat) (cf : Nat) (he : Bool) (mem : ttm_mem_reg)
    (s : ttm_bo_device W)
    (hall : ∀ o ∈ busy_pass_attempts K x evict fuel tu i nw ps mem s,
      ∃ c, o = outcome.ret c ∧ c ≠ 0) :
    (mem_space_busy_pass K x evict fuel tu i nw ps cf he mem s).1 =
      outcome.ret (if he = true ∨
          outcome.ret (-ERESTART) ∈ busy_pass_attempts K x evict fuel tu i nw ps mem s
        then -ERESTART else -ENOMEM) := by
  induction ps generalizing cf he mem s with
  | nil =>
    simp only [mem_space_busy_pass, busy_pass_attempts, List.not_mem_nil, or_false]
  | cons p ps ih =>
    unfold busy_pass_attempts at hall
    unfold mem_space_busy_pass
    unfold busy_pass_attempts
    split
    · rename_i h1
      rw [if_pos h1] at hall
      exact ih _ _ _ _ hall
    · rename_i h1
      rw [if_neg h1] at hall
      split
      · rename_i h2
        simp only [h2] at hall
        exact ih _ _ _ _ hall
      · rename_i f h2
        simp only [h2] at hall
        simp only at hall ⊢
        generalize ttm_bo_mem_force_space_with K x evict p i nw fuel s mem = r at hall ⊢
        obtain ⟨o, m, s2⟩ := r
        obtain ⟨c, hc, hc0⟩ := hall o (List.mem_cons_self _ _)
        subst hc
        simp only at hall ⊢
        have h3 : ¬ (c = 0 ∧ m.mm_node ≠ none) := fun h => hc0 h.1
        rw [if_neg h3] at hall ⊢
        rw [ih _ _ _ _ (fun o ho => hall o (List.mem_cons_of_mem _ ho))]
        simp only [List.mem_cons, outcome.ret.injEq, Bool.or_eq_true, decide_eq_true_eq]
        by_cases hh : he = true
        · simp [hh]
        · by_cases hcode : c = -ERESTART
          · simp [hcode]
          · have hcode2 : ¬ (-ERESTART = c) := fun h => hcode h.symm
            simp [hh, hcode, hcode2, hc0]

/-- C13 (as the code has it).  When the first pass of `ttm_bo_mem_space`
finds nothing (it ends without an extent and without settling on system
memory, having met an initialised and enabled type) and every
`ttm_bo_mem_force_space` attempt of the second pass fails with an error
code, the search returns `-ERESTART` if one of the attempts returned
`-ERESTART`, and `-ENOMEM` if none did, whatever else they returned. -/
theorem mem_space_final_error (K : ttm_consts) (x : collaborators W) (fuel : Nat)
    (s : ttm_bo_device W) (b : Nat) (mem : ttm_mem_reg) (i nw : Bool)
    (hfirst : (first_pass_of K x fuel s b mem).1 = outcome.ret 0)
    (hnode : (first_pass_of K x fuel s b mem).2.1.node = none)
    (hsys : ((first_pass_of K x fuel s b mem).2.1.type_ok &&
      decide ((first_pass_of K x fuel s b mem).2.1.mem_type = K.TTM_PL_SYSTEM)) = false)
    (hfound : (first_pass_of K x fuel s b mem).2.1.type_found = true)
    (hall : ∀ o ∈ busy_pass_attempts K x (ttm_bo_evict K x fuel) fuel
        (decide ((s.bo b).type = ttm_bo_type.ttm_bo_type_user)) i nw x.mem_busy_prio
        { mem with mm_node := none } (first_pass_of K x fuel s b mem).2.2,
      ∃ c, o = outcome.ret c ∧ c ≠ 0) :
    (ttm_bo_mem_space K x fuel s b mem i nw).1 =
      outcome.ret (if outcome.ret (-ERESTART) ∈
          busy_pass_attempts K x (ttm_bo_evict K x fuel) fuel
            (decide ((s.bo b).type = ttm_bo_type.ttm_bo_type_user)) i nw x.mem_busy_prio
            { mem with mm_node := none } (first_pass_of K x fuel s b mem).2.2
        then -ERESTART else -ENOMEM) := by
  have h := busy_pass_errors K x (ttm_bo_evict K x fuel) fuel
    (decide ((s.bo b).type = ttm_bo_type.ttm_bo_type_user)) i nw x.mem_busy_prio
    (first_pass_of K x fuel s b mem).2.1.cur_flags false _ _ hall
  unfold ttm_bo_mem_space ttm_bo_mem_space_with
  unfold first_pass_of at hfirst hnode hsys hfound h ⊢
  simp only [hfirst, hnode, hsys, hfound, ne_eq, not_true_eq_false, if_false, Bool.false_or,
    decide_False, Bool.false_eq_true, Bool.not_true]
  simpa using h

/-- C13, witness: the head of the aperture LRU is held by someone else and
the caller, who may be interrupted, has a signal pending; the one attempt
returns `-ERESTART` and so does the search. -/
theorem mem_space_final_error_witness :
    busy_pass_attempts consts0 two_slots_signal (ttm_bo_evict consts0 two_slots_signal 3) 3
      (decide ((busy_head.bo 2).type = ttm_bo_type.ttm_bo_type_user)) true false
      two_slots_signal.mem_busy_prio
      { num_pages := 4, proposed_flags := 262146, mm_node := none }
      (first_pass_of consts0 two_slots_signal 3 busy_head 2
        { num_pages := 4, proposed_flags := 262146 }).2.2 = [outcome.ret (-ERESTART)] ∧
    (ttm_bo_mem_space consts0 two_slots_signal 3 busy_head 2
      { num_pages := 4, proposed_flags := 262146 } true false).1 =
      outcome.ret (if outcome.ret (-ERESTART) ∈
          busy_pass_attempts consts0 two_slots_signal (ttm_bo_evict consts0 two_slots_signal 3) 3
            (decide ((busy_head.bo 2).type = ttm_bo_type.ttm_bo_type_user)) true false
            two_slots_signal.mem_busy_prio
            { num_pages := 4, proposed_flags := 262146, mm_node := none }
            (first_pass_of consts0 two_slots_signal 3 busy_head 2
              { num_pages := 4, proposed_flags := 262146 }).2.2
        then -ERESTART else -ENOMEM) := by
  have hatt : busy_pass_attempts consts0 two_slots_signal
      (ttm_bo_evict consts0 two_slots_signal 3) 3
      (decide ((busy_head.bo 2).type = ttm_bo_type.ttm_bo_type_user)) true false
      two_slots_signal.mem_busy_prio
      { num_pages := 4, proposed_flags := 262146, mm_node := none }
      (first_pass_of consts0 two_slots_signal 3 busy_head 2
        { num_pages := 4, proposed_flags := 262146 }).2.2 = [outcome.ret (-ERESTART)] := by
    decide
  refine ⟨hatt, mem_space_final_error consts0 two_slots_signal 3 busy_head 2
    { num_pages := 4, proposed_flags := 262146 } true false
    (by decide) (by decide) (by decide) (by decide) (fun o ho => ?_)⟩
  rw [hatt] at ho
  exact ⟨-ERESTART, by simpa using ho, by decide⟩

/-- C13, counterexample to the claim as stated.  The aperture is full, the
buffer at the head of its LRU is held by someone else and the caller does
not wait: the one candidate's attempt fails with `-EBUSY`, only because the
buffer it would evict is busy with its holder, and yet the search ends with
`-ENOMEM`. -/
theorem reserved_candidate_gives_enomem :
    (busy_head.bo 0).reserved = 1 ∧ (man_at busy_head 1).lru = [0, 1] ∧
    busy_pass_attempts consts0 two_slots (ttm_bo_evict consts0 two_slots 3) 3 false false true
      two_slots.mem_busy_prio { num_pages := 4, proposed_flags := 262146 }
      (first_pass_of consts0 two_slots 3 busy_head 2
        { num_pages := 4, proposed_flags := 262146 }).2.2 = [outcome.ret (-EBUSY)] ∧
    (ttm_bo_mem_space consts0 two_slots 3 busy_head 2
      { num_pages := 4, proposed_flags := 262146 } false true).1 = outcome.ret (-ENOMEM) := by
  decide

/-! ### Forcing space -/

theorem evict_loop_found (K : ttm_consts) (x : collaborators W) (evict : evict_fn W)
    (np pa t : Nat) (i nw : Bool) (n : Nat) (s : ttm_bo_device W) (a : Nat)
    (h : x.drm_mm_search_free s.ext (man_at s t).manager np pa = some a) :
    force_space_evict_loop K x evict np pa t i nw (n + 1) s = (outcome.ret 0, some a, s) := by
  unfold force_space_evict_loop
  simp only [h]

theorem evict_loop_empty (K : ttm_consts) (x : collaborators W) (evict : evict_fn W)
    (np pa t : Nat) (i nw : Bool) (n : Nat) (s : ttm_bo_device W)
    (h : x.drm_mm_search_free s.ext (man_at s t).manager np pa = none)
    (hlru : (man_at s t).lru = []) :
    force_space_evict_loop K x evict np pa t i nw (n + 1) s = (outcome.ret 0, none, s) := by
  unfold force_space_evict_loop
  simp only [h, hlru]

/-- C14.  For a memory type whose LRU is empty and whose allocator has no
free extent of the requested size and alignment, `ttm_bo_mem_force_space`
returns `-ENOMEM` in its first round (any fuel of at least one suffices),
leaves `*mem` as it was and changes nothing in the device but the
collaborators' state: no buffer is reserved or evicted.  `drm_mm_pre_get`
(`drm_mm.c`, not among the sources) is taken to succeed or to fail with
`-ENOMEM`, its only error. -/
theorem force_space_nothing_to_evict (K : ttm_consts) (x : collaborators W) (fuel : Nat)
    (s : ttm_bo_device W) (mem : ttm_mem_reg) (t : Nat) (i nw : Bool)
    (hlru : (man_at s t).lru = [])
    (hfull : x.drm_mm_search_free (x.drm_mm_pre_get s.ext).2 (man_at s t).manager
      mem.num_pages mem.page_alignment = none)
    (hpre : (x.drm_mm_pre_get s.ext).1 = 0 ∨ (x.drm_mm_pre_get s.ext).1 = -ENOMEM) :
    ttm_bo_mem_force_space K x (fuel + 1) s mem t i nw =
      (outcome.ret (-ENOMEM), mem, set_ext s (x.drm_mm_pre_get s.ext).2) := by
  unfold ttm_bo_mem_force_space
  unfold ttm_bo_mem_force_space_with
  by_cases h0 : (x.drm_mm_pre_get s.ext).1 = 0
  · have hl := evict_loop_empty K x (ttm_bo_evict K x (fuel + 1)) mem.num_pages
      mem.page_alignment t i nw fuel (set_ext s (x.drm_mm_pre_get s.ext).2) hfull hlru
    simp only [h0, ne_eq, not_true_eq_false, if_false, hl]
  · rcases hpre with h | h
    · exact absurd h h0
    · have h1 : (x.drm_mm_pre_get s.ext).1 ≠ 0 := h0
      rw [if_pos h1, h]

/-- C14, witness: the aperture of a fresh device, whose allocator finds
nothing. -/
theorem force_space_nothing_to_evict_witness :
    ttm_bo_mem_force_space consts0 quiet 1 (device_of in_system) { num_pages := 4 } 1 false false
      = (outcome.ret (-ENOMEM), { num_pages := 4 }, device_of in_system) :=
  force_space_nothing_to_evict consts0 quiet 0 (device_of in_system) { num_pages := 4 } 1
    false false rfl rfl (Or.inl rfl)

theorem force_space_head_reserved (K : ttm_consts) (x : collaborators W) (fuel : Nat)
    (s : ttm_bo_device W) (mem : ttm_mem_reg) (t : Nat) (i : Bool) (e : Nat) (rest : List Nat)
    (hpre : (x.drm_mm_pre_get s.ext).1 = 0)
    (hfull : x.drm_mm_search_free (x.drm_mm_pre_get s.ext).2 (man_at s t).manager
      mem.num_pages mem.page_alignment = none)
    (hlru : (man_at s t).lru = e :: rest)
    (hres : (s.bo e).reserved ≠ 0) :
    ttm_bo_mem_force_space K x (fuel + 1) s mem t i true =
      (outcome.ret (-EBUSY), mem, list_kref_get (set_ext s (x.drm_mm_pre_get s.ext).2) e) := by
  unfold ttm_bo_mem_force_space
  unfold ttm_bo_mem_force_space_with
  have hl : force_space_evict_loop K x (ttm_bo_evict K x (fuel + 1)) mem.num_pages
      mem.page_alignment t i true (fuel + 1) (set_ext s (x.drm_mm_pre_get s.ext).2) =
      (outcome.ret (-EBUSY), none, list_kref_get (set_ext s (x.drm_mm_pre_get s.ext).2) e) := by
    unfold force_space_evict_loop
    have h1 : x.drm_mm_search_free (set_ext s (x.drm_mm_pre_get s.ext).2).ext
        (man_at (set_ext s (x.drm_mm_pre_get s.ext).2) t).manager mem.num_pages
        mem.page_alignment = none := hfull
    have h2 : (man_at (set_ext s (x.drm_mm_pre_get s.ext).2) t).lru = e :: rest := hlru
    have h3 : ((list_kref_get (set_ext s (x.drm_mm_pre_get s.ext).2) e).bo e).reserved ≠ 0 := by
      simpa [list_kref_get, set_ext] using hres
    have h4 := reserve_locked_collision x (list_kref_get (set_ext s (x.drm_mm_pre_get s.ext).2) e)
      e i true false 0 h3
    simp only [Bool.false_and, Bool.false_eq_true, if_false, if_true] at h4
    simp only [h1, h2, h4]
    simp [EBUSY]
  simp only [hpre, ne_eq, not_true_eq_false, if_false, hl]
  simp [EBUSY]

/-- C15 (as the code has it).  When `drm_mm_pre_get` succeeds, the allocator
has no free extent and the buffer at the head of the memory type's LRU is
reserved, a non-blocking `ttm_bo_mem_force_space` (`no_wait` set) does not
block, and it does not go on to the next LRU entry either: it returns
`-EBUSY` at once.  `*mem` is as before, the lists are unchanged and every
buffer keeps its reserved bit, placement and offset, so nothing is evicted. -/
theorem force_space_busy_head_aborts (K : ttm_consts) (x : collaborators W) (fuel : Nat)
    (s : ttm_bo_device W) (mem : ttm_mem_reg) (t : Nat) (i : Bool) (e : Nat) (rest : List Nat)
    (hpre : (x.drm_mm_pre_get s.ext).1 = 0)
    (hfull : x.drm_mm_search_free (x.drm_mm_pre_get s.ext).2 (man_at s t).manager
      mem.num_pages mem.page_alignment = none)
    (hlru : (man_at s t).lru = e :: rest)
    (hres : (s.bo e).reserved ≠ 0) :
    (ttm_bo_mem_force_space K x (fuel + 1) s mem t i true).1 = outcome.ret (-EBUSY) ∧
    (ttm_bo_mem_force_space K x (fuel + 1) s mem t i true).2.1 = mem ∧
    same_lists s (ttm_bo_mem_force_space K x (fuel + 1) s mem t i true).2.2 ∧
    ∀ b, keeps b s (ttm_bo_mem_force_space K x (fuel + 1) s mem t i true).2.2 := by
  rw [force_space_head_reserved K x fuel s mem t i e rest hpre hfull hlru hres]
  refine ⟨rfl, rfl, ⟨rfl, rfl⟩, fun b => ?_⟩
  exact keeps_trans (keeps_set_ext b s _) (keeps_set_bo b e _ _ rfl rfl rfl)

/-- C15, witness: the aperture is full and its LRU head is held by someone
else. -/
theorem force_space_busy_head_aborts_witness :
    (ttm_bo_mem_force_space consts0 two_slots 3 busy_head { num_pages := 4 } 1 false true).1
      = outcome.ret (-EBUSY) ∧
    (ttm_bo_mem_force_space consts0 two_slots 3 busy_head { num_pages := 4 } 1 false true).2.1
      = { num_pages := 4 } ∧
    same_lists busy_head
      (ttm_bo_mem_force_space consts0 two_slots 3 busy_head { num_pages := 4 } 1 false
        true).2.2 ∧
    ∀ b, keeps b busy_head
      (ttm_bo_mem_force_space consts0 two_slots 3 busy_head { num_pages := 4 } 1 false
        true).2.2 :=
  force_space_busy_head_aborts consts0 two_slots 2 busy_head { num_pages := 4 } 1 false 0 [1]
    rfl (by decide) (by decide) (by decide)

/-- C15, counterexample to the claim as stated.  The aperture LRU is
`[0, 1]`, buffer 0 is held by someone else and buffer 1 is free; evicting
buffer 1 would make room (the last line runs the same call with buffer 1
alone on the LRU).  The non-blocking call does not skip buffer 0: it returns
`-EBUSY` and buffer 1 is still in the aperture and on its LRU. -/
theorem force_space_busy_head_not_skipped :
    (busy_head.bo 0).reserved = 1 ∧ (busy_head.bo 1).reserved = 0 ∧
    (man_at busy_head 1).lru = [0, 1] ∧
    (ttm_bo_mem_force_space consts0 two_slots 3 busy_head { num_pages := 4 } 1 false true).1
      = outcome.ret (-EBUSY) ∧
    ((ttm_bo_mem_force_space consts0 two_slots 3 busy_head { num_pages := 4 } 1 false
      true).2.2.bo 1).mem.mem_type = 1 ∧
    (man_at (ttm_bo_mem_force_space consts0 two_slots 3 busy_head { num_pages := 4 } 1 false
      true).2.2 1).lru = [0, 1] ∧
    (ttm_bo_mem_force_space consts0 two_slots 3 full_aperture_tail { num_pages := 4 } 1 false
      true).1 = outcome.ret 0 := by
  decide

/-- C17, the code at the failing input.  The aperture is full and the head
of its LRU, buffer 0, is held by someone else; buffer 0 is on the aperture
LRU and on the swap list and has three list references.  A non-blocking
`ttm_bo_mem_force_space` returns `-EBUSY`; buffer 0 is on the same lists as
before and has four list references. -/
theorem force_space_leaks_list_reference :
    (busy_head.bo 0).list_kref = 3 ∧ on_lru busy_head 0 = true ∧ on_swap busy_head 0 = true ∧
    busy_head.ddestroy = [] ∧
    (ttm_bo_mem_force_space consts0 two_slots 3 busy_head { num_pages := 4 } 1 false true).1
      = outcome.ret (-EBUSY) ∧
    ((ttm_bo_mem_force_space consts0 two_slots 3 busy_head { num_pages := 4 } 1 false
      true).2.2.bo 0).list_kref = 4 ∧
    on_lru (ttm_bo_mem_force_space consts0 two_slots 3 busy_head { num_pages := 4 } 1 false
      true).2.2 0 = true ∧
    on_swap (ttm_bo_mem_force_space consts0 two_slots 3 busy_head { num_pages := 4 } 1 false
      true).2.2 0 = true ∧
    (ttm_bo_mem_force_space consts0 two_slots 3 busy_head { num_pages := 4 } 1 false
      true).2.2.ddestroy = [] := by
  decide

/-! ### Destruction -/

theorem list_kref_put_release_n_spec (x : collaborators W) (n : Nat) (s : ttm_bo_device W)
    (b : Nat) (h : (n : Int) < (s.bo b).list_kref) :
    list_kref_put_release_n x n s b =
      some (set_bo s b { s.bo b with list_kref := (s.bo b).list_kref - n }) := by
  induction n generalizing s with
  | zero =>
    simp only [list_kref_put_release_n, Nat.cast_zero, sub_zero]
    exact congrArg some (set_bo_self s b).symm
  | succ n ih =>
    have h1 : (s.bo b).list_kref - 1 ≠ 0 := by push_cast at h; omega
    simp only [list_kref_put_release_n, list_kref_put_release, set_bo_bo_self, h1, if_false]
    rw [ih]
    · simp only [set_bo_set_bo, set_bo_bo_self]
      congr 2
      push_cast
      ring_nf
    · simp only [set_bo_bo_self]
      push_cast at h
      omega

theorem man_at_manager_lru_del (s : ttm_bo_device W) (b t : Nat) :
    (man_at (lru_del s b) t).manager = (man_at s t).manager := by
  simp only [man_at, lru_del, List.getD_eq_getElem?_getD, List.getElem?_map]
  cases s.man[t]? <;> rfl

theorem del_from_lru_rest (s : ttm_bo_device W) (b : Nat) :
    (ttm_bo_del_from_lru s b).2.ddestroy = s.ddestroy ∧
    (ttm_bo_del_from_lru s b).2.wq_scheduled = s.wq_scheduled ∧
    ∀ t, (man_at (ttm_bo_del_from_lru s b).2 t).manager = (man_at s t).manager := by
  unfold ttm_bo_del_from_lru
  simp only
  split <;> split <;>
    first
    | exact ⟨rfl, rfl, fun t => man_at_manager_lru_del _ b t⟩
    | exact ⟨rfl, rfl, fun _ => rfl⟩

theorem list_del_not_mem (l : List Nat) (b : Nat) : b ∉ list_del l b := by
  simp [mem_list_del]

theorem list_del_of_not_mem (l : List Nat) (b : Nat) (h : b ∉ l) : list_del l b = l := by
  unfold list_del
  rw [List.filter_eq_self]
  intro a ha
  simp only [ne_eq, decide_not, Bool.not_eq_true', decide_eq_false_iff_not]
  exact fun hab => h (hab ▸ ha)

theorem cleanup_unbind_spec (x : collaborators W) (s : ttm_bo_device W) (b : Nat) :
    (cleanup_unbind x s b).bo = s.bo ∧ (cleanup_unbind x s b).man = s.man ∧
    (cleanup_unbind x s b).swap_lru = s.swap_lru ∧
    (cleanup_unbind x s b).ddestroy = s.ddestroy ∧
    (cleanup_unbind x s b).wq_scheduled = s.wq_scheduled := by
  unfold cleanup_unbind
  split <;> exact ⟨rfl, rfl, rfl, rfl, rfl⟩

theorem lists_on_ddestroy (s : ttm_bo_device W) (b : Nat) (h : b ∈ s.ddestroy) :
    1 ≤ lists_on s b := by
  unfold lists_on
  simp only [h, if_true]
  split <;> split <;> omega

theorem cleanup_leave_ddestroy_spec (s : ttm_bo_device W) (b : Nat)
    (hc : (if b ∈ s.ddestroy then (1 : Int) else 0) < (s.bo b).list_kref) :
    (cleanup_leave_ddestroy s b).1 = outcome.ret 0 ∧
    (cleanup_leave_ddestroy s b).2.bo b = { s.bo b with
      list_kref := (s.bo b).list_kref - (if b ∈ s.ddestroy then 1 else 0) } ∧
    (∀ c, c ≠ b → (cleanup_leave_ddestroy s b).2.bo c = s.bo c) ∧
    (cleanup_leave_ddestroy s b).2.man = s.man ∧
    (cleanup_leave_ddestroy s b).2.swap_lru = s.swap_lru ∧
    (cleanup_leave_ddestroy s b).2.ddestroy = list_del s.ddestroy b ∧
    (cleanup_leave_ddestroy s b).2.wq_scheduled = s.wq_scheduled := by
  unfold cleanup_leave_ddestroy
  by_cases hmem : b ∈ s.ddestroy
  · simp only [hmem, if_true] at hc
    have hne : (s.bo b).list_kref - 1 ≠ 0 := by omega
    rw [if_pos hmem]
    simp only [list_kref_put_bug, set_bo_bo_self, hne, if_false, hmem, if_true]
    refine ⟨trivial, trivial, fun c hc => ?_, rfl, rfl, rfl, rfl⟩
    rw [set_bo_bo_other _ _ _ _ hc]
  · rw [if_neg hmem]
    simp only [hmem, if_false, sub_zero, list_del_of_not_mem _ _ hmem]
    exact ⟨trivial, trivial, fun _ _ => trivial, trivial, trivial, trivial, trivial⟩

theorem cleanup_put_extent_spec (s : ttm_bo_device W) (b : Nat) :
    (cleanup_put_extent s b).bo b =
      { s.bo b with mem := { (s.bo b).mem with mm_node := none } } ∧
    (∀ c, c ≠ b → (cleanup_put_extent s b).bo c = s.bo c) ∧
    (cleanup_put_extent s b).man = (match (s.bo b).mem.mm_node with
      | some n => drm_mm_put_block s n
      | none => s).man ∧
    (cleanup_put_extent s b).swap_lru = s.swap_lru ∧
    (cleanup_put_extent s b).ddestroy = s.ddestroy ∧
    (cleanup_put_extent s b).wq_scheduled = s.wq_scheduled ∧
    on_lru (cleanup_put_extent s b) b = on_lru s b := by
  unfold cleanup_put_extent
  cases hn : (s.bo b).mem.mm_node with
  | none =>
    have hb : s.bo b = { s.bo b with mem := { (s.bo b).mem with mm_node := none } } := by
      cases hb : s.bo b with
      | mk ty np mem pf ttm so soa pr off res sv vs kr lk cw vm fr =>
        cases mem with
        | mk node sz np2 pa mt fl pfl =>
          simp only [hb] at hn
          subst hn
          rfl
    simp only
    and_intros
    all_goals first | exact hb | trivial | (intro _ _; trivial)
  | some n =>
    simp only [set_bo_bo_self]
    refine ⟨trivial, fun c hc => ?_, rfl, rfl, rfl, rfl, ?_⟩
    · rw [set_bo_bo_other _ _ _ _ hc]
      rfl
    · rw [on_lru_set_bo, same_lists_on_lru (same_lists_put_block s n) b]

theorem cleanup_refs_idle_spec (x : collaborators W) (s : ttm_bo_device W) (b : Nat)
    (hc : lists_on s b < (s.bo b).list_kref) :
    (cleanup_refs_idle x s b).1 = outcome.ret 0 ∧
    (cleanup_refs_idle x s b).2.bo b =
      { s.bo b with list_kref := (s.bo b).list_kref - lists_on s b,
                    mem := { (s.bo b).mem with mm_node := none } } ∧
    (∀ c, c ≠ b → (cleanup_refs_idle x s b).2.bo c = s.bo c) ∧
    on_lru (cleanup_refs_idle x s b).2 b = false ∧
    on_swap (cleanup_refs_idle x s b).2 b = false ∧
    (cleanup_refs_idle x s b).2.ddestroy = list_del s.ddestroy b ∧
    (cleanup_refs_idle x s b).2.wq_scheduled = s.wq_scheduled ∧
    (∀ t, (man_at (cleanup_refs_idle x s b).2 t).manager =
      (man_at (match (s.bo b).mem.mm_node with
        | some n => drm_mm_put_block s n
        | none => s) t).manager) := by
  obtain ⟨f1bo, f1man, f1swap, f1dd, f1wq⟩ := cleanup_unbind_spec x s b
  have hc1 : (if b ∈ (cleanup_unbind x s b).ddestroy then (1 : Int) else 0) <
      ((cleanup_unbind x s b).bo b).list_kref := by
    rw [f1dd, f1bo]
    unfold lists_on at hc
    split <;> (split at hc <;> split at hc <;> simp_all <;> omega)
  obtain ⟨f2a, f2bo, f2other, f2man, f2swap, f2dd, f2wq⟩ :=
    cleanup_leave_ddestroy_spec (cleanup_unbind x s b) b hc1
  rw [f1bo, f1dd] at f2bo
  rw [f1man] at f2man
  rw [f1swap] at f2swap
  rw [f1dd] at f2dd
  rw [f1wq] at f2wq
  simp only [f1bo] at f2other
  unfold cleanup_refs_idle
  generalize cleanup_leave_ddestroy (cleanup_unbind x s b) b = d at f2a f2bo f2other f2man f2swap f2dd f2wq
  obtain ⟨d1, s2⟩ := d
  simp only at f2a f2bo f2other f2man f2swap f2dd f2wq
  subst f2a
  simp only
  obtain ⟨f3bo, f3other, f3man, f3swap, f3dd, f3wq, f3lru⟩ := cleanup_put_extent_spec s2 b
  rw [f2bo] at f3bo
  simp only at f3bo
  have hnode : (s2.bo b).mem.mm_node = (s.bo b).mem.mm_node := by rw [f2bo]
  rw [hnode] at f3man
  have f3man2 : (cleanup_put_extent s2 b).man = (match (s.bo b).mem.mm_node with
      | some n => drm_mm_put_block s n
      | none => s).man := by
    rw [f3man]
    cases (s.bo b).mem.mm_node with
    | none => exact f2man
    | some n => simp only [drm_mm_put_block, f2man]
  have f3lru2 : on_lru (cleanup_put_extent s2 b) b = on_lru s b := by
    rw [f3lru]
    simp only [on_lru, f2man]
  have hswap3 : on_swap (cleanup_put_extent s2 b) b = on_swap s b := by
    simp only [on_swap, f3swap, f2swap]
  generalize cleanup_put_extent s2 b = s3 at f3bo f3other f3man2 f3swap f3dd f3wq f3lru2 hswap3
  obtain ⟨p1, p2, p3, p4, _⟩ := del_from_lru_spec s3 b
  obtain ⟨q1, q2, q3⟩ := del_from_lru_rest s3 b
  have hcount : ((ttm_bo_del_from_lru s3 b).1 : Int) <
      (((ttm_bo_del_from_lru s3 b).2).bo b).list_kref := by
    rw [p4, f3bo, p1, f3lru2, hswap3]
    unfold lists_on at hc
    simp only
    push_cast
    split <;> split <;> split <;> simp_all <;> omega
  rw [list_kref_put_release_n_spec x _ _ b hcount]
  simp only [set_bo_bo_self, on_lru_set_bo, on_swap_set_bo, set_bo_ddestroy, man_at_set_bo]
  refine ⟨trivial, ?_, fun c hc => ?_, p2, p3, ?_, ?_, fun t => ?_⟩
  · rw [p4, f3bo, p1, f3lru2, hswap3]
    unfold lists_on
    simp only [ttm_buffer_object.mk.injEq, and_true, true_and]
    push_cast
    split <;> split <;> split <;> simp <;> omega
  · rw [set_bo_bo_other _ _ _ _ hc, p4, f3other c hc]
    exact f2other c hc
  · rw [q1, f3dd, f2dd]
  · show (ttm_bo_del_from_lru s3 b).2.wq_scheduled = _
    rw [q2, f3wq, f2wq]
  · rw [q3 t]
    simp only [man_at, f3man2]

theorem release_list_spec (x : collaborators W) (s : ttm_bo_device W) (b : Nat)
    (h1 : (s.bo b).list_kref = 0) (h2 : (s.bo b).kref = 0) (h3 : (s.bo b).cpu_writers = 0)
    (h4 : (s.bo b).sync_obj = none) (h5 : (s.bo b).mem.mm_node = none)
    (h6 : on_lru s b = false) (h7 : b ∉ s.ddestroy) :
    ∃ w, ttm_bo_release_list x s b =
      some (set_bo (set_ext s w) b { s.bo b with freed := true }) := by
  unfold ttm_bo_release_list
  have hcond : ¬ ((s.bo b).list_kref ≠ 0 ∨ (s.bo b).kref ≠ 0 ∨ (s.bo b).cpu_writers ≠ 0 ∨
      (s.bo b).sync_obj ≠ none ∨ (s.bo b).mem.mm_node ≠ none ∨
      on_lru s b = true ∨ b ∈ s.ddestroy) := by
    simp only [h1, h2, h3, h4, h5, h6, h7, ne_eq, not_true_eq_false, Bool.false_eq_true, or_self,
      not_false_eq_true]
  rw [if_neg hcond]
  simp only
  split
  · exact ⟨_, rfl⟩
  · exact ⟨s.ext, rfl⟩

theorem cleanup_signaled_idle (K : ttm_consts) (x : collaborators W) (s : ttm_bo_device W)
    (b : Nat)
    (hidle : (s.bo b).sync_obj = none ∨
      ∃ so, (s.bo b).sync_obj = some so ∧
        x.sync_obj_signaled s.ext so (s.bo b).sync_obj_arg = true) :
    ∃ p, cleanup_signaled K x s b = set_bo s b { s.bo b with sync_obj := none, priv_flags := p } := by
  unfold cleanup_signaled
  rcases hidle with h | ⟨so, h, hs⟩
  · refine ⟨(s.bo b).priv_flags, ?_⟩
    simp only [h]
    have hb : s.bo b = { s.bo b with sync_obj := none, priv_flags := (s.bo b).priv_flags } := by
      cases hb : s.bo b with
      | mk ty np mem pf ttm so soa pr off res sv vs kr lk cw vm fr =>
        simp only [hb] at h
        subst h
        rfl
    rw [← hb, set_bo_self]
  · exact ⟨(s.bo b).priv_flags &&& u32_not K.TTM_BO_PRIV_FLAG_MOVING, by
      simp only [h, hs, if_true, drop_sync_obj]⟩

theorem cleanup_signaled_busy (K : ttm_consts) (x : collaborators W) (s : ttm_bo_device W)
    (b so : Nat) (hso : (s.bo b).sync_obj = some so)
    (hsig : x.sync_obj_signaled s.ext so (s.bo b).sync_obj_arg = false) :
    cleanup_signaled K x s b = s := by
  unfold cleanup_signaled
  simp only [hso, hsig, Bool.false_eq_true, if_false]

theorem lists_on_congr (s s1 : ttm_bo_device W) (b : Nat) (hman : s1.man = s.man)
    (hswap : s1.swap_lru = s.swap_lru) (hdd : s1.ddestroy = s.ddestroy) :
    lists_on s1 b = lists_on s b := by
  simp only [lists_on, on_lru, on_swap, hman, hswap, hdd]

theorem release_vm_node_spec (s : ttm_bo_device W) (b : Nat) :
    (release_vm_node s b).bo = s.bo ∧ (release_vm_node s b).man = s.man ∧
    (release_vm_node s b).swap_lru = s.swap_lru ∧
    (release_vm_node s b).ddestroy = s.ddestroy ∧
    (release_vm_node s b).wq_scheduled = s.wq_scheduled ∧
    (release_vm_node s b).ext = s.ext := by
  unfold release_vm_node
  split <;> exact ⟨rfl, rfl, rfl, rfl, rfl, rfl⟩

/-- C20.  For a buffer whose sync object the driver reports unsignaled,
`ttm_bo_cleanup_refs(bo, false)` returns without freeing the buffer or
releasing its extent.  If the buffer is on the delayed-destroy list already,
nothing changes at all.  Otherwise the only changes are that the sync object
is flushed (collaborators' state), the buffer is appended to the
delayed-destroy list, its list reference count goes up by one and the delayed
work is scheduled. -/
theorem cleanup_refs_busy_buffer (K : ttm_consts) (x : collaborators W) (fuel : Nat)
    (s : ttm_bo_device W) (b so : Nat)
    (hso : (s.bo b).sync_obj = some so)
    (hsig : x.sync_obj_signaled s.ext so (s.bo b).sync_obj_arg = false) :
    (ttm_bo_cleanup_refs K x fuel s b false).1 = outcome.ret 0 ∧
    (b ∈ s.ddestroy → (ttm_bo_cleanup_refs K x fuel s b false).2 = s) ∧
    (b ∉ s.ddestroy →
      (ttm_bo_cleanup_refs K x fuel s b false).2 =
        { set_bo (set_ext s (x.sync_obj_flush s.ext so (s.bo b).sync_obj_arg)) b
            { s.bo b with list_kref := (s.bo b).list_kref + 1 } with
          ddestroy := s.ddestroy ++ [b], wq_scheduled := true }) := by
  unfold ttm_bo_cleanup_refs
  simp only [cleanup_signaled_busy K x s b so hso hsig, Bool.false_eq_true, and_false, if_false,
    hso, reduceCtorEq]
  unfold cleanup_refs_busy
  refine ⟨trivial, fun h => ?_, fun h => ?_⟩
  · simp only [h, if_true]
  · simp only [h, if_false, hso, Option.getD_some, set_ext, list_kref_get]

/-- C19.  Let buffer `b` have one strong reference left, no CPU writer, a
sync object that is absent or that the driver reports signaled, and a list
reference count of one (held for the strong references) plus the number of
lists it is on.  Then `ttm_bo_unref` returns with the object freed: its sync
object is dropped, its extent is back with the allocator and `mm_node` is
NULL, it is on no LRU, not on the swap list and not on the delayed-destroy
list, and both counts are zero.  The delayed-destroy list only loses `b`, no
delayed work is scheduled and no other buffer changes. -/
theorem unref_idle_frees (K : ttm_consts) (x : collaborators W) (fuel : Nat)
    (s : ttm_bo_device W) (b : Nat)
    (hk : (s.bo b).kref = 1)
    (hidle : (s.bo b).sync_obj = none ∨
      ∃ so, (s.bo b).sync_obj = some so ∧
        x.sync_obj_signaled s.ext so (s.bo b).sync_obj_arg = true)
    (hcount : (s.bo b).list_kref = 1 + lists_on s b)
    (hcpu : (s.bo b).cpu_writers = 0) :
    (ttm_bo_unref K x fuel s b).1 = outcome.ret 0 ∧
    ((ttm_bo_unref K x fuel s b).2.bo b).freed = true ∧
    ((ttm_bo_unref K x fuel s b).2.bo b).sync_obj = none ∧
    ((ttm_bo_unref K x fuel s b).2.bo b).mem.mm_node = none ∧
    ((ttm_bo_unref K x fuel s b).2.bo b).list_kref = 0 ∧
    ((ttm_bo_unref K x fuel s b).2.bo b).kref = 0 ∧
    on_lru (ttm_bo_unref K x fuel s b).2 b = false ∧
    on_swap (ttm_bo_unref K x fuel s b).2 b = false ∧
    (ttm_bo_unref K x fuel s b).2.ddestroy = list_del s.ddestroy b ∧
    (ttm_bo_unref K x fuel s b).2.wq_scheduled = s.wq_scheduled ∧
    (∀ t, (man_at (ttm_bo_unref K x fuel s b).2 t).manager =
      (man_at (match (s.bo b).mem.mm_node with
        | some n => drm_mm_put_block s n
        | none => s) t).manager) ∧
    (∀ c, c ≠ b → (ttm_bo_unref K x fuel s b).2.bo c = s.bo c) := by
  -- the strong count drops to zero
  unfold ttm_bo_unref
  simp only [set_bo_bo_self, hk, sub_self, if_true]
  unfold ttm_bo_release
  generalize hs0 : set_bo s b { s.bo b with kref := 0 } = s0
  have g0 : s0.bo b = { s.bo b with kref := 0 } := by rw [← hs0, set_bo_bo_self]
  have g0o : ∀ c, c ≠ b → s0.bo c = s.bo c := fun c hc => by
    rw [← hs0, set_bo_bo_other _ _ _ _ hc]
  have g0man : s0.man = s.man := by rw [← hs0]; rfl
  have g0swap : s0.swap_lru = s.swap_lru := by rw [← hs0]; rfl
  have g0dd : s0.ddestroy = s.ddestroy := by rw [← hs0]; rfl
  have g0wq : s0.wq_scheduled = s.wq_scheduled := by rw [← hs0]; rfl
  have g0ext : s0.ext = s.ext := by rw [← hs0]; rfl
  obtain ⟨v1, v2, v3, v4, v5, v6⟩ := release_vm_node_spec s0 b
  generalize release_vm_node s0 b = sv at v1 v2 v3 v4 v5 v6
  have hidle1 : (sv.bo b).sync_obj = none ∨
      ∃ so, (sv.bo b).sync_obj = some so ∧
        x.sync_obj_signaled sv.ext so (sv.bo b).sync_obj_arg = true := by
    rw [v1, g0, v6, g0ext]
    exact hidle
  obtain ⟨p, hp⟩ := cleanup_signaled_idle K x sv b hidle1
  unfold ttm_bo_cleanup_refs
  simp only [hp, set_bo_bo_self, ne_eq, not_true_eq_false, false_and, if_false, if_true]
  generalize hs1 : set_bo sv b { sv.bo b with sync_obj := none, priv_flags := p } = s1
  have g1 : s1.bo b = { s.bo b with kref := 0, sync_obj := none, priv_flags := p } := by
    rw [← hs1, set_bo_bo_self, v1, g0]
  have g1o : ∀ c, c ≠ b → s1.bo c = s.bo c := fun c hc => by
    rw [← hs1, set_bo_bo_other _ _ _ _ hc, v1]
    exact g0o c hc
  have g1man : s1.man = s.man := by rw [← hs1, set_bo_man, v2, g0man]
  have g1swap : s1.swap_lru = s.swap_lru := by rw [← hs1, set_bo_swap_lru, v3, g0swap]
  have g1dd : s1.ddestroy = s.ddestroy := by rw [← hs1, set_bo_ddestroy, v4, g0dd]
  have g1wq : s1.wq_scheduled = s.wq_scheduled := by
    rw [← hs1]
    show sv.wq_scheduled = _
    rw [v5, g0wq]
  have hl : lists_on s1 b = lists_on s b := lists_on_congr s s1 b g1man g1swap g1dd
  have hc1 : lists_on s1 b < (s1.bo b).list_kref := by
    rw [hl, g1]
    simp only [hcount]
    omega
  obtain ⟨i1, i2, i3, i4, i5, i6, i7, i8⟩ := cleanup_refs_idle_spec x s1 b hc1
  rw [g1, hl] at i2
  simp only [hcount, add_sub_cancel_right] at i2
  generalize cleanup_refs_idle x s1 b = c at i1 i2 i3 i4 i5 i6 i7 i8
  obtain ⟨c1, c2⟩ := c
  simp only at i1 i2 i3 i4 i5 i6 i7 i8
  subst i1
  simp only
  -- the last list reference goes and the object is released
  have hdd : b ∉ c2.ddestroy := by rw [i6]; exact list_del_not_mem _ _
  obtain ⟨w, hrel⟩ := release_list_spec x
    (set_bo c2 b { c2.bo b with list_kref := (c2.bo b).list_kref - 1 }) b
    (by simp only [set_bo_bo_self, i2, sub_self])
    (by simp only [set_bo_bo_self, i2])
    (by simp only [set_bo_bo_self, i2, hcpu])
    (by simp only [set_bo_bo_self, i2])
    (by simp only [set_bo_bo_self, i2])
    (by rw [on_lru_set_bo, i4])
    (by rw [set_bo_ddestroy]; exact hdd)
  have hput : list_kref_put_release x c2 b =
      some (set_bo (set_ext c2 w) b { c2.bo b with list_kref := 0, freed := true }) := by
    unfold list_kref_put_release
    simp only [set_bo_bo_self, i2, sub_self, if_true]
    simp only [set_bo_bo_self, i2, sub_self] at hrel
    rw [hrel]
    simp only [set_ext, set_bo, Function.update_idem]
  rw [hput]
  simp only [set_bo_bo_self, on_lru_set_bo, on_swap_set_bo, set_bo_ddestroy, man_at_set_bo, i2,
    man_at_set_ext]
  refine ⟨trivial, trivial, trivial, trivial, trivial, trivial, ?_, ?_, ?_, ?_, fun t => ?_,
    fun c hc => ?_⟩
  · exact i4
  · exact i5
  · show c2.ddestroy = _
    rw [i6, g1dd]
  · show c2.wq_scheduled = _
    rw [i7, g1wq]
  · rw [i8 t]
    have hnode : (s1.bo b).mem.mm_node = (s.bo b).mem.mm_node := by rw [g1]
    rw [hnode]
    cases (s.bo b).mem.mm_node with
    | none => simp only [man_at, g1man]
    | some n => simp only [man_at, drm_mm_put_block, g1man]
  · rw [set_bo_bo_other _ _ _ _ hc]
    show c2.bo c = _
    rw [i3 c hc]
    exact g1o c hc

/-- C19, witness: buffer 0 of the full aperture, idle, on the aperture LRU
and on the swap list; the last `ttm_bo_unref` frees it and its extent at
page 0 goes back to the allocator. -/
theorem unref_idle_frees_witness :
    (ttm_bo_unref consts0 two_slots 1 full_aperture 0).1 = outcome.ret 0 ∧
    ((ttm_bo_unref consts0 two_slots 1 full_aperture 0).2.bo 0).freed = true ∧
    ((ttm_bo_unref consts0 two_slots 1 full_aperture 0).2.bo 0).mem.mm_node = none ∧
    ((ttm_bo_unref consts0 two_slots 1 full_aperture 0).2.bo 0).list_kref = 0 ∧
    on_lru (ttm_bo_unref consts0 two_slots 1 full_aperture 0).2 0 = false ∧
    on_swap (ttm_bo_unref consts0 two_slots 1 full_aperture 0).2 0 = false ∧
    (ttm_bo_unref consts0 two_slots 1 full_aperture 0).2.ddestroy = [] ∧
    (ttm_bo_unref consts0 two_slots 1 full_aperture 0).2.wq_scheduled = false ∧
    (man_at (ttm_bo_unref consts0 two_slots 1 full_aperture 0).2 1).manager =
      { nodes := [⟨4, 4, 1⟩] } :=
  have h := unref_idle_frees consts0 two_slots 1 full_aperture 0 (by decide)
    (Or.inl (by decide)) (by decide) (by decide)
  ⟨h.1, h.2.1, h.2.2.2.1, h.2.2.2.2.1, h.2.2.2.2.2.2.1, h.2.2.2.2.2.2.2.1,
    h.2.2.2.2.2.2.2.2.1, h.2.2.2.2.2.2.2.2.2.1, (h.2.2.2.2.2.2.2.2.2.2.1 1).trans (by decide)⟩

/-- C19, counterexample to the claim as stated.  Two idle buffers whose last
strong reference is dropped without the object being freed in that call.

Buffer 0 of the full aperture has no sync object; after a successful
`ttm_bo_synccpu_write_grab` a CPU writer is registered on it.  The last
`ttm_bo_unref` gives its extent back and unlinks it, and then stops at the
assertion `BUG_ON(atomic_read(&bo->cpu_writers))` of `ttm_bo_release_list`:
nothing is freed.

Buffer 0 of `busy_head` has no sync object either and no CPU writer.  A
non-blocking `ttm_bo_mem_force_space` that met it reserved has left it with
one list reference more than its lists and its strong references account for
(four instead of three).  After `ttm_bo_unblock_reservation` the last
`ttm_bo_unref` returns with the buffer unlinked and its extent given back,
but the list count is one, not zero, and the object is not freed. -/
theorem unref_idle_not_always_freed :
    ((ttm_bo_synccpu_write_grab consts0 two_slots full_aperture 0 true).2.bo 0).sync_obj = none ∧
    ((ttm_bo_synccpu_write_grab consts0 two_slots full_aperture 0 true).2.bo 0).kref = 1 ∧
    ((ttm_bo_synccpu_write_grab consts0 two_slots full_aperture 0 true).2.bo 0).cpu_writers = 1 ∧
    (ttm_bo_unref consts0 two_slots 1
      (ttm_bo_synccpu_write_grab consts0 two_slots full_aperture 0 true).2 0).1 = outcome.bug ∧
    ((ttm_bo_unref consts0 two_slots 1
      (ttm_bo_synccpu_write_grab consts0 two_slots full_aperture 0 true).2 0).2.bo 0).freed
        = false ∧
    ((ttm_bo_unblock_reservation
      (ttm_bo_mem_force_space consts0 two_slots 3 busy_head { num_pages := 4 } 1 false
        true).2.2 0).bo 0).sync_obj = none ∧
    ((ttm_bo_unblock_reservation
      (ttm_bo_mem_force_space consts0 two_slots 3 busy_head { num_pages := 4 } 1 false
        true).2.2 0).bo 0).kref = 1 ∧
    ((ttm_bo_unblock_reservation
      (ttm_bo_mem_force_space consts0 two_slots 3 busy_head { num_pages := 4 } 1 false
        true).2.2 0).bo 0).cpu_writers = 0 ∧
    ((ttm_bo_unblock_reservation
      (ttm_bo_mem_force_space consts0 two_slots 3 busy_head { num_pages := 4 } 1 false
        true).2.2 0).bo 0).list_kref = 4 ∧
    lists_on (ttm_bo_unblock_reservation
      (ttm_bo_mem_force_space consts0 two_slots 3 busy_head { num_pages := 4 } 1 false
        true).2.2 0) 0 = 2 ∧
    (ttm_bo_unref consts0 two_slots 1
      (ttm_bo_unblock_reservation
        (ttm_bo_mem_force_space consts0 two_slots 3 busy_head { num_pages := 4 } 1 false
          true).2.2 0) 0).1 = outcome.ret 0 ∧
    ((ttm_bo_unref consts0 two_slots 1
      (ttm_bo_unblock_reservation
        (ttm_bo_mem_force_space consts0 two_slots 3 busy_head { num_pages := 4 } 1 false
          true).2.2 0) 0).2.bo 0).mem.mm_node = none ∧
    lists_on (ttm_bo_unref consts0 two_slots 1
      (ttm_bo_unblock_reservation
        (ttm_bo_mem_force_space consts0 two_slots 3 busy_head { num_pages := 4 } 1 false
          true).2.2 0) 0).2 0 = 0 ∧
    ((ttm_bo_unref consts0 two_slots 1
      (ttm_bo_unblock_reservation
        (ttm_bo_mem_force_space consts0 two_slots 3 busy_head { num_pages := 4 } 1 false
          true).2.2 0) 0).2.bo 0).list_kref = 1 ∧
    ((ttm_bo_unref consts0 two_slots 1
      (ttm_bo_unblock_reservation
        (ttm_bo_mem_force_space consts0 two_slots 3 busy_head { num_pages := 4 } 1 false
          true).2.2 0) 0).2.bo 0).freed = false := by
  refine ⟨?_, ?_, ?_, ?_, ?_, ?_, ?_, ?_, ?_, ?_, ?_, ?_, ?_, ?_, ?_⟩ <;> decide

/-- C20, witness: buffer 0 of the aperture is still rendered from and is not
on the delayed-destroy list; afterwards it is, with one list reference
more, and the delayed work is scheduled. -/
theorem cleanup_refs_busy_buffer_witness :
    (ttm_bo_cleanup_refs consts0 two_slots 1 rendering 0 false).1 = outcome.ret 0 ∧
    (ttm_bo_cleanup_refs consts0 two_slots 1 rendering 0 false).2 =
      { set_bo (set_ext rendering (two_slots.sync_obj_flush rendering.ext 3
            (rendering.bo 0).sync_obj_arg)) 0
          { rendering.bo 0 with list_kref := (rendering.bo 0).list_kref + 1 } with
        ddestroy := rendering.ddestroy ++ [0], wq_scheduled := true } :=
  ⟨(cleanup_refs_busy_buffer consts0 two_slots 1 rendering 0 3 (by decide) (by decide)).1,
    (cleanup_refs_busy_buffer consts0 two_slots 1 rendering 0 3 (by decide) (by decide)).2.2
      (by decide)⟩

/-! ### Managers: configuration, lists and allocators -/

theorem map_getD_default {α : Type} (l : List ttm_mem_type_manager)
    (P : ttm_mem_type_manager → α) (l1 : List ttm_mem_type_manager)
    (h : l1.map P = l.map P) (u : Nat) :
    P (l1.getD u default) = P (l.getD u default) := by
  have h1 := congrArg (fun l => l[u]?) h
  simp only [List.getElem?_map] at h1
  simp only [List.getD_eq_getElem?_getD]
  cases h2 : l1[u]? <;> cases h3 : l[u]? <;> simp_all

theorem same_config_at {s s1 : ttm_bo_device W} (h : same_config s s1) (u : Nat) :
    config_of (man_at s1 u) = config_of (man_at s u) :=
  map_getD_default s.man config_of s1.man h u

theorem same_alloc_at {s s1 : ttm_bo_device W} (h : same_alloc s s1) (u : Nat) :
    (man_at s1 u).manager = (man_at s u).manager :=
  map_getD_default s.man (fun m => m.manager) s1.man h u

theorem same_config_refl (s : ttm_bo_device W) : same_config s s := rfl

theorem same_config_trans {s s1 s2 : ttm_bo_device W} (h1 : same_config s s1)
    (h2 : same_config s1 s2) : same_config s s2 := h2.trans h1

theorem same_alloc_refl (s : ttm_bo_device W) : same_alloc s s := rfl

theorem same_alloc_trans {s s1 s2 : ttm_bo_device W} (h1 : same_alloc s s1)
    (h2 : same_alloc s1 s2) : same_alloc s s2 := h2.trans h1

theorem same_config_of_man {s s1 : ttm_bo_device W} (h : s1.man = s.man) : same_config s s1 := by
  unfold same_config
  rw [h]

theorem same_alloc_of_man {s s1 : ttm_bo_device W} (h : s1.man = s.man) : same_alloc s s1 := by
  unfold same_alloc
  rw [h]

theorem same_lists_of_man {s s1 : ttm_bo_device W} (h : s1.man = s.man)
    (h2 : s1.swap_lru = s.swap_lru) : same_lists s s1 := by
  unfold same_lists
  rw [h, h2]
  exact ⟨rfl, rfl⟩

theorem modify_map_proj {α : Type} (P : ttm_mem_type_manager → α)
    (l : List ttm_mem_type_manager) (f : ttm_mem_type_manager → ttm_mem_type_manager) (t : Nat)
    (hf : ∀ m, P (f m) = P m) : (l.modify f t).map P = l.map P := by
  induction l generalizing t with
  | nil => cases t <;> simp [List.modify]
  | cons m l ih =>
    cases t with
    | zero => simp [List.modify, hf]
    | succ t => simp [List.modify_succ_cons, ih]

theorem map_map_proj {α : Type} (P : ttm_mem_type_manager → α)
    (l : List ttm_mem_type_manager) (f : ttm_mem_type_manager → ttm_mem_type_manager)
    (hf : ∀ m, P (f m) = P m) : (l.map f).map P = l.map P := by
  rw [List.map_map]
  exact List.map_congr_left (fun m _ => hf m)

theorem lru_del_config (s : ttm_bo_device W) (b : Nat) :
    same_config s (lru_del s b) ∧ same_alloc s (lru_del s b) :=
  ⟨map_map_proj config_of s.man _ (fun _ => rfl), map_map_proj _ s.man _ (fun _ => rfl)⟩

theorem lru_add_tail_config (s : ttm_bo_device W) (t b : Nat) :
    same_config s (lru_add_tail s t b) ∧ same_alloc s (lru_add_tail s t b) :=
  ⟨modify_map_proj config_of s.man _ t (fun _ => rfl), modify_map_proj _ s.man _ t (fun _ => rfl)⟩

theorem put_block_config (s : ttm_bo_device W) (n : drm_mm_node) :
    same_config s (drm_mm_put_block s n) :=
  modify_map_proj config_of s.man _ n.mm (fun _ => rfl)

theorem take_config (s : ttm_bo_device W) (n : drm_mm_node) :
    same_config s (drm_mm_take s n) :=
  modify_map_proj config_of s.man _ n.mm (fun _ => rfl)

theorem compatible_config (K : ttm_consts) (m : ttm_mem_type_manager) (tu : Bool) (t f : Nat) :
    ttm_bo_mt_compatible K (config_of m) tu t f = ttm_bo_mt_compatible K m tu t f := rfl

theorem compatible_congr (K : ttm_consts) {s s1 : ttm_bo_device W} (h : same_config s s1)
    (tu : Bool) (t f : Nat) :
    ttm_bo_mt_compatible K (man_at s1 t) tu t f = ttm_bo_mt_compatible K (man_at s t) tu t f := by
  rw [← compatible_config K (man_at s1 t), ← compatible_config K (man_at s t),
    same_config_at h t]

theorem enabled_congr {s s1 : ttm_bo_device W} (h : same_config s s1) (t : Nat) :
    (man_at s1 t).has_type = (man_at s t).has_type ∧
    (man_at s1 t).use_type = (man_at s t).use_type ∧
    (man_at s1 t).flags = (man_at s t).flags ∧
    (man_at s1 t).gpu_offset = (man_at s t).gpu_offset := by
  have h1 := same_config_at h t
  exact ⟨congrArg (fun m => m.has_type) h1, congrArg (fun m => m.use_type) h1,
    congrArg (fun m => m.flags) h1, congrArg (fun m => m.gpu_offset) h1⟩

theorem del_from_lru_config (s : ttm_bo_device W) (b : Nat) :
    same_config s (ttm_bo_del_from_lru s b).2 ∧ same_alloc s (ttm_bo_del_from_lru s b).2 := by
  unfold ttm_bo_del_from_lru
  simp only
  split <;> split <;>
    first
    | exact lru_del_config _ b
    | exact ⟨rfl, rfl⟩

theorem man_at_lru_del (s : ttm_bo_device W) (b u : Nat) :
    (man_at (lru_del s b) u).lru = list_del (man_at s u).lru b := by
  simp only [man_at, lru_del, List.getD_eq_getElem?_getD, List.getElem?_map]
  cases s.man[u]? <;> rfl

theorem not_on_lru_at (s : ttm_bo_device W) (b u : Nat) (h : on_lru s b = false) :
    b ∉ (man_at s u).lru := by
  intro hb
  have h1 : on_lru s b = true := by
    rw [on_lru_iff]
    simp only [man_at, List.getD_eq_getElem?_getD] at hb
    cases h2 : s.man[u]? with
    | none =>
      simp only [h2, Option.getD_none] at hb
      exact absurd hb (List.not_mem_nil b)
    | some m =>
      simp only [h2, Option.getD_some] at hb
      obtain ⟨hu, hm⟩ := List.getElem?_eq_some_iff.1 h2
      exact ⟨m, hm ▸ List.getElem_mem hu, hb⟩
  rw [h] at h1
  exact absurd h1 (by simp)

theorem del_from_lru_lru_at (s : ttm_bo_device W) (b u : Nat) :
    (man_at (ttm_bo_del_from_lru s b).2 u).lru = list_del (man_at s u).lru b := by
  have h1 : on_lru { s with swap_lru := list_del s.swap_lru b } b = on_lru s b := rfl
  unfold ttm_bo_del_from_lru
  simp only
  cases hl : on_lru s b
  · have hno := not_on_lru_at s b u hl
    split <;> simp only [h1, hl, Bool.false_eq_true, if_false] <;>
      exact (list_del_of_not_mem _ _ hno).symm
  · split <;> simp only [h1, hl, if_true] <;> exact man_at_lru_del _ b u

theorem del_from_lru_swap (s : ttm_bo_device W) (b : Nat) :
    (ttm_bo_del_from_lru s b).2.swap_lru = list_del s.swap_lru b := by
  unfold ttm_bo_del_from_lru
  simp only
  cases hs : on_swap s b
  · have hno : b ∉ s.swap_lru := by simpa [on_swap] using hs
    simp only [Bool.false_eq_true, if_false]
    split <;> exact (list_del_of_not_mem _ _ hno).symm
  · simp only [if_true]
    split <;> rfl

/-! ### One round of the eviction loop -/

theorem list_kref_put_bug_ok (n : Nat) (s : ttm_bo_device W) (b : Nat)
    (h : (n : Int) < (s.bo b).list_kref) :
    list_kref_put_bug n s b =
      (outcome.ret 0, set_bo s b { s.bo b with list_kref := (s.bo b).list_kref - n }) := by
  induction n generalizing s with
  | zero =>
    simp only [list_kref_put_bug, Nat.cast_zero, sub_zero]
    rw [set_bo_self]
  | succ n ih =>
    have h1 : (s.bo b).list_kref - 1 ≠ 0 := by push_cast at h; omega
    simp only [list_kref_put_bug, set_bo_bo_self, h1, if_false]
    rw [ih]
    · simp only [set_bo_set_bo, set_bo_bo_self]
      congr 3
      push_cast
      ring_nf
    · simp only [set_bo_bo_self]
      push_cast at h
      omega

/-- What the head of the eviction loop does to a free victim: it takes a
list reference, reserves the buffer, takes it off the lists and drops the
references the lists held. -/
theorem acquire_exact (x : collaborators W) (s : ttm_bo_device W) (e : Nat) (i nw : Bool)
    (hres : (s.bo e).reserved = 0)
    (hc : ((ttm_bo_del_from_lru s e).1 : Int) ≤ (s.bo e).list_kref) :
    (ttm_bo_reserve_locked x (list_kref_get s e) e i nw false 0).1 = outcome.ret 0 ∧
    ∃ s3,
      list_kref_put_bug
        (ttm_bo_del_from_lru (ttm_bo_reserve_locked x (list_kref_get s e) e i nw false 0).2 e).1
        (ttm_bo_del_from_lru (ttm_bo_reserve_locked x (list_kref_get s e) e i nw false 0).2 e).2
        e = (outcome.ret 0, s3) ∧
      s3.bo e =
        { s.bo e with
          reserved := 1, seq_valid := false,
          list_kref := (s.bo e).list_kref + 1 - (ttm_bo_del_from_lru s e).1 } ∧
      (∀ c, c ≠ e → s3.bo c = s.bo c) ∧
      (∀ u, (man_at s3 u).lru = list_del (man_at s u).lru e) ∧
      s3.swap_lru = list_del s.swap_lru e ∧
      same_config s s3 ∧ same_alloc s s3 ∧
      on_lru s3 e = false ∧ on_swap s3 e = false := by
  have hres0 : ((list_kref_get s e).bo e).reserved = 0 := by
    simpa [list_kref_get] using hres
  have hr : ttm_bo_reserve_locked x (list_kref_get s e) e i nw false 0 =
      (outcome.ret 0, set_bo s e
        { s.bo e with
          reserved := 1, seq_valid := false, list_kref := (s.bo e).list_kref + 1 }) := by
    unfold ttm_bo_reserve_locked
    simp only [hres0, ne_eq, not_true_eq_false, if_false, Bool.false_eq_true]
    simp only [list_kref_get, set_bo_bo_self, set_bo_set_bo]
  rw [hr]
  refine ⟨rfl, ?_⟩
  simp only
  generalize hs1 : set_bo s e
        { s.bo e with
          reserved := 1, seq_valid := false, list_kref := (s.bo e).list_kref + 1 } = s1
  have g1 : s1.bo e =
      { s.bo e with
        reserved := 1, seq_valid := false, list_kref := (s.bo e).list_kref + 1 } := by
    rw [← hs1, set_bo_bo_self]
  have g1o : ∀ c, c ≠ e → s1.bo c = s.bo c := fun c hc => by
    rw [← hs1, set_bo_bo_other _ _ _ _ hc]
  have g1man : s1.man = s.man := by rw [← hs1]; rfl
  have g1swap : s1.swap_lru = s.swap_lru := by rw [← hs1]; rfl
  obtain ⟨p1, p2, p3, p4, _⟩ := del_from_lru_spec s1 e
  obtain ⟨p1', _, _, _, _⟩ := del_from_lru_spec s e
  have hcnt : (ttm_bo_del_from_lru s1 e).1 = (ttm_bo_del_from_lru s e).1 := by
    rw [p1, p1']
    simp only [on_lru, on_swap, g1man, g1swap]
  have hlt : (((ttm_bo_del_from_lru s1 e).1 : Nat) : Int) <
      ((ttm_bo_del_from_lru s1 e).2.bo e).list_kref := by
    rw [p4, g1, hcnt]
    simp only
    omega
  rw [list_kref_put_bug_ok _ _ _ hlt]
  refine ⟨_, rfl, ?_, fun c hc => ?_, fun u => ?_, ?_, ?_, ?_, ?_, ?_⟩
  · rw [set_bo_bo_self, p4, g1, hcnt]
  · rw [set_bo_bo_other _ _ _ _ hc, p4]
    exact g1o c hc
  · rw [man_at_set_bo, del_from_lru_lru_at]
    simp only [man_at, g1man]
  · rw [set_bo_swap_lru, del_from_lru_swap, g1swap]
  · exact same_config_trans (same_config_of_man g1man) (del_from_lru_config s1 e).1
  · exact same_alloc_trans (same_alloc_of_man g1man) (del_from_lru_config s1 e).2
  · rw [on_lru_set_bo]
    exact p2
  · rw [on_swap_set_bo]
    exact p3

theorem same_refs_refl (o : ttm_buffer_object) : same_refs o o := ⟨rfl, rfl, rfl, rfl, rfl, rfl⟩

theorem same_refs_trans {o o1 o2 : ttm_buffer_object} (h1 : same_refs o o1)
    (h2 : same_refs o1 o2) : same_refs o o2 :=
  ⟨h2.1.trans h1.1, h2.2.1.trans h1.2.1, h2.2.2.1.trans h1.2.2.1,
    h2.2.2.2.1.trans h1.2.2.2.1, h2.2.2.2.2.1.trans h1.2.2.2.2.1,
    h2.2.2.2.2.2.trans h1.2.2.2.2.2⟩

theorem unmap_virtual_bo (x : collaborators W) (s : ttm_bo_device W) :
    (ttm_bo_unmap_virtual x s).bo = s.bo ∧ (ttm_bo_unmap_virtual x s).man = s.man := by
  unfold ttm_bo_unmap_virtual
  split <;> exact ⟨rfl, rfl⟩

theorem add_ttm_refs (K : ttm_consts) (x : collaborators W) (s : ttm_bo_device W) (b : Nat) :
    same_refs (s.bo b) ((ttm_bo_add_ttm K x s b).2.bo b) ∧
    ((ttm_bo_add_ttm K x s b).2.bo b).mem = (s.bo b).mem ∧
    (ttm_bo_add_ttm K x s b).2.man = s.man := by
  obtain ⟨w, t, h, _⟩ := add_ttm_shape K x s b
  rw [h]
  simp only [set_bo_bo_self, set_bo_man, set_ext_man]
  refine ⟨⟨?_, ?_, ?_, ?_, ?_, ?_⟩, ?_, ?_⟩ <;> first | rfl | trivial

theorem add_ttm_succeeds (K : ttm_consts) (x : collaborators W) (s : ttm_bo_device W) (b : Nat)
    (hcreate : ∀ w n u, (x.ttm_tt_create w n u).1 ≠ none)
    (htype : (s.bo b).type ≠ ttm_bo_type.illegal) :
    (ttm_bo_add_ttm K x s b).1 = 0 := by
  unfold ttm_bo_add_ttm
  simp only [set_bo_bo_self, set_bo_ext]
  cases ht : (s.bo b).type
  all_goals simp only [hcreate, if_false]
  all_goals first | rfl | exact absurd ht htype

theorem moved_refs (K : ttm_consts) (x : collaborators W) (s : ttm_bo_device W) (b : Nat)
    (evict : Bool) :
    same_refs (s.bo b) ((handle_move_mem_moved K x s b evict).bo b) := by
  unfold handle_move_mem_moved
  simp only
  split <;> split <;> simp [same_refs, set_ext]

theorem out_err_refs (K : ttm_consts) (x : collaborators W) (s : ttm_bo_device W) (b : Nat) :
    same_refs (s.bo b) ((handle_move_mem_out_err K x s b).bo b) := by
  unfold handle_move_mem_out_err
  split
  · split
    · simp [same_refs]
    · exact same_refs_refl _
  · exact same_refs_refl _

theorem mover_commit_refs (ret : Int) (s : ttm_bo_device W) (b : Nat) (mem : ttm_mem_reg) :
    same_refs (s.bo b) ((mover_commit ret s b mem).2.2.bo b) := by
  unfold mover_commit
  split
  · exact same_refs_refl _
  · simp only
    split <;> simp [same_refs, drm_mm_put_block]

theorem move_refs (K : ttm_consts) (x : collaborators W) (s : ttm_bo_device W) (b : Nat)
    (mem : ttm_mem_reg) (evict old_fixed new_fixed : Bool) :
    same_refs (s.bo b)
      ((handle_move_mem_move K x s b mem evict old_fixed new_fixed).2.2.bo b) := by
  unfold handle_move_mem_move
  simp only
  generalize (if (!old_fixed && !new_fixed) = true then x.ttm_bo_move_ttm s.ext
    else if x.has_move = true then x.move s.ext else x.ttm_bo_move_memcpy s.ext) = r
  have h1 := mover_commit_refs r.1 (set_ext s r.2) b mem
  split
  · exact same_refs_trans h1 (out_err_refs K x _ b)
  · exact same_refs_trans h1 (moved_refs K x _ b evict)

theorem handle_move_mem_refs (K : ttm_consts) (x : collaborators W) (s : ttm_bo_device W)
    (b : Nat) (mem : ttm_mem_reg) (evict i nw : Bool) :
    same_refs (s.bo b) ((ttm_bo_handle_move_mem K x s b mem evict i nw).2.2.bo b) := by
  unfold ttm_bo_handle_move_mem
  simp only
  generalize hs1 : (if (ttm_mem_reg_is_pci K s (s.bo b).mem || ttm_mem_reg_is_pci K s mem ||
    decide (mem.flags &&& (s.bo b).mem.flags &&& K.TTM_PL_MASK_CACHING = 0)) = true
    then ttm_bo_unmap_virtual x s else s) = s1
  have p1 : s1.bo = s.bo := by
    subst hs1
    split
    · exact (unmap_virtual_bo x s).1
    · rfl
  rw [← p1]
  split
  · have ha := (add_ttm_refs K x s1 b).1
    split
    · exact same_refs_trans ha (out_err_refs K x _ b)
    · split
      · exact ha
      · generalize hbd : (if mem.mem_type ≠ K.TTM_PL_SYSTEM then
            ((x.ttm_tt_bind (set_ext (ttm_bo_add_ttm K x s1 b).2
                (x.ttm_tt_set_placement_caching (ttm_bo_add_ttm K x s1 b).2.ext
                  (((ttm_bo_add_ttm K x s1 b).2.bo b).ttm.getD 0) mem.flags).2).ext
              (((set_ext (ttm_bo_add_ttm K x s1 b).2
                (x.ttm_tt_set_placement_caching (ttm_bo_add_ttm K x s1 b).2.ext
                  (((ttm_bo_add_ttm K x s1 b).2.bo b).ttm.getD 0) mem.flags).2).bo b).ttm.getD 0)).1,
              set_ext (set_ext (ttm_bo_add_ttm K x s1 b).2
                (x.ttm_tt_set_placement_caching (ttm_bo_add_ttm K x s1 b).2.ext
                  (((ttm_bo_add_ttm K x s1 b).2.bo b).ttm.getD 0) mem.flags).2)
                (x.ttm_tt_bind (set_ext (ttm_bo_add_ttm K x s1 b).2
                (x.ttm_tt_set_placement_caching (ttm_bo_add_ttm K x s1 b).2.ext
                  (((ttm_bo_add_ttm K x s1 b).2.bo b).ttm.getD 0) mem.flags).2).ext
              (((set_ext (ttm_bo_add_ttm K x s1 b).2
                (x.ttm_tt_set_placement_caching (ttm_bo_add_ttm K x s1 b).2.ext
                  (((ttm_bo_add_ttm K x s1 b).2.bo b).ttm.getD 0) mem.flags).2).bo b).ttm.getD 0)).2)
          else ((0 : Int), set_ext (ttm_bo_add_ttm K x s1 b).2
                (x.ttm_tt_set_placement_caching (ttm_bo_add_ttm K x s1 b).2.ext
                  (((ttm_bo_add_ttm K x s1 b).2.bo b).ttm.getD 0) mem.flags).2)) = bd
        have hbdbo : bd.2.bo = (ttm_bo_add_ttm K x s1 b).2.bo := by
          subst hbd
          split <;> rfl
        split
        · exact same_refs_trans (hbdbo ▸ ha) (out_err_refs K x _ b)
        · split
          · refine same_refs_trans (hbdbo ▸ ha) (same_refs_trans ?_ (moved_refs K x _ b evict))
            simp [same_refs]
          · exact same_refs_trans (hbdbo ▸ ha) (move_refs K x _ b mem evict _ _)
  · exact move_refs K x s1 b mem evict _ _

theorem without_extent_congr (s s1 : ttm_bo_device W) (b : Nat) (hman : s1.man = s.man)
    (hnode : (s1.bo b).mem.mm_node = (s.bo b).mem.mm_node) :
    (without_extent s1 b).man = (without_extent s b).man := by
  unfold without_extent
  rw [hnode]
  cases (s.bo b).mem.mm_node with
  | none => exact hman
  | some n => simp only [drm_mm_put_block, hman]

theorem mover_commit_man (s : ttm_bo_device W) (b : Nat) (mem : ttm_mem_reg) :
    (mover_commit 0 s b mem).2.2.man = (without_extent s b).man := by
  unfold mover_commit without_extent
  simp only [ne_eq, not_true_eq_false, if_false]
  cases (s.bo b).mem.mm_node <;> rfl

theorem move_succeeds (K : ttm_consts) (x : collaborators W) (s : ttm_bo_device W) (b : Nat)
    (mem : ttm_mem_reg) (evict old_fixed new_fixed : Bool) (hx : obliging x) :
    (handle_move_mem_move K x s b mem evict old_fixed new_fixed).1 = 0 ∧
    (handle_move_mem_move K x s b mem evict old_fixed new_fixed).2.2.man =
      (without_extent s b).man := by
  obtain ⟨_, _, hmove, httm, hcpy, _, _, _⟩ := hx
  unfold handle_move_mem_move
  simp only
  generalize hr : (if (!old_fixed && !new_fixed) = true then x.ttm_bo_move_ttm s.ext
    else if x.has_move = true then x.move s.ext else x.ttm_bo_move_memcpy s.ext) = r
  have hr1 : r.1 = 0 := by
    subst hr
    split
    · exact httm _
    · split
      · exact hmove _
      · exact hcpy _
  rw [hr1]
  obtain ⟨c1, _, _, _, _⟩ := mover_commit_done (set_ext s r.2) b mem
  simp only [c1, ne_eq, not_true_eq_false, if_false]
  refine ⟨trivial, ?_⟩
  rw [(moved_spec K x _ b evict).2.2.1, mover_commit_man]
  exact without_extent_congr s (set_ext s r.2) b rfl rfl

/-- A move out of a memory type other than system memory succeeds when the
collaborators oblige; the extent the buffer held goes back to its
allocator. -/
theorem handle_move_mem_succeeds (K : ttm_consts) (x : collaborators W) (s : ttm_bo_device W)
    (b : Nat) (mem : ttm_mem_reg) (evict i nw : Bool) (hx : obliging x)
    (hsys : (s.bo b).mem.mem_type ≠ K.TTM_PL_SYSTEM)
    (httm : (s.bo b).ttm ≠ none ∨ (s.bo b).type ≠ ttm_bo_type.illegal) :
    (ttm_bo_handle_move_mem K x s b mem evict i nw).1 = 0 ∧
    (ttm_bo_handle_move_mem K x s b mem evict i nw).2.2.man = (without_extent s b).man := by
  have hx0 := hx
  obtain ⟨_, _, _, _, _, hcreate, hcache, hbind⟩ := hx
  unfold ttm_bo_handle_move_mem
  simp only
  generalize hs1 : (if (ttm_mem_reg_is_pci K s (s.bo b).mem || ttm_mem_reg_is_pci K s mem ||
    decide (mem.flags &&& (s.bo b).mem.flags &&& K.TTM_PL_MASK_CACHING = 0)) = true
    then ttm_bo_unmap_virtual x s else s) = s1
  have p1 : s1.bo = s.bo ∧ s1.man = s.man := by
    subst hs1
    split
    · exact unmap_virtual_bo x s
    · exact ⟨rfl, rfl⟩
  obtain ⟨p1bo, p1man⟩ := p1
  split
  · rename_i hcond
    have hnone : (s.bo b).ttm = none := by
      simp only [Bool.and_eq_true, decide_eq_true_eq, p1bo] at hcond
      exact hcond.2
    have htype : (s1.bo b).type ≠ ttm_bo_type.illegal := by
      rw [p1bo]
      rcases httm with h | h
      · exact absurd hnone h
      · exact h
    have ha := add_ttm_succeeds K x s1 b hcreate htype
    obtain ⟨_, hamem, haman⟩ := add_ttm_refs K x s1 b
    split
    · rename_i hne
      exact absurd ha hne
    · split
      · rename_i hne
        exact absurd (hcache _ _ _) hne
      · generalize hbd : (if mem.mem_type ≠ K.TTM_PL_SYSTEM then
            ((x.ttm_tt_bind (set_ext (ttm_bo_add_ttm K x s1 b).2
                (x.ttm_tt_set_placement_caching (ttm_bo_add_ttm K x s1 b).2.ext
                  (((ttm_bo_add_ttm K x s1 b).2.bo b).ttm.getD 0) mem.flags).2).ext
              (((set_ext (ttm_bo_add_ttm K x s1 b).2
                (x.ttm_tt_set_placement_caching (ttm_bo_add_ttm K x s1 b).2.ext
                  (((ttm_bo_add_ttm K x s1 b).2.bo b).ttm.getD 0) mem.flags).2).bo b).ttm.getD 0)).1,
              set_ext (set_ext (ttm_bo_add_ttm K x s1 b).2
                (x.ttm_tt_set_placement_caching (ttm_bo_add_ttm K x s1 b).2.ext
                  (((ttm_bo_add_ttm K x s1 b).2.bo b).ttm.getD 0) mem.flags).2)
                (x.ttm_tt_bind (set_ext (ttm_bo_add_ttm K x s1 b).2
                (x.ttm_tt_set_placement_caching (ttm_bo_add_ttm K x s1 b).2.ext
                  (((ttm_bo_add_ttm K x s1 b).2.bo b).ttm.getD 0) mem.flags).2).ext
              (((set_ext (ttm_bo_add_ttm K x s1 b).2
                (x.ttm_tt_set_placement_caching (ttm_bo_add_ttm K x s1 b).2.ext
                  (((ttm_bo_add_ttm K x s1 b).2.bo b).ttm.getD 0) mem.flags).2).bo b).ttm.getD 0)).2)
          else ((0 : Int), set_ext (ttm_bo_add_ttm K x s1 b).2
                (x.ttm_tt_set_placement_caching (ttm_bo_add_ttm K x s1 b).2.ext
                  (((ttm_bo_add_ttm K x s1 b).2.bo b).ttm.getD 0) mem.flags).2)) = bd
        have hbd1 : bd.1 = 0 ∧ bd.2.bo = (ttm_bo_add_ttm K x s1 b).2.bo ∧
            bd.2.man = (ttm_bo_add_ttm K x s1 b).2.man := by
          subst hbd
          split
          · exact ⟨hbind _ _, rfl, rfl⟩
          · exact ⟨rfl, rfl, rfl⟩
        obtain ⟨hbd0, hbdbo, hbdman⟩ := hbd1
        split
        · rename_i hne
          exact absurd hbd0 hne
        · split
          · rename_i heq
            rw [hbdbo, hamem, p1bo] at heq
            exact absurd heq hsys
          · obtain ⟨m1, m2⟩ := move_succeeds K x bd.2 b mem evict
              (decide ((man_at s1 (s1.bo b).mem.mem_type).flags &&& K.TTM_MEMTYPE_FLAG_FIXED ≠ 0))
              (decide ((man_at s1 mem.mem_type).flags &&& K.TTM_MEMTYPE_FLAG_FIXED ≠ 0)) hx0
            refine ⟨?_, ?_⟩
            · simpa [p1bo, man_at, p1man] using m1
            · have h3 : (without_extent bd.2 b).man = (without_extent s b).man :=
                without_extent_congr s bd.2 b (by rw [hbdman, haman, p1man])
                  (by rw [hbdbo, hamem, p1bo])
              rw [← h3, ← m2]
              simp [p1bo, man_at, p1man]
  · obtain ⟨m1, m2⟩ := move_succeeds K x s1 b mem evict
      (decide ((man_at s1 (s1.bo b).mem.mem_type).flags &&& K.TTM_MEMTYPE_FLAG_FIXED ≠ 0))
      (decide ((man_at s1 mem.mem_type).flags &&& K.TTM_MEMTYPE_FLAG_FIXED ≠ 0)) hx0
    refine ⟨?_, ?_⟩
    · simpa [p1bo, man_at, p1man] using m1
    · have h3 : (without_extent s1 b).man = (without_extent s b).man :=
        without_extent_congr s s1 b p1man (by rw [p1bo])
      rw [← h3, ← m2]
      simp [p1bo, man_at, p1man]

/-- The space search stops in its first pass at the first memory type that
offers something, whatever the eviction routine. -/
theorem mem_space_with_first_fit (K : ttm_consts) (x : collaborators W) (evict : evict_fn W)
    (fuel : Nat) (s : ttm_bo_device W) (b : Nat) (mem : ttm_mem_reg) (i nw : Bool)
    (pre post : List Nat) (t f : Nat) (st : Option Nat)
    (hpre : ∀ w, (x.drm_mm_pre_get w).1 = 0)
    (hget : ∀ w, (x.drm_mm_get_block_atomic w).1 = true)
    (hprio : x.mem_type_prio = pre ++ t :: post)
    (hover : ∀ u ∈ pre, passes_over K x s (decide ((s.bo b).type = ttm_bo_type.ttm_bo_type_user))
      mem.proposed_flags mem.num_pages mem.page_alignment u)
    (hoff : offers K x s (decide ((s.bo b).type = ttm_bo_type.ttm_bo_type_user))
      mem.proposed_flags mem.num_pages mem.page_alignment t f st) :
    (ttm_bo_mem_space_with K x evict (fuel + 1) s b mem i nw).1 = outcome.ret 0 ∧
    (ttm_bo_mem_space_with K x evict (fuel + 1) s b mem i nw).2.1 =
      { mem with mm_node := st.map (fun a => ⟨a, mem.num_pages, t⟩), mem_type := t,
                 flags := f } ∧
    (ttm_bo_mem_space_with K x evict (fuel + 1) s b mem i nw).2.2.bo = s.bo ∧
    (ttm_bo_mem_space_with K x evict (fuel + 1) s b mem i nw).2.2.swap_lru = s.swap_lru ∧
    (ttm_bo_mem_space_with K x evict (fuel + 1) s b mem i nw).2.2.man =
      (with_extent s t mem.num_pages st).man := by
  obtain ⟨h1, h2, h3, h4, h5, h6, h7, h8⟩ := first_pass_first_fit K x fuel
    (decide ((s.bo b).type = ttm_bo_type.ttm_bo_type_user)) { mem with mm_node := none } s
    pre post t f st hpre hget hover hoff { mem_type := K.TTM_PL_SYSTEM } s rfl rfl
  have hcond : ((mem_space_first_pass K x (fuel + 1)
      (decide ((s.bo b).type = ttm_bo_type.ttm_bo_type_user)) { mem with mm_node := none }
      (pre ++ t :: post) { mem_type := K.TTM_PL_SYSTEM } s).2.1.type_ok &&
      decide ((mem_space_first_pass K x (fuel + 1)
      (decide ((s.bo b).type = ttm_bo_type.ttm_bo_type_user)) { mem with mm_node := none }
      (pre ++ t :: post) { mem_type := K.TTM_PL_SYSTEM } s).2.1.mem_type = K.TTM_PL_SYSTEM) ||
      decide ((mem_space_first_pass K x (fuel + 1)
      (decide ((s.bo b).type = ttm_bo_type.ttm_bo_type_user)) { mem with mm_node := none }
      (pre ++ t :: post) { mem_type := K.TTM_PL_SYSTEM } s).2.1.node ≠ none)) = true := by
    rw [h2, h3, h5]
    rcases hoff.2 with ⟨hsys, _⟩ | ⟨_, _, a, hst, _⟩
    · simp [hsys]
    · simp [hst]
  unfold ttm_bo_mem_space_with
  simp only [hprio]
  rw [if_neg (by rw [h1]; simp), if_pos hcond]
  simp only [h2, h4, h5, h6, h7, h8]
  exact ⟨trivial, trivial, trivial, trivial, trivial⟩

/-- The eviction of an idle buffer out of memory type `t`, when the
collaborators oblige and the first pass of the space search for the driver's
eviction flags ends in system memory: the buffer ends up in system memory
without an extent, its old extent is back with the allocator, and nothing
else changes but the collaborators' state. -/
theorem evict_to_system (K : ttm_consts) (x : collaborators W) (n : Nat)
    (s : ttm_bo_device W) (e t : Nat) (i nw : Bool) (pre post : List Nat) (f : Nat)
    (hx : obliging x)
    (hres : (s.bo e).reserved ≠ 0)
    (ht : (s.bo e).mem.mem_type = t)
    (hsync : (s.bo e).sync_obj = none)
    (httm : (s.bo e).ttm ≠ none ∨ (s.bo e).type ≠ ttm_bo_type.illegal)
    (hbug : ttm_bo_type_flags t &&& x.evict_flags (s.bo e) = 0)
    (hne : t ≠ K.TTM_PL_SYSTEM)
    (hprio : x.mem_type_prio = pre ++ K.TTM_PL_SYSTEM :: post)
    (hover : ∀ u ∈ pre, passes_over K x s (decide ((s.bo e).type = ttm_bo_type.ttm_bo_type_user))
      (x.evict_flags (s.bo e)) (s.bo e).mem.num_pages (s.bo e).mem.page_alignment u)
    (hoff : ttm_bo_mt_compatible K (man_at s K.TTM_PL_SYSTEM)
      (decide ((s.bo e).type = ttm_bo_type.ttm_bo_type_user)) K.TTM_PL_SYSTEM
      (x.evict_flags (s.bo e)) = some f) :
    (ttm_bo_evict K x (n + 1) s e t i nw).1 = outcome.ret 0 ∧
    touches e s (ttm_bo_evict K x (n + 1) s e t i nw).2 ∧
    ((ttm_bo_evict K x (n + 1) s e t i nw).2.bo e).mem.mem_type = K.TTM_PL_SYSTEM ∧
    ((ttm_bo_evict K x (n + 1) s e t i nw).2.bo e).mem.mm_node = none ∧
    ((ttm_bo_evict K x (n + 1) s e t i nw).2.bo e).mem.flags = f ∧
    same_refs (s.bo e) ((ttm_bo_evict K x (n + 1) s e t i nw).2.bo e) ∧
    (ttm_bo_evict K x (n + 1) s e t i nw).2.man = (without_extent s e).man := by
  subst ht
  have hw : ttm_bo_wait K x s e false i nw = (outcome.ret 0, s) := by
    unfold ttm_bo_wait
    simp only [hsync]
  have hoffers : offers K x s (decide ((s.bo e).type = ttm_bo_type.ttm_bo_type_user))
      (x.evict_flags (s.bo e)) (s.bo e).mem.num_pages (s.bo e).mem.page_alignment
      K.TTM_PL_SYSTEM f none := ⟨hoff, Or.inl ⟨rfl, rfl⟩⟩
  obtain ⟨a1, a2, a3, a4, a5⟩ := mem_space_with_first_fit K x (ttm_bo_evict K x n) n s e
    { (s.bo e).mem with mm_node := none, proposed_flags := x.evict_flags (s.bo e) } i nw
    pre post K.TTM_PL_SYSTEM f none hx.1 hx.2.1 hprio hover hoffers
  unfold ttm_bo_evict ttm_bo_evict_with
  simp only [hw, ne_eq, not_true_eq_false, if_false, false_and, hres, hbug]
  generalize ttm_bo_mem_space_with K x (ttm_bo_evict K x n) (n + 1) s e
    { (s.bo e).mem with mm_node := none, proposed_flags := x.evict_flags (s.bo e) } i nw = m1
    at a1 a2 a3 a4 a5
  obtain ⟨o1, m, s1⟩ := m1
  simp only at a1 a2 a3 a4 a5
  subst a1
  simp only [ne_eq, not_true_eq_false, false_and, if_false]
  have hs1 : (s1.bo e).mem.mem_type ≠ K.TTM_PL_SYSTEM := by
    rw [a3]
    exact hne
  have httm1 : (s1.bo e).ttm ≠ none ∨ (s1.bo e).type ≠ ttm_bo_type.illegal := by
    rw [a3]
    exact httm
  obtain ⟨b1, b2⟩ := handle_move_mem_succeeds K x s1 e m true i nw hx hs1 httm1
  obtain ⟨c1, _, c3⟩ := handle_move_mem_contract K x s1 e m true i nw
  obtain ⟨c3a, c3b, _, _⟩ := c3 b1
  have c5 := handle_move_mem_refs K x s1 e m true i nw
  generalize ttm_bo_handle_move_mem K x s1 e m true i nw = h at b1 b2 c1 c3a c3b c5
  obtain ⟨h1, hm, hs⟩ := h
  simp only at b1 b2 c1 c3a c3b c5
  subst b1
  simp only [ne_eq, not_true_eq_false, if_false, c3b]
  have hman1 : s1.man = s.man := by
    rw [a5]
    rfl
  have hsame : touches e s s1 :=
    ⟨same_lists_of_man hman1 a4, fun c _ => by rw [a3], by rw [a3]⟩
  refine ⟨trivial, ?_, ?_, ?_, ?_, ?_, ?_⟩
  · exact touches_trans hsame (touches_trans c1 (touches_set_bo e _ _ rfl))
  · rw [set_bo_bo_self]
    simp only [c3a, a2]
  · rw [set_bo_bo_self]
    simp only [c3a, a2, Option.map_none']
  · rw [set_bo_bo_self]
    simp only [c3a, a2]
  · rw [set_bo_bo_self]
    have h6 : same_refs (s.bo e) (hs.bo e) := by
      rw [← a3]
      exact c5
    exact ⟨h6.1, h6.2.1, h6.2.2.1, h6.2.2.2.1, h6.2.2.2.2.1, h6.2.2.2.2.2⟩
  · rw [set_bo_man, b2]
    exact without_extent_congr s s1 e hman1 (by rw [a3])

theorem evicts_to_system_congr (K : ttm_consts) (x : collaborators W) {s s1 : ttm_bo_device W}
    (h : same_config s s1) (t : Nat) (pre : List Nat) (hp : evicts_to_system K x s t pre) :
    evicts_to_system K x s1 t pre := by
  intro o ho
  obtain ⟨h1, h2, h3⟩ := hp o ho
  refine ⟨h1, fun u hu => ?_, ?_⟩
  · rw [compatible_congr K h, (enabled_congr h u).1, (enabled_congr h u).2.1]
    exact h2 u hu
  · rw [compatible_congr K h]
    exact h3

theorem compatible_type_bit (K : ttm_consts) (m : ttm_mem_type_manager) (tu : Bool)
    (t flags : Nat) (h : ttm_bo_mt_compatible K m tu t flags ≠ none) :
    ttm_bo_type_flags t &&& flags ≠ 0 := by
  intro h0
  apply h
  unfold ttm_bo_mt_compatible
  simp only [h0, Nat.zero_and, if_true]
  split <;> rfl

theorem evicts_to_system_ne (K : ttm_consts) (x : collaborators W) (s : ttm_bo_device W)
    (t : Nat) (pre : List Nat) (hp : evicts_to_system K x s t pre) : t ≠ K.TTM_PL_SYSTEM := by
  intro ht
  obtain ⟨h1, _, h3⟩ := hp { mem := { mem_type := t } } rfl
  have h4 := compatible_type_bit K _ _ _ _ h3
  rw [← ht] at h4
  exact h4 h1

theorem man_at_put_block_nodes (s : ttm_bo_device W) (n : drm_mm_node) :
    (man_at (drm_mm_put_block s n) n.mm).manager.nodes =
      (man_at s n.mm).manager.nodes.erase n := by
  simp only [man_at, drm_mm_put_block, getD_modify]
  split
  · rfl
  · rename_i h
    have h1 : ¬ n.mm < s.man.length := by simpa using h
    have h2 : s.man.getD n.mm default = default := by
      rw [List.getD_eq_getElem?_getD, List.getElem?_eq_none (by omega)]
      rfl
    rw [h2]
    rfl

theorem unreserve_elsewhere (K : ttm_consts) (s : ttm_bo_device W) (e t : Nat)
    (hres : (s.bo e).reserved ≠ 0) (hlru : on_lru s e = false)
    (ht : (s.bo e).mem.mem_type ≠ t) :
    ∃ s1, ttm_bo_unreserve K s e = some s1 ∧
      (s1.bo e).reserved = 0 ∧ (s1.bo e).mem = (s.bo e).mem ∧
      (s.bo e).list_kref ≤ (s1.bo e).list_kref ∧
      (∀ c, c ≠ e → s1.bo c = s.bo c) ∧
      (man_at s1 t).lru = (man_at s t).lru ∧
      same_config s s1 ∧ same_alloc s s1 ∧
      (∀ c, c ≠ e → on_swap s1 c = true → on_swap s c = true) ∧
      (∀ c, c ≠ e → on_lru s1 c = true → on_lru s c = true) := by
  unfold ttm_bo_unreserve
  by_cases hne : (s.bo e).mem.flags &&& K.TTM_PL_FLAG_NO_EVICT = 0
  · rw [add_to_lru_links K s e hres hlru hne]
    have hl : (man_at (lru_add_tail s (s.bo e).mem.mem_type e) t).lru = (man_at s t).lru := by
      rw [man_at_lru_add_tail]
      split
      · rename_i h
        exact absurd h.1 ht
      · rfl
    have hcfg := lru_add_tail_config s (s.bo e).mem.mem_type e
    have hon : ∀ c, c ≠ e → on_lru (lru_add_tail s (s.bo e).mem.mem_type e) c = true →
        on_lru s c = true := by
      intro c hc h
      rcases on_lru_lru_add_tail s _ e c h with h1 | h1
      · exact h1
      · exact absurd h1 hc
    by_cases httm : (s.bo e).ttm = none
    · simp only [httm, ne_eq, not_true_eq_false, if_false]
      refine ⟨_, rfl, by simp, by simp, by simp, fun c hc => ?_, hl, hcfg.1, hcfg.2,
        fun c _ h => h, hon⟩
      rw [set_bo_bo_other _ _ _ _ hc, list_kref_get_bo_other _ _ _ hc]
      rfl
    · simp only [httm, ne_eq, not_false_eq_true, if_true]
      refine ⟨_, rfl, by simp [list_kref_get], by simp [list_kref_get],
        by simp [list_kref_get]; omega, fun c hc => ?_, hl, hcfg.1, hcfg.2,
        fun c hc h => ?_, hon⟩
      · rw [set_bo_bo_other _ _ _ _ hc, list_kref_get_bo_other _ _ _ hc]
        show (list_kref_get (lru_add_tail s (s.bo e).mem.mem_type e) e).bo c = _
        rw [list_kref_get_bo_other _ _ _ hc]
        rfl
      · simp only [on_swap, set_bo_swap_lru, list_kref_get_swap_lru, List.mem_append,
          List.mem_singleton, decide_eq_true_eq] at h ⊢
        rcases h with h | h
        · exact h
        · exact absurd h hc
  · rw [add_to_lru_pinned K s e hres hne]
    refine ⟨_, rfl, ?_, ?_, ?_, fun c hc => set_bo_bo_other _ _ _ _ hc, rfl,
      rfl, rfl, fun c _ h => h, fun c _ h => h⟩
    · simp
    · simp
    · simp

theorem on_lru_iff_at (s : ttm_bo_device W) (c : Nat) :
    on_lru s c = true ↔ ∃ u, c ∈ (man_at s u).lru := by
  constructor
  · intro h
    rw [on_lru_iff] at h
    obtain ⟨m, hm, hc⟩ := h
    obtain ⟨u, hu, hmu⟩ := List.getElem_of_mem hm
    refine ⟨u, ?_⟩
    simp only [man_at, List.getD_eq_getElem?_getD, List.getElem?_eq_getElem hu, Option.getD_some,
      hmu]
    exact hc
  · rintro ⟨u, hu⟩
    by_contra h
    exact not_on_lru_at s c u (by simpa using h) hu

theorem del_count_le (s s1 : ttm_bo_device W) (c : Nat)
    (hl : on_lru s1 c = true → on_lru s c = true)
    (hs : on_swap s1 c = true → on_swap s c = true) :
    (ttm_bo_del_from_lru s1 c).1 ≤ (ttm_bo_del_from_lru s c).1 := by
  rw [(del_from_lru_spec s1 c).1, (del_from_lru_spec s c).1]
  cases h1 : on_lru s1 c <;> cases h2 : on_swap s1 c <;>
    cases h3 : on_lru s c <;> cases h4 : on_swap s c <;> simp_all

theorem list_del_cons_self (l : List Nat) (e : Nat) (h : e ∉ l) : list_del (e :: l) e = l := by
  unfold list_del
  rw [List.filter_cons_of_neg (by simp)]
  exact list_del_of_not_mem l e h

/-- One round of the eviction loop of `ttm_bo_mem_force_space` on an
evictable head `e`: the loop goes on from a state in which `e` lives in
system memory and is off this type's LRU, its extent is back with the
allocator, and no other buffer has changed. -/
theorem evict_round (K : ttm_consts) (x : collaborators W) (n k : Nat) (s : ttm_bo_device W)
    (e t : Nat) (rest pre post : List Nat) (i nw : Bool) (np pa : Nat)
    (hx : obliging x)
    (hprio : x.mem_type_prio = pre ++ K.TTM_PL_SYSTEM :: post)
    (hplace : evicts_to_system K x s t pre)
    (hsearch : x.drm_mm_search_free s.ext (man_at s t).manager np pa = none)
    (hlru : (man_at s t).lru = e :: rest) (hnotin : e ∉ rest)
    (hvic : evictable s t e) :
    ∃ s6,
      force_space_evict_loop K x (ttm_bo_evict K x (n + 1)) np pa t i nw (k + 1) s =
        force_space_evict_loop K x (ttm_bo_evict K x (n + 1)) np pa t i nw k s6 ∧
      (man_at s6 t).lru = rest ∧
      (∀ c, c ≠ e → s6.bo c = s.bo c) ∧
      (s6.bo e).mem.mem_type = K.TTM_PL_SYSTEM ∧ (s6.bo e).mem.mm_node = none ∧
      (s6.bo e).reserved = 0 ∧
      same_config s s6 ∧
      (man_at s6 t).manager.nodes = nodes_after s [e] (man_at s t).manager.nodes ∧
      (∀ c, c ≠ e → (ttm_bo_del_from_lru s6 c).1 ≤ (ttm_bo_del_from_lru s c).1) := by
  obtain ⟨v1, v2, v3, v4, v5, v6⟩ := hvic
  have hne := evicts_to_system_ne K x s t pre hplace
  -- the victim is taken off the lists
  obtain ⟨q0, s3, q1, q2, q3, q4, q5, q6, q7, q8, q9⟩ :=
    acquire_exact x s e i nw v1 (le_of_lt v5)
  have e3mem : (s3.bo e).mem = (s.bo e).mem := by rw [q2]
  have e3res : (s3.bo e).reserved ≠ 0 := by rw [q2]; simp
  -- it is evicted to system memory
  obtain ⟨hbug, hskip, hsys⟩ := evicts_to_system_congr K x q6 t pre hplace (s3.bo e)
    (by rw [e3mem]; exact v2)
  obtain ⟨f, hf⟩ := Option.ne_none_iff_exists'.1 hsys
  have hover : ∀ u ∈ pre, passes_over K x s3
      (decide ((s3.bo e).type = ttm_bo_type.ttm_bo_type_user)) (x.evict_flags (s3.bo e))
      (s3.bo e).mem.num_pages (s3.bo e).mem.page_alignment u := by
    intro u hu
    rcases hskip u hu with h | h
    · exact Or.inl h
    · exact Or.inr ⟨h.1, Or.inl h.2⟩
  obtain ⟨r1, r2, r3, r4, _, r6, r7⟩ := evict_to_system K x n s3 e t i nw pre post f hx e3res
    (by rw [e3mem]; exact v2) (by rw [q2]; exact v3) (by rw [q2]; exact v4) hbug hne hprio
    hover hf
  generalize hev : ttm_bo_evict K x (n + 1) s3 e t i nw = ev at r1 r2 r3 r4 r6 r7
  obtain ⟨o4, s4⟩ := ev
  simp only at r1 r2 r3 r4 r6 r7
  subst r1
  -- it is unreserved, which links it to the lists of system memory
  have e4res : (s4.bo e).reserved ≠ 0 := by rw [r2.2.2]; exact e3res
  have e4lru : on_lru s4 e = false := by rw [same_lists_on_lru r2.1 e]; exact q8
  have e4type : (s4.bo e).mem.mem_type ≠ t := by rw [r3]; exact fun h => hne h.symm
  obtain ⟨s5, u1, u2, u3, u4, u5, u6, u7, u8, u9, u10⟩ :=
    unreserve_elsewhere K s4 e t e4res e4lru e4type
  -- the borrowed list reference is given back
  have hcnt : (s5.bo e).list_kref - 1 ≠ 0 := by
    have h1 : (s4.bo e).list_kref = (s3.bo e).list_kref := r6.1
    have h2 : (s3.bo e).list_kref =
        (s.bo e).list_kref + 1 - (ttm_bo_del_from_lru s e).1 := by rw [q2]
    omega
  have hput : list_kref_put_release x s5 e =
      some (set_bo s5 e { s5.bo e with list_kref := (s5.bo e).list_kref - 1 }) := by
    unfold list_kref_put_release
    simp only [set_bo_bo_self, hcnt, if_false]
  refine ⟨set_bo s5 e { s5.bo e with list_kref := (s5.bo e).list_kref - 1 }, ?_, ?_, ?_, ?_, ?_,
    ?_, ?_, ?_, ?_⟩
  · rw [force_space_evict_loop]
    simp only [hsearch, hlru, q0, ne_eq, not_true_eq_false, if_false, q1, hev, u1, hput]
  · rw [man_at_set_bo, u6, same_lists_lru_at r2.1 t, q4 t, hlru]
    exact list_del_cons_self rest e hnotin
  · intro c hc
    rw [set_bo_bo_other _ _ _ _ hc, u5 c hc, r2.2.1 c hc, q3 c hc]
  · rw [set_bo_bo_self]
    simp only [u3, r3]
  · rw [set_bo_bo_self]
    simp only [u3, r4]
  · rw [set_bo_bo_self]
    simpa using u2
  · have h34 : same_config s3 s4 := by
      unfold same_config
      rw [r7]
      unfold without_extent
      cases (s3.bo e).mem.mm_node with
      | none => rfl
      | some nd => exact put_block_config s3 nd
    exact same_config_trans q6 (same_config_trans h34 (same_config_trans u7 rfl))
  · rw [man_at_set_bo, congrArg drm_mm.nodes (same_alloc_at u8 t)]
    have h4 : (man_at s4 t).manager.nodes = (man_at (without_extent s3 e) t).manager.nodes := by
      simp only [man_at, r7]
    rw [h4]
    unfold without_extent nodes_after
    rw [e3mem]
    simp only [List.foldl_cons, List.foldl_nil]
    cases hn : (s.bo e).mem.mm_node with
    | none =>
      simp only
      rw [same_alloc_at q7 t]
    | some nd =>
      simp only
      have hmm := v6 nd hn
      subst hmm
      rw [man_at_put_block_nodes, same_alloc_at q7 nd.mm]
  · intro c hc
    apply del_count_le
    · intro h
      have h1 : on_lru s5 c = true := by simpa using h
      have h2 := u10 c hc h1
      rw [same_lists_on_lru r2.1 c, on_lru_iff_at] at h2
      obtain ⟨u, hu⟩ := h2
      rw [q4 u, mem_list_del] at hu
      exact (on_lru_iff_at s c).2 ⟨u, hu.1⟩
    · intro h
      have h1 : on_swap s5 c = true := by simpa using h
      have h2 := u9 c hc h1
      simp only [on_swap, r2.1.2, q5, decide_eq_true_eq, mem_list_del] at h2
      simpa [on_swap] using h2.1

/-! ### Evicting until there is room -/

theorem nodes_after_congr (s s1 : ttm_bo_device W) (l : List Nat) (ns : List drm_mm_node)
    (h : ∀ v ∈ l, s1.bo v = s.bo v) : nodes_after s1 l ns = nodes_after s l ns := by
  unfold nodes_after
  induction l generalizing ns with
  | nil => rfl
  | cons v l ih =>
    simp only [List.foldl_cons]
    rw [h v (List.mem_cons_self v l)]
    exact ih _ (fun u hu => h u (List.mem_cons_of_mem v hu))

theorem nodes_after_cons (s : ttm_bo_device W) (e : Nat) (l : List Nat)
    (ns : List drm_mm_node) :
    nodes_after s (e :: l) ns = nodes_after s l (nodes_after s [e] ns) := rfl

theorem evictable_congr (s s1 : ttm_bo_device W) (t v : Nat) (hbo : s1.bo v = s.bo v)
    (hcnt : (ttm_bo_del_from_lru s1 v).1 ≤ (ttm_bo_del_from_lru s v).1)
    (h : evictable s t v) : evictable s1 t v := by
  obtain ⟨h1, h2, h3, h4, h5, h6⟩ := h
  unfold evictable
  rw [hbo]
  refine ⟨h1, h2, h3, h4, ?_, h6⟩
  have : ((ttm_bo_del_from_lru s1 v).1 : Int) ≤ (ttm_bo_del_from_lru s v).1 := by
    exact_mod_cast hcnt
  omega

/-- The eviction loop of `ttm_bo_mem_force_space` over an LRU of evictable
buffers: it ends with an extent found after evicting the first `j` buffers
of the LRU, for some `j` not above the length of the LRU. -/
theorem evict_loop_progress (K : ttm_consts) (x : collaborators W) (n : Nat) (t : Nat)
    (pre post : List Nat) (i nw : Bool) (np pa : Nat)
    (hx : obliging x)
    (hprio : x.mem_type_prio = pre ++ K.TTM_PL_SYSTEM :: post)
    (L : List Nat) (s : ttm_bo_device W) (k : Nat)
    (hk : L.length < k)
    (hlru : (man_at s t).lru = L) (hnodup : L.Nodup)
    (hplace : evicts_to_system K x s t pre)
    (hvic : ∀ v ∈ L, evictable s t v)
    (hroom : ∀ w, (x.drm_mm_search_free w ⟨nodes_after s L (man_at s t).manager.nodes⟩
      np pa).isSome = true) :
    ∃ (j a : Nat) (s1 : ttm_bo_device W), j ≤ L.length ∧
      force_space_evict_loop K x (ttm_bo_evict K x (n + 1)) np pa t i nw k s =
        (outcome.ret 0, some a, s1) ∧
      (man_at s1 t).lru = L.drop j ∧
      (∀ v ∈ L.take j, (s1.bo v).mem.mem_type = K.TTM_PL_SYSTEM ∧
        (s1.bo v).mem.mm_node = none ∧ (s1.bo v).reserved = 0) ∧
      (∀ c, c ∉ L.take j → s1.bo c = s.bo c) ∧
      same_config s s1 ∧
      (x.drm_mm_search_free s.ext (man_at s t).manager np pa = none → 0 < j) ∧
      (man_at s1 t).manager.nodes = nodes_after s (L.take j) (man_at s t).manager.nodes := by
  induction L generalizing s k with
  | nil =>
    obtain ⟨k, rfl⟩ : ∃ k1, k = k1 + 1 := ⟨k - 1, by simp at hk; omega⟩
    have h := hroom s.ext
    obtain ⟨a, ha⟩ := Option.isSome_iff_exists.1 h
    have ha1 : x.drm_mm_search_free s.ext (man_at s t).manager np pa = some a := ha
    refine ⟨0, a, s, le_refl _, evict_loop_found K x _ np pa t i nw k s a ha1, by simpa using hlru,
      by simp, fun _ _ => rfl, same_config_refl s, fun h0 => ?_, rfl⟩
    rw [ha1] at h0
    exact absurd h0 (by simp)
  | cons e rest ih =>
    obtain ⟨k, rfl⟩ : ∃ k1, k = k1 + 1 := ⟨k - 1, by simp at hk; omega⟩
    have hk1 : rest.length < k := by simp at hk; omega
    cases hs : x.drm_mm_search_free s.ext (man_at s t).manager np pa with
    | some a =>
      exact ⟨0, a, s, Nat.zero_le _, evict_loop_found K x _ np pa t i nw k s a hs,
        by simpa using hlru, by simp, fun _ _ => rfl, same_config_refl s,
        fun h0 => absurd h0 (by simp), rfl⟩
    | none =>
      have hnot : e ∉ rest := (List.nodup_cons.1 hnodup).1
      have hnd : rest.Nodup := (List.nodup_cons.1 hnodup).2
      obtain ⟨s6, g1, g2, g3, g4, g5, g6, g7, g8, g9⟩ := evict_round K x n k s e t rest pre post
        i nw np pa hx hprio hplace hs hlru hnot (hvic e (List.mem_cons_self e rest))
      have hbo6 : ∀ v ∈ rest, s6.bo v = s.bo v := fun v hv =>
        g3 v (fun h => hnot (h ▸ hv))
      have hvic6 : ∀ v ∈ rest, evictable s6 t v := fun v hv =>
        evictable_congr s s6 t v (hbo6 v hv) (g9 v (fun h => hnot (h ▸ hv)))
          (hvic v (List.mem_cons_of_mem e hv))
      have hroom6 : ∀ w, (x.drm_mm_search_free w
          ⟨nodes_after s6 rest (man_at s6 t).manager.nodes⟩ np pa).isSome = true := by
        intro w
        rw [g8, nodes_after_congr s s6 rest _ hbo6, ← nodes_after_cons]
        exact hroom w
      obtain ⟨j, a, s1, i1, i2, i3, i4, i5, i6, _, i8⟩ := ih s6 k hk1 g2 hnd
        (evicts_to_system_congr K x g7 t pre hplace) hvic6 hroom6
      refine ⟨j + 1, a, s1, by simp; omega, by rw [g1, i2], by simpa using i3, ?_, ?_,
        same_config_trans g7 i6, fun _ => Nat.succ_pos j, ?_⟩
      · intro v hv
        simp only [List.take_succ_cons, List.mem_cons] at hv
        rcases hv with hv | hv
        · subst hv
          have hnotj : v ∉ rest.take j := fun h => hnot (List.mem_of_mem_take h)
          rw [i5 v hnotj]
          exact ⟨g4, g5, g6⟩
        · exact i4 v hv
      · intro c hc
        simp only [List.take_succ_cons, List.mem_cons, not_or] at hc
        rw [i5 c hc.2, g3 c hc.1]
      · rw [i8, g8, List.take_succ_cons,
          nodes_after_congr s s6 (rest.take j) _
            (fun v hv => hbo6 v (List.mem_of_mem_take hv))]
        rfl

/-- `ttm_bo_mem_force_space` over an LRU of evictable buffers, given enough
fuel: it succeeds after evicting the first `j` buffers of the LRU. -/
theorem force_space_with_progress (K : ttm_consts) (x : collaborators W) (n : Nat) (t : Nat)
    (pre post : List Nat) (i nw : Bool) (mem : ttm_mem_reg)
    (hx : obliging x)
    (hprio : x.mem_type_prio = pre ++ K.TTM_PL_SYSTEM :: post)
    (L : List Nat) (s : ttm_bo_device W) (k : Nat)
    (hk : L.length < k)
    (hlru : (man_at s t).lru = L) (hnodup : L.Nodup)
    (hplace : evicts_to_system K x s t pre)
    (hvic : ∀ v ∈ L, evictable s t v)
    (hroom : ∀ w, (x.drm_mm_search_free w ⟨nodes_after s L (man_at s t).manager.nodes⟩
      mem.num_pages mem.page_alignment).isSome = true) :
    ∃ (j a : Nat) (s1 : ttm_bo_device W), j ≤ L.length ∧
      ttm_bo_mem_force_space_with K x (ttm_bo_evict K x (n + 1)) t i nw k s mem =
        (outcome.ret 0,
          { mem with mm_node := some ⟨a, mem.num_pages, t⟩, mem_type := t }, s1) ∧
      (man_at s1 t).lru = L.drop j ∧
      (∀ v ∈ L.take j, (s1.bo v).mem.mem_type = K.TTM_PL_SYSTEM ∧
        (s1.bo v).mem.mm_node = none ∧ (s1.bo v).reserved = 0) ∧
      (∀ c, c ∉ L.take j → s1.bo c = s.bo c) ∧
      same_config s s1 ∧
      ((∀ w, x.drm_mm_search_free w (man_at s t).manager mem.num_pages mem.page_alignment
        = none) → 0 < j) := by
  obtain ⟨k, rfl⟩ : ∃ k1, k = k1 + 1 := ⟨k - 1, by omega⟩
  obtain ⟨j, a, s1, h1, h2, h3, h4, h5, h6, h7, _⟩ := evict_loop_progress K x n t pre post i nw
    mem.num_pages mem.page_alignment hx hprio L (set_ext s (x.drm_mm_pre_get s.ext).2) (k + 1)
    hk hlru hnodup hplace
    (fun v hv => evictable_congr s _ t v rfl (del_count_le s _ v (fun h => h) (fun h => h))
      (hvic v hv)) hroom
  refine ⟨j, a, drm_mm_take (set_ext s1 (x.drm_mm_get_block_atomic s1.ext).2)
    ⟨a, mem.num_pages, t⟩, h1, ?_, ?_, h4, h5, ?_, fun h => h7 (h _)⟩
  · unfold ttm_bo_mem_force_space_with
    simp only [hx.1, ne_eq, not_true_eq_false, if_false, h2, hx.2.1, if_true]
  · rw [same_lists_lru_at (same_lists_take _ _) t]
    exact h3
  · exact same_config_trans h6 (take_config _ _)

/-- C16.  Let the LRU of memory type `t` be the list `L` of distinct
evictable buffers.  Assume that every eviction succeeds (the collaborators
oblige and evictions from `t` go to system memory) and that the allocator
finds a fitting extent at the latest when all of `L` have given back theirs.
Then `ttm_bo_mem_force_space`, with fuel for more rounds than `L` is long,
returns 0 with an extent of `t` after evicting the first `j` buffers of `L`,
for some `j ≤ L.length`: these `j` buffers now live in system memory,
unreserved and without extent, and are off the LRU of `t`, which is `L`
without them; no other buffer has changed. -/
theorem force_space_evicts_enough (K : ttm_consts) (x : collaborators W) (fuel : Nat)
    (s : ttm_bo_device W) (mem : ttm_mem_reg) (t : Nat) (i nw : Bool)
    (pre post L : List Nat)
    (hfuel : L.length < fuel)
    (hx : obliging x)
    (hprio : x.mem_type_prio = pre ++ K.TTM_PL_SYSTEM :: post)
    (hplace : evicts_to_system K x s t pre)
    (hlru : (man_at s t).lru = L) (hnodup : L.Nodup)
    (hvic : ∀ v ∈ L, evictable s t v)
    (hroom : ∀ w, (x.drm_mm_search_free w ⟨nodes_after s L (man_at s t).manager.nodes⟩
      mem.num_pages mem.page_alignment).isSome = true) :
    ∃ (j a : Nat), j ≤ L.length ∧
      (ttm_bo_mem_force_space K x fuel s mem t i nw).1 = outcome.ret 0 ∧
      (ttm_bo_mem_force_space K x fuel s mem t i nw).2.1 =
        { mem with mm_node := some ⟨a, mem.num_pages, t⟩, mem_type := t } ∧
      (man_at (ttm_bo_mem_force_space K x fuel s mem t i nw).2.2 t).lru = L.drop j ∧
      (∀ v ∈ L.take j,
        ((ttm_bo_mem_force_space K x fuel s mem t i nw).2.2.bo v).mem.mem_type
          = K.TTM_PL_SYSTEM ∧
        ((ttm_bo_mem_force_space K x fuel s mem t i nw).2.2.bo v).mem.mm_node = none ∧
        ((ttm_bo_mem_force_space K x fuel s mem t i nw).2.2.bo v).reserved = 0) ∧
      (∀ c, c ∉ L.take j →
        (ttm_bo_mem_force_space K x fuel s mem t i nw).2.2.bo c = s.bo c) := by
  obtain ⟨n, rfl⟩ : ∃ n, fuel = n + 1 := ⟨fuel - 1, by omega⟩
  obtain ⟨j, a, s1, h1, h2, h3, h4, h5, _, _⟩ := force_space_with_progress K x
    n t pre post i nw mem hx hprio L s (n + 1) hfuel hlru hnodup hplace hvic hroom
  refine ⟨j, a, h1, ?_⟩
  unfold ttm_bo_mem_force_space
  rw [h2]
  exact ⟨rfl, rfl, h3, h4, h5⟩

theorem obliging_two_slots : obliging two_slots :=
  ⟨fun _ => rfl, fun _ => rfl, fun _ => rfl, fun _ => rfl, fun _ => rfl,
    fun _ _ _ => Option.some_ne_none 1, fun _ _ _ => rfl, fun _ _ => rfl⟩

theorem evicts_to_system_aperture (s : ttm_bo_device Unit) (h : s.man = full_aperture.man) :
    evicts_to_system consts0 two_slots s 1 [1] := by
  intro o _
  have hm : ∀ u, man_at s u = man_at full_aperture u := fun u => by
    unfold man_at
    rw [h]
  have he : two_slots.evict_flags o = 65537 := rfl
  rw [he]
  refine ⟨by decide, fun u hu => ?_, ?_⟩
  · have h1 : u = 1 := by simpa using hu
    subst h1
    rw [hm]
    left
    cases decide (o.type = ttm_bo_type.ttm_bo_type_user) <;> decide
  · rw [hm]
    cases decide (o.type = ttm_bo_type.ttm_bo_type_user) <;> decide

/-- C16, witness: the full aperture, from which a request for four pages
evicts buffers from the head of the LRU `[0, 1]`. -/
theorem force_space_evicts_enough_witness :
    ∃ (j a : Nat), j ≤ 2 ∧
      (ttm_bo_mem_force_space consts0 two_slots 3 full_aperture { num_pages := 4 } 1
        false false).1 = outcome.ret 0 ∧
      (ttm_bo_mem_force_space consts0 two_slots 3 full_aperture { num_pages := 4 } 1
        false false).2.1 = { num_pages := 4, mm_node := some ⟨a, 4, 1⟩, mem_type := 1 } ∧
      (man_at (ttm_bo_mem_force_space consts0 two_slots 3 full_aperture { num_pages := 4 } 1
        false false).2.2 1).lru = [0, 1].drop j ∧
      (∀ v ∈ [0, 1].take j,
        ((ttm_bo_mem_force_space consts0 two_slots 3 full_aperture { num_pages := 4 } 1
          false false).2.2.bo v).mem.mem_type = 0 ∧
        ((ttm_bo_mem_force_space consts0 two_slots 3 full_aperture { num_pages := 4 } 1
          false false).2.2.bo v).mem.mm_node = none ∧
        ((ttm_bo_mem_force_space consts0 two_slots 3 full_aperture { num_pages := 4 } 1
          false false).2.2.bo v).reserved = 0) ∧
      (∀ c, c ∉ [0, 1].take j →
        (ttm_bo_mem_force_space consts0 two_slots 3 full_aperture { num_pages := 4 } 1
          false false).2.2.bo c = full_aperture.bo c) := by
  have hvic : ∀ v ∈ [0, 1], evictable full_aperture 1 v := fun v hv => by
    have h1 : v = 0 ∨ v = 1 := by simpa using hv
    rcases h1 with h1 | h1 <;> subst h1 <;>
      exact ⟨rfl, rfl, rfl, Or.inl (by decide), by decide, fun n hn => by
        cases hn
        rfl⟩
  have hroom : ∀ w : Unit, (two_slots.drm_mm_search_free w
      ⟨nodes_after full_aperture [0, 1] (man_at full_aperture 1).manager.nodes⟩
      4 0).isSome = true := fun _ => rfl
  exact force_space_evicts_enough consts0 two_slots 3 full_aperture { num_pages := 4 } 1 false
    false [1] [] [0, 1] (by decide) obliging_two_slots rfl
    (evicts_to_system_aperture full_aperture rfl) rfl (by decide) hvic hroom

/-! ### Eviction from the space search -/

/-- The first pass of `ttm_bo_mem_space` when no type of the order has
anything for the request: the loop runs to its end without a node and
without ending on the system type, only the collaborators' state changes,
and a type that is compatible and enabled leaves `type_found` set. -/
theorem first_pass_nothing (K : ttm_consts) (x : collaborators W) (fuel : Nat) (tu : Bool)
    (mem : ttm_mem_reg) (s : ttm_bo_device W)
    (hpre : ∀ w, (x.drm_mm_pre_get w).1 = 0)
    (ps : List Nat)
    (hover : ∀ u ∈ ps, passes_over K x s tu mem.proposed_flags mem.num_pages
      mem.page_alignment u)
    (v : space_vars) (s1 : ttm_bo_device W) (hv : v.node = none)
    (hsys : v.type_ok = true → v.mem_type ≠ K.TTM_PL_SYSTEM)
    (hs1 : ∃ w, s1 = set_ext s w) :
    (mem_space_first_pass K x (fuel + 1) tu mem ps v s1).1 = outcome.ret 0 ∧
    (mem_space_first_pass K x (fuel + 1) tu mem ps v s1).2.1.node = none ∧
    ((mem_space_first_pass K x (fuel + 1) tu mem ps v s1).2.1.type_ok = true →
      (mem_space_first_pass K x (fuel + 1) tu mem ps v s1).2.1.mem_type ≠ K.TTM_PL_SYSTEM) ∧
    ((v.type_found = true ∨ ∃ u ∈ ps,
        ttm_bo_mt_compatible K (man_at s u) tu u mem.proposed_flags ≠ none ∧
        ((man_at s u).has_type && (man_at s u).use_type) = true) →
      (mem_space_first_pass K x (fuel + 1) tu mem ps v s1).2.1.type_found = true) ∧
    (∃ w, (mem_space_first_pass K x (fuel + 1) tu mem ps v s1).2.2 = set_ext s w) := by
  induction ps generalizing v s1 with
  | nil =>
    unfold mem_space_first_pass
    refine ⟨rfl, hv, hsys, fun h => ?_, hs1⟩
    rcases h with h | ⟨u, hu, _⟩
    · exact h
    · exact absurd hu (List.not_mem_nil u)
  | cons u ps ih =>
    have hu := hover u (List.mem_cons_self u ps)
    have hrest : ∀ u' ∈ ps, passes_over K x s tu mem.proposed_flags mem.num_pages
        mem.page_alignment u' := fun u' h => hover u' (List.mem_cons_of_mem u h)
    obtain ⟨w0, hw0⟩ := hs1
    have hman : s1.man = s.man := by rw [hw0]; rfl
    have hm : man_at s1 u = man_at s u := by simp only [man_at, hman]
    unfold mem_space_first_pass
    simp only [hm]
    cases hc : ttm_bo_mt_compatible K (man_at s u) tu u mem.proposed_flags with
    | none =>
      simp only
      obtain ⟨h1, h2, h3, h4, h5⟩ := ih hrest { v with mem_type := u, type_ok := false } s1 hv
        (fun h => by simp at h) ⟨w0, hw0⟩
      refine ⟨h1, h2, h3, fun h => h4 ?_, h5⟩
      rcases h with h | ⟨u', hu', hc', hen'⟩
      · exact Or.inl h
      · rcases List.mem_cons.1 hu' with rfl | hin
        · exact absurd hc hc'
        · exact Or.inr ⟨u', hin, hc', hen'⟩
    | some f1 =>
      simp only
      rcases hu with hu | ⟨hnsys, hu⟩
      · rw [hc] at hu
        exact absurd hu (by simp)
      · rw [if_neg hnsys]
        cases hen : ((man_at s u).has_type && (man_at s u).use_type)
        · simp only [Bool.false_eq_true, if_false, hv, ne_eq, not_true_eq_false]
          obtain ⟨h1, h2, h3, h4, h5⟩ := ih hrest
            { v with mem_type := u, type_ok := true, cur_flags := f1, node := none } s1 rfl
            (fun _ => hnsys) ⟨w0, hw0⟩
          refine ⟨h1, h2, h3, fun h => h4 ?_, h5⟩
          rcases h with h | ⟨u', hu', hc', hen'⟩
          · exact Or.inl h
          · rcases List.mem_cons.1 hu' with rfl | hin
            · rw [hen] at hen'
              exact absurd hen' (by simp)
            · exact Or.inr ⟨u', hin, hc', hen'⟩
        · have hfree : ∀ w, x.drm_mm_search_free w (man_at s u).manager mem.num_pages
              mem.page_alignment = none := by
            rcases hu with hu | hu
            · rw [hen] at hu
              exact absurd hu (by simp)
            · exact hu
          rw [if_pos rfl,
            get_block_none x u mem.num_pages mem.page_alignment fuel s s1 hman hpre hfree]
          simp only [ne_eq, not_true_eq_false, if_false]
          obtain ⟨h1, h2, h3, h4, h5⟩ := ih hrest
            { v with mem_type := u, type_ok := true, cur_flags := f1, type_found := true,
                     node := none }
            (set_ext s1 (x.drm_mm_pre_get s1.ext).2) rfl (fun _ => hnsys)
            ⟨(x.drm_mm_pre_get s1.ext).2, by rw [hw0]; rfl⟩
          exact ⟨h1, h2, h3, fun _ => h4 (Or.inl rfl), h5⟩

/-- The second pass of `ttm_bo_mem_space` when the types `bpre` at the head
of the busy order are not initialised or not compatible and the next type
`A` is, and `ttm_bo_mem_force_space` gets an extent from it. -/
theorem busy_pass_first_candidate (K : ttm_consts) (x : collaborators W) (evict : evict_fn W)
    (fuel : Nat) (tu i nw : Bool) (bpre bpost : List Nat) (A fA : Nat) (mem : ttm_mem_reg)
    (s : ttm_bo_device W) (m1 : ttm_mem_reg) (s1 : ttm_bo_device W)
    (hskip : ∀ u ∈ bpre, (man_at s u).has_type = false ∨
      ttm_bo_mt_compatible K (man_at s u) tu u mem.proposed_flags = none)
    (hA : (man_at s A).has_type = true)
    (hc : ttm_bo_mt_compatible K (man_at s A) tu A mem.proposed_flags = some fA)
    (hr : ttm_bo_mem_force_space_with K x evict A i nw fuel s mem = (outcome.ret 0, m1, s1))
    (hnode : m1.mm_node ≠ none) (cf : Nat) (he : Bool) :
    mem_space_busy_pass K x evict fuel tu i nw (bpre ++ A :: bpost) cf he mem s =
      (outcome.ret 0, { m1 with flags := fA }, s1) := by
  induction bpre with
  | nil =>
    simp only [List.nil_append]
    unfold mem_space_busy_pass
    simp [hA, hc, hr, hnode]
  | cons u bpre ih =>
    have hrest : ∀ u' ∈ bpre, (man_at s u').has_type = false ∨
        ttm_bo_mt_compatible K (man_at s u') tu u' mem.proposed_flags = none :=
      fun u' h => hskip u' (List.mem_cons_of_mem u h)
    simp only [List.cons_append]
    unfold mem_space_busy_pass
    rcases hskip u (List.mem_cons_self u bpre) with h | h
    · simp only [h, Bool.not_false, if_true]
      exact ih hrest
    · cases ht : (man_at s u).has_type
      · simp only [Bool.not_false, if_true]
        exact ih hrest
      · simp only [Bool.not_true, Bool.false_eq_true, if_false, h]
        exact ih hrest

/-- C12 (as the code has it).  Let no memory type of the driver's order have
anything for the request at once (each is incompatible with the proposed
flags, or is not the system type and is not enabled or has no free extent),
and let `A` be a type of that order that is compatible and enabled and is
the first candidate of the busy order (the types before it there are not
initialised or not compatible).  Let the LRU of `A` hold exactly one buffer
`v`, evictable, let the collaborators oblige and evictions from `A` go to
system memory, and let the allocator of `A` have a fitting extent once `v`
has given back its own.  Then `ttm_bo_mem_space` returns 0 with
`mem->mem_type = A`, the mask of `A` and an extent of `A`, after evicting
`v` and nobody else: `v` lives in system memory without extent, unreserved,
the LRU of `A` is empty and every other buffer is as before. -/
theorem mem_space_evicts_one (K : ttm_consts) (x : collaborators W) (fuel : Nat)
    (s : ttm_bo_device W) (b : Nat) (mem : ttm_mem_reg) (i nw : Bool)
    (A fA v : Nat) (pre post bpre bpost : List Nat)
    (hfuel : 1 < fuel)
    (hx : obliging x)
    (hnothing : ∀ u ∈ x.mem_type_prio,
      passes_over K x s (decide ((s.bo b).type = ttm_bo_type.ttm_bo_type_user))
        mem.proposed_flags mem.num_pages mem.page_alignment u)
    (hA : A ∈ x.mem_type_prio)
    (hAen : ((man_at s A).has_type && (man_at s A).use_type) = true)
    (hAc : ttm_bo_mt_compatible K (man_at s A)
      (decide ((s.bo b).type = ttm_bo_type.ttm_bo_type_user)) A mem.proposed_flags = some fA)
    (hbusy : x.mem_busy_prio = bpre ++ A :: bpost)
    (hbskip : ∀ u ∈ bpre, (man_at s u).has_type = false ∨
      ttm_bo_mt_compatible K (man_at s u)
        (decide ((s.bo b).type = ttm_bo_type.ttm_bo_type_user)) u mem.proposed_flags = none)
    (hprio : x.mem_type_prio = pre ++ K.TTM_PL_SYSTEM :: post)
    (hplace : evicts_to_system K x s A pre)
    (hlru : (man_at s A).lru = [v])
    (hvic : evictable s A v)
    (hroom : ∀ w, (x.drm_mm_search_free w ⟨nodes_after s [v] (man_at s A).manager.nodes⟩
      mem.num_pages mem.page_alignment).isSome = true) :
    ∃ a : Nat,
      (ttm_bo_mem_space K x fuel s b mem i nw).1 = outcome.ret 0 ∧
      (ttm_bo_mem_space K x fuel s b mem i nw).2.1 =
        { mem with mm_node := some ⟨a, mem.num_pages, A⟩, mem_type := A, flags := fA } ∧
      ((ttm_bo_mem_space K x fuel s b mem i nw).2.2.bo v).mem.mem_type = K.TTM_PL_SYSTEM ∧
      ((ttm_bo_mem_space K x fuel s b mem i nw).2.2.bo v).mem.mm_node = none ∧
      ((ttm_bo_mem_space K x fuel s b mem i nw).2.2.bo v).reserved = 0 ∧
      (man_at (ttm_bo_mem_space K x fuel s b mem i nw).2.2 A).lru = [] ∧
      (∀ c, c ≠ v → (ttm_bo_mem_space K x fuel s b mem i nw).2.2.bo c = s.bo c) := by
  obtain ⟨n, rfl⟩ : ∃ n, fuel = n + 1 := ⟨fuel - 1, by omega⟩
  obtain ⟨h1, h2, h3, h4, w, h5⟩ := first_pass_nothing K x n
    (decide ((s.bo b).type = ttm_bo_type.ttm_bo_type_user)) { mem with mm_node := none } s
    hx.1 x.mem_type_prio hnothing { mem_type := K.TTM_PL_SYSTEM } s rfl
    (fun h => by simp at h) ⟨s.ext, rfl⟩
  have hfull : ∀ w, x.drm_mm_search_free w (man_at s A).manager mem.num_pages
      mem.page_alignment = none := by
    rcases hnothing A hA with h | ⟨_, h | h⟩
    · rw [hAc] at h
      exact absurd h (by simp)
    · rw [hAen] at h
      exact absurd h (by simp)
    · exact h
  obtain ⟨j, a, s1, hj, hr, hl, hin, hout, _, hpos⟩ := force_space_with_progress K x n A pre post
    i nw { mem with mm_node := none } hx hprio [v] (set_ext s w) (n + 1) hfuel hlru
    (List.nodup_singleton v) hplace
    (fun c hc => by
      have hcv : c = v := by simpa using hc
      subst hcv
      exact evictable_congr s _ A c rfl (del_count_le s _ c (fun h => h) (fun h => h)) hvic)
    hroom
  have hj1 : j = 1 := by
    have := hpos hfull
    simp only [List.length_singleton] at hj
    omega
  subst hj1
  have hAh : (man_at s A).has_type = true := by
    cases h : (man_at s A).has_type
    · rw [h] at hAen
      simp at hAen
    · rfl
  have hb := busy_pass_first_candidate K x (ttm_bo_evict K x (n + 1)) (n + 1)
    (decide ((s.bo b).type = ttm_bo_type.ttm_bo_type_user)) i nw bpre bpost A fA
    { mem with mm_node := none } (set_ext s w) _ s1 hbskip hAh hAc hr (by simp)
    (mem_space_first_pass K x (n + 1) (decide ((s.bo b).type = ttm_bo_type.ttm_bo_type_user))
      { mem with mm_node := none } x.mem_type_prio { mem_type := K.TTM_PL_SYSTEM } s).2.1.cur_flags
    false
  have hcond : ¬ (((mem_space_first_pass K x (n + 1)
      (decide ((s.bo b).type = ttm_bo_type.ttm_bo_type_user)) { mem with mm_node := none }
      x.mem_type_prio { mem_type := K.TTM_PL_SYSTEM } s).2.1.type_ok &&
      decide ((mem_space_first_pass K x (n + 1)
      (decide ((s.bo b).type = ttm_bo_type.ttm_bo_type_user)) { mem with mm_node := none }
      x.mem_type_prio { mem_type := K.TTM_PL_SYSTEM } s).2.1.mem_type = K.TTM_PL_SYSTEM) ||
      decide ((mem_space_first_pass K x (n + 1)
      (decide ((s.bo b).type = ttm_bo_type.ttm_bo_type_user)) { mem with mm_node := none }
      x.mem_type_prio { mem_type := K.TTM_PL_SYSTEM } s).2.1.node ≠ none)) = true) := by
    rw [h2]
    intro h
    simp only [ne_eq, not_true_eq_false, decide_False, Bool.or_false, Bool.and_eq_true,
      decide_eq_true_eq] at h
    exact h3 h.1 h.2
  have hfound : ¬ ((!(mem_space_first_pass K x (n + 1)
      (decide ((s.bo b).type = ttm_bo_type.ttm_bo_type_user)) { mem with mm_node := none }
      x.mem_type_prio { mem_type := K.TTM_PL_SYSTEM } s).2.1.type_found) = true) := by
    rw [h4 (Or.inr ⟨A, hA, by rw [hAc]; simp, hAen⟩)]
    simp
  refine ⟨a, ?_⟩
  unfold ttm_bo_mem_space
  unfold ttm_bo_mem_space_with
  simp only
  rw [if_neg (by rw [h1]; simp), if_neg hcond, if_neg hfound, h5, hbusy, hb]
  refine ⟨rfl, rfl, ?_, ?_, ?_, ?_, ?_⟩
  · exact (hin v (by simp)).1
  · exact (hin v (by simp)).2.1
  · exact (hin v (by simp)).2.2
  · simpa using hl
  · intro c hc
    exact hout c (by simpa using hc)

theorem obliging_three_types : obliging three_types :=
  ⟨fun _ => rfl, fun _ => rfl, fun _ => rfl, fun _ => rfl, fun _ => rfl,
    fun _ _ _ => Option.some_ne_none 1, fun _ _ _ => rfl, fun _ _ => rfl⟩

theorem evicts_to_system_two_apertures :
    evicts_to_system consts0 three_types two_apertures 1 [1, 2] := by
  intro o _
  have he : three_types.evict_flags o = 65537 := rfl
  rw [he]
  refine ⟨by decide, fun u hu => ?_, ?_⟩
  · have h1 : u = 1 ∨ u = 2 := by simpa using hu
    left
    rcases h1 with h1 | h1 <;> subst h1 <;>
      cases decide (o.type = ttm_bo_type.ttm_bo_type_user) <;> decide
  · cases decide (o.type = ttm_bo_type.ttm_bo_type_user) <;> decide

/-- C12, witness: a request of four pages that allows the two apertures,
both full; aperture 1 comes first and has buffer 1 on its LRU, which is
evicted to system memory. -/
theorem mem_space_evicts_one_witness :
    ∃ a : Nat,
      (ttm_bo_mem_space consts0 three_types 2 two_apertures 4
        { num_pages := 4, proposed_flags := 262150 } false false).1 = outcome.ret 0 ∧
      (ttm_bo_mem_space consts0 three_types 2 two_apertures 4
        { num_pages := 4, proposed_flags := 262150 } false false).2.1 =
        { num_pages := 4, proposed_flags := 262150, mm_node := some ⟨a, 4, 1⟩, mem_type := 1,
          flags := 262146 } ∧
      ((ttm_bo_mem_space consts0 three_types 2 two_apertures 4
        { num_pages := 4, proposed_flags := 262150 } false false).2.2.bo 1).mem.mem_type = 0 ∧
      ((ttm_bo_mem_space consts0 three_types 2 two_apertures 4
        { num_pages := 4, proposed_flags := 262150 } false false).2.2.bo 1).mem.mm_node = none ∧
      ((ttm_bo_mem_space consts0 three_types 2 two_apertures 4
        { num_pages := 4, proposed_flags := 262150 } false false).2.2.bo 1).reserved = 0 ∧
      (man_at (ttm_bo_mem_space consts0 three_types 2 two_apertures 4
        { num_pages := 4, proposed_flags := 262150 } false false).2.2 1).lru = [] ∧
      (∀ c, c ≠ 1 → (ttm_bo_mem_space consts0 three_types 2 two_apertures 4
        { num_pages := 4, proposed_flags := 262150 } false false).2.2.bo c =
          two_apertures.bo c) := by
  have hnothing : ∀ u ∈ three_types.mem_type_prio,
      passes_over consts0 three_types two_apertures
        (decide ((two_apertures.bo 4).type = ttm_bo_type.ttm_bo_type_user)) 262150 4 0 u := by
    intro u hu
    have h1 : u = 1 ∨ u = 2 ∨ u = 0 := by simpa [three_types] using hu
    rcases h1 with h1 | h1 | h1 <;> subst h1
    · exact Or.inr ⟨by decide, Or.inr (fun _ => rfl)⟩
    · exact Or.inr ⟨by decide, Or.inr (fun _ => rfl)⟩
    · exact Or.inl (by decide)
  have hvic : evictable two_apertures 1 1 :=
    ⟨rfl, rfl, rfl, Or.inl (by decide), by decide, fun n hn => by
      cases hn
      rfl⟩
  exact mem_space_evicts_one consts0 three_types 2 two_apertures 4
    { num_pages := 4, proposed_flags := 262150 } false false 1 262146 1 [1, 2] [] [] [2, 0]
    (by decide) obliging_three_types hnothing (by decide) rfl (by decide) rfl
    (fun u hu => absurd hu (List.not_mem_nil u)) rfl evicts_to_system_two_apertures rfl hvic
    (fun _ => rfl)

/-- C12, counterexample to the claim as stated.  The proposed flags allow
the apertures 1 and 2, in that order; aperture 1 is full and has exactly one
buffer on its LRU, buffer 1, evictable and of the requested size.  Aperture
2 has a free slot: the search returns 0 with `mem->mem_type = 2` and evicts
nobody, buffer 1 is where it was.  The same happens when the second type
allowed is system memory: the buffer is placed there. -/
theorem mem_space_prefers_free_type :
    ttm_bo_mt_compatible consts0 (man_at spare_aperture 1) false 1 262150 = some 262146 ∧
    ttm_bo_mt_compatible consts0 (man_at spare_aperture 2) false 2 262150 = some 262148 ∧
    three_types.mem_type_prio = [1, 2, 0] ∧
    three_types.drm_mm_search_free () (man_at spare_aperture 1).manager 4 0 = none ∧
    (man_at spare_aperture 1).lru = [1] ∧
    evictable spare_aperture 1 1 ∧
    (ttm_bo_mem_space consts0 three_types 2 spare_aperture 4
      { num_pages := 4, proposed_flags := 262150 } false false).1 = outcome.ret 0 ∧
    (ttm_bo_mem_space consts0 three_types 2 spare_aperture 4
      { num_pages := 4, proposed_flags := 262150 } false false).2.1.mem_type = 2 ∧
    (ttm_bo_mem_space consts0 three_types 2 spare_aperture 4
      { num_pages := 4, proposed_flags := 262150 } false false).2.2.bo 1 = in_aperture 1 ∧
    (man_at (ttm_bo_mem_space consts0 three_types 2 spare_aperture 4
      { num_pages := 4, proposed_flags := 262150 } false false).2.2 1).lru = [1] ∧
    ttm_bo_mt_compatible consts0 (man_at full_aperture_tail 0) false 0 327683 = some 65537 ∧
    (ttm_bo_mem_space consts0 two_slots 2 full_aperture_tail 4
      { num_pages := 4, proposed_flags := 327683 } false false).2.1.mem_type = 0 ∧
    (ttm_bo_mem_space consts0 two_slots 2 full_aperture_tail 4
      { num_pages := 4, proposed_flags := 327683 } false false).2.2.bo 1 = in_aperture 1 :=
  ⟨by decide, by decide, rfl, rfl, rfl,
    ⟨rfl, rfl, rfl, Or.inl (by decide), by decide, fun n hn => by
      cases hn
      rfl⟩,
    by decide, by decide, by decide, by decide, by decide, by decide, by decide⟩

/-! ### Reference counts on the way to `ttm_bo_release_list` -/

theorem same_counts_refl (b : Nat) (s : ttm_bo_device W) : same_counts b s s :=
  ⟨rfl, rfl, rfl, fun _ _ => rfl, rfl, rfl, rfl, rfl, rfl, fun h => h⟩

theorem same_counts_trans {b : Nat} {s s1 s2 : ttm_bo_device W} (h1 : same_counts b s s1)
    (h2 : same_counts b s1 s2) : same_counts b s s2 := by
  obtain ⟨a1, a2, a3, a4, a5, a6, a7, a8, a9, a10⟩ := h1
  obtain ⟨b1, b2, b3, b4, b5, b6, b7, b8, b9, b10⟩ := h2
  exact ⟨b1.trans a1, b2.trans a2, b3.trans a3, fun c hc => (b4 c hc).trans (a4 c hc),
    b5.trans a5, b6.trans a6, b7.trans a7, b8.trans a8, b9.trans a9, fun h => b10 (a10 h)⟩

theorem same_counts_set_ext (b : Nat) (s : ttm_bo_device W) (w : W) :
    same_counts b s (set_ext s w) :=
  ⟨rfl, rfl, rfl, fun _ _ => rfl, rfl, rfl, rfl, rfl, rfl, fun h => h⟩

theorem same_counts_drop_sync (K : ttm_consts) (b : Nat) (s : ttm_bo_device W) :
    same_counts b s (set_bo s b (drop_sync_obj K (s.bo b))) := by
  refine ⟨rfl, rfl, rfl, fun c hc => set_bo_bo_other _ _ _ _ hc, ?_, ?_, ?_, ?_, ?_, fun _ => ?_⟩ <;>
    simp only [set_bo_bo_self, drop_sync_obj]

theorem same_counts_lists_on {b : Nat} {s s1 : ttm_bo_device W} (h : same_counts b s s1)
    (c : Nat) : lists_on s1 c = lists_on s c :=
  lists_on_congr s s1 c h.1 h.2.1 h.2.2.1

theorem counted_same_counts {b : Nat} {s s1 : ttm_bo_device W} (h : same_counts b s s1)
    (hb : (s.bo b).freed = false) (c : Nat) (k : Int) (hc : counted s c k) :
    counted s1 c k := by
  have hl := same_counts_lists_on h c
  obtain ⟨a1, a2, a3, a4, a5, a6, a7, a8, a9, a10⟩ := h
  by_cases hcb : c = b
  · subst hcb
    unfold counted at hc ⊢
    rw [hl, a3, a5, a6, a7, a8]
    refine ⟨hc.1, hc.2.1, fun hf => ?_⟩
    rw [hb] at hf
    exact absurd hf (by simp)
  · unfold counted at hc ⊢
    rw [hl, a3, a4 c hcb]
    exact hc

theorem counted_mono {s : ttm_bo_device W} {c : Nat} {k k1 : Int} (hk : k1 ≤ k)
    (h : counted s c k) : counted s c k1 := by
  obtain ⟨h1, h2, h3⟩ := h
  refine ⟨h1, fun hf => ⟨?_, (h2 hf).2⟩, h3⟩
  have := (h2 hf).1
  omega

/-- A freed buffer is on no list, so a buffer on the delayed-destroy list
is not freed. -/
theorem counted_not_freed {s : ttm_bo_device W} {c : Nat} {k : Int} (h : counted s c k)
    (hdd : c ∈ s.ddestroy) : (s.bo c).freed = false := by
  cases hf : (s.bo c).freed
  · rfl
  · have h1 := (h.2.2 hf).2.2.2.2.2
    have h2 := lists_on_ddestroy s c hdd
    omega

theorem wait_counts (K : ttm_consts) (x : collaborators W) (s : ttm_bo_device W) (b : Nat)
    (lazy i nw : Bool) : same_counts b s (ttm_bo_wait K x s b lazy i nw).2 := by
  unfold ttm_bo_wait
  split
  · exact same_counts_refl b s
  · split
    · exact same_counts_drop_sync K b s
    · split
      · exact same_counts_refl b s
      · simp only
        split
        · exact same_counts_trans (same_counts_set_ext b s _) (same_counts_drop_sync K b _)
        · exact same_counts_set_ext b s _

theorem wait_no_bug (K : ttm_consts) (x : collaborators W) (s : ttm_bo_device W) (b : Nat)
    (lazy i nw : Bool)
    (hwait : ∀ w so a l j, (x.sync_obj_wait w so a l j).1 ≠ outcome.bug) :
    (ttm_bo_wait K x s b lazy i nw).1 ≠ outcome.bug := by
  unfold ttm_bo_wait
  split
  · simp
  · split
    · simp
    · split
      · simp
      · simp only
        split
        · simp
        · exact hwait _ _ _ _ _

theorem expire_wait_loop_counts (K : ttm_consts) (x : collaborators W) (b : Nat) (ae : Bool)
    (hwait : ∀ w so a l j, (x.sync_obj_wait w so a l j).1 ≠ outcome.bug)
    (n : Nat) (s : ttm_bo_device W) :
    same_counts b s (expire_wait_loop K x b ae n s).2 ∧
    (expire_wait_loop K x b ae n s).1 ≠ outcome.bug := by
  induction n generalizing s with
  | zero => exact ⟨same_counts_refl b s, by simp [expire_wait_loop]⟩
  | succ n ih =>
    have h1 := wait_counts K x s b false false false
    have h2 := wait_no_bug K x s b false false false hwait
    unfold expire_wait_loop
    generalize ttm_bo_wait K x s b false false false = r at h1 h2
    obtain ⟨o, s1⟩ := r
    simp only at h1 h2 ⊢
    cases o with
    | ret code =>
      simp only
      split
      · exact ⟨h1, by simp⟩
      · split
        · exact ⟨same_counts_trans h1 (ih s1).1, (ih s1).2⟩
        · exact ⟨h1, by simp⟩
    | sleeps => exact ⟨h1, by simp⟩
    | bug => exact absurd rfl h2
    | fuel => exact ⟨h1, by simp⟩

theorem expire_counts (K : ttm_consts) (x : collaborators W) (fuel : Nat)
    (s : ttm_bo_device W) (b : Nat) (ae : Bool)
    (hwait : ∀ w so a l j, (x.sync_obj_wait w so a l j).1 ≠ outcome.bug) :
    same_counts b s (ttm_bo_expire_sync_obj K x fuel s b ae).2 ∧
    (ttm_bo_expire_sync_obj K x fuel s b ae).1 ≠ outcome.bug := by
  have hnice : ∀ s1 : ttm_bo_device W, same_counts b s1 { s1 with nice_mode := false } :=
    fun s1 => ⟨rfl, rfl, rfl, fun _ _ => rfl, rfl, rfl, rfl, rfl, rfl, fun h => h⟩
  obtain ⟨l1, l2⟩ := expire_wait_loop_counts K x b ae hwait fuel s
  unfold ttm_bo_expire_sync_obj
  split
  · generalize expire_wait_loop K x b ae fuel s = l at l1 l2
    have hr : same_counts b s (if s.nice_mode = true then
        (if l.1 ≠ outcome.ret 0 then l
          else if (l.2.bo b).sync_obj ≠ none then (outcome.ret 0, { l.2 with nice_mode := false })
          else l)
        else (outcome.ret 0, s)).2 ∧
        (if s.nice_mode = true then
        (if l.1 ≠ outcome.ret 0 then l
          else if (l.2.bo b).sync_obj ≠ none then (outcome.ret 0, { l.2 with nice_mode := false })
          else l)
        else (outcome.ret 0, s)).1 ≠ outcome.bug := by
      split
      · split
        · exact ⟨l1, l2⟩
        · split
          · exact ⟨same_counts_trans l1 (hnice _), by simp⟩
          · exact ⟨l1, l2⟩
      · exact ⟨same_counts_refl b s, by simp⟩
    simp only
    generalize (if s.nice_mode = true then
        (if l.1 ≠ outcome.ret 0 then l
          else if (l.2.bo b).sync_obj ≠ none then (outcome.ret 0, { l.2 with nice_mode := false })
          else l)
        else (outcome.ret 0, s)) = r at hr
    split
    · exact hr
    · split
      · exact ⟨same_counts_trans hr.1 (same_counts_drop_sync K b _), by simp⟩
      · exact hr
  · exact ⟨same_counts_refl b s, by simp⟩

theorem cleanup_signaled_counts (K : ttm_consts) (x : collaborators W) (s : ttm_bo_device W)
    (b : Nat) : same_counts b s (cleanup_signaled K x s b) := by
  unfold cleanup_signaled
  split
  · split
    · exact same_counts_drop_sync K b s
    · exact same_counts_refl b s
  · exact same_counts_refl b s

theorem del_from_lru_other (s : ttm_bo_device W) (b c : Nat) (hc : c ≠ b) :
    on_lru (ttm_bo_del_from_lru s b).2 c = on_lru s c ∧
    on_swap (ttm_bo_del_from_lru s b).2 c = on_swap s c := by
  have hl : ∀ s1 : ttm_bo_device W, on_lru (lru_del s1 b) c = on_lru s1 c := fun s1 => by
    rw [Bool.eq_iff_iff, on_lru_lru_del]
    exact ⟨fun h => h.1, fun h => ⟨h, hc⟩⟩
  have hs : on_swap { s with swap_lru := list_del s.swap_lru b } c = on_swap s c := by
    simp [on_swap, mem_list_del, hc]
  have h1 : on_lru { s with swap_lru := list_del s.swap_lru b } c = on_lru s c := rfl
  have h2 : ∀ s1 : ttm_bo_device W, on_swap (lru_del s1 b) c = on_swap s1 c := fun _ => rfl
  unfold ttm_bo_del_from_lru
  simp only
  split <;> split <;> simp only [hl, hs, h1, h2, and_self]

theorem cleanup_refs_idle_others (x : collaborators W) (s : ttm_bo_device W) (b c : Nat)
    (hc : lists_on s b < (s.bo b).list_kref) (hcb : c ≠ b) :
    lists_on (cleanup_refs_idle x s b).2 c = lists_on s c ∧
    (c ∈ (cleanup_refs_idle x s b).2.ddestroy ↔ c ∈ s.ddestroy) := by
  obtain ⟨_, _, _, _, _, hdd, _, _⟩ := cleanup_refs_idle_spec x s b hc
  have hmem : c ∈ (cleanup_refs_idle x s b).2.ddestroy ↔ c ∈ s.ddestroy := by
    rw [hdd, mem_list_del]
    exact ⟨fun h => h.1, fun h => ⟨h, hcb⟩⟩
  refine ⟨?_, hmem⟩
  have hlists : on_lru (cleanup_refs_idle x s b).2 c = on_lru s c ∧
      on_swap (cleanup_refs_idle x s b).2 c = on_swap s c := by
    obtain ⟨f1bo, f1man, f1swap, f1dd, f1wq⟩ := cleanup_unbind_spec x s b
    have hc1 : (if b ∈ (cleanup_unbind x s b).ddestroy then (1 : Int) else 0) <
        ((cleanup_unbind x s b).bo b).list_kref := by
      rw [f1dd, f1bo]
      unfold lists_on at hc
      split <;> (split at hc <;> split at hc <;> simp_all <;> omega)
    obtain ⟨f2a, f2bo, f2other, f2man, f2swap, f2dd, f2wq⟩ :=
      cleanup_leave_ddestroy_spec (cleanup_unbind x s b) b hc1
    rw [f1bo, f1dd] at f2bo
    rw [f1man] at f2man
    rw [f1swap] at f2swap
    unfold cleanup_refs_idle
    generalize cleanup_leave_ddestroy (cleanup_unbind x s b) b = d at f2a f2bo f2man f2swap
    obtain ⟨d1, s2⟩ := d
    simp only at f2a f2bo f2man f2swap
    subst f2a
    simp only
    obtain ⟨f3bo, f3other, f3man, f3swap, f3dd, f3wq, f3lru⟩ := cleanup_put_extent_spec s2 b
    rw [f2bo] at f3bo
    simp only at f3bo
    have f3l : on_lru (cleanup_put_extent s2 b) c = on_lru s c := by
      have h1 : on_lru (cleanup_put_extent s2 b) c = on_lru s2 c := by
        simp only [on_lru, f3man]
        cases (s2.bo b).mem.mm_node with
        | none => rfl
        | some n => exact same_lists_on_lru (same_lists_put_block s2 n) c
      rw [h1]
      simp only [on_lru, f2man]
    have f3s : on_swap (cleanup_put_extent s2 b) c = on_swap s c := by
      simp only [on_swap, f3swap, f2swap]
    have hswapb : on_swap (cleanup_put_extent s2 b) b = on_swap s b := by
      simp only [on_swap, f3swap, f2swap]
    have f3lb : on_lru (cleanup_put_extent s2 b) b = on_lru s b := by
      rw [f3lru]
      simp only [on_lru, f2man]
    generalize cleanup_put_extent s2 b = s3 at f3bo f3l f3s hswapb f3lb
    obtain ⟨p1, _, _, p4, _⟩ := del_from_lru_spec s3 b
    obtain ⟨o1, o2⟩ := del_from_lru_other s3 b c hcb
    have hcount : ((ttm_bo_del_from_lru s3 b).1 : Int) <
        (((ttm_bo_del_from_lru s3 b).2).bo b).list_kref := by
      rw [p4, f3bo, p1, f3lb, hswapb]
      unfold lists_on at hc
      simp only
      push_cast
      split <;> split <;> split <;> simp_all <;> omega
    rw [list_kref_put_release_n_spec x _ _ b hcount]
    simp only [on_lru_set_bo, on_swap_set_bo]
    exact ⟨o1.trans f3l, o2.trans f3s⟩
  unfold lists_on
  rw [hlists.1, hlists.2]
  simp only [hmem]

theorem put_release_dec (x : collaborators W) (s : ttm_bo_device W) (b : Nat)
    (h : (s.bo b).list_kref ≠ 1) :
    list_kref_put_release x s b =
      some (set_bo s b { s.bo b with list_kref := (s.bo b).list_kref - 1 }) := by
  have h1 : (s.bo b).list_kref - 1 ≠ 0 := by omega
  unfold list_kref_put_release
  simp only [set_bo_bo_self, h1, if_false]

theorem put_release_last (x : collaborators W) (s : ttm_bo_device W) (b : Nat)
    (h1 : (s.bo b).list_kref = 1) (h2 : (s.bo b).kref = 0) (h3 : (s.bo b).cpu_writers = 0)
    (h4 : (s.bo b).sync_obj = none) (h5 : (s.bo b).mem.mm_node = none)
    (h6 : on_lru s b = false) (h7 : b ∉ s.ddestroy) :
    ∃ w, list_kref_put_release x s b =
      some (set_bo (set_ext s w) b { s.bo b with list_kref := 0, freed := true }) := by
  obtain ⟨w, hw⟩ := release_list_spec x
    (set_bo s b { s.bo b with list_kref := (s.bo b).list_kref - 1 }) b
    (by simp only [set_bo_bo_self, h1, sub_self]) (by simp only [set_bo_bo_self, h2])
    (by simp only [set_bo_bo_self, h3]) (by simp only [set_bo_bo_self, h4])
    (by simp only [set_bo_bo_self, h5]) (by rw [on_lru_set_bo]; exact h6) h7
  refine ⟨w, ?_⟩
  unfold list_kref_put_release
  simp only [set_bo_bo_self, h1, sub_self, if_true] at hw ⊢
  rw [hw]
  simp only [set_bo, set_ext, Option.some.injEq]
  congr 1
  funext c
  by_cases hc : c = b <;> simp [hc]

theorem counted_congr {s s1 : ttm_bo_device W} {c : Nat} {k : Int} (hbo : s1.bo c = s.bo c)
    (hl : lists_on s1 c = lists_on s c) (hdd : c ∈ s1.ddestroy ↔ c ∈ s.ddestroy)
    (h : counted s c k) : counted s1 c k := by
  unfold counted at h ⊢
  rw [hbo, hl, hdd]
  exact h

theorem counted_set_bo_other (s : ttm_bo_device W) (b c : Nat) (o : ttm_buffer_object) (k : Int)
    (hc : c ≠ b) (h : counted s c k) : counted (set_bo s b o) c k :=
  counted_congr (set_bo_bo_other s b c o hc) (lists_on_congr s _ c rfl rfl rfl) Iff.rfl h

theorem held_sound_same_counts {b : Nat} {s s1 : ttm_bo_device W} (h : same_counts b s s1)
    (hb : (s.bo b).freed = false) (held : Nat → Int) (hs : held_sound s held) :
    held_sound s1 held := by
  refine ⟨?_, fun c => counted_same_counts h hb c _ (hs.2 c)⟩
  rw [h.2.2.1]
  exact hs.1

/-- The idle branch of `ttm_bo_cleanup_refs`, followed by the put of the list
reference the caller holds, on a buffer without strong references. -/
theorem idle_put_sound (x : collaborators W) (t : ttm_bo_device W) (b : Nat) (held : Nat → Int)
    (hs : held_sound t (Function.update held b 1))
    (hdead : (t.bo b).kref = 0) (hfr : (t.bo b).freed = false)
    (hsync : (t.bo b).sync_obj = none) :
    (cleanup_refs_idle x t b).1 = outcome.ret 0 ∧
    held_sound (cleanup_refs_idle x t b).2 (Function.update held b 1) ∧
    (∀ c, c ≠ b → (c ∈ (cleanup_refs_idle x t b).2.ddestroy ↔ c ∈ t.ddestroy)) ∧
    ∃ s2, list_kref_put_release x (cleanup_refs_idle x t b).2 b = some s2 ∧
      held_sound s2 (Function.update held b 0) ∧
      (∀ c, c ≠ b → (c ∈ s2.ddestroy ↔ c ∈ t.ddestroy)) := by
  obtain ⟨hnd, hall⟩ := hs
  have hb := hall b
  simp only [Function.update_same] at hb
  obtain ⟨_, hb2, _⟩ := hb
  obtain ⟨hle, hcpu⟩ := hb2 hfr
  simp only [hdead, if_true] at hle
  have hcpu0 := hcpu hdead
  have hc : lists_on t b < (t.bo b).list_kref := by omega
  obtain ⟨r1, r2, r3, r4, r5, r6, _, _⟩ := cleanup_refs_idle_spec x t b hc
  have hoth := fun c hcb => cleanup_refs_idle_others x t b c hc hcb
  generalize cleanup_refs_idle x t b = r at r1 r2 r3 r4 r5 r6 hoth
  obtain ⟨ro, rs⟩ := r
  simp only at r1 r2 r3 r4 r5 r6 hoth
  have hnotin : b ∉ rs.ddestroy := by
    rw [r6]
    exact list_del_not_mem _ _
  have hl0 : lists_on rs b = 0 := by
    unfold lists_on
    simp only [r4, r5, hnotin, Bool.false_eq_true, if_false, add_zero]
  have hnd1 : rs.ddestroy.Nodup := by
    rw [r6]
    exact hnd.filter _
  have hoc : ∀ c, c ≠ b → counted rs c (held c) := fun c hcb => by
    have := hall c
    simp only [Function.update_noteq hcb] at this
    exact counted_congr (r3 c hcb) (hoth c hcb).1 (hoth c hcb).2 this
  have hmem : ∀ c, c ≠ b → (c ∈ rs.ddestroy ↔ c ∈ t.ddestroy) := fun c hcb => (hoth c hcb).2
  refine ⟨r1, ⟨hnd1, fun c => ?_⟩, hmem, ?_⟩
  · by_cases hcb : c = b
    · subst hcb
      simp only [Function.update_same]
      unfold counted
      rw [hl0, r2]
      simp only [hdead, hfr, if_true, hcpu0, Bool.false_eq_true, false_implies, implies_true,
        and_true, true_and]
      omega
    · simp only [Function.update_noteq hcb]
      exact hoc c hcb
  · by_cases hlast : (rs.bo b).list_kref = 1
    · obtain ⟨w, hw⟩ := put_release_last x rs b hlast (by rw [r2]; exact hdead)
        (by rw [r2]; exact hcpu0) (by rw [r2]; exact hsync) (by rw [r2]) r4 hnotin
      refine ⟨_, hw, ⟨hnd1, fun c => ?_⟩, hmem⟩
      by_cases hcb : c = b
      · subst hcb
        have hl1 : lists_on (set_bo (set_ext rs w) c
            { rs.bo c with list_kref := 0, freed := true }) c = 0 := by
          exact (lists_on_congr rs _ c rfl rfl rfl).trans hl0
        simp only [Function.update_same]
        unfold counted
        rw [hl1]
        simp only [set_bo_bo_self, r2, hdead, hcpu0, hsync, Bool.true_eq_false, false_implies,
          implies_true, and_self]
      · simp only [Function.update_noteq hcb]
        exact counted_set_bo_other _ b c _ _ hcb
          (counted_congr rfl (lists_on_congr rs _ c rfl rfl rfl) Iff.rfl (hoc c hcb))
    · refine ⟨_, put_release_dec x rs b hlast, ⟨hnd1, fun c => ?_⟩, hmem⟩
      by_cases hcb : c = b
      · subst hcb
        have hl1 : lists_on (set_bo rs c
            { rs.bo c with list_kref := (rs.bo c).list_kref - 1 }) c = 0 := by
          exact (lists_on_congr rs _ c rfl rfl rfl).trans hl0
        have hne : (t.bo c).list_kref - lists_on t c ≠ 1 := by
          rw [r2] at hlast
          exact hlast
        simp only [Function.update_same]
        unfold counted
        rw [hl1]
        simp only [set_bo_bo_self, r2, hdead, hfr, hcpu0, if_true, Bool.false_eq_true,
          false_implies, implies_true, and_true, true_and]
        intro _
        omega
      · simp only [Function.update_noteq hcb]
        exact counted_set_bo_other _ b c _ _ hcb (hoc c hcb)

theorem lists_on_nonneg (s : ttm_bo_device W) (b : Nat) : 0 ≤ lists_on s b := by
  unfold lists_on
  split <;> split <;> split <;> omega

theorem cleanup_refs_busy_spec (x : collaborators W) (t : ttm_bo_device W) (b : Nat)
    (h : b ∉ t.ddestroy) :
    (cleanup_refs_busy x t b).bo b =
      { t.bo b with list_kref := (t.bo b).list_kref + 1 } ∧
    (∀ c, c ≠ b → (cleanup_refs_busy x t b).bo c = t.bo c) ∧
    (cleanup_refs_busy x t b).man = t.man ∧
    (cleanup_refs_busy x t b).swap_lru = t.swap_lru ∧
    (cleanup_refs_busy x t b).ddestroy = t.ddestroy ++ [b] := by
  unfold cleanup_refs_busy
  rw [if_neg h]
  have h1 : b ∉ (set_ext t (x.sync_obj_flush t.ext ((t.bo b).sync_obj.getD 0)
      (t.bo b).sync_obj_arg)).ddestroy := h
  simp only [if_neg h1]
  refine ⟨?_, fun c hc => ?_, rfl, rfl, rfl⟩
  · show (list_kref_get _ b).bo b = _
    rw [list_kref_get_bo_self]
    rfl
  · show (list_kref_get _ b).bo c = _
    rw [list_kref_get_bo_other _ _ _ hc]
    rfl

/-- The busy branch of `ttm_bo_cleanup_refs`, followed by the put of the list
reference the caller holds, on a buffer without strong references. -/
theorem busy_put_sound (x : collaborators W) (t : ttm_bo_device W) (b : Nat) (held : Nat → Int)
    (hs : held_sound t (Function.update held b 1))
    (hdead : (t.bo b).kref = 0) (hfr : (t.bo b).freed = false) :
    held_sound (cleanup_refs_busy x t b) (Function.update held b 1) ∧
    (∀ c, c ≠ b → (c ∈ (cleanup_refs_busy x t b).ddestroy ↔ c ∈ t.ddestroy)) ∧
    ∃ s2, list_kref_put_release x (cleanup_refs_busy x t b) b = some s2 ∧
      held_sound s2 (Function.update held b 0) ∧
      (∀ c, c ≠ b → (c ∈ s2.ddestroy ↔ c ∈ t.ddestroy)) := by
  obtain ⟨hnd, hall⟩ := hs
  have hb := hall b
  simp only [Function.update_same] at hb
  obtain ⟨_, hb2, _⟩ := hb
  obtain ⟨hle, hcpu⟩ := hb2 hfr
  simp only [hdead, if_true] at hle
  have hcpu0 := hcpu hdead
  have hoc0 : ∀ c, c ≠ b → counted t c (held c) := fun c hcb => by
    have := hall c
    simp only [Function.update_noteq hcb] at this
    exact this
  by_cases hmem : b ∈ t.ddestroy
  · have hr : cleanup_refs_busy x t b = t := by
      unfold cleanup_refs_busy
      rw [if_pos hmem]
    rw [hr]
    have h1 := lists_on_ddestroy t b hmem
    refine ⟨⟨hnd, hall⟩, fun _ _ => Iff.rfl,
      _, put_release_dec x t b (by omega), ⟨hnd, fun c => ?_⟩, fun _ _ => Iff.rfl⟩
    by_cases hcb : c = b
    · subst hcb
      have hl1 : lists_on (set_bo t c { t.bo c with list_kref := (t.bo c).list_kref - 1 }) c =
          lists_on t c := lists_on_congr t _ c rfl rfl rfl
      simp only [Function.update_same]
      unfold counted
      rw [hl1]
      simp only [set_bo_bo_self, hdead, hfr, hcpu0, if_true, Bool.false_eq_true,
        false_implies, implies_true, and_true, true_and]
      intro _
      omega
    · simp only [Function.update_noteq hcb]
      exact counted_set_bo_other _ b c _ _ hcb (hoc0 c hcb)
  · obtain ⟨r1, r2, r3, r4, r5⟩ := cleanup_refs_busy_spec x t b hmem
    have hnn := lists_on_nonneg t b
    generalize cleanup_refs_busy x t b = rs at r1 r2 r3 r4 r5
    have hmemc : ∀ c, c ≠ b → (c ∈ rs.ddestroy ↔ c ∈ t.ddestroy) := fun c hcb => by
      rw [r5]
      simp [hcb]
    have hin : b ∈ rs.ddestroy := by
      rw [r5]
      simp
    have hlb : lists_on rs b = lists_on t b + 1 := by
      unfold lists_on
      simp only [on_lru, on_swap, r3, r4, hin, hmem, if_true, if_false, add_zero]
    have hlc : ∀ c, c ≠ b → lists_on rs c = lists_on t c := fun c hcb => by
      unfold lists_on
      simp only [on_lru, on_swap, r3, r4, hmemc c hcb]
    have hnd1 : rs.ddestroy.Nodup := by
      rw [r5]
      exact List.Nodup.append hnd (List.nodup_singleton b) (by simpa using hmem)
    have hoc : ∀ c, c ≠ b → counted rs c (held c) := fun c hcb =>
      counted_congr (r2 c hcb) (hlc c hcb) (hmemc c hcb) (hoc0 c hcb)
    refine ⟨⟨hnd1, fun c => ?_⟩, hmemc, _, put_release_dec x rs b (by rw [r1]; simp only; omega),
      ⟨hnd1, fun c => ?_⟩, hmemc⟩
    · by_cases hcb : c = b
      · subst hcb
        simp only [Function.update_same]
        unfold counted
        rw [hlb, r1]
        simp only [hdead, hfr, hcpu0, if_true, Bool.false_eq_true, false_implies, implies_true,
          and_true, true_and]
        omega
      · simp only [Function.update_noteq hcb]
        exact hoc c hcb
    · by_cases hcb : c = b
      · subst hcb
        have hl1 : lists_on (set_bo rs c { rs.bo c with list_kref := (rs.bo c).list_kref - 1 }) c =
            lists_on t c + 1 := (lists_on_congr rs _ c rfl rfl rfl).trans hlb
        simp only [Function.update_same]
        unfold counted
        rw [hl1]
        simp only [set_bo_bo_self, r1, hdead, hfr, hcpu0, if_true, Bool.false_eq_true,
          false_implies, implies_true, and_true, true_and]
        omega
      · simp only [Function.update_noteq hcb]
        exact counted_set_bo_other _ b c _ _ hcb (hoc c hcb)

/-- The whole of `ttm_bo_cleanup_refs` on a buffer without strong references
of which the caller holds one list reference, and the put of that reference
afterwards: no assertion fails, and the counts stay sound. -/
theorem cleanup_put_sound (K : ttm_consts) (x : collaborators W) (fuel : Nat)
    (s : ttm_bo_device W) (b : Nat) (ra : Bool) (held : Nat → Int)
    (hwait : ra = true → ∀ w so a l j, (x.sync_obj_wait w so a l j).1 ≠ outcome.bug)
    (hs : held_sound s (Function.update held b 1))
    (hdead : (s.bo b).kref = 0) (hfr : (s.bo b).freed = false) :
    (ttm_bo_cleanup_refs K x fuel s b ra).1 ≠ outcome.bug ∧
    (ra = false → (ttm_bo_cleanup_refs K x fuel s b ra).1 = outcome.ret 0) ∧
    held_sound (ttm_bo_cleanup_refs K x fuel s b ra).2 (Function.update held b 1) ∧
    (∀ c, c ≠ b → (c ∈ (ttm_bo_cleanup_refs K x fuel s b ra).2.ddestroy ↔ c ∈ s.ddestroy)) ∧
    (∀ code, (ttm_bo_cleanup_refs K x fuel s b ra).1 = outcome.ret code →
      ∃ s2, list_kref_put_release x (ttm_bo_cleanup_refs K x fuel s b ra).2 b = some s2 ∧
        held_sound s2 (Function.update held b 0) ∧
        (∀ c, c ≠ b → (c ∈ s2.ddestroy ↔ c ∈ s.ddestroy))) := by
  have sc1 := cleanup_signaled_counts K x s b
  have he : same_counts b (cleanup_signaled K x s b)
      (if ((cleanup_signaled K x s b).bo b).sync_obj ≠ none ∧ ra = true then
        ttm_bo_expire_sync_obj K x fuel (cleanup_signaled K x s b) b false
        else (outcome.ret 0, cleanup_signaled K x s b)).2 ∧
      (if ((cleanup_signaled K x s b).bo b).sync_obj ≠ none ∧ ra = true then
        ttm_bo_expire_sync_obj K x fuel (cleanup_signaled K x s b) b false
        else (outcome.ret 0, cleanup_signaled K x s b)).1 ≠ outcome.bug ∧
      (ra = false → (if ((cleanup_signaled K x s b).bo b).sync_obj ≠ none ∧ ra = true then
        ttm_bo_expire_sync_obj K x fuel (cleanup_signaled K x s b) b false
        else (outcome.ret 0, cleanup_signaled K x s b)).1 = outcome.ret 0) := by
    split
    · rename_i hcond
      obtain ⟨e1, e2⟩ := expire_counts K x fuel (cleanup_signaled K x s b) b false
        (hwait hcond.2)
      refine ⟨e1, e2, fun h => ?_⟩
      rw [hcond.2] at h
      exact absurd h (by simp)
    · exact ⟨same_counts_refl b _, by simp, fun _ => rfl⟩
  unfold ttm_bo_cleanup_refs
  simp only
  generalize (if ((cleanup_signaled K x s b).bo b).sync_obj ≠ none ∧ ra = true then
        ttm_bo_expire_sync_obj K x fuel (cleanup_signaled K x s b) b false
        else (outcome.ret 0, cleanup_signaled K x s b)) = e at he
  obtain ⟨he1, he2, he3⟩ := he
  have sc := same_counts_trans sc1 he1
  obtain ⟨eo, t⟩ := e
  simp only at he2 he3 sc ⊢
  have hst := held_sound_same_counts sc hfr _ hs
  have hdead1 : (t.bo b).kref = 0 := by rw [sc.2.2.2.2.2.1]; exact hdead
  have hfr1 : (t.bo b).freed = false := by rw [sc.2.2.2.2.2.2.2.1]; exact hfr
  have hdd : t.ddestroy = s.ddestroy := sc.2.2.1
  cases eo with
  | ret code =>
    simp only
    split
    · rename_i hsync
      obtain ⟨i1, i2, i3, i4⟩ := idle_put_sound x t b held hst hdead1 hfr1 hsync
      refine ⟨by rw [i1]; simp, fun _ => i1, i2, fun c hc => ?_, fun _ _ => ?_⟩
      · rw [i3 c hc, hdd]
      · obtain ⟨s2, j1, j2, j3⟩ := i4
        exact ⟨s2, j1, j2, fun c hc => by rw [j3 c hc, hdd]⟩
    · obtain ⟨i2, i3, i4⟩ := busy_put_sound x t b held hst hdead1 hfr1
      refine ⟨by simp, fun _ => rfl, i2, fun c hc => ?_, fun _ _ => ?_⟩
      · rw [i3 c hc, hdd]
      · obtain ⟨s2, j1, j2, j3⟩ := i4
        exact ⟨s2, j1, j2, fun c hc => by rw [j3 c hc, hdd]⟩
  | sleeps =>
    exact ⟨by simp, fun h => absurd (he3 h) (by simp), hst, fun c _ => by rw [hdd],
      fun _ h => absurd h (by simp)⟩
  | bug => exact absurd rfl he2
  | fuel =>
    exact ⟨by simp, fun h => absurd (he3 h) (by simp), hst, fun c _ => by rw [hdd],
      fun _ h => absurd h (by simp)⟩

theorem held_sound_mono {s : ttm_bo_device W} {h h1 : Nat → Int} (hle : ∀ c, h1 c ≤ h c)
    (hs : held_sound s h) : held_sound s h1 :=
  ⟨hs.1, fun c => counted_mono (hle c) (hs.2 c)⟩

theorem held_sound_get {s : ttm_bo_device W} {h : Nat → Int} (e : Nat)
    (hs : held_sound s h) (hfr : (s.bo e).freed = false) :
    held_sound (list_kref_get s e) (Function.update h e (h e + 1)) := by
  refine ⟨hs.1, fun c => ?_⟩
  by_cases hc : c = e
  · subst hc
    obtain ⟨a1, a2, _⟩ := hs.2 c
    have hl : lists_on (list_kref_get s c) c = lists_on s c := lists_on_congr s _ c rfl rfl rfl
    simp only [Function.update_same]
    unfold counted
    rw [hl, list_kref_get_bo_self]
    simp only [hfr, Bool.false_eq_true, false_implies, and_true, true_implies]
    have := (a2 hfr).1
    exact ⟨a1, by omega, (a2 hfr).2⟩
  · simp only [Function.update_noteq hc]
    exact counted_set_bo_other s e c _ _ hc (hs.2 c)

theorem held_sound_put {s : ttm_bo_device W} {h : Nat → Int} (e : Nat)
    (hs : held_sound s h) (hfr : (s.bo e).freed = false) :
    held_sound (set_bo s e { s.bo e with list_kref := (s.bo e).list_kref - 1 })
      (Function.update h e (h e - 1)) := by
  refine ⟨hs.1, fun c => ?_⟩
  by_cases hc : c = e
  · subst hc
    obtain ⟨a1, a2, _⟩ := hs.2 c
    have hl : lists_on (set_bo s c { s.bo c with list_kref := (s.bo c).list_kref - 1 }) c =
        lists_on s c := lists_on_congr s _ c rfl rfl rfl
    simp only [Function.update_same]
    unfold counted
    rw [hl, set_bo_bo_self]
    simp only [hfr, Bool.false_eq_true, false_implies, and_true, true_implies]
    have := (a2 hfr).1
    exact ⟨a1, by omega, (a2 hfr).2⟩
  · simp only [Function.update_noteq hc]
    exact counted_set_bo_other s e c _ _ hc (hs.2 c)

/-- Dropping a strong reference: no assertion fails and the counts stay
sound. -/
theorem unref_sound (K : ttm_consts) (x : collaborators W) (fuel : Nat)
    (s : ttm_bo_device W) (b : Nat) (hs : refs_sound s)
    (hfr : (s.bo b).freed = false) (hk : 0 < (s.bo b).kref)
    (hcpu : (s.bo b).kref = 1 → (s.bo b).cpu_writers = 0) :
    (ttm_bo_unref K x fuel s b).1 = outcome.ret 0 ∧ refs_sound (ttm_bo_unref K x fuel s b).2 := by
  obtain ⟨b1, b2, _⟩ := hs.2 b
  obtain ⟨b3, _⟩ := b2 hfr
  have hne : (s.bo b).kref ≠ 0 := by omega
  simp only [hne, if_false] at b3
  have hnotdd : b ∉ s.ddestroy := fun h => hne (b1 h)
  unfold ttm_bo_unref
  simp only [set_bo_bo_self]
  by_cases hlast : (s.bo b).kref = 1
  · simp only [hlast, sub_self, if_true]
    obtain ⟨v1, v2, v3, v4, _, _⟩ :=
      release_vm_node_spec (set_bo s b { s.bo b with kref := 0 }) b
    have hsv : held_sound (release_vm_node (set_bo s b { s.bo b with kref := 0 }) b)
        (Function.update (fun _ => (0 : Int)) b 1) := by
      refine ⟨by rw [v4]; exact hs.1, fun c => ?_⟩
      have hl : lists_on (release_vm_node (set_bo s b { s.bo b with kref := 0 }) b) c =
          lists_on s c := lists_on_congr s _ c v2 v3 v4
      by_cases hc : c = b
      · subst hc
        simp only [Function.update_same]
        unfold counted
        rw [hl, v1, v4]
        simp only [set_bo_bo_self, hfr, hcpu hlast, if_true, Bool.false_eq_true, false_implies,
          implies_true, and_true, true_and]
        omega
      · simp only [Function.update_noteq hc]
        refine counted_congr ?_ hl (by rw [v4]; exact Iff.rfl) (hs.2 c)
        rw [v1]
        exact set_bo_bo_other _ _ _ _ hc
    have hdead : ((release_vm_node (set_bo s b { s.bo b with kref := 0 }) b).bo b).kref = 0 := by
      rw [v1, set_bo_bo_self]
    have hfr1 : ((release_vm_node (set_bo s b { s.bo b with kref := 0 }) b).bo b).freed =
        false := by
      rw [v1, set_bo_bo_self]
      exact hfr
    obtain ⟨_, c2, _, _, c5⟩ := cleanup_put_sound K x fuel
      (release_vm_node (set_bo s b { s.bo b with kref := 0 }) b) b false (fun _ => 0)
      (fun h => absurd h (by simp)) hsv hdead hfr1
    obtain ⟨s2, p1, p2, _⟩ := c5 0 (c2 rfl)
    unfold ttm_bo_release
    simp only [c2 rfl, p1]
    refine ⟨trivial, ?_⟩
    have hu : Function.update (fun _ : Nat => (0 : Int)) b 0 = fun _ => 0 :=
      Function.update_eq_self b (fun _ : Nat => (0 : Int))
    rw [hu] at p2
    exact p2
  · have hne1 : (s.bo b).kref - 1 ≠ 0 := by omega
    simp only [hne1, if_false]
    refine ⟨trivial, hs.1, fun c => ?_⟩
    by_cases hc : c = b
    · subst hc
      have hl : lists_on (set_bo s c { s.bo c with kref := (s.bo c).kref - 1 }) c =
          lists_on s c := lists_on_congr s _ c rfl rfl rfl
      unfold counted
      rw [hl, set_bo_bo_self]
      simp only [hne1, hfr, if_false, Bool.false_eq_true, false_implies, and_true,
        true_implies, set_bo_ddestroy]
      exact ⟨fun h => absurd h hnotdd, by omega⟩
    · exact counted_set_bo_other s b c _ _ hc (hs.2 c)

theorem walk_last_sound (K : ttm_consts) (x : collaborators W) (fuel : Nat) (ra : Bool)
    (hwait : ra = true → ∀ w so a l j, (x.sync_obj_wait w so a l j).1 ≠ outcome.bug)
    (entry : Nat) (s : ttm_bo_device W) (hentry : entry ∈ s.ddestroy) (hs : refs_sound s) :
    (delayed_delete_walk K x fuel ra [entry] s).1 ≠ outcome.bug ∧
    (ra = false → ∃ code, (delayed_delete_walk K x fuel ra [entry] s).1 = outcome.ret code) ∧
    refs_sound (delayed_delete_walk K x fuel ra [entry] s).2 := by
  have hfr : (s.bo entry).freed = false := counted_not_freed (hs.2 entry) hentry
  have hdead : (s.bo entry).kref = 0 := (hs.2 entry).1 hentry
  have h2 : held_sound (list_kref_get s entry)
      (Function.update (fun _ => (0 : Int)) entry 1) := by
    have := held_sound_get entry hs hfr
    simp only [zero_add] at this
    exact this
  obtain ⟨c1, c2, c3, _, c5⟩ := cleanup_put_sound K x fuel (list_kref_get s entry) entry ra
    (fun _ => 0) hwait h2 (by rw [list_kref_get_bo_self]; exact hdead)
    (by rw [list_kref_get_bo_self]; exact hfr)
  have hu : Function.update (fun _ : Nat => (0 : Int)) entry 0 = fun _ => 0 :=
    Function.update_eq_self entry (fun _ : Nat => (0 : Int))
  have hmono : refs_sound (ttm_bo_cleanup_refs K x fuel (list_kref_get s entry) entry ra).2 :=
    held_sound_mono (fun c => by
      by_cases hc : c = entry
      · rw [hc, Function.update_same]
        exact Int.zero_le_ofNat 1
      · rw [Function.update_noteq hc]) c3
  rw [hu] at c5
  rw [delayed_delete_walk]
  generalize ttm_bo_cleanup_refs K x fuel (list_kref_get s entry) entry ra = c
    at c1 c2 c5 hmono
  obtain ⟨co, cs⟩ := c
  simp only at c1 c2 c5 hmono ⊢
  cases co with
  | ret code =>
    obtain ⟨s2, p1, p2, _⟩ := c5 code rfl
    simp only [p1]
    exact ⟨by simp, fun _ => ⟨0, rfl⟩, p2⟩
  | sleeps =>
    exact ⟨by simp, fun h => absurd (c2 h) (by simp), hmono⟩
  | bug => exact absurd rfl c1
  | fuel =>
    exact ⟨by simp, fun h => absurd (c2 h) (by simp), hmono⟩

/-- One step of the traversal when the entry has a successor: either the
call ends here without a failed assertion, or the traversal goes on from a
sound state in which the remaining entries are still on the list. -/
theorem walk_next_sound (K : ttm_consts) (x : collaborators W) (fuel : Nat) (ra : Bool)
    (hwait : ra = true → ∀ w so a l j, (x.sync_obj_wait w so a l j).1 ≠ outcome.bug)
    (entry nentry : Nat) (rest : List Nat) (s : ttm_bo_device W)
    (hne : entry ≠ nentry) (hentry : entry ∈ s.ddestroy) (hnin : nentry ∈ s.ddestroy)
    (hs : refs_sound s) :
    ((delayed_delete_walk K x fuel ra (entry :: nentry :: rest) s).1 ≠ outcome.bug ∧
      ra = true ∧
      refs_sound (delayed_delete_walk K x fuel ra (entry :: nentry :: rest) s).2) ∨
    ∃ s4, delayed_delete_walk K x fuel ra (entry :: nentry :: rest) s =
        delayed_delete_walk K x fuel ra (nentry :: rest) s4 ∧
      refs_sound s4 ∧ (∀ e, e ≠ entry → e ∈ s.ddestroy → e ∈ s4.ddestroy) := by
  have hfr : (s.bo entry).freed = false := counted_not_freed (hs.2 entry) hentry
  have hdead : (s.bo entry).kref = 0 := (hs.2 entry).1 hentry
  have hfrn : (s.bo nentry).freed = false := counted_not_freed (hs.2 nentry) hnin
  have h1 : held_sound (list_kref_get s nentry)
      (Function.update (fun _ => (0 : Int)) nentry 1) := by
    have := held_sound_get nentry hs hfrn
    simp only [zero_add] at this
    exact this
  have hbo1 : (list_kref_get s nentry).bo entry = s.bo entry :=
    list_kref_get_bo_other s nentry entry hne
  have h2 : held_sound (list_kref_get (list_kref_get s nentry) entry)
      (Function.update (Function.update (fun _ => (0 : Int)) nentry 1) entry 1) := by
    have := held_sound_get entry h1 (by rw [hbo1]; exact hfr)
    rw [Function.update_noteq hne] at this
    simp only [zero_add] at this
    exact this
  obtain ⟨c1, c2, c3, c4, c5⟩ := cleanup_put_sound K x fuel
    (list_kref_get (list_kref_get s nentry) entry) entry ra
    (Function.update (fun _ => (0 : Int)) nentry 1) hwait h2
    (by rw [list_kref_get_bo_self, hbo1]; exact hdead)
    (by rw [list_kref_get_bo_self, hbo1]; exact hfr)
  have hu : Function.update (Function.update (fun _ : Nat => (0 : Int)) nentry 1) entry 0 =
      Function.update (fun _ : Nat => (0 : Int)) nentry 1 := by
    have := Function.update_eq_self entry
      (Function.update (fun _ : Nat => (0 : Int)) nentry 1)
    rw [Function.update_noteq hne] at this
    exact this
  have hmono : refs_sound
      (ttm_bo_cleanup_refs K x fuel (list_kref_get (list_kref_get s nentry) entry)
        entry ra).2 :=
    held_sound_mono (fun c => by
      by_cases hc : c = entry
      · rw [hc, Function.update_same]
        exact Int.zero_le_ofNat 1
      · rw [Function.update_noteq hc]
        by_cases hc1 : c = nentry
        · rw [hc1, Function.update_same]
          exact Int.zero_le_ofNat 1
        · rw [Function.update_noteq hc1]) c3
  rw [hu] at c5
  rw [delayed_delete_walk]
  generalize ttm_bo_cleanup_refs K x fuel (list_kref_get (list_kref_get s nentry) entry)
    entry ra = c at c1 c2 c4 c5 hmono
  obtain ⟨co, cs⟩ := c
  simp only at c1 c2 c4 c5 hmono ⊢
  have hra : co ≠ outcome.ret 0 → ra = true := fun h => by
    cases ra
    · exact absurd (c2 rfl) h
    · rfl
  cases co with
  | ret code =>
    right
    obtain ⟨s3, p1, p2, p3⟩ := c5 code rfl
    have hn3 : nentry ∈ s3.ddestroy := (p3 nentry (Ne.symm hne)).2 hnin
    have hfr3 : (s3.bo nentry).freed = false := counted_not_freed (p2.2 nentry) hn3
    have hl3 := lists_on_ddestroy s3 nentry hn3
    have hcount := ((p2.2 nentry).2.1 hfr3).1
    rw [Function.update_same] at hcount
    have hnn : (0 : Int) ≤ (if (s3.bo nentry).kref = 0 then 0 else 1) := by
      split <;> omega
    have p4 := put_release_dec x s3 nentry (by omega)
    have hs4 : refs_sound
        (set_bo s3 nentry { s3.bo nentry with list_kref := (s3.bo nentry).list_kref - 1 }) := by
      have := held_sound_put nentry p2 hfr3
      have hu2 : Function.update (Function.update (fun _ : Nat => (0 : Int)) nentry 1) nentry
          (Function.update (fun _ : Nat => (0 : Int)) nentry 1 nentry - 1) = fun _ => 0 := by
        funext c
        by_cases hc : c = nentry
        · rw [hc, Function.update_same, Function.update_same]
          rfl
        · rw [Function.update_noteq hc, Function.update_noteq hc]
      rw [hu2] at this
      exact this
    refine ⟨_, ?_, hs4, fun e hee he => ?_⟩
    · simp only [p1, p4, hn3, if_true]
    · rw [set_bo_ddestroy]
      exact (p3 e hee).2 he
  | sleeps =>
    exact Or.inl ⟨by simp, hra (by simp), hmono⟩
  | bug => exact absurd rfl c1
  | fuel =>
    exact Or.inl ⟨by simp, hra (by simp), hmono⟩

/-- The traversal of the delayed-destroy list: no assertion fails and the
counts stay sound. -/
theorem walk_sound (K : ttm_consts) (x : collaborators W) (fuel : Nat) (ra : Bool)
    (hwait : ra = true → ∀ w so a l j, (x.sync_obj_wait w so a l j).1 ≠ outcome.bug)
    (l : List Nat) (s : ttm_bo_device W) (hnd : l.Nodup) (hin : ∀ e ∈ l, e ∈ s.ddestroy)
    (hs : refs_sound s) :
    (delayed_delete_walk K x fuel ra l s).1 ≠ outcome.bug ∧
    (ra = false → ∃ code, (delayed_delete_walk K x fuel ra l s).1 = outcome.ret code) ∧
    refs_sound (delayed_delete_walk K x fuel ra l s).2 := by
  induction l generalizing s with
  | nil => exact ⟨by simp [delayed_delete_walk], fun _ => ⟨0, rfl⟩, hs⟩
  | cons entry rest ih =>
    have hentry : entry ∈ s.ddestroy := hin entry (List.mem_cons_self entry rest)
    cases rest with
    | nil => exact walk_last_sound K x fuel ra hwait entry s hentry hs
    | cons nentry rest1 =>
      have hne : entry ≠ nentry := by
        intro h
        rw [h] at hnd
        exact (List.nodup_cons.1 hnd).1 (List.mem_cons_self nentry rest1)
      have hnin : nentry ∈ s.ddestroy :=
        hin nentry (List.mem_cons_of_mem entry (List.mem_cons_self nentry rest1))
      rcases walk_next_sound K x fuel ra hwait entry nentry rest1 s hne hentry hnin hs with
        ⟨h1, h2, h3⟩ | ⟨s4, h1, h2, h3⟩
      · refine ⟨h1, fun h => ?_, h3⟩
        rw [h2] at h
        exact absurd h (by simp)
      · rw [h1]
        refine ih s4 (List.nodup_cons.1 hnd).2 (fun e he => ?_) h2
        have hee : e ≠ entry := by
          rintro rfl
          exact (List.nodup_cons.1 hnd).1 he
        exact h3 e hee (hin e (List.mem_cons_of_mem entry he))

theorem delayed_delete_sound (K : ttm_consts) (x : collaborators W) (fuel : Nat)
    (s : ttm_bo_device W) (ra : Bool)
    (hwait : ra = true → ∀ w so a l j, (x.sync_obj_wait w so a l j).1 ≠ outcome.bug)
    (hs : refs_sound s) :
    (ttm_bo_delayed_delete K x fuel s ra).1 ≠ outcome.bug ∧
    (ra = false → ∃ code, (ttm_bo_delayed_delete K x fuel s ra).1 = outcome.ret code) ∧
    refs_sound (ttm_bo_delayed_delete K x fuel s ra).2 := by
  obtain ⟨w1, w2, w3⟩ := walk_sound K x fuel ra hwait s.ddestroy s hs.1 (fun _ h => h) hs
  unfold ttm_bo_delayed_delete
  simp only
  generalize delayed_delete_walk K x fuel ra s.ddestroy s = r at w1 w2 w3
  obtain ⟨ro, rs⟩ := r
  simp only at w1 w2 w3 ⊢
  cases ro with
  | ret code => exact ⟨by simp, fun _ => ⟨_, rfl⟩, w3⟩
  | sleeps =>
    refine ⟨by simp, fun h => ?_, w3⟩
    obtain ⟨code, hc⟩ := w2 h
    exact absurd hc (by simp)
  | bug => exact absurd rfl w1
  | fuel =>
    refine ⟨by simp, fun h => ?_, w3⟩
    obtain ⟨code, hc⟩ := w2 h
    exact absurd hc (by simp)

theorem sound_freed {s : ttm_bo_device W} (hs : refs_sound s) (c : Nat)
    (hf : (s.bo c).freed = true) :
    (s.bo c).list_kref = 0 ∧ (s.bo c).kref = 0 ∧ (s.bo c).sync_obj = none ∧
    (s.bo c).mem.mm_node = none ∧ lists_on s c = 0 := by
  obtain ⟨h1, h2, _, h4, h5, h6⟩ := (hs.2 c).2.2 hf
  exact ⟨h1, h2, h4, h5, h6⟩

/-! ### The list walkers and the list reference counts -/

theorem memberships_nonneg (s : ttm_bo_device W) (b : Nat) : 0 ≤ memberships s b := by
  unfold memberships
  split <;> split <;> omega

theorem memberships_congr {s s1 : ttm_bo_device W} {c : Nat} (h1 : on_lru s1 c = on_lru s c)
    (h2 : on_swap s1 c = on_swap s c) : memberships s1 c = memberships s c := by
  unfold memberships
  rw [h1, h2]

theorem memberships_unlisted {s : ttm_bo_device W} {c : Nat} (h : ¬ listed s c) :
    memberships s c = 0 := by
  unfold listed at h
  unfold memberships
  have h1 : on_lru s c ≠ true := fun h0 => h (Or.inl h0)
  have h2 : on_swap s c ≠ true := fun h0 => h (Or.inr h0)
  rw [if_neg h1, if_neg h2]
  rfl

theorem memberships_listed {s : ttm_bo_device W} {c : Nat} (h : listed s c) :
    1 ≤ memberships s c := by
  unfold memberships
  rcases h with h | h
  · rw [if_pos h]
    split <;> omega
  · rw [if_pos h]
    split <;> omega

theorem same_lists_on_swap {s s1 : ttm_bo_device W} (h : same_lists s s1) (b : Nat) :
    on_swap s1 b = on_swap s b := by
  simp only [on_swap, h.2]

theorem same_lists_memberships {s s1 : ttm_bo_device W} (h : same_lists s s1) (c : Nat) :
    memberships s1 c = memberships s c :=
  memberships_congr (same_lists_on_lru h c) (same_lists_on_swap h c)

theorem walked_refl (e : Nat → Prop) (s : ttm_bo_device W) : walked e s s :=
  ⟨rfl, fun _ h => h, fun _ _ _ => rfl, fun _ => ⟨rfl, rfl, rfl⟩, fun _ => le_refl _⟩

theorem walked_trans {e : Nat → Prop} {s s1 s2 : ttm_bo_device W}
    (h1 : walked e s s1) (h2 : walked e s1 s2) : walked e s s2 := by
  obtain ⟨a1, a2, a3, a4, a5⟩ := h1
  obtain ⟨b1, b2, b3, b4, b5⟩ := h2
  refine ⟨b1.trans a1, fun c h => a2 c (b2 c h), fun c hc hl => ?_, fun c => ?_,
    fun c => le_trans (a5 c) (b5 c)⟩
  · rw [b3 c hc (fun h => hl (a2 c h)), a3 c hc hl]
  · exact ⟨(b4 c).1.trans (a4 c).1, (b4 c).2.1.trans (a4 c).2.1, (b4 c).2.2.trans (a4 c).2.2⟩

theorem walked_mono {e f : Nat → Prop} {s s1 : ttm_bo_device W}
    (h : walked e s s1) (hef : ∀ c, e c → f c) : walked f s s1 :=
  ⟨h.1, h.2.1, fun c hc hl => h.2.2.1 c (fun h0 => hc (hef c h0)) hl, h.2.2.2.1, h.2.2.2.2⟩

theorem walked_close {b : Nat} {s s1 : ttm_bo_device W}
    (h : walked (fun c => c = b) s s1) (hl : listed s b) : walked (fun _ => False) s s1 := by
  refine ⟨h.1, h.2.1, fun c _ hc => h.2.2.1 c (fun h0 => ?_) hc, h.2.2.2.1, h.2.2.2.2⟩
  rw [h0] at hc
  exact hc hl

theorem backed_walked {e : Nat → Prop} {s s1 : ttm_bo_device W} (hb : backed s)
    (h : walked e s s1) : backed s1 :=
  fun c hc => le_trans (hb c (h.2.1 c hc)) (h.2.2.2.2 c)

theorem walked_of_bo_eq {e : Nat → Prop} {s s1 : ttm_bo_device W} (hbo : s1.bo = s.bo)
    (hl : same_lists s s1) (hd : s1.ddestroy = s.ddestroy) : walked e s s1 := by
  refine ⟨hd, fun c h => (same_lists_listed hl c).1 h, fun c _ _ => by rw [hbo],
    fun c => by rw [hbo]; exact ⟨rfl, rfl, rfl⟩, fun c => ?_⟩
  unfold spare
  rw [hbo, same_lists_memberships hl c]

theorem walked_of_touches {e : Nat → Prop} {b : Nat} {s s1 : ttm_bo_device W}
    (ht : touches b s s1) (hd : s1.ddestroy = s.ddestroy)
    (hlk : (s1.bo b).list_kref = (s.bo b).list_kref) (hk : (s1.bo b).kref = (s.bo b).kref)
    (hc : (s1.bo b).cpu_writers = (s.bo b).cpu_writers)
    (hf : (s1.bo b).freed = (s.bo b).freed) (he : e b) : walked e s s1 := by
  refine ⟨hd, fun c h => (same_lists_listed ht.1 c).1 h, fun c hce _ => ?_, fun c => ?_,
    fun c => ?_⟩
  · have hcb : c ≠ b := by
      rintro rfl
      exact hce he
    exact ht.2.1 c hcb
  · by_cases hcb : c = b
    · subst hcb
      exact ⟨hk, hc, hf⟩
    · rw [ht.2.1 c hcb]
      exact ⟨rfl, rfl, rfl⟩
  · unfold spare
    rw [same_lists_memberships ht.1 c]
    by_cases hcb : c = b
    · subst hcb
      rw [hlk]
    · rw [ht.2.1 c hcb]

theorem walked_set_ext (e : Nat → Prop) (s : ttm_bo_device W) (w : W) :
    walked e s (set_ext s w) :=
  walked_of_bo_eq rfl (same_lists_set_ext s w) rfl

theorem walked_put_block (e : Nat → Prop) (s : ttm_bo_device W) (n : drm_mm_node) :
    walked e s (drm_mm_put_block s n) :=
  walked_of_bo_eq rfl (same_lists_put_block s n) rfl

theorem walked_take (e : Nat → Prop) (s : ttm_bo_device W) (n : drm_mm_node) :
    walked e s (drm_mm_take s n) :=
  walked_of_bo_eq rfl (same_lists_take s n) rfl

theorem wait_walked (K : ttm_consts) (x : collaborators W) (s : ttm_bo_device W) (b : Nat)
    (lazy i nw : Bool) : walked (fun c => c = b) s (ttm_bo_wait K x s b lazy i nw).2 := by
  obtain ⟨_, _, c3, _, c5, c6, c7, c8, _, _⟩ := wait_counts K x s b lazy i nw
  exact walked_of_touches (wait_touches K x s b lazy i nw).1 c3 c5 c6 c7 c8 rfl

theorem add_ttm_ddestroy (K : ttm_consts) (x : collaborators W) (s : ttm_bo_device W) (b : Nat) :
    (ttm_bo_add_ttm K x s b).2.ddestroy = s.ddestroy := by
  obtain ⟨w, t, h, _⟩ := add_ttm_shape K x s b
  rw [h]
  rfl

theorem moved_ddestroy (K : ttm_consts) (x : collaborators W) (s : ttm_bo_device W) (b : Nat)
    (evict : Bool) : (handle_move_mem_moved K x s b evict).ddestroy = s.ddestroy := by
  unfold handle_move_mem_moved
  simp only
  split <;> split <;> rfl

theorem out_err_ddestroy (K : ttm_consts) (x : collaborators W) (s : ttm_bo_device W) (b : Nat) :
    (handle_move_mem_out_err K x s b).ddestroy = s.ddestroy := by
  unfold handle_move_mem_out_err
  split
  · split <;> rfl
  · rfl

theorem mover_commit_ddestroy (ret : Int) (s : ttm_bo_device W) (b : Nat) (mem : ttm_mem_reg) :
    (mover_commit ret s b mem).2.2.ddestroy = s.ddestroy := by
  unfold mover_commit
  split
  · rfl
  · simp only
    split <;> rfl

theorem move_ddestroy (K : ttm_consts) (x : collaborators W) (s : ttm_bo_device W) (b : Nat)
    (mem : ttm_mem_reg) (evict old_fixed new_fixed : Bool) :
    (handle_move_mem_move K x s b mem evict old_fixed new_fixed).2.2.ddestroy = s.ddestroy := by
  unfold handle_move_mem_move
  simp only
  generalize (if (!old_fixed && !new_fixed) = true then x.ttm_bo_move_ttm s.ext
    else if x.has_move = true then x.move s.ext else x.ttm_bo_move_memcpy s.ext) = r
  have h1 : (mover_commit r.1 (set_ext s r.2) b mem).2.2.ddestroy = s.ddestroy :=
    mover_commit_ddestroy r.1 (set_ext s r.2) b mem
  split
  · rw [out_err_ddestroy, h1]
  · rw [moved_ddestroy, h1]

theorem handle_move_mem_ddestroy (K : ttm_consts) (x : collaborators W) (s : ttm_bo_device W)
    (b : Nat) (mem : ttm_mem_reg) (evict i nw : Bool) :
    (ttm_bo_handle_move_mem K x s b mem evict i nw).2.2.ddestroy = s.ddestroy := by
  unfold ttm_bo_handle_move_mem
  simp only
  generalize hs1 : (if (ttm_mem_reg_is_pci K s (s.bo b).mem || ttm_mem_reg_is_pci K s mem ||
    decide (mem.flags &&& (s.bo b).mem.flags &&& K.TTM_PL_MASK_CACHING = 0)) = true
    then ttm_bo_unmap_virtual x s else s) = s1
  have p1 : s1.ddestroy = s.ddestroy := by
    subst hs1
    split
    · unfold ttm_bo_unmap_virtual
      split <;> rfl
    · rfl
  rw [← p1]
  split
  · have ha := add_ttm_ddestroy K x s1 b
    split
    · rw [out_err_ddestroy, ha]
    · split
      · exact ha
      · generalize hbd : (if mem.mem_type ≠ K.TTM_PL_SYSTEM then
            ((x.ttm_tt_bind (set_ext (ttm_bo_add_ttm K x s1 b).2
                (x.ttm_tt_set_placement_caching (ttm_bo_add_ttm K x s1 b).2.ext
                  (((ttm_bo_add_ttm K x s1 b).2.bo b).ttm.getD 0) mem.flags).2).ext
              (((set_ext (ttm_bo_add_ttm K x s1 b).2
                (x.ttm_tt_set_placement_caching (ttm_bo_add_ttm K x s1 b).2.ext
                  (((ttm_bo_add_ttm K x s1 b).2.bo b).ttm.getD 0) mem.flags).2).bo b).ttm.getD 0)).1,
              set_ext (set_ext (ttm_bo_add_ttm K x s1 b).2
                (x.ttm_tt_set_placement_caching (ttm_bo_add_ttm K x s1 b).2.ext
                  (((ttm_bo_add_ttm K x s1 b).2.bo b).ttm.getD 0) mem.flags).2)
                (x.ttm_tt_bind (set_ext (ttm_bo_add_ttm K x s1 b).2
                (x.ttm_tt_set_placement_caching (ttm_bo_add_ttm K x s1 b).2.ext
                  (((ttm_bo_add_ttm K x s1 b).2.bo b).ttm.getD 0) mem.flags).2).ext
              (((set_ext (ttm_bo_add_ttm K x s1 b).2
                (x.ttm_tt_set_placement_caching (ttm_bo_add_ttm K x s1 b).2.ext
                  (((ttm_bo_add_ttm K x s1 b).2.bo b).ttm.getD 0) mem.flags).2).bo b).ttm.getD 0)).2)
          else ((0 : Int), set_ext (ttm_bo_add_ttm K x s1 b).2
                (x.ttm_tt_set_placement_caching (ttm_bo_add_ttm K x s1 b).2.ext
                  (((ttm_bo_add_ttm K x s1 b).2.bo b).ttm.getD 0) mem.flags).2)) = bd
        have hbdd : bd.2.ddestroy = (ttm_bo_add_ttm K x s1 b).2.ddestroy := by
          subst hbd
          split <;> rfl
        split
        · rw [out_err_ddestroy, hbdd, ha]
        · split
          · rw [moved_ddestroy]
            exact hbdd.trans ha
          · rw [move_ddestroy, hbdd, ha]
  · exact move_ddestroy K x s1 b mem evict _ _

theorem handle_move_mem_walked (K : ttm_consts) (x : collaborators W) (s : ttm_bo_device W)
    (b : Nat) (mem : ttm_mem_reg) (evict i nw : Bool) :
    walked (fun c => c = b) s (ttm_bo_handle_move_mem K x s b mem evict i nw).2.2 := by
  obtain ⟨r1, r2, r3, r4, _, _⟩ := handle_move_mem_refs K x s b mem evict i nw
  exact walked_of_touches (handle_move_mem_contract K x s b mem evict i nw).1
    (handle_move_mem_ddestroy K x s b mem evict i nw) r1 r2 r3 r4 rfl

theorem mem_modify_lru_rev (l : List ttm_mem_type_manager) (t b c : Nat)
    (m : ttm_mem_type_manager) (hm : m ∈ l) (hc : c ∈ m.lru) :
    ∃ m1, m1 ∈ l.modify (fun m => { m with lru := m.lru ++ [b] }) t ∧ c ∈ m1.lru := by
  induction l generalizing t with
  | nil => exact absurd hm (List.not_mem_nil m)
  | cons a l ih =>
    rcases List.mem_cons.1 hm with h | h
    · subst h
      cases t with
      | zero =>
        exact ⟨{ m with lru := m.lru ++ [b] }, by simp [List.modify],
          List.mem_append_left _ hc⟩
      | succ t => exact ⟨m, by simp [List.modify_succ_cons], hc⟩
    · cases t with
      | zero => exact ⟨m, by simp [List.modify, h], hc⟩
      | succ t =>
        obtain ⟨m1, h1, h2⟩ := ih t h
        exact ⟨m1, by simp [List.modify_succ_cons, h1], h2⟩

theorem on_lru_lru_add_tail_other (s : ttm_bo_device W) (t b c : Nat) (hc : c ≠ b) :
    on_lru (lru_add_tail s t b) c = on_lru s c := by
  rw [Bool.eq_iff_iff]
  constructor
  · intro h
    rcases on_lru_lru_add_tail s t b c h with h1 | h1
    · exact h1
    · exact absurd h1 hc
  · intro h
    rw [on_lru_iff] at h ⊢
    obtain ⟨m, hm, hcm⟩ := h
    exact mem_modify_lru_rev s.man t b c m hm hcm

theorem del_from_lru_ddestroy (s : ttm_bo_device W) (b : Nat) :
    (ttm_bo_del_from_lru s b).2.ddestroy = s.ddestroy := by
  unfold ttm_bo_del_from_lru
  simp only
  split <;> split <;> rfl

theorem del_from_lru_count (s : ttm_bo_device W) (b : Nat) :
    ((ttm_bo_del_from_lru s b).1 : Int) = memberships s b := by
  rw [(del_from_lru_spec s b).1]
  unfold memberships
  split <;> split <;> simp

theorem reserve_locked_walk (x : collaborators W) (s : ttm_bo_device W) (b : Nat)
    (i nw us : Bool) (q : Nat) :
    (ttm_bo_reserve_locked x s b i nw us q).2.ddestroy = s.ddestroy ∧
    same_lists s (ttm_bo_reserve_locked x s b i nw us q).2 ∧
    (∀ c, c ≠ b → (ttm_bo_reserve_locked x s b i nw us q).2.bo c = s.bo c) ∧
    ((ttm_bo_reserve_locked x s b i nw us q).2.bo b).list_kref = (s.bo b).list_kref ∧
    ((ttm_bo_reserve_locked x s b i nw us q).2.bo b).kref = (s.bo b).kref ∧
    ((ttm_bo_reserve_locked x s b i nw us q).2.bo b).cpu_writers = (s.bo b).cpu_writers ∧
    ((ttm_bo_reserve_locked x s b i nw us q).2.bo b).freed = (s.bo b).freed := by
  by_cases hres : (s.bo b).reserved = 0
  · refine ⟨?_, ⟨?_, ?_⟩, fun c hc => ?_, ?_, ?_, ?_, ?_⟩
    all_goals cases us
    all_goals simp [ttm_bo_reserve_locked, hres, set_bo]
    all_goals exact Function.update_noteq hc _ _
  · rw [reserve_locked_collision x s b i nw us q hres]
    exact ⟨rfl, same_lists_refl s, fun _ _ => rfl, rfl, rfl, rfl, rfl⟩

theorem acquire_walked (x : collaborators W) (s : ttm_bo_device W) (b : Nat)
    (i nw us : Bool) (q : Nat) (hb : 1 ≤ spare s b) :
    walked (fun c => c = b) s (ttm_bo_reserve_locked x (list_kref_get s b) b i nw us q).2 ∧
    ((ttm_bo_reserve_locked x (list_kref_get s b) b i nw us q).1 = outcome.ret 0 →
      ∃ s3,
        list_kref_put_bug
          (ttm_bo_del_from_lru (ttm_bo_reserve_locked x (list_kref_get s b) b i nw us q).2 b).1
          (ttm_bo_del_from_lru (ttm_bo_reserve_locked x (list_kref_get s b) b i nw us q).2 b).2 b
          = (outcome.ret 0, s3) ∧
        walked (fun c => c = b) s s3 ∧ ¬ listed s3 b ∧ spare s b + 1 ≤ spare s3 b ∧
        (s3.bo b).reserved ≠ 0) := by
  obtain ⟨r2, r3, r4, r5, r6, r7, r8⟩ :=
    reserve_locked_walk x (list_kref_get s b) b i nw us q
  have hfree := reserve_locked_free x (list_kref_get s b) b i nw us q
  have hcoll := reserve_locked_collision x (list_kref_get s b) b i nw us q
  generalize ttm_bo_reserve_locked x (list_kref_get s b) b i nw us q = r
    at r2 r3 r4 r5 r6 r7 r8 hfree hcoll
  have g3 : same_lists s r.2 := same_lists_trans (same_lists_set_bo s b _) r3
  have g4 : ∀ c, c ≠ b → r.2.bo c = s.bo c := fun c hc =>
    (r4 c hc).trans (list_kref_get_bo_other s b c hc)
  have g5 : (r.2.bo b).list_kref = (s.bo b).list_kref + 1 := by
    rw [r5, list_kref_get_bo_self]
  have g6 : (r.2.bo b).kref = (s.bo b).kref := by rw [r6, list_kref_get_bo_self]
  have g7 : (r.2.bo b).cpu_writers = (s.bo b).cpu_writers := by rw [r7, list_kref_get_bo_self]
  have g8 : (r.2.bo b).freed = (s.bo b).freed := by rw [r8, list_kref_get_bo_self]
  have hw1 : walked (fun c => c = b) s r.2 := by
    refine ⟨r2, fun c h => (same_lists_listed g3 c).1 h, fun c hc _ => g4 c hc, fun c => ?_,
      fun c => ?_⟩
    · by_cases hc : c = b
      · subst hc
        exact ⟨g6, g7, g8⟩
      · rw [g4 c hc]
        exact ⟨rfl, rfl, rfl⟩
    · unfold spare
      rw [same_lists_memberships g3 c]
      by_cases hc : c = b
      · subst hc
        rw [g5]
        omega
      · rw [g4 c hc]
  refine ⟨hw1, fun hret => ?_⟩
  have hres : (s.bo b).reserved = 0 := by
    by_contra hne
    have := hcoll (by rw [list_kref_get_bo_self]; exact hne)
    rw [this] at hret
    simp only at hret
    split_ifs at hret <;> simp [EAGAIN, EBUSY, ERESTART] at hret
  have hres1 : (r.2.bo b).reserved = 1 := (hfree (by rw [list_kref_get_bo_self]; exact hres)).2.1
  obtain ⟨d1, d2, d3, d4, _⟩ := del_from_lru_spec r.2 b
  have dc := del_from_lru_count r.2 b
  have dd := del_from_lru_ddestroy r.2 b
  have dl := del_from_lru_listed r.2 b
  have dother := del_from_lru_other r.2 b
  generalize ttm_bo_del_from_lru r.2 b = d at d1 d2 d3 d4 dc dd dl dother
  have hm : memberships r.2 b = memberships s b := same_lists_memberships g3 b
  have hlt : (d.1 : Int) < (d.2.bo b).list_kref := by
    rw [dc, d4, g5, hm]
    unfold spare at hb
    omega
  refine ⟨_, list_kref_put_bug_ok d.1 d.2 b hlt, ?_, ?_, ?_, ?_⟩
  · refine ⟨?_, fun c h => ?_, fun c hc _ => ?_, fun c => ?_, fun c => ?_⟩
    · rw [set_bo_ddestroy, dd, r2]
      rfl
    · exact (same_lists_listed g3 c).1 (dl c ((same_lists_listed (same_lists_set_bo d.2 b _) c).1 h)).1
    · rw [set_bo_bo_other _ _ _ _ hc, d4]
      exact g4 c hc
    · by_cases hc : c = b
      · subst hc
        rw [set_bo_bo_self, d4]
        exact ⟨g6, g7, g8⟩
      · rw [set_bo_bo_other _ _ _ _ hc, d4, g4 c hc]
        exact ⟨rfl, rfl, rfl⟩
    · unfold spare
      by_cases hc : c = b
      · subst hc
        have hm3 : memberships (set_bo d.2 c { d.2.bo c with
            list_kref := (d.2.bo c).list_kref - d.1 }) c = 0 := by
          unfold memberships
          rw [on_lru_set_bo, on_swap_set_bo, d2, d3]
          rfl
        rw [hm3, set_bo_bo_self]
        simp only
        rw [dc, d4, g5, hm]
        omega
      · have hm3 : memberships (set_bo d.2 b { d.2.bo b with
            list_kref := (d.2.bo b).list_kref - d.1 }) c = memberships s c := by
          rw [← same_lists_memberships g3 c]
          exact memberships_congr (dother c hc).1 (dother c hc).2
        rw [hm3, set_bo_bo_other _ _ _ _ hc, d4, g4 c hc]
  · intro h
    rcases h with h | h
    · rw [on_lru_set_bo, d2] at h
      exact absurd h (by simp)
    · rw [on_swap_set_bo, d3] at h
      exact absurd h (by simp)
  · unfold spare
    have hm3 : memberships (set_bo d.2 b { d.2.bo b with
        list_kref := (d.2.bo b).list_kref - d.1 }) b = 0 := by
      unfold memberships
      rw [on_lru_set_bo, on_swap_set_bo, d2, d3]
      rfl
    rw [hm3, set_bo_bo_self]
    simp only
    rw [dc, d4, g5, hm]
    omega
  · rw [set_bo_bo_self]
    simp only
    rw [d4, hres1]
    exact one_ne_zero

theorem memberships_le_two (s : ttm_bo_device W) (b : Nat) : memberships s b ≤ 2 := by
  unfold memberships
  split <;> split <;> omega

theorem unreserve_counts (K : ttm_consts) (s s1 : ttm_bo_device W) (b : Nat)
    (h : ttm_bo_unreserve K s b = some s1) :
    s1.ddestroy = s.ddestroy ∧
    (∀ c, c ≠ b → on_lru s1 c = on_lru s c ∧ on_swap s1 c = on_swap s c) ∧
    (s1.bo b).kref = (s.bo b).kref ∧ (s1.bo b).cpu_writers = (s.bo b).cpu_writers ∧
    (s1.bo b).freed = (s.bo b).freed ∧ spare s b ≤ spare s1 b := by
  have hres := (unreserve_spec K s s1 b h).1
  unfold ttm_bo_unreserve at h
  by_cases hpin : (s.bo b).mem.flags &&& K.TTM_PL_FLAG_NO_EVICT = 0
  · cases hlru : on_lru s b
    · rw [add_to_lru_links K s b hres hlru hpin] at h
      simp only [Option.some.injEq] at h
      have hm0 : memberships s b = (if on_swap s b = true then 1 else 0) := by
        unfold memberships
        rw [hlru]
        simp
      by_cases httm : (s.bo b).ttm = none
      · simp only [httm, ne_eq, not_true_eq_false, if_false] at h
        have f1 : s1.ddestroy = s.ddestroy := by rw [← h]; rfl
        have f2 : ∀ c, c ≠ b → on_lru s1 c = on_lru s c := fun c hc => by
          rw [← h, on_lru_set_bo]
          exact on_lru_lru_add_tail_other s _ b c hc
        have f3 : ∀ c, on_swap s1 c = on_swap s c := fun c => by rw [← h]; rfl
        have f4 : (s1.bo b).kref = (s.bo b).kref := by
          rw [← h]; simp [list_kref_get, lru_add_tail]
        have f5 : (s1.bo b).cpu_writers = (s.bo b).cpu_writers := by
          rw [← h]; simp [list_kref_get, lru_add_tail]
        have f6 : (s1.bo b).freed = (s.bo b).freed := by
          rw [← h]; simp [list_kref_get, lru_add_tail]
        have f7 : (s1.bo b).list_kref = (s.bo b).list_kref + 1 := by
          rw [← h]; simp [list_kref_get, lru_add_tail]
        refine ⟨f1, fun c hc => ⟨f2 c hc, f3 c⟩, f4, f5, f6, ?_⟩
        have hm1 : memberships s1 b ≤ 1 + (if on_swap s b = true then 1 else 0) := by
          unfold memberships
          rw [f3 b]
          split <;> split <;> omega
        unfold spare
        rw [hm0, f7]
        omega
      · simp only [httm, ne_eq, not_false_eq_true, if_true] at h
        have f1 : s1.ddestroy = s.ddestroy := by rw [← h]; rfl
        have f2 : ∀ c, c ≠ b → on_lru s1 c = on_lru s c := fun c hc => by
          rw [← h, on_lru_set_bo]
          exact on_lru_lru_add_tail_other s _ b c hc
        have f3 : ∀ c, c ≠ b → on_swap s1 c = on_swap s c := fun c hc => by
          rw [← h]
          simp [on_swap, set_bo, list_kref_get, lru_add_tail, hc]
        have f4 : (s1.bo b).kref = (s.bo b).kref := by
          rw [← h]; simp [list_kref_get, lru_add_tail, set_bo]
        have f5 : (s1.bo b).cpu_writers = (s.bo b).cpu_writers := by
          rw [← h]; simp [list_kref_get, lru_add_tail, set_bo]
        have f6 : (s1.bo b).freed = (s.bo b).freed := by
          rw [← h]; simp [list_kref_get, lru_add_tail, set_bo]
        have f7 : (s1.bo b).list_kref = (s.bo b).list_kref + 1 + 1 := by
          rw [← h]; simp [list_kref_get, lru_add_tail, set_bo]
        refine ⟨f1, fun c hc => ⟨f2 c hc, f3 c hc⟩, f4, f5, f6, ?_⟩
        have hm1 := memberships_le_two s1 b
        have hm2 := memberships_nonneg s b
        unfold spare
        rw [f7]
        omega
    · unfold ttm_bo_add_to_lru at h
      rw [if_neg hres, if_pos hpin, hlru] at h
      simp at h
  · rw [add_to_lru_pinned K s b hres hpin] at h
    simp only [Option.some.injEq] at h
    subst h
    refine ⟨rfl, fun c _ => ⟨rfl, rfl⟩, ?_, ?_, ?_, ?_⟩
    · simp
    · simp
    · simp
    · unfold spare
      have hm : memberships (set_bo s b { s.bo b with reserved := 0 }) b = memberships s b :=
        memberships_congr rfl rfl
      rw [hm, set_bo_bo_self]

theorem unreserve_walked {K : ttm_consts} {e : Nat → Prop} {s0 s s1 : ttm_bo_device W}
    (b : Nat) (h : ttm_bo_unreserve K s b = some s1) (hw : walked e s0 s) (hl : listed s0 b) :
    walked e s0 s1 ∧ spare s b ≤ spare s1 b := by
  obtain ⟨u1, u2, u3, u4, u5, u6⟩ := unreserve_counts K s s1 b h
  obtain ⟨_, _, _, _, v5, v6⟩ := unreserve_spec K s s1 b h
  obtain ⟨a1, a2, a3, a4, a5⟩ := hw
  refine ⟨⟨u1.trans a1, fun c hc => ?_, fun c hce hcl => ?_, fun c => ?_, fun c => ?_⟩, u6⟩
  · rcases v6 c hc with h1 | h1
    · exact a2 c h1
    · rw [h1.1]
      exact hl
  · have hcb : c ≠ b := by
      rintro rfl
      exact hcl hl
    rw [v5 c hcb]
    exact a3 c hce hcl
  · by_cases hcb : c = b
    · subst hcb
      exact ⟨u3.trans (a4 c).1, u4.trans (a4 c).2.1, u5.trans (a4 c).2.2⟩
    · rw [v5 c hcb]
      exact a4 c
  · by_cases hcb : c = b
    · subst hcb
      exact le_trans (a5 c) u6
    · refine le_trans (a5 c) (le_of_eq ?_)
      unfold spare
      rw [v5 c hcb, memberships_congr (u2 c hcb).1 (u2 c hcb).2]

theorem put_walked {e : Nat → Prop} {s0 s : ttm_bo_device W} (b : Nat)
    (hw : walked e s0 s) (hl : listed s0 b) (hsp : spare s0 b + 1 ≤ spare s b) :
    walked e s0 (set_bo s b { s.bo b with list_kref := (s.bo b).list_kref - 1 }) := by
  obtain ⟨a1, a2, a3, a4, a5⟩ := hw
  refine ⟨a1, fun c hc => a2 c hc, fun c hce hcl => ?_, fun c => ?_, fun c => ?_⟩
  · have hcb : c ≠ b := by
      rintro rfl
      exact hcl hl
    rw [set_bo_bo_other _ _ _ _ hcb]
    exact a3 c hce hcl
  · by_cases hcb : c = b
    · subst hcb
      rw [set_bo_bo_self]
      exact a4 c
    · rw [set_bo_bo_other _ _ _ _ hcb]
      exact a4 c
  · have hm : memberships (set_bo s b { s.bo b with list_kref := (s.bo b).list_kref - 1 }) c =
        memberships s c := memberships_congr rfl rfl
    unfold spare
    rw [hm]
    by_cases hcb : c = b
    · subst hcb
      rw [set_bo_bo_self]
      simp only
      unfold spare at hsp
      omega
    · rw [set_bo_bo_other _ _ _ _ hcb]
      exact a5 c

theorem lru_head_listed (s : ttm_bo_device W) (t entry : Nat) (rest : List Nat)
    (h : (man_at s t).lru = entry :: rest) : listed s entry := by
  left
  rw [on_lru_iff_at]
  exact ⟨t, by rw [h]; exact List.mem_cons_self _ _⟩

theorem spare_add_memberships (s : ttm_bo_device W) (b : Nat) :
    (s.bo b).list_kref = spare s b + memberships s b := by
  unfold spare
  omega

theorem force_space_evict_loop_walked (K : ttm_consts) (x : collaborators W) (ev : evict_fn W)
    (hev : evict_walks ev) (np pa t : Nat) (i nw : Bool) (n : Nat) (s : ttm_bo_device W)
    (hb : backed s) :
    walked (fun _ => False) s (force_space_evict_loop K x ev np pa t i nw n s).2.2 := by
  induction n generalizing s with
  | zero => exact walked_refl _ s
  | succ n ih =>
    unfold force_space_evict_loop
    split
    · exact walked_refl _ s
    · split
      · exact walked_refl _ s
      · rename_i entry rest hlru
        have hl : listed s entry := lru_head_listed s t entry rest hlru
        obtain ⟨a0, a1⟩ := acquire_walked x s entry i nw false 0 (hb entry hl)
        by_cases hr : (ttm_bo_reserve_locked x (list_kref_get s entry) entry i nw false 0).1
            = outcome.ret 0
        · obtain ⟨s3, p1, p2, p3, p4, p5⟩ := a1 hr
          simp only [hr, ne_eq, not_true_eq_false, if_false]
          rw [p1]
          simp only
          have e1 := hev s3 entry t i nw (backed_walked hb p2)
          have se := walked_trans p2 e1
          have hsp : spare s entry + 1 ≤ spare (ev s3 entry t i nw).2 entry :=
            le_trans p4 (e1.2.2.2.2 entry)
          generalize ev s3 entry t i nw = e at e1 se hsp ⊢
          split
          · rename_i code hcode
            split
            · exact walked_close se hl
            · rename_i s4 hu
              obtain ⟨u1, u2⟩ := unreserve_walked entry hu se hl
              have hsp4 : spare s entry + 1 ≤ spare s4 entry := le_trans hsp u2
              have hne : (s4.bo entry).list_kref ≠ 1 := by
                have h1 := spare_add_memberships s4 entry
                have h2 := memberships_nonneg s4 entry
                have h3 := hb entry hl
                omega
              rw [put_release_dec x s4 entry hne]
              simp only
              have w5 := walked_close (put_walked entry u1 hl hsp4) hl
              split
              · exact w5
              · exact walked_trans w5 (ih _ (backed_walked hb w5))
          · exact walked_close se hl
        · have hr1 : (ttm_bo_reserve_locked x (list_kref_get s entry) entry i nw false 0).1
              ≠ outcome.ret 0 := hr
          simp only [hr1, ne_eq, not_false_eq_true, if_true]
          exact walked_close a0 hl

theorem force_space_with_walked (K : ttm_consts) (x : collaborators W) (ev : evict_fn W)
    (hev : evict_walks ev) (t : Nat) (i nw : Bool) (n : Nat) (s : ttm_bo_device W)
    (mem : ttm_mem_reg) (hb : backed s) :
    walked (fun _ => False) s (ttm_bo_mem_force_space_with K x ev t i nw n s mem).2.2 := by
  induction n generalizing s with
  | zero => exact walked_refl _ s
  | succ n ih =>
    unfold ttm_bo_mem_force_space_with
    simp only
    have h1 : walked (fun _ => False) s (set_ext s (x.drm_mm_pre_get s.ext).2) :=
      walked_set_ext _ s _
    split
    · exact h1
    · have h2 := walked_trans h1 (force_space_evict_loop_walked K x ev hev mem.num_pages
        mem.page_alignment t i nw (n + 1) (set_ext s (x.drm_mm_pre_get s.ext).2)
        (backed_walked hb h1))
      generalize force_space_evict_loop K x ev mem.num_pages mem.page_alignment t i nw (n + 1)
        (set_ext s (x.drm_mm_pre_get s.ext).2) = l at h2 ⊢
      split
      · exact h2
      · split
        · exact h2
        · have h3 : walked (fun _ => False) s
              (set_ext l.2.2 (x.drm_mm_get_block_atomic l.2.2.ext).2) :=
            walked_trans h2 (walked_set_ext _ _ _)
          split
          · exact walked_trans h3 (walked_take _ _ _)
          · exact walked_trans h3 (ih _ (backed_walked hb h3))

theorem get_block_walked (x : collaborators W) (t np pa n : Nat) (s : ttm_bo_device W) :
    walked (fun _ => False) s (mem_space_get_block x t np pa n s).2.2 := by
  induction n generalizing s with
  | zero => exact walked_refl _ s
  | succ n ih =>
    unfold mem_space_get_block
    simp only
    have h1 : walked (fun _ => False) s (set_ext s (x.drm_mm_pre_get s.ext).2) :=
      walked_set_ext _ s _
    split
    · exact h1
    · split
      · exact h1
      · have h2 := walked_trans h1 (walked_set_ext (fun _ => False)
          (set_ext s (x.drm_mm_pre_get s.ext).2)
          (x.drm_mm_get_block_atomic (set_ext s (x.drm_mm_pre_get s.ext).2).ext).2)
        split
        · exact walked_trans h2 (walked_take _ _ _)
        · exact walked_trans h2 (ih _)

theorem first_pass_walked (K : ttm_consts) (x : collaborators W) (fuel : Nat) (tu : Bool)
    (mem : ttm_mem_reg) (ps : List Nat) (v : space_vars) (s : ttm_bo_device W) :
    walked (fun _ => False) s (mem_space_first_pass K x fuel tu mem ps v s).2.2 := by
  induction ps generalizing v s with
  | nil => exact walked_refl _ s
  | cons p ps ih =>
    unfold mem_space_first_pass
    split
    · exact ih _ _
    · simp only
      split
      · exact walked_refl _ s
      · split
        · have h1 := get_block_walked x p mem.num_pages mem.page_alignment fuel s
          split
          · exact h1
          · split
            · exact h1
            · exact walked_trans h1 (ih _ _)
        · split
          · exact walked_refl _ s
          · exact ih _ _

theorem busy_pass_walked (K : ttm_consts) (x : collaborators W) (ev : evict_fn W)
    (hev : evict_walks ev) (fuel : Nat) (tu i nw : Bool) (ps : List Nat) (cf : Nat)
    (he : Bool) (mem : ttm_mem_reg) (s : ttm_bo_device W) (hb : backed s) :
    walked (fun _ => False) s
      (mem_space_busy_pass K x ev fuel tu i nw ps cf he mem s).2.2 := by
  induction ps generalizing cf he mem s with
  | nil => exact walked_refl _ s
  | cons p ps ih =>
    unfold mem_space_busy_pass
    split
    · exact ih _ _ _ _ hb
    · split
      · exact ih _ _ _ _ hb
      · have h1 := force_space_with_walked K x ev hev p i nw fuel s mem hb
        simp only
        split
        · split
          · exact h1
          · exact walked_trans h1 (ih _ _ _ _ (backed_walked hb h1))
        · exact h1

theorem mem_space_with_walked (K : ttm_consts) (x : collaborators W) (ev : evict_fn W)
    (hev : evict_walks ev) (fuel : Nat) : mem_space_walks (ttm_bo_mem_space_with K x ev fuel) := by
  intro s b mem i nw hb
  unfold ttm_bo_mem_space_with
  simp only
  have h1 : walked (fun _ => False) s
      (mem_space_first_pass K x fuel (decide ((s.bo b).type = ttm_bo_type.ttm_bo_type_user))
        { mem with mm_node := none } x.mem_type_prio { mem_type := K.TTM_PL_SYSTEM } s).2.2 :=
    first_pass_walked K x fuel _ _ _ _ s
  split
  · exact h1
  · split
    · exact h1
    · split
      · exact h1
      · exact walked_trans h1 (busy_pass_walked K x ev hev fuel _ i nw _ _ _ _ _
          (backed_walked hb h1))

theorem walked_set_priv {e : Nat → Prop} (s : ttm_bo_device W) (b : Nat) (p : Nat) (he : e b) :
    walked e s (set_bo s b { s.bo b with priv_flags := p }) :=
  walked_of_touches (touches_set_bo b s _ rfl) rfl (by rw [set_bo_bo_self])
    (by rw [set_bo_bo_self]) (by rw [set_bo_bo_self]) (by rw [set_bo_bo_self]) he

theorem evict_with_walked (K : ttm_consts) (x : collaborators W) (ms : mem_space_fn W)
    (hms : mem_space_walks ms) : evict_walks (ttm_bo_evict_with K x ms) := by
  intro s b t i nw hb
  unfold ttm_bo_evict_with
  simp only
  split
  · exact walked_refl _ s
  · have hw := wait_walked K x s b false i nw
    generalize ttm_bo_wait K x s b false i nw = w at hw ⊢
    split
    · split
      · exact hw
      · split
        · exact hw
        · split
          · exact hw
          · have m1 := hms w.2 b { (w.2.bo b).mem with
              mm_node := none, proposed_flags := x.evict_flags (w.2.bo b) } i nw
              (backed_walked hb hw)
            generalize ms w.2 b { (w.2.bo b).mem with
              mm_node := none, proposed_flags := x.evict_flags (w.2.bo b) } i nw = r1 at m1 ⊢
            have hm1 : walked (fun c => c = b) s r1.2.2 :=
              walked_trans hw (walked_mono m1 (fun _ h => absurd h id))
            generalize hr2 : (match r1.1 with
              | outcome.ret c1 =>
                if c1 ≠ 0 ∧ c1 ≠ -ERESTART then
                  if ttm_bo_type_flags t &&& K.TTM_PL_FLAG_SYSTEM ≠ 0 then
                    (outcome.bug, r1.2.1, r1.2.2)
                  else
                    ms r1.2.2 b
                      { mm_node := r1.2.1.mm_node, size := r1.2.1.size,
                        num_pages := r1.2.1.num_pages,
                        page_alignment := r1.2.1.page_alignment,
                        mem_type := r1.2.1.mem_type, flags := r1.2.1.flags,
                        proposed_flags := K.TTM_PL_FLAG_SYSTEM } i nw
                else r1
              | _ => r1) = r2
            have hm2 : walked (fun c => c = b) s r2.2.2 := by
              subst hr2
              split
              · split
                · split
                  · exact hm1
                  · have m2 := hms r1.2.2 b
                      { r1.2.1 with proposed_flags := K.TTM_PL_FLAG_SYSTEM } i nw
                      (backed_walked hb hm1)
                    exact walked_trans hm1 (walked_mono m2 (fun _ h => absurd h id))
                · exact hm1
              · exact hm1
            split
            · have hh : walked (fun c => c = b) s
                  (ttm_bo_handle_move_mem K x r2.2.2 b r2.2.1 true i nw).2.2 :=
                walked_trans hm2 (handle_move_mem_walked K x r2.2.2 b r2.2.1 true i nw)
              generalize ttm_bo_handle_move_mem K x r2.2.2 b r2.2.1 true i nw = h at hh ⊢
              split
              · exact hh
              · split
                · exact walked_trans (walked_trans hh (walked_put_block _ _ _))
                    (walked_set_priv _ b _ rfl)
                · exact walked_trans hh (walked_set_priv _ b _ rfl)
            · exact hm2
    · exact hw

theorem evict_is_walked (K : ttm_consts) (x : collaborators W) (n : Nat) :
    evict_walks (ttm_bo_evict K x n) := by
  induction n with
  | zero =>
    intro s b t i nw _
    exact walked_refl _ s
  | succ n ih =>
    unfold ttm_bo_evict
    exact evict_with_walked K x _ (mem_space_with_walked K x _ ih (n + 1))

theorem mem_space_is_walked (K : ttm_consts) (x : collaborators W) (fuel : Nat) :
    mem_space_walks (ttm_bo_mem_space K x fuel) :=
  mem_space_with_walked K x _ (evict_is_walked K x fuel) fuel

theorem force_space_is_walked (K : ttm_consts) (x : collaborators W) (fuel : Nat)
    (s : ttm_bo_device W) (mem : ttm_mem_reg) (t : Nat) (i nw : Bool) (hb : backed s) :
    walked (fun _ => False) s (ttm_bo_mem_force_space K x fuel s mem t i nw).2.2 :=
  force_space_with_walked K x _ (evict_is_walked K x fuel) t i nw fuel s mem hb

theorem same_counts_walked {b : Nat} {s s1 : ttm_bo_device W} (h : same_counts b s s1) :
    walked (fun c => c = b) s s1 := by
  obtain ⟨c1, c2, c3, c4, c5, c6, c7, c8, _, _⟩ := h
  have hl : same_lists s s1 := ⟨by rw [c1], c2⟩
  refine ⟨c3, fun c hc => (same_lists_listed hl c).1 hc, fun c hc _ => c4 c hc, fun c => ?_,
    fun c => ?_⟩
  · by_cases hcb : c = b
    · subst hcb
      exact ⟨c6, c7, c8⟩
    · rw [c4 c hcb]
      exact ⟨rfl, rfl, rfl⟩
  · unfold spare
    rw [same_lists_memberships hl c]
    by_cases hcb : c = b
    · subst hcb
      rw [c5]
    · rw [c4 c hcb]

theorem expire_wait_loop_same_counts (K : ttm_consts) (x : collaborators W) (b : Nat)
    (ae : Bool) (n : Nat) (s : ttm_bo_device W) :
    same_counts b s (expire_wait_loop K x b ae n s).2 := by
  induction n generalizing s with
  | zero => exact same_counts_refl b s
  | succ n ih =>
    have h1 := wait_counts K x s b false false false
    unfold expire_wait_loop
    generalize ttm_bo_wait K x s b false false false = r at h1
    obtain ⟨o, s1⟩ := r
    simp only at h1 ⊢
    cases o with
    | ret code =>
      simp only
      split
      · exact h1
      · split
        · exact same_counts_trans h1 (ih s1)
        · exact h1
    | sleeps => exact h1
    | bug => exact h1
    | fuel => exact h1

theorem expire_same_counts (K : ttm_consts) (x : collaborators W) (fuel : Nat)
    (s : ttm_bo_device W) (b : Nat) (ae : Bool) :
    same_counts b s (ttm_bo_expire_sync_obj K x fuel s b ae).2 := by
  have hnice : ∀ s1 : ttm_bo_device W, same_counts b s1 { s1 with nice_mode := false } :=
    fun s1 => ⟨rfl, rfl, rfl, fun _ _ => rfl, rfl, rfl, rfl, rfl, rfl, fun h => h⟩
  have l1 := expire_wait_loop_same_counts K x b ae fuel s
  unfold ttm_bo_expire_sync_obj
  split
  · generalize expire_wait_loop K x b ae fuel s = l at l1
    have hr : same_counts b s (if s.nice_mode = true then
        (if l.1 ≠ outcome.ret 0 then l
          else if (l.2.bo b).sync_obj ≠ none then (outcome.ret 0, { l.2 with nice_mode := false })
          else l)
        else (outcome.ret 0, s)).2 := by
      split
      · split
        · exact l1
        · split
          · exact same_counts_trans l1 (hnice _)
          · exact l1
      · exact same_counts_refl b s
    simp only
    generalize (if s.nice_mode = true then
        (if l.1 ≠ outcome.ret 0 then l
          else if (l.2.bo b).sync_obj ≠ none then (outcome.ret 0, { l.2 with nice_mode := false })
          else l)
        else (outcome.ret 0, s)) = r at hr
    split
    · exact hr
    · split
      · exact same_counts_trans hr (same_counts_drop_sync K b _)
      · exact hr
  · exact same_counts_refl b s

theorem leave_list_walked (K : ttm_consts) (x : collaborators W) (fuel : Nat)
    (s : ttm_bo_device W) (b : Nat) (t : Nat) (ae : Bool) (hb : backed s) :
    walked (fun c => c = b) s (ttm_bo_leave_list K x fuel s b t ae).2 := by
  have h1 := same_counts_walked (expire_same_counts K x fuel s b ae)
  unfold ttm_bo_leave_list
  simp only
  generalize ttm_bo_expire_sync_obj K x fuel s b ae = e at h1 ⊢
  have h2 : walked (fun c => c = b) s
      (if (e.2.bo b).mem.mem_type = t then ttm_bo_evict K x fuel e.2 b t false false
        else (outcome.ret 0, e.2)).2 := by
    split
    · exact walked_trans h1 (evict_is_walked K x fuel e.2 b t false false (backed_walked hb h1))
    · exact h1
  generalize (if (e.2.bo b).mem.mem_type = t then ttm_bo_evict K x fuel e.2 b t false false
        else (outcome.ret 0, e.2)) = r at h2 ⊢
  split
  · split
    · split
      · exact h2
      · exact h2
    · exact h2
  · exact h1

theorem force_list_clean_loop_walked (K : ttm_consts) (x : collaborators W) (fuel : Nat)
    (head t : Nat) (ae : Bool) (n : Nat) (s : ttm_bo_device W) (hb : backed s) :
    walked (fun _ => False) s (force_list_clean_loop K x fuel head t ae n s).2 := by
  induction n generalizing s with
  | zero => exact walked_refl _ s
  | succ n ih =>
    unfold force_list_clean_loop
    split
    · exact walked_refl _ s
    · rename_i entry rest hlru
      have hl : listed s entry := lru_head_listed s head entry rest hlru
      obtain ⟨a0, a1⟩ := acquire_walked x s entry false false false 0 (hb entry hl)
      simp only
      split
      · rename_i code hcode
        by_cases hr : (ttm_bo_reserve_locked x (list_kref_get s entry) entry false false
            false 0).1 = outcome.ret 0
        · obtain ⟨s3, p1, p2, p3, p4, p5⟩ := a1 hr
          have hc0 : code = 0 := by
            rw [hr] at hcode
            injection hcode with h
            exact h.symm
          subst hc0
          rw [p1]
          simp only [ne_eq, not_true_eq_false, if_false]
          have e1 := leave_list_walked K x fuel s3 entry t ae (backed_walked hb p2)
          have se := walked_trans p2 e1
          have hsp : spare s entry + 1 ≤ spare (ttm_bo_leave_list K x fuel s3 entry t ae).2 entry :=
            le_trans p4 (e1.2.2.2.2 entry)
          generalize ttm_bo_leave_list K x fuel s3 entry t ae = e at e1 se hsp ⊢
          split
          · split
            · exact walked_close se hl
            · rename_i s4 hu
              obtain ⟨u1, u2⟩ := unreserve_walked entry hu se hl
              have hsp4 : spare s entry + 1 ≤ spare s4 entry := le_trans hsp u2
              have hne : (s4.bo entry).list_kref ≠ 1 := by
                have h1 := spare_add_memberships s4 entry
                have h2 := memberships_nonneg s4 entry
                have h3 := hb entry hl
                omega
              rw [put_release_dec x s4 entry hne]
              simp only
              have w5 := walked_close (put_walked entry u1 hl hsp4) hl
              exact walked_trans w5 (ih _ (backed_walked hb w5))
          · exact walked_close se hl
        · have hres : (s.bo entry).reserved ≠ 0 := by
            intro h0
            exact hr (reserve_locked_free x (list_kref_get s entry) entry false false false 0
              (by rw [list_kref_get_bo_self]; exact h0)).1
          have hc := reserve_locked_collision x (list_kref_get s entry) entry false false false 0
            (by rw [list_kref_get_bo_self]; exact hres)
          rw [hc] at hcode
          simp at hcode
      · exact walked_close a0 hl

theorem force_list_clean_walked (K : ttm_consts) (x : collaborators W) (fuel : Nat)
    (s : ttm_bo_device W) (head t : Nat) (ae : Bool) (hb : backed s) :
    walked (fun _ => False) s (ttm_bo_force_list_clean K x fuel s head t ae).2 :=
  force_list_clean_loop_walked K x fuel head t ae fuel s hb

theorem walked_set_bo {e : Nat → Prop} (s : ttm_bo_device W) (b : Nat) (o : ttm_buffer_object)
    (hlk : o.list_kref = (s.bo b).list_kref) (hk : o.kref = (s.bo b).kref)
    (hc : o.cpu_writers = (s.bo b).cpu_writers) (hf : o.freed = (s.bo b).freed) (he : e b) :
    walked e s (set_bo s b o) := by
  refine ⟨rfl, fun c h => h, fun c hce _ => ?_, fun c => ?_, fun c => ?_⟩
  · have hcb : c ≠ b := by
      rintro rfl
      exact hce he
    exact set_bo_bo_other s b c o hcb
  · by_cases hcb : c = b
    · subst hcb
      rw [set_bo_bo_self]
      exact ⟨hk, hc, hf⟩
    · rw [set_bo_bo_other s b c o hcb]
      exact ⟨rfl, rfl, rfl⟩
  · have hm : memberships (set_bo s b o) c = memberships s c := memberships_congr rfl rfl
    unfold spare
    rw [hm]
    by_cases hcb : c = b
    · subst hcb
      rw [set_bo_bo_self, hlk]
    · rw [set_bo_bo_other s b c o hcb]

theorem swapout_move_walked (K : ttm_consts) (x : collaborators W) (s : ttm_bo_device W)
    (b : Nat) : walked (fun c => c = b) s (swapout_move K x s b).2 := by
  unfold swapout_move
  simp only
  split
  · exact handle_move_mem_walked K x s b _ true false false
  · exact walked_refl _ s

theorem swapout_pages_walked (e : Nat → Prop) (x : collaborators W)
    (m : Int × ttm_bo_device W) (b : Nat) : walked e m.2 (swapout_pages x m b).2 := by
  unfold swapout_pages
  split
  · exact walked_refl _ _
  · have h1 : walked e m.2 (ttm_bo_unmap_virtual x m.2) := by
      unfold ttm_bo_unmap_virtual
      split
      · exact walked_set_ext _ _ _
      · exact walked_refl _ _
    exact walked_trans h1 (walked_set_ext _ _ _)

theorem swapout_walked (K : ttm_consts) (x : collaborators W) (s : ttm_bo_device W)
    (hb : backed s) : walked (fun _ => False) s (ttm_bo_swapout K x s).2 := by
  unfold ttm_bo_swapout
  split
  · exact walked_refl _ s
  · rename_i b rest hswap
    have hl : listed s b := Or.inr (by simp [on_swap, hswap])
    obtain ⟨a0, a1⟩ := acquire_walked x s b false true false 0 (hb b hl)
    simp only
    split
    · split
      · exact walked_close a0 hl
      · exact walked_close a0 hl
    · split
      · exact walked_close a0 hl
      · rename_i h1 h2
        have hr : (ttm_bo_reserve_locked x (list_kref_get s b) b false true false 0).1
            = outcome.ret 0 := not_not.mp h2
        obtain ⟨s3, p1, p2, p3, p4, p5⟩ := a1 hr
        unfold swapout_reserved
        simp only
        rw [p1]
        simp only
        have hw := walked_trans p2 (wait_walked K x s3 b false false false)
        have hsw : spare s b + 1 ≤ spare (ttm_bo_wait K x s3 b false false false).2 b :=
          le_trans p4 ((wait_walked K x s3 b false false false).2.2.2.2 b)
        generalize ttm_bo_wait K x s3 b false false false = w at hw hsw ⊢
        split
        · rename_i code hcode
          have hm : walked (fun c => c = b) s
              (if code ≠ 0 then (code, w.2) else swapout_move K x w.2 b).2 ∧
              spare s b + 1 ≤ spare (if code ≠ 0 then (code, w.2)
                else swapout_move K x w.2 b).2 b := by
            split
            · exact ⟨hw, hsw⟩
            · exact ⟨walked_trans hw (swapout_move_walked K x w.2 b),
                le_trans hsw ((swapout_move_walked K x w.2 b).2.2.2.2 b)⟩
          generalize (if code ≠ 0 then (code, w.2) else swapout_move K x w.2 b) = m at hm ⊢
          have hp : walked (fun c => c = b) s (swapout_pages x m b).2 ∧
              spare s b + 1 ≤ spare (swapout_pages x m b).2 b :=
            ⟨walked_trans hm.1 (swapout_pages_walked _ x m b),
              le_trans hm.2 ((swapout_pages_walked (fun c => c = b) x m b).2.2.2.2 b)⟩
          generalize swapout_pages x m b = o at hp ⊢
          have hu : walked (fun c => c = b) o.2 (set_bo o.2 b { o.2.bo b with reserved := 0 }) :=
            walked_set_bo o.2 b _ rfl rfl rfl rfl rfl
          have hq : walked (fun c => c = b) s (set_bo o.2 b { o.2.bo b with reserved := 0 }) ∧
              spare s b + 1 ≤ spare (set_bo o.2 b { o.2.bo b with reserved := 0 }) b :=
            ⟨walked_trans hp.1 hu, le_trans hp.2 (hu.2.2.2.2 b)⟩
          unfold swapout_out
          generalize set_bo o.2 b { o.2.bo b with reserved := 0 } = s4 at hq ⊢
          have hne : (s4.bo b).list_kref ≠ 1 := by
            have h1 := spare_add_memberships s4 b
            have h2 := memberships_nonneg s4 b
            have h3 := hb b hl
            have h4 := hq.2
            omega
          rw [put_release_dec x s4 b hne]
          exact walked_close (put_walked b hq.1 hl hq.2) hl
        · exact walked_close hw hl

theorem lists_on_memberships (s : ttm_bo_device W) (c : Nat) :
    lists_on s c = memberships s c + (if c ∈ s.ddestroy then 1 else 0) := rfl

theorem backed_of_sound {s : ttm_bo_device W} (hs : refs_sound s) (hq : orphans_queued s) :
    backed s := by
  intro c hc
  have hcnt : counted s c 0 := hs.2 c
  obtain ⟨_, h2, h3⟩ := hcnt
  have hm := memberships_listed hc
  have hlo := lists_on_memberships s c
  unfold spare
  cases hf : (s.bo c).freed
  · have h := (h2 hf).1
    by_cases hk : (s.bo c).kref = 0
    · have hd := hq c hc hk
      rw [if_pos hd] at hlo
      rw [if_pos hk] at h
      omega
    · rw [if_neg hk] at h
      have : (0 : Int) ≤ (if c ∈ s.ddestroy then 1 else 0) := by split <;> omega
      omega
  · have h := (h3 hf).2.2.2.2.2
    have : (0 : Int) ≤ (if c ∈ s.ddestroy then 1 else 0) := by split <;> omega
    omega

theorem sound_walked {s s1 : ttm_bo_device W} (hs : refs_sound s)
    (hw : walked (fun _ => False) s s1) : refs_sound s1 := by
  obtain ⟨a1, a2, a3, a4, a5⟩ := hw
  refine ⟨by rw [a1]; exact hs.1, fun c => ?_⟩
  show counted s1 c 0
  have hcnt : counted s c 0 := hs.2 c
  obtain ⟨h1, h2, h3⟩ := hcnt
  obtain ⟨k1, k2, k3⟩ := a4 c
  have hlo := lists_on_memberships s c
  have hlo1 := lists_on_memberships s1 c
  have hsp := a5 c
  unfold spare at hsp
  refine ⟨fun hd => ?_, fun hf => ?_, fun hf => ?_⟩
  · rw [k1]
    exact h1 (by rw [← a1]; exact hd)
  · rw [k3] at hf
    obtain ⟨g1, g2⟩ := h2 hf
    rw [k1, k2]
    refine ⟨?_, g2⟩
    rw [hlo1, a1]
    rw [hlo] at g1
    omega
  · rw [k3] at hf
    obtain ⟨g1, g2, g3, g4, g5, g6⟩ := h3 hf
    have hnl : ¬ listed s c := by
      intro hl
      have := memberships_listed hl
      have : (0 : Int) ≤ (if c ∈ s.ddestroy then 1 else 0) := by split <;> omega
      omega
    have hbo := a3 c (fun h => h) hnl
    have hnl1 : ¬ listed s1 c := fun h => hnl (a2 c h)
    have hm1 := memberships_unlisted hnl1
    have hm0 := memberships_unlisted hnl
    rw [hbo]
    refine ⟨g1, g2, g3, g4, g5, ?_⟩
    rw [hlo1, hm1, a1]
    rw [hlo, hm0] at g6
    exact g6

theorem queued_walked {e : Nat → Prop} {s s1 : ttm_bo_device W} (hq : orphans_queued s)
    (hw : walked e s s1) : orphans_queued s1 := by
  intro c hc hk
  rw [hw.1]
  exact hq c (hw.2.1 c hc) (by rw [← (hw.2.2.2.1 c).1]; exact hk)

theorem none_released_walked {e : Nat → Prop} {s s1 : ttm_bo_device W} (hb : backed s)
    (hw : walked e s s1) : none_released s s1 := by
  refine ⟨fun c => (hw.2.2.2.1 c).2.2, fun c hc => ?_⟩
  have h1 := spare_add_memberships s1 c
  have h2 := memberships_nonneg s1 c
  have h3 := hw.2.2.2.2 c
  by_cases hl : listed s c
  · have := hb c hl
    omega
  · have h4 := spare_add_memberships s c
    have h5 := memberships_unlisted hl
    omega

/-- What a list walker leaves from a state with sound counts in which the
orphans are queued: the counts are sound and the orphans queued again, and
`ttm_bo_release_list` has not been entered. -/
theorem walker_sound {s s1 : ttm_bo_device W} (hs : refs_sound s) (hq : orphans_queued s)
    (hw : walked (fun _ => False) s s1) :
    refs_sound s1 ∧ orphans_queued s1 ∧ none_released s s1 :=
  ⟨sound_walked hs hw, queued_walked hq hw, none_released_walked (backed_of_sound hs hq) hw⟩

theorem zombie_sound : refs_sound zombie := by
  refine ⟨List.nodup_singleton 0, fun c => ?_⟩
  by_cases hc : c = 0
  · subst hc
    unfold counted
    simp only
    decide
  · have hbo : zombie.bo c = in_system := by simp [zombie, hc]
    have hl : lists_on zombie c = 0 := by
      simp [lists_on, on_lru, on_swap, zombie, hc]
    have hdd : c ∉ zombie.ddestroy := by simp [zombie, hc]
    unfold counted
    rw [hbo, hl]
    simp only
    exact ⟨fun h => absurd h hdd, by decide, by decide⟩

theorem zombie_queued : orphans_queued zombie := by
  intro c _ _
  by_cases hc : c = 0
  · subst hc
    exact List.mem_singleton_self 0
  · rename_i hl _
    exfalso
    rcases hl with h | h
    · simp [on_lru, zombie, hc] at h
    · simp [on_swap, zombie, hc] at h

/-- C18 (as the code has it).  Let the reference counts be sound: every
object that is not freed holds a list reference for each list it is on
(memory-type LRU, swap list, delayed-destroy list) and one more while its
strong count is non-zero, an object on the delayed-destroy list or without
strong references has no CPU writer registered, and a freed object has both
counts zero, no sync object, no extent and is on no list.  Then

* `ttm_bo_unref` on an object with a strong reference, which has no CPU
  writer registered when that reference is the last one, returns without a
  failed assertion, and
* the delayed-destroy walker `ttm_bo_delayed_delete` runs without a failed
  assertion (given, for `remove_all`, that the driver's wait does not crash),
  and returns when `remove_all` is false;

after either the counts are sound again, so every object that
`ttm_bo_release_list` has freed has list count zero and strong count zero,
no sync object, no extent and is on no list, and an object whose list count
is not zero is not freed.

* The list walkers `ttm_bo_mem_force_space`, `ttm_bo_force_list_clean` and
  `ttm_bo_swapout`, started where in addition every object without strong
  references that is on an LRU or on the swap list is on the delayed-destroy
  list, never reach `ttm_bo_release_list`: in the state in which the call
  ends, or stops at a `BUG`, no object has been freed and no list count that
  was positive is zero, whereas a failed assertion of `ttm_bo_release_list`
  stops the call with the list count of the walked buffer at zero.  The
  counts are sound again, and the objects without strong references that are
  on an LRU or on the swap list are still on the delayed-destroy list. -/
theorem release_list_assertions_hold (K : ttm_consts) (x : collaborators W) (fuel : Nat)
    (s : ttm_bo_device W) (hs : refs_sound s) :
    (∀ b, (s.bo b).freed = false → 0 < (s.bo b).kref →
      ((s.bo b).kref = 1 → (s.bo b).cpu_writers = 0) →
      (ttm_bo_unref K x fuel s b).1 = outcome.ret 0 ∧
      refs_sound (ttm_bo_unref K x fuel s b).2 ∧
      (∀ c, ((ttm_bo_unref K x fuel s b).2.bo c).freed = true →
        ((ttm_bo_unref K x fuel s b).2.bo c).list_kref = 0 ∧
        ((ttm_bo_unref K x fuel s b).2.bo c).kref = 0 ∧
        ((ttm_bo_unref K x fuel s b).2.bo c).sync_obj = none ∧
        ((ttm_bo_unref K x fuel s b).2.bo c).mem.mm_node = none ∧
        lists_on (ttm_bo_unref K x fuel s b).2 c = 0) ∧
      (∀ c, ((ttm_bo_unref K x fuel s b).2.bo c).list_kref ≠ 0 →
        ((ttm_bo_unref K x fuel s b).2.bo c).freed = false)) ∧
    (∀ ra, (ra = true → ∀ w so a l j, (x.sync_obj_wait w so a l j).1 ≠ outcome.bug) →
      (ttm_bo_delayed_delete K x fuel s ra).1 ≠ outcome.bug ∧
      (ra = false → ∃ code, (ttm_bo_delayed_delete K x fuel s ra).1 = outcome.ret code) ∧
      refs_sound (ttm_bo_delayed_delete K x fuel s ra).2 ∧
      (∀ c, ((ttm_bo_delayed_delete K x fuel s ra).2.bo c).freed = true →
        ((ttm_bo_delayed_delete K x fuel s ra).2.bo c).list_kref = 0 ∧
        ((ttm_bo_delayed_delete K x fuel s ra).2.bo c).kref = 0 ∧
        ((ttm_bo_delayed_delete K x fuel s ra).2.bo c).sync_obj = none ∧
        ((ttm_bo_delayed_delete K x fuel s ra).2.bo c).mem.mm_node = none ∧
        lists_on (ttm_bo_delayed_delete K x fuel s ra).2 c = 0) ∧
      (∀ c, ((ttm_bo_delayed_delete K x fuel s ra).2.bo c).list_kref ≠ 0 →
        ((ttm_bo_delayed_delete K x fuel s ra).2.bo c).freed = false)) ∧
    (orphans_queued s →
      (∀ mem t i nw,
        refs_sound (ttm_bo_mem_force_space K x fuel s mem t i nw).2.2 ∧
        orphans_queued (ttm_bo_mem_force_space K x fuel s mem t i nw).2.2 ∧
        none_released s (ttm_bo_mem_force_space K x fuel s mem t i nw).2.2) ∧
      (∀ head t ae,
        refs_sound (ttm_bo_force_list_clean K x fuel s head t ae).2 ∧
        orphans_queued (ttm_bo_force_list_clean K x fuel s head t ae).2 ∧
        none_released s (ttm_bo_force_list_clean K x fuel s head t ae).2) ∧
      refs_sound (ttm_bo_swapout K x s).2 ∧
      orphans_queued (ttm_bo_swapout K x s).2 ∧
      none_released s (ttm_bo_swapout K x s).2) := by
  have hnot : ∀ s1 : ttm_bo_device W, refs_sound s1 → ∀ c, (s1.bo c).list_kref ≠ 0 →
      (s1.bo c).freed = false := fun s1 h1 c hc => by
    cases hf : (s1.bo c).freed
    · rfl
    · exact absurd (sound_freed h1 c hf).1 hc
  refine ⟨fun b hfr hk hcpu => ?_, fun ra hwait => ?_, fun hq => ⟨fun mem t i nw => ?_,
    fun head t ae => ?_, ?_⟩⟩
  · obtain ⟨u1, u2⟩ := unref_sound K x fuel s b hs hfr hk hcpu
    exact ⟨u1, u2, fun c hf => sound_freed u2 c hf, hnot _ u2⟩
  · obtain ⟨d1, d2, d3⟩ := delayed_delete_sound K x fuel s ra hwait hs
    exact ⟨d1, d2, d3, fun c hf => sound_freed d3 c hf, hnot _ d3⟩
  · exact walker_sound hs hq
      (force_space_is_walked K x fuel s mem t i nw (backed_of_sound hs hq))
  · exact walker_sound hs hq
      (force_list_clean_walked K x fuel s head t ae (backed_of_sound hs hq))
  · exact walker_sound hs hq (swapout_walked K x s (backed_of_sound hs hq))

theorem drawn_from_sound : refs_sound drawn_from := by
  refine ⟨List.nodup_nil, fun c => ?_⟩
  by_cases hc : c = 0
  · subst hc
    unfold counted
    simp only
    decide
  · have hbo : drawn_from.bo c = in_system := by simp [drawn_from, hc]
    have hl : lists_on drawn_from c = 0 := by
      simp [lists_on, on_lru, on_swap, drawn_from, hc]
    have hdd : c ∉ drawn_from.ddestroy := List.not_mem_nil c
    unfold counted
    rw [hbo, hl]
    simp only
    exact ⟨fun h => absurd h hdd, by decide, by decide⟩

/-- C18, witness: buffer 0 of `drawn_from` is still rendered from and has one
strong reference.  Dropping it trips no assertion and leaves the counts
sound; the object now has strong count 0 and list count 2 (for the LRU and
the delayed-destroy list) and is not freed.  Once its sync object has
signaled, the delayed-destroy walker frees it.  Buffer 0 of `zombie` is in
the same condition and is on the swap list too: `ttm_bo_swapout` waits for
it, moves it to system memory and takes it off the LRU and the swap list; it
keeps the list reference of the delayed-destroy list and is not freed.
`ttm_bo_mem_force_space`, asked for more room than the aperture has, evicts
it and leaves it with its three list references. -/
theorem release_list_assertions_hold_witness :
    (ttm_bo_unref consts0 quiet 1 drawn_from 0).1 = outcome.ret 0 ∧
    refs_sound (ttm_bo_unref consts0 quiet 1 drawn_from 0).2 ∧
    ((ttm_bo_unref consts0 quiet 1 drawn_from 0).2.bo 0).kref = 0 ∧
    ((ttm_bo_unref consts0 quiet 1 drawn_from 0).2.bo 0).list_kref = 2 ∧
    ((ttm_bo_unref consts0 quiet 1 drawn_from 0).2.bo 0).freed = false ∧
    ((ttm_bo_delayed_delete consts0 all_signaled 1
      (ttm_bo_unref consts0 quiet 1 drawn_from 0).2 false).2.bo 0).freed = true ∧
    ((ttm_bo_delayed_delete consts0 all_signaled 1
      (ttm_bo_unref consts0 quiet 1 drawn_from 0).2 false).2.bo 0).list_kref = 0 ∧
    refs_sound (ttm_bo_swapout consts0 quiet zombie).2 ∧
    none_released zombie (ttm_bo_swapout consts0 quiet zombie).2 ∧
    (ttm_bo_swapout consts0 quiet zombie).1 = outcome.ret 0 ∧
    ((ttm_bo_swapout consts0 quiet zombie).2.bo 0).mem.mem_type = 0 ∧
    on_lru (ttm_bo_swapout consts0 quiet zombie).2 0 = false ∧
    on_swap (ttm_bo_swapout consts0 quiet zombie).2 0 = false ∧
    ((ttm_bo_swapout consts0 quiet zombie).2.bo 0).list_kref = 1 ∧
    ((ttm_bo_swapout consts0 quiet zombie).2.bo 0).freed = false ∧
    none_released zombie
      (ttm_bo_mem_force_space consts0 two_slots 3 zombie { num_pages := 8 } 1 false false).2.2 ∧
    ((ttm_bo_mem_force_space consts0 two_slots 3 zombie { num_pages := 8 } 1 false
      false).2.2.bo 0).mem.mem_type = 0 ∧
    ((ttm_bo_mem_force_space consts0 two_slots 3 zombie { num_pages := 8 } 1 false
      false).2.2.bo 0).list_kref = 3 :=
  ⟨((release_list_assertions_hold consts0 quiet 1 drawn_from drawn_from_sound).1 0 rfl
      (by decide) (fun _ => rfl)).1,
    ((release_list_assertions_hold consts0 quiet 1 drawn_from drawn_from_sound).1 0 rfl
      (by decide) (fun _ => rfl)).2.1,
    by decide, by decide, by decide, by decide, by decide,
    ((release_list_assertions_hold consts0 quiet 1 zombie zombie_sound).2.2 zombie_queued).2.2.1,
    ((release_list_assertions_hold consts0 quiet 1 zombie zombie_sound).2.2
      zombie_queued).2.2.2.2,
    by decide, by decide, by decide, by decide, by decide, by decide,
    ((release_list_assertions_hold consts0 two_slots 3 zombie zombie_sound).2.2
      zombie_queued).1 { num_pages := 8 } 1 false false |>.2.2,
    by decide, by decide⟩

/-- C18, counterexample to the claim as stated.  Buffer 0 of `free_listed`
is idle and has one strong reference.  After a successful
`ttm_bo_synccpu_write_grab` a CPU writer is registered on it.  Dropping the
strong reference then reaches `ttm_bo_release_list` with both counts zero, no
sync object, no extent and the buffer on no list, and the assertion
`BUG_ON(atomic_read(&bo->cpu_writers))` fails. -/
theorem unref_with_cpu_writer_fails :
    (ttm_bo_synccpu_write_grab consts0 quiet free_listed 0 true).1 = outcome.ret 0 ∧
    ((ttm_bo_synccpu_write_grab consts0 quiet free_listed 0 true).2.bo 0).kref = 1 ∧
    ((ttm_bo_synccpu_write_grab consts0 quiet free_listed 0 true).2.bo 0).cpu_writers = 1 ∧
    ((ttm_bo_synccpu_write_grab consts0 quiet free_listed 0 true).2.bo 0).list_kref =
      1 + lists_on (ttm_bo_synccpu_write_grab consts0 quiet free_listed 0 true).2 0 ∧
    (ttm_bo_unref consts0 quiet 1
      (ttm_bo_synccpu_write_grab consts0 quiet free_listed 0 true).2 0).1 = outcome.bug ∧
    ((ttm_bo_unref consts0 quiet 1
      (ttm_bo_synccpu_write_grab consts0 quiet free_listed 0 true).2 0).2.bo 0).kref = 0 ∧
    ((ttm_bo_unref consts0 quiet 1
      (ttm_bo_synccpu_write_grab consts0 quiet free_listed 0 true).2 0).2.bo 0).list_kref = 0 ∧
    ((ttm_bo_unref consts0 quiet 1
      (ttm_bo_synccpu_write_grab consts0 quiet free_listed 0 true).2 0).2.bo 0).sync_obj = none ∧
    ((ttm_bo_unref consts0 quiet 1
      (ttm_bo_synccpu_write_grab consts0 quiet free_listed 0 true).2 0).2.bo 0).mem.mm_node
        = none ∧
    lists_on (ttm_bo_unref consts0 quiet 1
      (ttm_bo_synccpu_write_grab consts0 quiet free_listed 0 true).2 0).2 0 = 0 := by
  refine ⟨?_, ?_, ?_, ?_, ?_, ?_, ?_, ?_, ?_, ?_⟩ <;> decide

/-! ### Choosing the caching mode of a placement -/

/-- C28 (code bug): `ttm_bo_mt_compatible` accepts an aperture that offers
only the uncached and the write-combined mode for a request that allows the
cached or the uncached mode, and the mask it writes has the cached bit, which
is not in `man->available_caching`. -/
theorem mt_compatible_mode_not_offered :
    uncached_aperture.available_caching = 393216 ∧
    ttm_bo_mt_compatible consts0 uncached_aperture false 1 196610 = some 65538 ∧
    65538 = ttm_bo_type_flags 1 ||| consts0.TTM_PL_FLAG_CACHED ∧
    consts0.TTM_PL_FLAG_CACHED &&& 196610 ≠ 0 ∧
    consts0.TTM_PL_FLAG_CACHED &&& uncached_aperture.available_caching = 0 := by
  decide

/-! ### Eviction -/

/-- C27 (code bug): `ttm_bo_evict` goes on after an interrupted wait.  The
reserved buffer 0 of the aperture has an unsignaled sync object and the wait
for it returns `-ERESTART`; the call nevertheless finds space in system
memory, moves the buffer there and returns 0, and the buffer still has its
sync object. -/
theorem evict_goes_on_after_interrupted_wait :
    (ttm_bo_wait consts0 wait_interrupted drawn_from_held 0 false true false).1
      = outcome.ret (-ERESTART) ∧
    (drawn_from_held.bo 0).mem.mem_type = 1 ∧
    (ttm_bo_evict consts0 wait_interrupted 2 drawn_from_held 0 1 true false).1
      = outcome.ret 0 ∧
    ((ttm_bo_evict consts0 wait_interrupted 2 drawn_from_held 0 1 true false).2.bo 0).mem.mem_type
      = 0 ∧
    ((ttm_bo_evict consts0 wait_interrupted 2 drawn_from_held 0 1 true false).2.bo 0).mem.mm_node
      = none ∧
    ((ttm_bo_evict consts0 wait_interrupted 2 drawn_from_held 0 1 true false).2.bo 0).sync_obj
      = some 3 := by
  decide

/-- C22 (code bug): a failed move in `ttm_bo_evict` leaves the extent it
allocated for the target with the allocator.  Buffer 0 is evicted from the
fixed aperture to the second aperture, whose allocator hands out the extent
at page 0, and `ttm_tt_bind` fails: the call returns `-ENOMEM`, the allocator
of the second aperture still holds that extent, and no buffer records it.
`ttm_bo_move_buffer`, asked for the same move, gives the extent back. -/
theorem evict_failed_move_leaks_extent :
    (ttm_bo_evict consts0 bind_fails 2 fixed_aperture 0 1 true false).1
      = outcome.ret (-ENOMEM) ∧
    (man_at (ttm_bo_evict consts0 bind_fails 2 fixed_aperture 0 1 true false).2 2).manager.nodes
      = [⟨0, 4, 2⟩] ∧
    (∀ b, ((ttm_bo_evict consts0 bind_fails 2 fixed_aperture 0 1 true false).2.bo b).mem.mm_node
      ≠ some ⟨0, 4, 2⟩) ∧
    (ttm_bo_move_buffer consts0 bind_fails 2 fixed_aperture 0 65540 true false).1
      = outcome.ret (-ENOMEM) ∧
    (man_at (ttm_bo_move_buffer consts0 bind_fails 2 fixed_aperture 0 65540 true false).2
      2).manager.nodes = [] := by
  refine ⟨by decide, by decide, ?_, by decide, by decide⟩
  intro b
  by_cases hb : b = 0
  · subst hb
    decide
  · have hr : (fixed_aperture.bo b).reserved ≠ 0 := by
      simp [fixed_aperture, hb, in_system]
    have hk := (evict_is_safe consts0 bind_fails 2 fixed_aperture 0 1 true false).2 b hb hr
    rw [hk.2.1]
    simp [fixed_aperture, hb, in_system]

/-- C29 (code bug): the system-memory fallback of `ttm_bo_evict` finds
nothing.  System memory is initialised, enabled and in the driver's priority
order, and its manager offers the three caching modes; the driver sends the
reserved buffer 0 to the second aperture, which is full, so the first search
fails with `-ENOMEM` and the second one runs with the proposed flags
`TTM_PL_FLAG_SYSTEM`.  That search fails with `-EINVAL`, because a mask
without a caching bit is compatible with no manager whose
`available_caching` has caching bits only, and the eviction fails with it. -/
theorem evict_fallback_finds_nothing :
    (man_at two_apertures_held 0).has_type = true ∧
    (man_at two_apertures_held 0).use_type = true ∧
    (man_at two_apertures_held 0).available_caching = consts0.TTM_PL_MASK_CACHING ∧
    0 ∈ to_second.mem_type_prio ∧
    (ttm_bo_mem_space consts0 to_second 1 two_apertures_held 0
      { (two_apertures_held.bo 0).mem with mm_node := none, proposed_flags := 65540 }
      true false).1 = outcome.ret (-ENOMEM) ∧
    (ttm_bo_mem_space consts0 to_second 1 two_apertures_held 0
      { (two_apertures_held.bo 0).mem with
        mm_node := none, proposed_flags := consts0.TTM_PL_FLAG_SYSTEM }
      true false).1 = outcome.ret (-EINVAL) ∧
    (ttm_bo_evict consts0 to_second 2 two_apertures_held 0 1 true false).1
      = outcome.ret (-EINVAL) ∧
    (∀ (man : ttm_mem_type_manager) (type_user : Bool),
      ttm_bo_mt_compatible consts0
        { man with
          available_caching := man.available_caching &&& consts0.TTM_PL_MASK_CACHING }
        type_user consts0.TTM_PL_SYSTEM consts0.TTM_PL_FLAG_SYSTEM = none) := by
  refine ⟨by decide, by decide, by decide, by decide, by decide, by decide, by decide, ?_⟩
  intro man type_user
  have h0 : (1 : Nat) &&& (man.available_caching &&& 458752) = 0 := by
    have h1 : (458752 : Nat) &&& 1 = 0 := by decide
    rw [Nat.and_comm, Nat.and_assoc, h1, Nat.and_zero]
  unfold ttm_bo_mt_compatible
  simp only [consts0, h0]
  split
  · rfl
  · split
    · rfl
    · simp

/-! ### Where an eviction sends a buffer -/

theorem flag_masked_set (a e : Nat) : ttm_flag_masked a e e &&& e = e := by
  unfold ttm_flag_masked
  apply Nat.eq_of_testBit_eq
  intro i
  simp only [Nat.testBit_and, Nat.testBit_xor]
  cases a.testBit i <;> cases e.testBit i <;> rfl

theorem flag_masked_clear (a e : Nat) : ttm_flag_masked a 0 e &&& e = 0 := by
  unfold ttm_flag_masked
  apply Nat.eq_of_testBit_eq
  intro i
  simp only [Nat.testBit_and, Nat.testBit_xor, Nat.zero_testBit]
  cases a.testBit i <;> cases e.testBit i <;> rfl

theorem force_space_with_type (K : ttm_consts) (x : collaborators W) (ev : evict_fn W)
    (t : Nat) (i nw : Bool) (n : Nat) (s : ttm_bo_device W) (mem : ttm_mem_reg) :
    (ttm_bo_mem_force_space_with K x ev t i nw n s mem).2.1.proposed_flags
      = mem.proposed_flags ∧
    ((ttm_bo_mem_force_space_with K x ev t i nw n s mem).1 = outcome.ret 0 →
      (ttm_bo_mem_force_space_with K x ev t i nw n s mem).2.1.mem_type = t) := by
  induction n generalizing s with
  | zero => exact ⟨rfl, fun h => by simp [ttm_bo_mem_force_space_with] at h⟩
  | succ n ih =>
    unfold ttm_bo_mem_force_space_with
    simp only
    split
    · rename_i hp
      exact ⟨rfl, fun h => by simp at h; exact absurd h hp⟩
    · split
      · rename_i hl
        exact ⟨rfl, fun h => absurd h hl⟩
      · split
        · exact ⟨rfl, fun h => by simp [ENOMEM] at h⟩
        · split
          · exact ⟨rfl, fun _ => rfl⟩
          · exact ih _

theorem busy_pass_type (K : ttm_consts) (x : collaborators W) (ev : evict_fn W)
    (fuel : Nat) (tu i nw : Bool) (ps : List Nat) (cf : Nat) (he : Bool) (mem : ttm_mem_reg)
    (s : ttm_bo_device W)
    (h : (mem_space_busy_pass K x ev fuel tu i nw ps cf he mem s).1 = outcome.ret 0) :
    ttm_bo_type_flags (mem_space_busy_pass K x ev fuel tu i nw ps cf he mem s).2.1.mem_type
      &&& mem.proposed_flags ≠ 0 := by
  induction ps generalizing cf he mem s with
  | nil =>
    unfold mem_space_busy_pass at h
    exfalso
    cases he <;> simp [ERESTART, ENOMEM] at h
  | cons p ps ih =>
    unfold mem_space_busy_pass at h ⊢
    split
    · rename_i h1
      simp only [h1, if_true] at h
      exact ih _ _ _ _ h
    · rename_i h1
      simp only [h1] at h
      split
      · rename_i h2
        simp only [h2] at h
        exact ih _ _ _ _ h
      · rename_i f h2
        simp only [h2] at h
        obtain ⟨f1, f2⟩ := force_space_with_type K x ev p i nw fuel s mem
        generalize ttm_bo_mem_force_space_with K x ev p i nw fuel s mem = r at f1 f2 h ⊢
        obtain ⟨o, m, s1⟩ := r
        cases o with
        | ret code =>
          simp only at f1 f2 h ⊢
          split
          · rename_i hc
            simp only
            rw [f2 (by rw [hc.1])]
            exact compatible_type_bit K _ tu p _ (by rw [h2]; exact Option.some_ne_none f)
          · rename_i hc
            rw [if_neg hc] at h
            have h3 := ih _ _ _ _ h
            rw [f1] at h3
            exact h3
        | sleeps => simp at h
        | bug => simp at h
        | fuel => simp at h

theorem first_pass_type (K : ttm_consts) (x : collaborators W) (fuel : Nat) (tu : Bool)
    (mem : ttm_mem_reg) (ps : List Nat) (v : space_vars) (s : ttm_bo_device W)
    (hnode : v.node = none)
    (hv : v.type_ok = true → ttm_bo_type_flags v.mem_type &&& mem.proposed_flags ≠ 0)
    (h : (mem_space_first_pass K x fuel tu mem ps v s).2.1.type_ok = true ∨
      (mem_space_first_pass K x fuel tu mem ps v s).2.1.node ≠ none) :
    ttm_bo_type_flags (mem_space_first_pass K x fuel tu mem ps v s).2.1.mem_type
      &&& mem.proposed_flags ≠ 0 := by
  induction ps generalizing v s with
  | nil =>
    unfold mem_space_first_pass at h ⊢
    rcases h with h | h
    · exact hv h
    · exact absurd hnode h
  | cons p ps ih =>
    unfold mem_space_first_pass at h ⊢
    split
    · rename_i h1
      simp only [h1] at h
      exact ih _ _ hnode (fun h0 => by simp at h0) h
    · rename_i f h1
      simp only [h1] at h
      have hbit : ttm_bo_type_flags p &&& mem.proposed_flags ≠ 0 :=
        compatible_type_bit K _ tu p _ (by rw [h1]; exact Option.some_ne_none f)
      simp only at h ⊢
      split
      · exact hbit
      · rename_i hsys
        rw [if_neg hsys] at h
        split
        · rename_i hen
          rw [if_pos hen] at h
          split
          · exact hbit
          · rename_i hg
            rw [if_neg hg] at h
            split
            · exact hbit
            · rename_i hg2
              rw [if_neg hg2] at h
              have hn : (mem_space_get_block x p mem.num_pages mem.page_alignment fuel s).2.1
                  = none := by
                simpa using hg2
              exact ih _ _ hn (fun _ => hbit) h
        · rename_i hen
          rw [if_neg hen] at h
          split
          · exact hbit
          · rename_i hg
            rw [if_neg hg] at h
            exact ih _ _ hnode (fun _ => hbit) h

theorem mem_space_with_type (K : ttm_consts) (x : collaborators W) (ev : evict_fn W)
    (fuel : Nat) (s : ttm_bo_device W) (b : Nat) (mem : ttm_mem_reg) (i nw : Bool)
    (h : (ttm_bo_mem_space_with K x ev fuel s b mem i nw).1 = outcome.ret 0) :
    ttm_bo_type_flags (ttm_bo_mem_space_with K x ev fuel s b mem i nw).2.1.mem_type
      &&& mem.proposed_flags ≠ 0 := by
  unfold ttm_bo_mem_space_with at h ⊢
  simp only at h ⊢
  split
  · rename_i h1
    rw [if_pos h1] at h
    exact absurd h h1
  · rename_i h1
    rw [if_neg h1] at h
    split
    · rename_i h2
      simp only
      refine first_pass_type K x fuel _ { mem with mm_node := none } _ _ s rfl
        (fun h0 => by simp at h0) ?_
      simp only [Bool.or_eq_true, Bool.and_eq_true, decide_eq_true_eq] at h2
      rcases h2 with h2 | h2
      · exact Or.inl h2.1
      · exact Or.inr h2
    · rename_i h2
      rw [if_neg h2] at h
      split
      · rename_i h3
        rw [if_pos h3] at h
        simp [EINVAL] at h
      · rename_i h3
        rw [if_neg h3] at h
        exact busy_pass_type K x ev fuel _ i nw _ _ _ { mem with mm_node := none } _ h

theorem put_block_bo (s : ttm_bo_device W) (n : drm_mm_node) :
    (drm_mm_put_block s n).bo = s.bo := rfl

theorem evict_with_leaves_type (K : ttm_consts) (x : collaborators W) (ms : mem_space_fn W)
    (hms : ∀ s b mem i nw, (ms s b mem i nw).1 = outcome.ret 0 →
      ttm_bo_type_flags (ms s b mem i nw).2.1.mem_type &&& mem.proposed_flags ≠ 0)
    (s : ttm_bo_device W) (b t : Nat) (i nw : Bool) (hp : (s.bo b).mem.mem_type = t)
    (h0 : (ttm_bo_evict_with K x ms s b t i nw).1 = outcome.ret 0) :
    ((ttm_bo_evict_with K x ms s b t i nw).2.bo b).mem.mem_type ≠ t ∧
    ((ttm_bo_evict_with K x ms s b t i nw).2.bo b).priv_flags &&& K.TTM_BO_PRIV_FLAG_EVICTED
      = K.TTM_BO_PRIV_FLAG_EVICTED := by
  unfold ttm_bo_evict_with at h0 ⊢
  simp only at h0 ⊢
  rw [if_neg (not_not.mpr hp)] at h0 ⊢
  generalize ttm_bo_wait K x s b false i nw = w at h0 ⊢
  obtain ⟨wo, ws⟩ := w
  cases wo with
  | ret code =>
    simp only at h0 ⊢
    by_cases hc : code ≠ 0 ∧ code ≠ -ERESTART
    · rw [if_pos hc] at h0
      simp only [outcome.ret.injEq] at h0
      exact absurd h0 hc.1
    · rw [if_neg hc] at h0 ⊢
      by_cases hr : (ws.bo b).reserved = 0
      · rw [if_pos hr] at h0
        simp at h0
      · rw [if_neg hr] at h0 ⊢
        by_cases hb : ttm_bo_type_flags t &&& x.evict_flags (ws.bo b) ≠ 0
        · rw [if_pos hb] at h0
          simp at h0
        · rw [if_neg hb] at h0 ⊢
          have hb1 : ttm_bo_type_flags t &&& x.evict_flags (ws.bo b) = 0 := not_not.mp hb
          have m1 := hms ws b { (ws.bo b).mem with
            mm_node := none, proposed_flags := x.evict_flags (ws.bo b) } i nw
          generalize ms ws b { (ws.bo b).mem with
            mm_node := none, proposed_flags := x.evict_flags (ws.bo b) } i nw = r1 at m1 h0 ⊢
          have tail : ∀ (s2 : ttm_bo_device W) (mm2 : ttm_mem_reg), mm2.mem_type ≠ t →
              ∀ r : outcome × ttm_bo_device W,
              r = (if (ttm_bo_handle_move_mem K x s2 b mm2 true i nw).1 ≠ 0 then
                  (outcome.ret (ttm_bo_handle_move_mem K x s2 b mm2 true i nw).1,
                    (ttm_bo_handle_move_mem K x s2 b mm2 true i nw).2.2)
                else
                  (outcome.ret 0,
                    set_bo (match (ttm_bo_handle_move_mem K x s2 b mm2 true i nw).2.1.mm_node with
                      | some n => drm_mm_put_block
                          (ttm_bo_handle_move_mem K x s2 b mm2 true i nw).2.2 n
                      | none => (ttm_bo_handle_move_mem K x s2 b mm2 true i nw).2.2) b
                      { (match (ttm_bo_handle_move_mem K x s2 b mm2 true i nw).2.1.mm_node with
                          | some n => drm_mm_put_block
                              (ttm_bo_handle_move_mem K x s2 b mm2 true i nw).2.2 n
                          | none => (ttm_bo_handle_move_mem K x s2 b mm2 true i nw).2.2).bo b with
                        priv_flags := ttm_flag_masked
                          ((match (ttm_bo_handle_move_mem K x s2 b mm2 true i nw).2.1.mm_node with
                          | some n => drm_mm_put_block
                              (ttm_bo_handle_move_mem K x s2 b mm2 true i nw).2.2 n
                          | none => (ttm_bo_handle_move_mem K x s2 b mm2 true i nw).2.2).bo
                            b).priv_flags
                          K.TTM_BO_PRIV_FLAG_EVICTED K.TTM_BO_PRIV_FLAG_EVICTED })) →
              r.1 = outcome.ret 0 →
              (r.2.bo b).mem.mem_type ≠ t ∧
                (r.2.bo b).priv_flags &&& K.TTM_BO_PRIV_FLAG_EVICTED
                  = K.TTM_BO_PRIV_FLAG_EVICTED := by
            intro s2 mm2 hne r hr h0
            have hcn := handle_move_mem_contract K x s2 b mm2 true i nw
            generalize ttm_bo_handle_move_mem K x s2 b mm2 true i nw = h at hcn hr
            subst hr
            by_cases hh : h.1 ≠ 0
            · rw [if_pos hh] at h0
              simp only [outcome.ret.injEq] at h0
              exact absurd h0 hh
            · rw [if_neg hh]
              have hmem := (hcn.2.2 (not_not.mp hh)).1
              simp only [set_bo_bo_self]
              refine ⟨?_, flag_masked_set _ _⟩
              have e : ∀ s5 : ttm_bo_device W, s5.bo = h.2.2.bo → (s5.bo b).mem.mem_type ≠ t := by
                intro s5 h5
                rw [h5, hmem]
                exact hne
              split
              · exact e _ rfl
              · exact e _ rfl
          obtain ⟨o1, mm1, s1⟩ := r1
          cases o1 with
          | ret c1 =>
            simp only at h0 m1 ⊢
            by_cases hc1 : c1 ≠ 0 ∧ c1 ≠ -ERESTART
            · rw [if_pos hc1] at h0 ⊢
              by_cases hsys : ttm_bo_type_flags t &&& K.TTM_PL_FLAG_SYSTEM ≠ 0
              · rw [if_pos hsys] at h0
                simp at h0
              · rw [if_neg hsys] at h0 ⊢
                have m2 := hms s1 b { mm1 with proposed_flags := K.TTM_PL_FLAG_SYSTEM } i nw
                generalize ms s1 b { mm1 with proposed_flags := K.TTM_PL_FLAG_SYSTEM } i nw
                  = r2 at m2 h0 ⊢
                obtain ⟨o2, mm2, s2⟩ := r2
                cases o2 with
                | ret c2 =>
                  by_cases hc2 : c2 = 0
                  · subst hc2
                    simp only at h0 m2 ⊢
                    refine tail s2 mm2 ?_ _ rfl h0
                    intro e
                    have m3 := m2 trivial
                    rw [e] at m3
                    exact m3 (not_not.mp hsys)
                  · simp [hc2] at h0
                | sleeps => simp at h0
                | bug => simp at h0
                | fuel => simp at h0
            · rw [if_neg hc1] at h0 ⊢
              by_cases hc2 : c1 = 0
              · subst hc2
                simp only at h0 m1 ⊢
                refine tail s1 mm1 ?_ _ rfl h0
                intro e
                have m3 := m1 trivial
                rw [e] at m3
                exact m3 hb1
              · simp [hc2] at h0
          | sleeps => simp at h0
          | bug => simp at h0
          | fuel => simp at h0
  | sleeps => simp at h0
  | bug => simp at h0
  | fuel => simp at h0

/-- C23.  Whenever `ttm_bo_evict` returns 0 for a buffer that was placed in
`mem_type`, the buffer is afterwards placed in another memory type (the one
the space search chose, whose type bit is in the proposed flags, which do
not have the bit of `mem_type`) and carries `TTM_BO_PRIV_FLAG_EVICTED`.
Every type that `ttm_bo_mt_compatible` accepts has its type bit in the
proposed flags. -/
theorem evict_leaves_memory_type (K : ttm_consts) (x : collaborators W) (fuel : Nat)
    (s : ttm_bo_device W) (b mem_type : Nat) (interruptible no_wait : Bool)
    (hplaced : (s.bo b).mem.mem_type = mem_type)
    (hret : (ttm_bo_evict K x fuel s b mem_type interruptible no_wait).1 = outcome.ret 0) :
    ((ttm_bo_evict K x fuel s b mem_type interruptible no_wait).2.bo b).mem.mem_type
      ≠ mem_type ∧
    ((ttm_bo_evict K x fuel s b mem_type interruptible no_wait).2.bo b).priv_flags
      &&& K.TTM_BO_PRIV_FLAG_EVICTED = K.TTM_BO_PRIV_FLAG_EVICTED ∧
    (∀ (man : ttm_mem_type_manager) (type_user : Bool) (u flags : Nat),
      ttm_bo_mt_compatible K man type_user u flags ≠ none →
      ttm_bo_type_flags u &&& flags ≠ 0) := by
  refine ⟨?_, ?_, fun man type_user u flags h => compatible_type_bit K man type_user u flags h⟩
  all_goals
    cases fuel with
    | zero => simp [ttm_bo_evict] at hret
    | succ n =>
      unfold ttm_bo_evict at hret ⊢
      first
      | exact (evict_with_leaves_type K x _
          (fun s1 b1 mem i nw h => mem_space_with_type K x _ (n + 1) s1 b1 mem i nw h)
          s b mem_type interruptible no_wait hplaced hret).1
      | exact (evict_with_leaves_type K x _
          (fun s1 b1 mem i nw h => mem_space_with_type K x _ (n + 1) s1 b1 mem i nw h)
          s b mem_type interruptible no_wait hplaced hret).2

/-- C23, witness: the reserved buffer 0 of the aperture, still rendered
from, is evicted; the wait for its sync object succeeds, the call returns 0,
and the buffer is in system memory with the evicted mark. -/
theorem evict_leaves_memory_type_witness :
    (drawn_from_held.bo 0).mem.mem_type = 1 ∧
    (ttm_bo_evict consts0 two_slots 2 drawn_from_held 0 1 true false).1 = outcome.ret 0 ∧
    ((ttm_bo_evict consts0 two_slots 2 drawn_from_held 0 1 true false).2.bo 0).mem.mem_type
      ≠ 1 ∧
    ((ttm_bo_evict consts0 two_slots 2 drawn_from_held 0 1 true false).2.bo 0).priv_flags
      &&& consts0.TTM_BO_PRIV_FLAG_EVICTED = consts0.TTM_BO_PRIV_FLAG_EVICTED :=
  ⟨by decide, by decide,
    (evict_leaves_memory_type consts0 two_slots 2 drawn_from_held 0 1 true false
      (by decide) (by decide)).1,
    (evict_leaves_memory_type consts0 two_slots 2 drawn_from_held 0 1 true false
      (by decide) (by decide)).2.1⟩

/-! ### Swapping out the head of the swap list -/

theorem swapout_move_spec (K : ttm_consts) (x : collaborators W) (s : ttm_bo_device W)
    (b : Nat) :
    touches b s (swapout_move K x s b).2 ∧
    same_refs (s.bo b) ((swapout_move K x s b).2.bo b) ∧
    ((swapout_move K x s b).1 = 0 →
      ((swapout_move K x s b).2.bo b).mem.flags &&&
          (K.TTM_PL_FLAG_CACHED ||| K.TTM_PL_FLAG_SYSTEM)
        = K.TTM_PL_FLAG_CACHED ||| K.TTM_PL_FLAG_SYSTEM ∧
      (((s.bo b).mem.flags &&& (K.TTM_PL_FLAG_CACHED ||| K.TTM_PL_FLAG_SYSTEM)
          = K.TTM_PL_FLAG_CACHED ||| K.TTM_PL_FLAG_SYSTEM →
          (s.bo b).mem.mem_type = K.TTM_PL_SYSTEM) →
        ((swapout_move K x s b).2.bo b).mem.mem_type = K.TTM_PL_SYSTEM)) := by
  unfold swapout_move
  simp only
  split
  · rename_i hf
    have hc := handle_move_mem_contract K x s b
      { (s.bo b).mem with
        mm_node := none,
        proposed_flags := K.TTM_PL_FLAG_SYSTEM ||| K.TTM_PL_FLAG_CACHED,
        flags := K.TTM_PL_FLAG_SYSTEM ||| K.TTM_PL_FLAG_CACHED,
        mem_type := K.TTM_PL_SYSTEM } true false false
    have hr := handle_move_mem_refs K x s b
      { (s.bo b).mem with
        mm_node := none,
        proposed_flags := K.TTM_PL_FLAG_SYSTEM ||| K.TTM_PL_FLAG_CACHED,
        flags := K.TTM_PL_FLAG_SYSTEM ||| K.TTM_PL_FLAG_CACHED,
        mem_type := K.TTM_PL_SYSTEM } true false false
    refine ⟨hc.1, hr, fun h0 => ?_⟩
    have hm := (hc.2.2 h0).1
    rw [hm]
    simp only
    refine ⟨?_, fun _ => trivial⟩
    rw [Nat.lor_comm K.TTM_PL_FLAG_SYSTEM, Nat.and_self]
  · rename_i hf
    refine ⟨touches_refl b s, same_refs_refl _, fun _ => ⟨not_not.mp hf, fun h => ?_⟩⟩
    exact h (not_not.mp hf)

theorem swapout_reserved_spec (K : ttm_consts) (x : collaborators W) (s : ttm_bo_device W)
    (b : Nat) (s3 : ttm_bo_device W)
    (hput : list_kref_put_bug (ttm_bo_del_from_lru s b).1 (ttm_bo_del_from_lru s b).2 b
      = (outcome.ret 0, s3))
    (hlk : (s3.bo b).list_kref ≠ 1) (hl : on_lru s3 b = false) (hs : on_swap s3 b = false)
    (hret : (swapout_reserved K x s b).1 = outcome.ret 0) :
    ((swapout_reserved K x s b).2.bo b).mem.flags &&&
        (K.TTM_PL_FLAG_CACHED ||| K.TTM_PL_FLAG_SYSTEM)
      = K.TTM_PL_FLAG_CACHED ||| K.TTM_PL_FLAG_SYSTEM ∧
    (((s3.bo b).mem.flags &&& (K.TTM_PL_FLAG_CACHED ||| K.TTM_PL_FLAG_SYSTEM)
        = K.TTM_PL_FLAG_CACHED ||| K.TTM_PL_FLAG_SYSTEM →
        (s3.bo b).mem.mem_type = K.TTM_PL_SYSTEM) →
      ((swapout_reserved K x s b).2.bo b).mem.mem_type = K.TTM_PL_SYSTEM) ∧
    ((swapout_reserved K x s b).2.bo b).reserved = 0 ∧
    on_lru (swapout_reserved K x s b).2 b = false ∧
    on_swap (swapout_reserved K x s b).2 b = false ∧
    ((swapout_reserved K x s b).2.bo b).list_kref = (s3.bo b).list_kref - 1 ∧
    ((swapout_reserved K x s b).2.bo b).kref = (s3.bo b).kref ∧
    ((swapout_reserved K x s b).2.bo b).freed = (s3.bo b).freed ∧
    (∀ c, c ≠ b → (swapout_reserved K x s b).2.bo c = s3.bo c) := by
  unfold swapout_reserved at hret ⊢
  simp only [hput] at hret ⊢
  have w1 := wait_touches K x s3 b false false false
  have w2 := wait_counts K x s3 b false false false
  generalize ttm_bo_wait K x s3 b false false false = w at w1 w2 hret ⊢
  obtain ⟨wo, ws⟩ := w
  cases wo with
  | ret code =>
    simp only at hret w1 w2 ⊢
    have hm : ∀ m : Int × ttm_bo_device W, (swapout_out x (swapout_pages x m b) b).1
        = outcome.ret 0 → m.1 = 0 := by
      intro m h
      unfold swapout_out at h
      split at h
      · simp at h
      · simp only [outcome.ret.injEq] at h
        unfold swapout_pages at h
        by_contra hne
        rw [if_pos hne] at h
        exact hne h
    have hcode := hm _ hret
    by_cases hc : code ≠ 0
    · rw [if_pos hc] at hcode
      exact absurd hcode hc
    · rw [if_neg hc] at hret hcode ⊢
      obtain ⟨m1, m2, m3⟩ := swapout_move_spec K x ws b
      generalize swapout_move K x ws b = m at m1 m2 m3 hret hcode ⊢
      obtain ⟨mc, ms⟩ := m
      simp only at m1 m2 m3 hret hcode ⊢
      subst hcode
      obtain ⟨m3a, m3b⟩ := m3 rfl
      unfold swapout_pages at hret ⊢
      simp only [ne_eq, not_true_eq_false, if_false] at hret ⊢
      have u1 := unmap_virtual_touches x ms b
      generalize ttm_bo_unmap_virtual x ms = us at u1 hret ⊢
      generalize x.ttm_tt_swapout us.ext (us.bo b).ttm = r at hret ⊢
      have hbo : us.bo = ms.bo := u1.2.2.2
      have hlist : same_lists s3 (set_ext us r.2) :=
        same_lists_trans (same_lists_trans (same_lists_trans w1.1.1 m1.1) u1.1.1)
          (same_lists_set_ext us r.2)
      have hlkm : (us.bo b).list_kref = (s3.bo b).list_kref := by
        rw [hbo, m2.1, w2.2.2.2.2.1]
      unfold swapout_out at hret ⊢
      simp only [set_ext_bo] at hret ⊢
      rw [put_release_dec x _ b (by simp only [set_bo_bo_self]; rw [hlkm]; exact hlk)]
        at hret ⊢
      simp only [set_bo_bo_self, set_bo_set_bo, on_lru_set_bo, on_swap_set_bo]
      refine ⟨?_, ?_, trivial, ?_, ?_, ?_, ?_, ?_, ?_⟩
      · rw [hbo]
        exact m3a
      · intro hf
        rw [hbo]
        apply m3b
        rw [w1.2.2.1]
        exact hf
      · rw [same_lists_on_lru hlist b]
        exact hl
      · have : on_swap (set_ext us r.2) b = on_swap s3 b := by
          simp only [on_swap, hlist.2]
        rw [this]
        exact hs
      · rw [hlkm]
      · rw [hbo, m2.2.1, w2.2.2.2.2.2.1]
      · rw [hbo, m2.2.2.2.1, w2.2.2.2.2.2.2.2.1]
      · intro c hc
        rw [set_bo_bo_other _ _ _ _ hc, set_ext_bo, hbo, m1.2.1 c hc, w1.1.2.1 c hc]
  | sleeps => simp at hret
  | bug => simp at hret
  | fuel => simp at hret

/-- C26.  `ttm_bo_swapout` returns `-EBUSY` and leaves the state as it is
when the swap list is empty.  Otherwise it works on the head `b` of the swap
list.  Let `b` hold a list reference beyond those of the lists it is on.
When the call returns 0, the placement flags of `b` have the system and the
cached bit, `b` is in system memory (provided its placement record was
consistent in that a buffer flagged system and cached was in system memory),
it is unreserved, on no LRU and not on the swap list, and it is still
allocated: its list reference count has dropped by the number of lists it
was on, its strong count and its freed mark are as before.  No other buffer
has changed. -/
theorem swapout_head_to_system (K : ttm_consts) (x : collaborators W) (s : ttm_bo_device W) :
    (s.swap_lru = [] → ttm_bo_swapout K x s = (outcome.ret (-EBUSY), s)) ∧
    (∀ b rest, s.swap_lru = b :: rest →
      ((ttm_bo_del_from_lru s b).1 : Int) < (s.bo b).list_kref →
      (ttm_bo_swapout K x s).1 = outcome.ret 0 →
      ((ttm_bo_swapout K x s).2.bo b).mem.flags &&&
          (K.TTM_PL_FLAG_CACHED ||| K.TTM_PL_FLAG_SYSTEM)
        = K.TTM_PL_FLAG_CACHED ||| K.TTM_PL_FLAG_SYSTEM ∧
      (((s.bo b).mem.flags &&& (K.TTM_PL_FLAG_CACHED ||| K.TTM_PL_FLAG_SYSTEM)
          = K.TTM_PL_FLAG_CACHED ||| K.TTM_PL_FLAG_SYSTEM →
          (s.bo b).mem.mem_type = K.TTM_PL_SYSTEM) →
        ((ttm_bo_swapout K x s).2.bo b).mem.mem_type = K.TTM_PL_SYSTEM) ∧
      ((ttm_bo_swapout K x s).2.bo b).reserved = 0 ∧
      on_lru (ttm_bo_swapout K x s).2 b = false ∧
      on_swap (ttm_bo_swapout K x s).2 b = false ∧
      ((ttm_bo_swapout K x s).2.bo b).list_kref
        = (s.bo b).list_kref - (ttm_bo_del_from_lru s b).1 ∧
      ((ttm_bo_swapout K x s).2.bo b).kref = (s.bo b).kref ∧
      ((ttm_bo_swapout K x s).2.bo b).freed = (s.bo b).freed ∧
      (∀ c, c ≠ b → (ttm_bo_swapout K x s).2.bo c = s.bo c)) := by
  refine ⟨fun h => ?_, fun b rest hswap hcount hret => ?_⟩
  · unfold ttm_bo_swapout
    rw [h]
  · unfold ttm_bo_swapout at hret ⊢
    rw [hswap] at hret ⊢
    simp only at hret ⊢
    by_cases hres : (s.bo b).reserved = 0
    · obtain ⟨a1, s3, a2, a3, a4, _, _, _, _, a5, a6⟩ :=
        acquire_exact x s b false true hres (le_of_lt hcount)
      have hne : outcome.ret 0 ≠ outcome.ret (-EBUSY) := by simp [EBUSY]
      rw [a1] at hret ⊢
      rw [if_neg hne, if_neg (fun h => h rfl)] at hret ⊢
      have hlk : (s3.bo b).list_kref ≠ 1 := by
        rw [a3]
        simp only
        omega
      obtain ⟨r1, r2, r3, r4, r5, r6, r7, r8, r9⟩ :=
        swapout_reserved_spec K x _ b s3 a2 hlk a5 a6 hret
      refine ⟨r1, ?_, r3, r4, r5, ?_, ?_, ?_, ?_⟩
      · intro hf
        apply r2
        rw [a3]
        exact hf
      · rw [r6, a3]
        simp only
        omega
      · rw [r7, a3]
      · rw [r8, a3]
      · intro c hc
        rw [r9 c hc, a4 c hc]
    · exfalso
      have hres1 : ((list_kref_get s b).bo b).reserved ≠ 0 := by
        simpa [list_kref_get] using hres
      rw [reserve_locked_collision x _ b false true false 0 hres1] at hret
      simp only [Bool.false_and, Bool.false_eq_true, if_false, if_true] at hret
      split at hret
      · simp at hret
      · rename_i hn
        exact hn 0 hret

/-- C26, witness: buffer 0 of `free_listed` is the head of the swap list, is
on the LRU of system memory too and has three list references.  The call
returns 0 and leaves it in system memory, unreserved, on no list, with one
list reference and not freed. -/
theorem swapout_head_to_system_witness :
    free_listed.swap_lru = [0] ∧
    (ttm_bo_swapout consts0 quiet free_listed).1 = outcome.ret 0 ∧
    ((ttm_bo_swapout consts0 quiet free_listed).2.bo 0).mem.mem_type = 0 ∧
    ((ttm_bo_swapout consts0 quiet free_listed).2.bo 0).reserved = 0 ∧
    on_lru (ttm_bo_swapout consts0 quiet free_listed).2 0 = false ∧
    on_swap (ttm_bo_swapout consts0 quiet free_listed).2 0 = false ∧
    ((ttm_bo_swapout consts0 quiet free_listed).2.bo 0).list_kref = 1 ∧
    ((ttm_bo_swapout consts0 quiet free_listed).2.bo 0).freed = false :=
  ⟨rfl, by decide,
    ((swapout_head_to_system consts0 quiet free_listed).2 0 [] rfl (by decide)
      (by decide)).2.1 (fun _ => rfl),
    ((swapout_head_to_system consts0 quiet free_listed).2 0 [] rfl (by decide)
      (by decide)).2.2.1,
    ((swapout_head_to_system consts0 quiet free_listed).2 0 [] rfl (by decide)
      (by decide)).2.2.2.1,
    ((swapout_head_to_system consts0 quiet free_listed).2 0 [] rfl (by decide)
      (by decide)).2.2.2.2.1,
    ((swapout_head_to_system consts0 quiet free_listed).2 0 [] rfl (by decide)
      (by decide)).2.2.2.2.2.1,
    ((swapout_head_to_system consts0 quiet free_listed).2 0 [] rfl (by decide)
      (by decide)).2.2.2.2.2.2.2.1⟩

/-! ### Reserved buffers are left alone by the eviction engine -/

theorem apart_reserved {o o1 : ttm_buffer_object}
    (h : apart_from_list_kref o1 = apart_from_list_kref o) : o1.reserved = o.reserved :=
  congrArg (fun a => a.reserved) h

theorem held_fixed_refl (e : Nat → Prop) (s : ttm_bo_device W) : held_fixed e s s :=
  fun _ _ _ => rfl

theorem held_fixed_trans {e : Nat → Prop} {s s1 s2 : ttm_bo_device W}
    (h1 : held_fixed e s s1) (h2 : held_fixed e s1 s2) : held_fixed e s s2 := by
  intro c hc hr
  have a := h1 c hc hr
  exact (h2 c hc (by rw [apart_reserved a]; exact hr)).trans a

theorem held_fixed_mono {e f : Nat → Prop} {s s1 : ttm_bo_device W}
    (h : held_fixed e s s1) (hef : ∀ b, e b → f b) : held_fixed f s s1 :=
  fun c hc hr => h c (fun h0 => hc (hef c h0)) hr

theorem held_fixed_of_others {e : Nat → Prop} {b : Nat} {s s1 : ttm_bo_device W}
    (h : ∀ c, c ≠ b → s1.bo c = s.bo c) (hb : e b ∨ (s.bo b).reserved = 0) :
    held_fixed e s s1 := by
  intro c hc hr
  have hcb : c ≠ b := by
    rintro rfl
    rcases hb with hb | hb
    · exact hc hb
    · exact hr hb
  rw [h c hcb]

theorem held_fixed_of_bo_eq {e : Nat → Prop} {s s1 : ttm_bo_device W} (h : s1.bo = s.bo) :
    held_fixed e s s1 := by
  intro c _ _
  rw [h]

theorem held_fixed_close {b : Nat} {s s1 s2 : ttm_bo_device W}
    (h1 : held_fixed (fun _ => False) s s1) (h2 : held_fixed (fun c => c = b) s1 s2)
    (hres : (s.bo b).reserved = 0) : held_fixed (fun _ => False) s s2 := by
  intro c _ hr
  have hcb : c ≠ b := by
    rintro rfl
    exact hr hres
  have a := h1 c (fun h => h) hr
  exact (h2 c hcb (by rw [apart_reserved a]; exact hr)).trans a

theorem acquire_others (x : collaborators W) (s : ttm_bo_device W) (b : Nat)
    (i nw us : Bool) (q : Nat) (c : Nat) (hc : c ≠ b) :
    (list_kref_put_bug (ttm_bo_del_from_lru (ttm_bo_reserve_locked x s b i nw us q).2 b).1
      (ttm_bo_del_from_lru (ttm_bo_reserve_locked x s b i nw us q).2 b).2 b).2.bo c
      = s.bo c := by
  have rbo : (ttm_bo_reserve_locked x s b i nw us q).2.bo c = s.bo c := by
    by_cases hres : (s.bo b).reserved = 0
    · cases us <;> simp [ttm_bo_reserve_locked, hres, set_bo_bo_other _ _ _ _ hc]
    · rw [reserve_locked_collision x s b i nw us q hres]
  rw [(list_kref_put_bug_touches _ _ b).1.2.1 c hc, (del_from_lru_spec _ b).2.2.2.1, rbo]

theorem force_space_evict_loop_fixed (K : ttm_consts) (x : collaborators W) (ev : evict_fn W)
    (hev : evict_fixed ev) (np pa t : Nat) (i nw : Bool) (n : Nat) (s : ttm_bo_device W) :
    held_fixed (fun _ => False) s (force_space_evict_loop K x ev np pa t i nw n s).2.2 := by
  induction n generalizing s with
  | zero => exact held_fixed_refl _ s
  | succ n ih =>
    unfold force_space_evict_loop
    split
    · exact held_fixed_refl _ s
    · split
      · exact held_fixed_refl _ s
      · rename_i entry rest hlru
        obtain ⟨g1, g2⟩ := list_kref_get_touches s entry
        by_cases hres : (s.bo entry).reserved = 0
        · have a1 := (reserve_locked_free x (list_kref_get s entry) entry i nw false 0
            (by rw [g2.1]; exact hres)).1
          have a2 : held_fixed (fun _ => False) s
              (list_kref_put_bug
                (ttm_bo_del_from_lru
                  (ttm_bo_reserve_locked x (list_kref_get s entry) entry i nw false 0).2 entry).1
                (ttm_bo_del_from_lru
                  (ttm_bo_reserve_locked x (list_kref_get s entry) entry i nw false 0).2 entry).2
                entry).2 :=
            held_fixed_of_others (b := entry)
              (fun c hc => by
                rw [acquire_others x _ entry i nw false 0 c hc]
                exact g1.2.1 c hc)
              (Or.inr hres)
          simp only [a1, ne_eq, not_true_eq_false, if_false]
          generalize (list_kref_put_bug
            (ttm_bo_del_from_lru
              (ttm_bo_reserve_locked x (list_kref_get s entry) entry i nw false 0).2 entry).1
            (ttm_bo_del_from_lru
              (ttm_bo_reserve_locked x (list_kref_get s entry) entry i nw false 0).2 entry).2
            entry) = p at a2 ⊢
          split
          · rename_i c0 s3
            simp only at a2
            have e1 := hev s3 entry t i nw
            have se := held_fixed_close a2 e1 hres
            split
            · rename_i code hcode
              split
              · exact se
              · rename_i s4 hu
                have u1 : held_fixed (fun c => c = entry) (ev s3 entry t i nw).2 s4 :=
                  held_fixed_of_others (unreserve_spec K _ s4 entry hu).2.2.2.2.1 (Or.inl rfl)
                have su := held_fixed_close a2 (held_fixed_trans e1 u1) hres
                split
                · exact held_fixed_close a2
                    (held_fixed_trans (held_fixed_trans e1 u1)
                      (held_fixed_of_others (list_kref_dec_touches s4 entry).1.2.1 (Or.inl rfl)))
                    hres
                · rename_i s5 hr
                  obtain ⟨q1, _⟩ := list_kref_put_release_touches x s4 s5 entry hr
                  have sq := held_fixed_close a2
                    (held_fixed_trans (held_fixed_trans e1 u1)
                      (held_fixed_of_others q1.2.1 (Or.inl rfl))) hres
                  split
                  · exact sq
                  · exact held_fixed_trans sq (ih s5)
            · exact se
          · exact a2
        · have hc := reserve_locked_collision x (list_kref_get s entry) entry i nw false 0
            (by rw [g2.1]; exact hres)
          have hne : (ttm_bo_reserve_locked x (list_kref_get s entry) entry i nw false 0).1
              ≠ outcome.ret 0 := by
            rw [hc]
            simp only
            split_ifs <;> simp [EAGAIN, EBUSY, ERESTART]
          simp only [hne, ne_eq, not_false_eq_true, if_true]
          rw [hc]
          intro c _ _
          by_cases hcb : c = entry
          · subst hcb
            simp [list_kref_get, apart_from_list_kref]
          · rw [g1.2.1 c hcb]

theorem force_space_with_fixed (K : ttm_consts) (x : collaborators W) (ev : evict_fn W)
    (hev : evict_fixed ev) (t : Nat) (i nw : Bool) (n : Nat) (s : ttm_bo_device W)
    (mem : ttm_mem_reg) :
    held_fixed (fun _ => False) s (ttm_bo_mem_force_space_with K x ev t i nw n s mem).2.2 := by
  induction n generalizing s with
  | zero => exact held_fixed_refl _ s
  | succ n ih =>
    unfold ttm_bo_mem_force_space_with
    simp only
    have h1 : held_fixed (fun _ => False) s (set_ext s (x.drm_mm_pre_get s.ext).2) :=
      held_fixed_of_bo_eq rfl
    split
    · exact h1
    · have h2 := held_fixed_trans h1 (force_space_evict_loop_fixed K x ev hev mem.num_pages
        mem.page_alignment t i nw (n + 1) (set_ext s (x.drm_mm_pre_get s.ext).2))
      generalize force_space_evict_loop K x ev mem.num_pages mem.page_alignment t i nw (n + 1)
        (set_ext s (x.drm_mm_pre_get s.ext).2) = l at h2 ⊢
      split
      · exact h2
      · split
        · exact h2
        · have h3 : held_fixed (fun _ => False) s
              (set_ext l.2.2 (x.drm_mm_get_block_atomic l.2.2.ext).2) :=
            held_fixed_trans h2 (held_fixed_of_bo_eq rfl)
          split
          · exact held_fixed_trans h3 (held_fixed_of_bo_eq rfl)
          · exact held_fixed_trans h3 (ih _)

theorem get_block_bo (x : collaborators W) (t np pa n : Nat) (s : ttm_bo_device W) :
    (mem_space_get_block x t np pa n s).2.2.bo = s.bo := by
  induction n generalizing s with
  | zero => rfl
  | succ n ih =>
    unfold mem_space_get_block
    simp only
    split
    · rfl
    · split
      · rfl
      · split
        · rfl
        · rw [ih]
          rfl

theorem first_pass_bo (K : ttm_consts) (x : collaborators W) (fuel : Nat) (tu : Bool)
    (mem : ttm_mem_reg) (ps : List Nat) (v : space_vars) (s : ttm_bo_device W) :
    (mem_space_first_pass K x fuel tu mem ps v s).2.2.bo = s.bo := by
  induction ps generalizing v s with
  | nil => rfl
  | cons p ps ih =>
    unfold mem_space_first_pass
    split
    · exact ih _ _
    · simp only
      split
      · rfl
      · split
        · have h1 := get_block_bo x p mem.num_pages mem.page_alignment fuel s
          split
          · exact h1
          · split
            · exact h1
            · rw [ih, h1]
        · split
          · rfl
          · exact ih _ _

theorem busy_pass_fixed (K : ttm_consts) (x : collaborators W) (ev : evict_fn W)
    (hev : evict_fixed ev) (fuel : Nat) (tu i nw : Bool) (ps : List Nat) (cf : Nat)
    (he : Bool) (mem : ttm_mem_reg) (s : ttm_bo_device W) :
    held_fixed (fun _ => False) s
      (mem_space_busy_pass K x ev fuel tu i nw ps cf he mem s).2.2 := by
  induction ps generalizing cf he mem s with
  | nil => exact held_fixed_refl _ s
  | cons p ps ih =>
    unfold mem_space_busy_pass
    split
    · exact ih _ _ _ _
    · split
      · exact ih _ _ _ _
      · have h1 := force_space_with_fixed K x ev hev p i nw fuel s mem
        simp only
        split
        · split
          · exact h1
          · exact held_fixed_trans h1 (ih _ _ _ _)
        · exact h1

theorem mem_space_with_fixed (K : ttm_consts) (x : collaborators W) (ev : evict_fn W)
    (hev : evict_fixed ev) (fuel : Nat) : mem_space_fixed (ttm_bo_mem_space_with K x ev fuel) := by
  intro s b mem i nw
  unfold ttm_bo_mem_space_with
  simp only
  have h1 : held_fixed (fun _ => False) s
      (mem_space_first_pass K x fuel (decide ((s.bo b).type = ttm_bo_type.ttm_bo_type_user))
        { mem with mm_node := none } x.mem_type_prio { mem_type := K.TTM_PL_SYSTEM } s).2.2 :=
    held_fixed_of_bo_eq (first_pass_bo K x fuel _ _ _ _ s)
  split
  · exact h1
  · split
    · exact h1
    · split
      · exact h1
      · exact held_fixed_trans h1 (busy_pass_fixed K x ev hev fuel _ i nw _ _ _ _ _)

theorem evict_with_fixed (K : ttm_consts) (x : collaborators W) (ms : mem_space_fn W)
    (hms : mem_space_fixed ms) : evict_fixed (ttm_bo_evict_with K x ms) := by
  intro s b t i nw
  unfold ttm_bo_evict_with
  simp only
  split
  · exact held_fixed_refl _ s
  · have hw : held_fixed (fun c => c = b) s (ttm_bo_wait K x s b false i nw).2 :=
      held_fixed_of_others (wait_touches K x s b false i nw).1.2.1 (Or.inl rfl)
    generalize ttm_bo_wait K x s b false i nw = w at hw ⊢
    split
    · split
      · exact hw
      · split
        · exact hw
        · split
          · exact hw
          · have m1 := hms w.2 b { (w.2.bo b).mem with
              mm_node := none, proposed_flags := x.evict_flags (w.2.bo b) } i nw
            generalize ms w.2 b { (w.2.bo b).mem with
              mm_node := none, proposed_flags := x.evict_flags (w.2.bo b) } i nw = r1 at m1 ⊢
            have hm1 : held_fixed (fun c => c = b) s r1.2.2 :=
              held_fixed_trans hw (held_fixed_mono m1 (fun _ h => absurd h id))
            generalize hr2 : (match r1.1 with
              | outcome.ret c1 =>
                if c1 ≠ 0 ∧ c1 ≠ -ERESTART then
                  if ttm_bo_type_flags t &&& K.TTM_PL_FLAG_SYSTEM ≠ 0 then
                    (outcome.bug, r1.2.1, r1.2.2)
                  else
                    ms r1.2.2 b
                      { mm_node := r1.2.1.mm_node, size := r1.2.1.size,
                        num_pages := r1.2.1.num_pages,
                        page_alignment := r1.2.1.page_alignment,
                        mem_type := r1.2.1.mem_type, flags := r1.2.1.flags,
                        proposed_flags := K.TTM_PL_FLAG_SYSTEM } i nw
                else r1
              | _ => r1) = r2
            have hm2 : held_fixed (fun c => c = b) s r2.2.2 := by
              subst hr2
              split
              · split
                · split
                  · exact hm1
                  · have m2 := hms r1.2.2 b
                      { r1.2.1 with proposed_flags := K.TTM_PL_FLAG_SYSTEM } i nw
                    exact held_fixed_trans hm1 (held_fixed_mono m2 (fun _ h => absurd h id))
                · exact hm1
              · exact hm1
            split
            · have hc := (handle_move_mem_contract K x r2.2.2 b r2.2.1 true i nw).1
              have hh : held_fixed (fun c => c = b) s
                  (ttm_bo_handle_move_mem K x r2.2.2 b r2.2.1 true i nw).2.2 :=
                held_fixed_trans hm2 (held_fixed_of_others hc.2.1 (Or.inl rfl))
              generalize ttm_bo_handle_move_mem K x r2.2.2 b r2.2.1 true i nw = h at hh ⊢
              split
              · exact hh
              · have hp : ∀ s5 : ttm_bo_device W, s5.bo = h.2.2.bo →
                    held_fixed (fun c => c = b) s (set_bo s5 b { s5.bo b with
                      priv_flags := ttm_flag_masked (s5.bo b).priv_flags
                        K.TTM_BO_PRIV_FLAG_EVICTED K.TTM_BO_PRIV_FLAG_EVICTED }) := by
                  intro s5 h5
                  exact held_fixed_trans hh (held_fixed_of_others (b := b)
                    (fun c hc => by rw [set_bo_bo_other _ _ _ _ hc, h5]) (Or.inl rfl))
                split
                · exact hp _ rfl
                · exact hp _ rfl
            · exact hm2
    · exact hw

theorem evict_is_fixed (K : ttm_consts) (x : collaborators W) (n : Nat) :
    evict_fixed (ttm_bo_evict K x n) := by
  induction n with
  | zero =>
    intro s b t i nw
    exact held_fixed_refl _ s
  | succ n ih =>
    unfold ttm_bo_evict
    exact evict_with_fixed K x _ (mem_space_with_fixed K x _ ih (n + 1))

theorem mem_space_is_fixed (K : ttm_consts) (x : collaborators W) (fuel : Nat) :
    mem_space_fixed (ttm_bo_mem_space K x fuel) :=
  mem_space_with_fixed K x _ (evict_is_fixed K x fuel) fuel

/-! ### The evicted mark and the driver's caches -/

theorem mover_commit_priv (ret : Int) (s : ttm_bo_device W) (b : Nat) (mem : ttm_mem_reg) :
    ((mover_commit ret s b mem).2.2.bo b).priv_flags = (s.bo b).priv_flags := by
  unfold mover_commit
  split
  · rfl
  · simp only
    split <;> simp [drm_mm_put_block]

theorem move_reaches_moved (K : ttm_consts) (x : collaborators W) (s : ttm_bo_device W)
    (b : Nat) (mem : ttm_mem_reg) (evict old_fixed new_fixed : Bool) :
    (handle_move_mem_move K x s b mem evict old_fixed new_fixed).1 = 0 →
    ∃ s1, (s1.bo b).priv_flags = (s.bo b).priv_flags ∧
      (handle_move_mem_move K x s b mem evict old_fixed new_fixed).2.2
        = handle_move_mem_moved K x s1 b evict := by
  unfold handle_move_mem_move
  simp only
  generalize (if (!old_fixed && !new_fixed) = true then x.ttm_bo_move_ttm s.ext
    else if x.has_move = true then x.move s.ext else x.ttm_bo_move_memcpy s.ext) = r
  have h1 := mover_commit_priv r.1 (set_ext s r.2) b mem
  split
  · rename_i hne
    intro h
    exact absurd h hne
  · intro _
    exact ⟨_, h1, rfl⟩

theorem handle_move_mem_reaches_moved (K : ttm_consts) (x : collaborators W)
    (s : ttm_bo_device W) (b : Nat) (mem : ttm_mem_reg) (evict i nw : Bool) :
    (ttm_bo_handle_move_mem K x s b mem evict i nw).1 = 0 →
    ∃ s1, (s1.bo b).priv_flags = (s.bo b).priv_flags ∧
      (ttm_bo_handle_move_mem K x s b mem evict i nw).2.2
        = handle_move_mem_moved K x s1 b evict := by
  unfold ttm_bo_handle_move_mem
  simp only
  generalize hs1 : (if (ttm_mem_reg_is_pci K s (s.bo b).mem || ttm_mem_reg_is_pci K s mem ||
    decide (mem.flags &&& (s.bo b).mem.flags &&& K.TTM_PL_MASK_CACHING = 0)) = true
    then ttm_bo_unmap_virtual x s else s) = s1
  have p1 : s1.bo = s.bo := by
    subst hs1
    split
    · exact (unmap_virtual_bo x s).1
    · rfl
  rw [← p1]
  split
  · have ha : ((ttm_bo_add_ttm K x s1 b).2.bo b).priv_flags = (s1.bo b).priv_flags := by
      obtain ⟨w, t, h, _⟩ := add_ttm_shape K x s1 b
      rw [h]
      simp only [set_bo_bo_self]
    split
    · rename_i hne
      intro h
      exact absurd h hne
    · split
      · rename_i hne
        intro h
        exact absurd h hne
      · generalize hbd : (if mem.mem_type ≠ K.TTM_PL_SYSTEM then
            ((x.ttm_tt_bind (set_ext (ttm_bo_add_ttm K x s1 b).2
                (x.ttm_tt_set_placement_caching (ttm_bo_add_ttm K x s1 b).2.ext
                  (((ttm_bo_add_ttm K x s1 b).2.bo b).ttm.getD 0) mem.flags).2).ext
              (((set_ext (ttm_bo_add_ttm K x s1 b).2
                (x.ttm_tt_set_placement_caching (ttm_bo_add_ttm K x s1 b).2.ext
                  (((ttm_bo_add_ttm K x s1 b).2.bo b).ttm.getD 0) mem.flags).2).bo b).ttm.getD 0)).1,
              set_ext (set_ext (ttm_bo_add_ttm K x s1 b).2
                (x.ttm_tt_set_placement_caching (ttm_bo_add_ttm K x s1 b).2.ext
                  (((ttm_bo_add_ttm K x s1 b).2.bo b).ttm.getD 0) mem.flags).2)
                (x.ttm_tt_bind (set_ext (ttm_bo_add_ttm K x s1 b).2
                (x.ttm_tt_set_placement_caching (ttm_bo_add_ttm K x s1 b).2.ext
                  (((ttm_bo_add_ttm K x s1 b).2.bo b).ttm.getD 0) mem.flags).2).ext
              (((set_ext (ttm_bo_add_ttm K x s1 b).2
                (x.ttm_tt_set_placement_caching (ttm_bo_add_ttm K x s1 b).2.ext
                  (((ttm_bo_add_ttm K x s1 b).2.bo b).ttm.getD 0) mem.flags).2).bo b).ttm.getD 0)).2)
          else ((0 : Int), set_ext (ttm_bo_add_ttm K x s1 b).2
                (x.ttm_tt_set_placement_caching (ttm_bo_add_ttm K x s1 b).2.ext
                  (((ttm_bo_add_ttm K x s1 b).2.bo b).ttm.getD 0) mem.flags).2)) = bd
        have hbdbo : bd.2.bo = (ttm_bo_add_ttm K x s1 b).2.bo := by
          subst hbd
          split <;> rfl
        split
        · rename_i hne
          intro h
          exact absurd h hne
        · split
          · intro _
            refine ⟨_, ?_, rfl⟩
            simp only [set_bo_bo_self]
            rw [hbdbo, ha]
          · intro h
            obtain ⟨s2, h2, h3⟩ := move_reaches_moved K x bd.2 b mem evict _ _ h
            refine ⟨s2, ?_, h3⟩
            rw [h2, hbdbo, ha]
  · exact move_reaches_moved K x s1 b mem evict _ _

theorem moved_mark (K : ttm_consts) (x : collaborators W) (s : ttm_bo_device W) (b : Nat)
    (evict : Bool) :
    ((handle_move_mem_moved K x s b evict).bo b).priv_flags
      = ttm_flag_masked (s.bo b).priv_flags
          (if evict then K.TTM_BO_PRIV_FLAG_EVICTED else 0) K.TTM_BO_PRIV_FLAG_EVICTED ∧
    ((s.bo b).priv_flags &&& K.TTM_BO_PRIV_FLAG_EVICTED ≠ 0 →
      (handle_move_mem_moved K x s b evict).ext
        = (x.invalidate_caches s.ext (s.bo b).mem.flags).2) ∧
    ((s.bo b).priv_flags &&& K.TTM_BO_PRIV_FLAG_EVICTED = 0 →
      (handle_move_mem_moved K x s b evict).ext = s.ext) := by
  unfold handle_move_mem_moved
  simp only
  by_cases hev : (s.bo b).priv_flags &&& K.TTM_BO_PRIV_FLAG_EVICTED ≠ 0
  · simp only [if_pos hev]
    refine ⟨?_, fun _ => ?_, fun h => absurd h hev⟩
    · split <;> simp
    · split <;> rfl
  · simp only [if_neg hev]
    refine ⟨?_, fun h => absurd h hev, fun _ => ?_⟩
    · split <;> simp
    · split <;> rfl

theorem drop_sync_obj_mark (K : ttm_consts) (o : ttm_buffer_object)
    (hK : K.TTM_BO_PRIV_FLAG_EVICTED &&& u32_not K.TTM_BO_PRIV_FLAG_MOVING
      = K.TTM_BO_PRIV_FLAG_EVICTED) :
    (drop_sync_obj K o).priv_flags &&& K.TTM_BO_PRIV_FLAG_EVICTED
      = o.priv_flags &&& K.TTM_BO_PRIV_FLAG_EVICTED := by
  simp only [drop_sync_obj]
  rw [Nat.and_assoc, Nat.and_comm (u32_not K.TTM_BO_PRIV_FLAG_MOVING), hK]

theorem busy_mark (K : ttm_consts) (x : collaborators W) (s : ttm_bo_device W) (b : Nat)
    (hK : K.TTM_BO_PRIV_FLAG_EVICTED &&& u32_not K.TTM_BO_PRIV_FLAG_MOVING
      = K.TTM_BO_PRIV_FLAG_EVICTED) :
    ((ttm_bo_busy K x s b).2.bo b).priv_flags &&& K.TTM_BO_PRIV_FLAG_EVICTED
      = (s.bo b).priv_flags &&& K.TTM_BO_PRIV_FLAG_EVICTED := by
  unfold ttm_bo_busy
  split
  · split
    · simp only [set_bo_bo_self]
      exact drop_sync_obj_mark K _ hK
    · simp only
      split
      · simp only [set_bo_bo_self, set_ext_bo]
        exact drop_sync_obj_mark K _ hK
      · rfl
  · rfl

theorem wait_mark (K : ttm_consts) (x : collaborators W) (s : ttm_bo_device W) (b : Nat)
    (lazy i nw : Bool)
    (hK : K.TTM_BO_PRIV_FLAG_EVICTED &&& u32_not K.TTM_BO_PRIV_FLAG_MOVING
      = K.TTM_BO_PRIV_FLAG_EVICTED) :
    ((ttm_bo_wait K x s b lazy i nw).2.bo b).priv_flags &&& K.TTM_BO_PRIV_FLAG_EVICTED
      = (s.bo b).priv_flags &&& K.TTM_BO_PRIV_FLAG_EVICTED := by
  unfold ttm_bo_wait
  split
  · rfl
  · split
    · simp only [set_bo_bo_self]
      exact drop_sync_obj_mark K _ hK
    · split
      · rfl
      · simp only
        split
        · simp only [set_bo_bo_self, set_ext_bo]
          exact drop_sync_obj_mark K _ hK
        · rfl

theorem validate_finish_priv (K : ttm_consts) (x : collaborators W) (s : ttm_bo_device W)
    (b : Nat) :
    ((validate_finish K x s b).2.bo b).priv_flags = (s.bo b).priv_flags := by
  have ha : ((ttm_bo_add_ttm K x s b).2.bo b).priv_flags = (s.bo b).priv_flags := by
    obtain ⟨w, t, h, _⟩ := add_ttm_shape K x s b
    rw [h]
    simp only [set_bo_bo_self]
  unfold validate_finish
  simp only
  split
  · split
    · exact ha
    · simp only [set_bo_bo_self]
      exact ha
  · simp only [ne_eq, not_true_eq_false, if_false, set_bo_bo_self]

theorem move_buffer_reaches_moved (K : ttm_consts) (x : collaborators W) (fuel : Nat)
    (s : ttm_bo_device W) (b : Nat) (flags : Nat) (i nw : Bool)
    (hK : K.TTM_BO_PRIV_FLAG_EVICTED &&& u32_not K.TTM_BO_PRIV_FLAG_MOVING
      = K.TTM_BO_PRIV_FLAG_EVICTED)
    (hret : (ttm_bo_move_buffer K x fuel s b flags i nw).1 = outcome.ret 0) :
    ∃ s1, (s1.bo b).priv_flags &&& K.TTM_BO_PRIV_FLAG_EVICTED
        = (s.bo b).priv_flags &&& K.TTM_BO_PRIV_FLAG_EVICTED ∧
      (ttm_bo_move_buffer K x fuel s b flags i nw).2 = handle_move_mem_moved K x s1 b false := by
  have hsp : ((move_buffer_space K x fuel s b flags i nw).2.2.bo b).priv_flags
      &&& K.TTM_BO_PRIV_FLAG_EVICTED = (s.bo b).priv_flags &&& K.TTM_BO_PRIV_FLAG_EVICTED := by
    unfold move_buffer_space
    simp only
    split
    · rfl
    · rename_i hres
      have hb := busy_touches K x s b
      have hbm := busy_mark K x s b hK
      generalize (ttm_bo_busy K x s b).2 = s1 at hb hbm ⊢
      have hw := wait_touches K x s1 b false i nw
      have hwm := wait_mark K x s1 b false i nw hK
      generalize ttm_bo_wait K x s1 b false i nw = w at hw hwm ⊢
      split
      · rw [hwm, hbm]
      · have hf := mem_space_is_fixed K x fuel w.2 b
          { num_pages := (s.bo b).num_pages,
            size := ulong K.machine ((s.bo b).num_pages <<< K.PAGE_SHIFT),
            proposed_flags := flags,
            page_alignment := (s.bo b).mem.page_alignment } i nw b (fun h => h)
          (by rw [hw.1.2.2, hb.1.2.2]; exact hres)
        have hp := congrArg (fun o => o.priv_flags) hf
        simp only [apart_from_list_kref] at hp
        rw [hp, hwm, hbm]
  unfold ttm_bo_move_buffer at hret ⊢
  generalize move_buffer_space K x fuel s b flags i nw = sp at hsp hret ⊢
  obtain ⟨o, mem, s2⟩ := sp
  unfold move_buffer_finish at hret ⊢
  cases o with
  | ret code =>
    by_cases hc : code = 0
    · subst hc
      simp only at hsp hret ⊢
      have hh := handle_move_mem_reaches_moved K x s2 b mem false i nw
      generalize ttm_bo_handle_move_mem K x s2 b mem false i nw = h at hh hret ⊢
      by_cases h0 : h.1 ≠ 0
      · rw [if_pos h0] at hret
        exfalso
        split at hret <;> simp only [outcome.ret.injEq] at hret <;> exact h0 hret
      · rw [if_neg h0]
        obtain ⟨s3, h3, h4⟩ := hh (not_not.mp h0)
        exact ⟨s3, by rw [h3, hsp], h4⟩
    · exfalso
      simp only at hret
      split at hret <;> simp only [outcome.ret.injEq] at hret <;> exact hc hret
  | sleeps => simp at hret
  | bug => simp at hret
  | fuel => simp at hret

/-- C24 (amended).  Let the reserved buffer `b` be validated, and let the
evicted bit not be the moving bit.  If `b` carries
`TTM_BO_PRIV_FLAG_EVICTED`, its placement flags are not compatible with its
proposed flags (so that the validation has to move it) and the validation
returns 0, then the mark is cleared afterwards and `invalidate_caches` has
been called for `b`: the validation has passed through the label `moved` of
`ttm_bo_handle_move_mem` in a state `s1` in which `b` still carried the mark,
and went on from the state the driver's `invalidate_caches` returned there.
If the placement flags are compatible with the proposed flags, the
validation moves nothing: it is the tail of `ttm_buffer_object_validate`,
which does not call `invalidate_caches`, and the mark is as before.  At the
label `moved`, `invalidate_caches` is not called for a buffer without the
mark. -/
theorem revalidation_by_move_clears_mark (K : ttm_consts) (x : collaborators W) (fuel : Nat)
    (s : ttm_bo_device W) (b : Nat) (interruptible no_wait : Bool)
    (hK : K.TTM_BO_PRIV_FLAG_EVICTED &&& u32_not K.TTM_BO_PRIV_FLAG_MOVING
      = K.TTM_BO_PRIV_FLAG_EVICTED)
    (hres : (s.bo b).reserved ≠ 0) :
    ((s.bo b).priv_flags &&& K.TTM_BO_PRIV_FLAG_EVICTED ≠ 0 →
      ttm_bo_mem_compat K ((stamp_proposed s b).bo b).mem = 0 →
      (ttm_buffer_object_validate K x fuel s b interruptible no_wait).1 = outcome.ret 0 →
      ((ttm_buffer_object_validate K x fuel s b interruptible no_wait).2.bo b).priv_flags
        &&& K.TTM_BO_PRIV_FLAG_EVICTED = 0 ∧
      ∃ s1, (s1.bo b).priv_flags &&& K.TTM_BO_PRIV_FLAG_EVICTED ≠ 0 ∧
        (handle_move_mem_moved K x s1 b false).ext
          = (x.invalidate_caches s1.ext (s1.bo b).mem.flags).2 ∧
        (ttm_buffer_object_validate K x fuel s b interruptible no_wait).2
          = (validate_finish K x (handle_move_mem_moved K x s1 b false) b).2) ∧
    (ttm_bo_mem_compat K ((stamp_proposed s b).bo b).mem ≠ 0 →
      ttm_buffer_object_validate K x fuel s b interruptible no_wait
        = validate_finish K x (stamp_proposed s b) b ∧
      ((ttm_buffer_object_validate K x fuel s b interruptible no_wait).2.bo b).priv_flags
        = (s.bo b).priv_flags) ∧
    (∀ (s1 : ttm_bo_device W) (c : Nat) (evict : Bool),
      (s1.bo c).priv_flags &&& K.TTM_BO_PRIV_FLAG_EVICTED = 0 →
      (handle_move_mem_moved K x s1 c evict).ext = s1.ext) := by
  refine ⟨fun hmark hmove hret => ?_, fun hcompat => ?_,
    fun s1 c evict h => (moved_mark K x s1 c evict).2.2 h⟩
  · unfold ttm_buffer_object_validate at hret ⊢
    unfold stamp_proposed at hmove
    simp only [if_neg hres, hmove, if_true] at hret ⊢
    have hm := move_buffer_reaches_moved K x fuel
      (set_bo s b { s.bo b with
        mem := { (s.bo b).mem with proposed_flags := (s.bo b).proposed_flags } }) b
      (s.bo b).proposed_flags interruptible no_wait hK
    simp only [set_bo_bo_self] at hm hret ⊢
    generalize ttm_bo_move_buffer K x fuel
      (set_bo s b { s.bo b with
        mem := { (s.bo b).mem with proposed_flags := (s.bo b).proposed_flags } }) b
      (s.bo b).proposed_flags interruptible no_wait = r at hm hret ⊢
    by_cases hr : r.1 ≠ outcome.ret 0
    · rw [if_pos hr] at hret
      exact absurd hret hr
    · rw [if_neg hr]
      obtain ⟨s1, h1, h2⟩ := hm (not_not.mp hr)
      have hmark1 : (s1.bo b).priv_flags &&& K.TTM_BO_PRIV_FLAG_EVICTED ≠ 0 := by
        rw [h1]
        exact hmark
      refine ⟨?_, s1, hmark1, (moved_mark K x s1 b false).2.1 hmark1, by rw [h2]⟩
      rw [validate_finish_priv, h2, (moved_mark K x s1 b false).1]
      exact flag_masked_clear _ _
  · unfold ttm_buffer_object_validate
    unfold stamp_proposed at hcompat ⊢
    simp only [if_neg hres, hcompat, if_false]
    refine ⟨trivial, ?_⟩
    rw [validate_finish_priv]
    simp only [set_bo_bo_self]

/-- C24, witness: an evicted buffer in system memory whose proposed flags
name the aperture alone is validated.  It is moved to the aperture, one call
of `invalidate_caches` is counted and the mark is cleared. -/
theorem revalidation_by_move_clears_mark_witness :
    ((evicted_device 262146).bo 0).priv_flags &&& consts0.TTM_BO_PRIV_FLAG_EVICTED ≠ 0 ∧
    (ttm_buffer_object_validate consts0 counting 2 (evicted_device 262146) 0 true false).1
      = outcome.ret 0 ∧
    (ttm_buffer_object_validate consts0 counting 2 (evicted_device 262146) 0 true false).2.ext
      = 1 ∧
    ((ttm_buffer_object_validate consts0 counting 2 (evicted_device 262146) 0 true
      false).2.bo 0).priv_flags &&& consts0.TTM_BO_PRIV_FLAG_EVICTED = 0 :=
  ⟨by decide, by decide, by decide,
    ((revalidation_by_move_clears_mark consts0 counting 2 (evicted_device 262146) 0 true false
      (by decide) (by decide)).1 (by decide) (by decide) (by decide)).1⟩

/-- C24, counterexample: an evicted buffer in system memory whose proposed
flags allow system memory next to the aperture is revalidated without a
move.  The validation returns 0, `invalidate_caches` has not been called
and the buffer still carries the mark. -/
theorem revalidation_in_place_keeps_mark :
    (evicted_device 65539).ext = 0 ∧
    ((evicted_device 65539).bo 0).priv_flags &&& consts0.TTM_BO_PRIV_FLAG_EVICTED ≠ 0 ∧
    (ttm_buffer_object_validate consts0 counting 2 (evicted_device 65539) 0 true false).1
      = outcome.ret 0 ∧
    (ttm_buffer_object_validate consts0 counting 2 (evicted_device 65539) 0 true false).2.ext
      = 0 ∧
    ((ttm_buffer_object_validate consts0 counting 2 (evicted_device 65539) 0 true
      false).2.bo 0).priv_flags &&& consts0.TTM_BO_PRIV_FLAG_EVICTED ≠ 0 := by
  decide

/-! ### Emptying the delayed-destroy list -/

/-- C25 (code bug): `ttm_bo_init_mm` returns 0 for a zero `p_size`.  Type 1
is in range, not system memory and not initialised, and the driver's
`init_mem_type` succeeds; the call with `p_size = 0` returns 0, not
`-EINVAL`, and leaves the type uninitialised, with the driver's settings
written to the manager.  The two other malformed calls return `-EINVAL` and
change nothing, and a well-formed call returns 0 with the type initialised,
enabled and of the size asked for. -/
theorem init_mm_zero_size_returns_zero :
    (ttm_bo_init_mm consts0 plain_driver 8 no_types 1 0 0).1 = 0 ∧
    (man_at (ttm_bo_init_mm consts0 plain_driver 8 no_types 1 0 0).2 1).has_type = false ∧
    (man_at (ttm_bo_init_mm consts0 plain_driver 8 no_types 1 0 0).2 1).use_type = false ∧
    (man_at (ttm_bo_init_mm consts0 plain_driver 8 no_types 1 0 0).2 1).available_caching
      = 458752 ∧
    (ttm_bo_init_mm consts0 plain_driver 8 no_types 8 0 16).1 = -EINVAL ∧
    (ttm_bo_init_mm consts0 plain_driver 8 no_types 8 0 16).2.man = no_types.man ∧
    (ttm_bo_init_mm consts0 plain_driver 8
      (ttm_bo_init_mm consts0 plain_driver 8 no_types 1 0 16).2 1 0 16).1 = -EINVAL ∧
    (ttm_bo_init_mm consts0 plain_driver 8
      (ttm_bo_init_mm consts0 plain_driver 8 no_types 1 0 16).2 1 0 16).2.man
      = (ttm_bo_init_mm consts0 plain_driver 8 no_types 1 0 16).2.man ∧
    (ttm_bo_init_mm consts0 plain_driver 8 no_types 1 0 16).1 = 0 ∧
    (man_at (ttm_bo_init_mm consts0 plain_driver 8 no_types 1 0 16).2 1).has_type = true ∧
    (man_at (ttm_bo_init_mm consts0 plain_driver 8 no_types 1 0 16).2 1).use_type = true ∧
    (man_at (ttm_bo_init_mm consts0 plain_driver 8 no_types 1 0 16).2 1).size = 16 := by
  decide

/-! ### Creating a buffer object -/

/-- C30 (code bug): `ttm_buffer_object_create` keeps the accounting charge
when the size rounds to zero pages.  With `size = 0` and a page-aligned
`buffer_start`, `ttm_buffer_object_init` returns `-EINVAL` before it has
initialised anything: the call returns `-EINVAL` and does not write `*p_bo`,
but the 512 bytes charged are still charged and the object is not freed.  A
call that fails later, at the placement check, goes through `out_err` and
`ttm_bo_unref`: the object is freed and the charge given back. -/
theorem create_zero_pages_keeps_charge :
    (ttm_buffer_object_create consts0 quiet granting 512 2 (device_of in_system) 0 0
      ttm_bo_type.ttm_bo_type_kernel 65537 0 0 true).1 = outcome.ret (-EINVAL) ∧
    (ttm_buffer_object_create consts0 quiet granting 512 2 (device_of in_system) 0 0
      ttm_bo_type.ttm_bo_type_kernel 65537 0 0 true).2.1 = none ∧
    (ttm_buffer_object_create consts0 quiet granting 512 2 (device_of in_system) 0 0
      ttm_bo_type.ttm_bo_type_kernel 65537 0 0 true).2.2.1 = 512 ∧
    ((ttm_buffer_object_create consts0 quiet granting 512 2 (device_of in_system) 0 0
      ttm_bo_type.ttm_bo_type_kernel 65537 0 0 true).2.2.2.bo 5).freed = false ∧
    (ttm_buffer_object_create consts0 quiet granting 512 2 (device_of in_system) 0 4096
      ttm_bo_type.ttm_bo_type_kernel 2162689 0 0 true).1 = outcome.ret (-EINVAL) ∧
    (ttm_buffer_object_create consts0 quiet granting 512 2 (device_of in_system) 0 4096
      ttm_bo_type.ttm_bo_type_kernel 2162689 0 0 true).2.1 = none ∧
    (ttm_buffer_object_create consts0 quiet granting 512 2 (device_of in_system) 0 4096
      ttm_bo_type.ttm_bo_type_kernel 2162689 0 0 true).2.2.1 = 0 ∧
    ((ttm_buffer_object_create consts0 quiet granting 512 2 (device_of in_system) 0 4096
      ttm_bo_type.ttm_bo_type_kernel 2162689 0 0 true).2.2.2.bo 5).freed = true := by
  decide

end properties

end TTM
